import Mathlib

/-!
# RK3399 SDRAM bring-up (`src/soc/rockchip/rk3399/sdram.c`)

A shallow embedding of the DRAM initialisation code of the RK3399 SoC and
theorems about it.

Conventions of the embedding.

* Machine integers are natural numbers.  Every value stored by `write32` is
  reduced modulo `2^32`; unsigned subtractions that can wrap are written
  `(a + 2^32 - b) % 2^32`.
* Memory-mapped registers are named by the type `Reg`.  The machine keeps a
  store `mem : Reg → Nat`.  A read outside a polling loop returns the stored
  value.  Inside a polling loop (`while (1)` over status registers) the
  hardware drives the registers: each iteration of such a loop consumes one
  sample `Poll` from the list `Machine.polls` and reads its registers from
  that sample.  When the samples run out the run stops with status `spin`
  (the loop is still polling).
* Every run returns the list of events it performed, oldest first
  (`Res.tr`): register reads, register writes and calls of the external
  primitives (`die`, `board_reset`, `udelay`, the clock driver).  Console
  output (`printk`) is not modelled.
* `die` and `board_reset` do not return; a run that reaches them ends with
  status `die` or `reset`.
-/

namespace RK3399

/-! ## Constants of the headers -/

/-- Modelled from the spec: the DRAM type enumeration of `soc/sdram.h`
(DDR3, LPDDR3, LPDDR4), which is not among the sources.  The persistent
register keeps the type in a three-bit field, so the values are below 8;
the numbers are those of the JEDEC-style coding used by the Rockchip
parameter files. -/
def DDR3 : Nat := 3

/-- Modelled from the spec: DRAM type enumerator LPDDR3 of `soc/sdram.h`. -/
def LPDDR3 : Nat := 6

/-- Modelled from the spec: DRAM type enumerator LPDDR4 of `soc/sdram.h`. -/
def LPDDR4 : Nat := 7

/-- Modelled from the spec: the training flag bit for CA training
(`soc/sdram.h`, a bitmask selecting the calibration phases). -/
def PI_CA_TRAINING : Nat := 1 <<< 0

/-- Modelled from the spec: the training flag bit for write leveling. -/
def PI_WRITE_LEVELING : Nat := 1 <<< 1

/-- Modelled from the spec: the training flag bit for read-gate training. -/
def PI_READ_GATE_TRAINING : Nat := 1 <<< 2

/-- Modelled from the spec: the training flag bit for read leveling. -/
def PI_READ_LEVELING : Nat := 1 <<< 3

/-- Modelled from the spec: the training flag bit for write-DQ leveling. -/
def PI_WDQ_LEVELING : Nat := 1 <<< 4

/-- Modelled from the spec: the full-training sentinel of `soc/sdram.h`. -/
def PI_FULL_TRAINING : Nat := 0xff

/-- Modelled from the spec: the start bit of the controller and PI state
machines (`START` of `soc/sdram.h`). -/
def START : Nat := 1

/-- Modelled from the spec: the controller field that is snapshotted before
bring-up and restored afterwards (`PWRUP_SREFRESH_EXIT` of `soc/sdram.h`). -/
def PWRUP_SREFRESH_EXIT : Nat := 1 <<< 16

/-- Modelled from the spec: one megahertz in hertz (`MHz` of the common
headers). -/
def MHz : Nat := 1000 * 1000

/-- Modelled from the spec: one mebibyte in bytes (`MiB` of the common
headers); capacities are counted in MiB. -/
def MiB : Nat := 1 <<< 20

/-- Modelled from the spec: number of 32-bit words of
`struct rk3399_ddr_pctl_regs` (`denali_ctl`), from `soc/sdram.h`. -/
def DENALI_CTL_WORDS : Nat := 332

/-- Modelled from the spec: number of 32-bit words of
`struct rk3399_ddr_pi_regs` (`denali_pi`), from `soc/sdram.h`. -/
def DENALI_PI_WORDS : Nat := 200

def MAX_RANKS_PER_CHANNEL : Nat := 4

def PHY_DRV_ODT_Hi_Z : Nat := 0x0
def PHY_DRV_ODT_240 : Nat := 0x1
def PHY_DRV_ODT_120 : Nat := 0x8
def PHY_DRV_ODT_80 : Nat := 0x9
def PHY_DRV_ODT_60 : Nat := 0xc
def PHY_DRV_ODT_48 : Nat := 0xd
def PHY_DRV_ODT_40 : Nat := 0xe
def PHY_DRV_ODT_34_3 : Nat := 0xf

/-- Reduction of a value to an unsigned 32-bit word. -/
def u32 (x : Nat) : Nat := x % 4294967296

/-- Complement of a 32-bit word (`~x` on a `u32`). -/
def not32 (x : Nat) : Nat := 4294967295 - u32 x

/-! ## Parameter block -/

/-- Scheduler timing bundle of one channel (`struct rk3399_msch_timings`,
each member read through its `d32` view). -/
structure rk3399_msch_timings where
  ddrtiminga0 : Nat
  ddrtimingb0 : Nat
  ddrtimingc0 : Nat
  devtodev0 : Nat
  ddrmode : Nat

/-- Geometry of one channel (`struct rk3399_sdram_channel`); the members
other than `ddrconfig` are `unsigned char` in the header. -/
structure rk3399_sdram_channel where
  rank : Nat
  col : Nat
  bk : Nat
  bw : Nat
  dbw : Nat
  row_3_4 : Nat
  cs0_row : Nat
  cs1_row : Nat
  ddrconfig : Nat
  noc_timings : rk3399_msch_timings

/-- Parameter block (`struct rk3399_sdram_params`): the channel array, the
scalar members and the three register images. -/
structure rk3399_sdram_params where
  ch : Nat → rk3399_sdram_channel
  ddr_freq : Nat
  dramtype : Nat
  num_channels : Nat
  stride : Nat
  odt : Nat
  pctl_regs : Nat → Nat
  pi_regs : Nat → Nat
  phy_regs : Nat → Nat

/-! ## The persistent register: `SYS_REG_ENC_*` and `SYS_REG_DEC_*`

The encoders are evaluated in `int` and or-ed into a `u32`; the model
reduces each one modulo `2^32` (two's complement, which is how the
compiler in use defines the left shift of a negative `int`). -/

def SYS_REG_ENC_ROW_3_4 (n ch : Nat) : Nat := u32 (n <<< (30 + ch))
def SYS_REG_DEC_ROW_3_4 (n ch : Nat) : Nat := (n >>> (30 + ch)) &&& 0x1
def SYS_REG_ENC_CHINFO (ch : Nat) : Nat := u32 (1 <<< (28 + ch))
def SYS_REG_ENC_DDRTYPE (n : Nat) : Nat := u32 (n <<< 13)
def SYS_REG_ENC_NUM_CH (n : Nat) : Nat := u32 ((n + 4294967296 - 1) <<< 12)
def SYS_REG_DEC_NUM_CH (n : Nat) : Nat := 1 + ((n >>> 12) &&& 0x1)
def SYS_REG_ENC_RANK (n ch : Nat) : Nat :=
  u32 ((n + 4294967296 - 1) <<< (11 + (ch * 16)))
def SYS_REG_DEC_RANK (n ch : Nat) : Nat := 1 + ((n >>> (11 + 16 * ch)) &&& 0x1)
def SYS_REG_ENC_COL (n ch : Nat) : Nat :=
  u32 ((n + 4294967296 - 9) <<< (9 + (ch * 16)))
def SYS_REG_DEC_COL (n ch : Nat) : Nat := 9 + ((n >>> (9 + 16 * ch)) &&& 0x3)
def SYS_REG_ENC_BK (n ch : Nat) : Nat :=
  u32 ((if n = 3 then 0 else 1) <<< (8 + (ch * 16)))
def SYS_REG_DEC_BK (n ch : Nat) : Nat := 3 - ((n >>> (8 + 16 * ch)) &&& 0x1)
def SYS_REG_ENC_CS0_ROW (n ch : Nat) : Nat :=
  u32 ((n + 4294967296 - 13) <<< (6 + (ch * 16)))
def SYS_REG_DEC_CS0_ROW (n ch : Nat) : Nat := 13 + ((n >>> (6 + 16 * ch)) &&& 0x3)
def SYS_REG_ENC_CS1_ROW (n ch : Nat) : Nat :=
  u32 ((n + 4294967296 - 13) <<< (4 + (ch * 16)))
def SYS_REG_DEC_CS1_ROW (n ch : Nat) : Nat := 13 + ((n >>> (4 + 16 * ch)) &&& 0x3)
def SYS_REG_ENC_BW (n ch : Nat) : Nat := u32 ((2 >>> n) <<< (2 + (ch * 16)))
def SYS_REG_DEC_BW (n ch : Nat) : Nat := 2 >>> ((n >>> (2 + 16 * ch)) &&& 0x3)
def SYS_REG_ENC_DBW (n ch : Nat) : Nat := u32 ((2 >>> n) <<< (0 + (ch * 16)))
def SYS_REG_DEC_DBW (n ch : Nat) : Nat := 2 >>> ((n >>> (0 + 16 * ch)) &&& 0x3)

def PRESET_SGRF_HOLD (n : Nat) : Nat := (0x1 <<< (6 + 16)) ||| (n <<< 6)
def PRESET_GPIO0_HOLD (n : Nat) : Nat := (0x1 <<< (7 + 16)) ||| (n <<< 7)
def PRESET_GPIO1_HOLD (n : Nat) : Nat := (0x1 <<< (8 + 16)) ||| (n <<< 8)

/-- Modelled from the spec: the write-mask helper of `soc/soc.h`
(`RK_CLRSETBITS`): the upper half-word enables the bits of the lower one. -/
def RK_CLRSETBITS (clr set : Nat) : Nat := ((clr ||| set) <<< 16) ||| set

/-! ## Machine model -/

/-- Memory-mapped registers the code touches. -/
inductive Reg where
  | denali_ctl (channel idx : Nat)
  | denali_pi (channel idx : Nat)
  | denali_phy (channel idx : Nat)
  | msch_ddrconf (channel : Nat)
  | msch_ddrsize (channel : Nat)
  | msch_ddrtiminga0 (channel : Nat)
  | msch_ddrtimingb0 (channel : Nat)
  | msch_ddrtimingc0 (channel : Nat)
  | msch_devtodev0 (channel : Nat)
  | msch_ddrmode (channel : Nat)
  | pmugrf_os_reg2
  | pmusgrf_soc_con4
  | pmucru_rstnhold_con1
  | cru_glb_rst_con
  | cic_ctrl0
  | cic_status0
  | ddrc0_con_slot
  deriving DecidableEq, Repr

/-- Observable actions of a run. -/
inductive Event where
  | read (r : Reg)
  | write (r : Reg) (v : Nat)
  | rkclk_configure_ddr (hz : Nat)
  | rkclk_ddr_reset (channel ctl phy : Nat)
  | udelay (us : Nat)
  | stopwatch_init_msecs_expire (ms : Nat)
  | die
  | board_reset
  deriving DecidableEq, Repr

/-- One sample of the hardware-driven registers, taken by one iteration of
a polling loop, and the answer of `stopwatch_expired` at that iteration. -/
structure Poll where
  reg : Reg → Nat
  expired : Bool

/-- Machine state: register store, pending hardware samples and the two
variables with static storage (`size_mb` of `sdram_size_mb` and the array
`pwrup_srefresh_exit`). -/
structure Machine where
  mem : Reg → Nat
  polls : List Poll
  size_mb : Nat
  pwrup_srefresh_exit : Nat → Nat

/-- How a run ended: it returned a value, called `die`, called
`board_reset`, hung in the endless loop of `pctl_start`, left defined
behaviour (a shift count out of range), or is still polling (`spin`). -/
inductive Status (α : Type) where
  | ret (a : α)
  | die
  | reset
  | hang
  | undef
  | spin

/-- Result of a run: status, final machine and the events in order. -/
structure Res (α : Type) where
  st : Status α
  m : Machine
  tr : List Event

/-- Computations over the machine. -/
def M (α : Type) : Type := Machine → Res α

def M.pure {α : Type} (a : α) : M α := fun m => ⟨Status.ret a, m, []⟩

def M.bind {α β : Type} (x : M α) (f : α → M β) : M β := fun m =>
  match x m with
  | ⟨Status.ret a, m1, t1⟩ =>
    match f a m1 with
    | ⟨s, m2, t2⟩ => ⟨s, m2, t1 ++ t2⟩
  | ⟨Status.die, m1, t1⟩ => ⟨Status.die, m1, t1⟩
  | ⟨Status.reset, m1, t1⟩ => ⟨Status.reset, m1, t1⟩
  | ⟨Status.hang, m1, t1⟩ => ⟨Status.hang, m1, t1⟩
  | ⟨Status.undef, m1, t1⟩ => ⟨Status.undef, m1, t1⟩
  | ⟨Status.spin, m1, t1⟩ => ⟨Status.spin, m1, t1⟩

instance : Monad M where
  pure := M.pure
  bind := M.bind

/-- Record one event. -/
def emit (e : Event) : M Unit := fun m => ⟨Status.ret (), m, [e]⟩

/-- End the run with a status that does not return. -/
def stop {α : Type} (s : Status α) (e : List Event) : M α := fun m => ⟨s, m, e⟩

/-- Store update. -/
def setReg (mem : Reg → Nat) (r : Reg) (v : Nat) : Reg → Nat :=
  fun x => if x = r then v else mem x

def read32 (r : Reg) : M Nat := fun m =>
  ⟨Status.ret (u32 (m.mem r)), m, [Event.read r]⟩

def write32 (r : Reg) (v : Nat) : M Unit := fun m =>
  ⟨Status.ret (), { m with mem := setReg m.mem r (u32 v) }, [Event.write r (u32 v)]⟩

def clrsetbits32 (r : Reg) (clear set : Nat) : M Unit := do
  let v ← read32 r
  write32 r ((v &&& not32 clear) ||| set)

def setbits32 (r : Reg) (set : Nat) : M Unit := clrsetbits32 r 0 set

def clrbits32 (r : Reg) (clear : Nat) : M Unit := clrsetbits32 r clear 0

/-- Read of a hardware-driven register inside a polling loop. -/
def pollread (q : Poll) (r : Reg) : M Nat := fun m =>
  ⟨Status.ret (u32 (q.reg r)), m, [Event.read r]⟩

def die {α : Type} : M α := stop Status.die [Event.die]

def board_reset {α : Type} : M α := stop Status.reset [Event.board_reset]

def udelay (us : Nat) : M Unit := emit (Event.udelay us)

def rkclk_configure_ddr (hz : Nat) : M Unit := emit (Event.rkclk_configure_ddr hz)

def rkclk_ddr_reset (channel ctl phy : Nat) : M Unit :=
  emit (Event.rkclk_ddr_reset channel ctl phy)

/-- A `while (1)` loop over hardware status: every iteration takes the next
sample; `body` answers `Sum.inl s` to poll again with loop state `s` and
`Sum.inr a` to leave the loop with `a`. -/
def poll_loop {σ α : Type} (body : σ → Poll → M (σ ⊕ α)) : List Poll → σ → M α
  | [], _ => fun m => ⟨Status.spin, m, []⟩
  | q :: qs, s => fun m =>
    M.bind (body s q)
      (fun r => match r with
        | Sum.inl s1 => poll_loop body qs s1
        | Sum.inr a => M.pure a)
      { m with polls := qs }

def while_poll {σ α : Type} (body : σ → Poll → M (σ ⊕ α)) (s : σ) : M α :=
  fun m => poll_loop body m.polls s m

/-! ## Bring-up of one channel -/

/-- The loop of `pctl_start` waiting for bit 3 of CTL_203; `count` is the
loop counter.  After more than 1000 rounds the code enters `while (1);`. -/
def pctl_start_wait (channel : Nat) (count : Nat) (q : Poll) : M (Nat ⊕ Unit) := do
  let v ← pollread q (Reg.denali_ctl channel 203)
  if v &&& (1 <<< 3) ≠ 0 then
    pure (Sum.inr ())
  else if count > 1000 then
    stop Status.hang []
  else do
    udelay 1
    pure (Sum.inl (u32 (count + 1)))

/-- The four iterations `byte = 0 .. 3` of the loop of `pctl_start`. -/
def pctl_start_bytes (channel : Nat) : (todo : Nat) → (byte : Nat) → M Unit
  | 0, _ => pure ()
  | k + 1, byte => do
    let tmp := 0x820
    write32 (Reg.denali_phy channel (53 + (128 * byte))) ((tmp <<< 16) ||| tmp)
    write32 (Reg.denali_phy channel (54 + (128 * byte))) ((tmp <<< 16) ||| tmp)
    write32 (Reg.denali_phy channel (55 + (128 * byte))) ((tmp <<< 16) ||| tmp)
    write32 (Reg.denali_phy channel (56 + (128 * byte))) ((tmp <<< 16) ||| tmp)
    write32 (Reg.denali_phy channel (57 + (128 * byte))) ((tmp <<< 16) ||| tmp)
    clrsetbits32 (Reg.denali_phy channel (58 + (128 * byte))) 0xffff tmp
    pctl_start_bytes channel k (byte + 1)

/-- The two `write32(&ddrc0_con, ...)` of the source store to the address
of the local pointer variable; the model names that slot
`Reg.ddrc0_con_slot`. -/
def pctl_start (channel : Nat) : M Unit := do
  write32 Reg.ddrc0_con_slot 0x01000000
  clrsetbits32 (Reg.denali_phy channel 957) (0x3 <<< 24) (0x2 <<< 24)
  while_poll (pctl_start_wait channel) 0
  write32 Reg.ddrc0_con_slot 0x01000100
  pctl_start_bytes channel 4 0
  let saved ← (fun m => ⟨Status.ret (m.pwrup_srefresh_exit channel), m, []⟩ : M Nat)
  clrsetbits32 (Reg.denali_ctl channel 68) PWRUP_SREFRESH_EXIT saved

/-- Word-by-word copy; `dest` and `src` give the word at offset `i`. -/
def copy_words (dest : Nat → Reg) (src : Nat → Nat) : (todo : Nat) → (i : Nat) → M Unit
  | 0, _ => pure ()
  | k + 1, i => do
    write32 (dest i) (src i)
    copy_words dest src k (i + 1)

/-- The helper `copy_to_reg(dest, src, n)`: `n` is a byte count. -/
def copy_to_reg (dest : Nat → Reg) (src : Nat → Nat) (n : Nat) : M Unit :=
  copy_words dest src (n / 4) 0

def phy_pctrl_reset (channel : Nat) : M Unit := do
  rkclk_ddr_reset channel 1 1
  udelay 10
  rkclk_ddr_reset channel 1 0
  udelay 10
  rkclk_ddr_reset channel 0 0
  udelay 10

def phy_dll_bypass_set (channel : Nat) (freq : Nat) : M Unit :=
  if freq ≤ 125 * MHz then do
    setbits32 (Reg.denali_phy channel 86) ((0x3 <<< 2) <<< 8)
    setbits32 (Reg.denali_phy channel 214) ((0x3 <<< 2) <<< 8)
    setbits32 (Reg.denali_phy channel 342) ((0x3 <<< 2) <<< 8)
    setbits32 (Reg.denali_phy channel 470) ((0x3 <<< 2) <<< 8)
    setbits32 (Reg.denali_phy channel 547) ((0x3 <<< 2) <<< 16)
    setbits32 (Reg.denali_phy channel 675) ((0x3 <<< 2) <<< 16)
    setbits32 (Reg.denali_phy channel 803) ((0x3 <<< 2) <<< 16)
  else do
    clrbits32 (Reg.denali_phy channel 86) ((0x3 <<< 2) <<< 8)
    clrbits32 (Reg.denali_phy channel 214) ((0x3 <<< 2) <<< 8)
    clrbits32 (Reg.denali_phy channel 342) ((0x3 <<< 2) <<< 8)
    clrbits32 (Reg.denali_phy channel 470) ((0x3 <<< 2) <<< 8)
    clrbits32 (Reg.denali_phy channel 547) ((0x3 <<< 2) <<< 16)
    clrbits32 (Reg.denali_phy channel 675) ((0x3 <<< 2) <<< 16)
    clrbits32 (Reg.denali_phy channel 803) ((0x3 <<< 2) <<< 16)

/-- Row count selected by the DRAM-config code (`set_memory_map`). -/
def set_memory_map_row (ddrconfig : Nat) : Nat :=
  if ddrconfig < 2 ∨ ddrconfig = 4 then 16
  else if ddrconfig = 3 then 14
  else 15

/-- The differences `12 - col`, `3 - bk` and `16 - row` are computed in
`int` and converted to `u32`. -/
def set_memory_map (channel : Nat) (params : rk3399_sdram_params) : M Unit := do
  let sdram_ch := params.ch channel
  let row := set_memory_map_row sdram_ch.ddrconfig
  let cs_map := if sdram_ch.rank > 1 then 3 else 1
  let reduc := if sdram_ch.bw = 2 then 0 else 1
  clrsetbits32 (Reg.denali_ctl channel 191) 0xF (u32 (12 + 4294967296 - sdram_ch.col))
  clrsetbits32 (Reg.denali_ctl channel 190) ((0x3 <<< 16) ||| (0x7 <<< 24))
    (u32 ((u32 (3 + 4294967296 - sdram_ch.bk) <<< 16) ||| ((16 - row) <<< 24)))
  clrsetbits32 (Reg.denali_ctl channel 196) (0x3 ||| (1 <<< 16)) (cs_map ||| (reduc <<< 16))
  clrsetbits32 (Reg.denali_pi channel 199) 0xF (u32 (12 + 4294967296 - sdram_ch.col))
  clrsetbits32 (Reg.denali_pi channel 155) ((0x3 <<< 16) ||| (0x7 <<< 24))
    (u32 ((u32 (3 + 4294967296 - sdram_ch.bk) <<< 16) ||| ((16 - row) <<< 24)))
  clrsetbits32 (Reg.denali_pi channel 41) (0xf <<< 24) (cs_map <<< 24)
  if sdram_ch.rank = 1 ∧ params.dramtype = DDR3 then
    write32 (Reg.denali_pi channel 34) 0x2EC7FFFF
  else
    pure ()

/-- The drive-strength and termination selection of `set_ds_odt`, in the
order `tsel_rd_select_p`, `tsel_rd_select_n`, `tsel_wr_select_p`,
`tsel_wr_select_n`, `tsel_idle_select_p`, `tsel_idle_select_n`,
`ca_tsel_wr_select_p`, `ca_tsel_wr_select_n`. -/
structure ds_odt_sel where
  tsel_rd_select_p : Nat
  tsel_rd_select_n : Nat
  tsel_wr_select_p : Nat
  tsel_wr_select_n : Nat
  tsel_idle_select_p : Nat
  tsel_idle_select_n : Nat
  ca_tsel_wr_select_p : Nat
  ca_tsel_wr_select_n : Nat

def set_ds_odt_select (dramtype : Nat) : ds_odt_sel :=
  if dramtype = LPDDR4 then
    { tsel_rd_select_p := PHY_DRV_ODT_Hi_Z, tsel_rd_select_n := PHY_DRV_ODT_240,
      tsel_wr_select_p := PHY_DRV_ODT_40, tsel_wr_select_n := PHY_DRV_ODT_40,
      tsel_idle_select_p := PHY_DRV_ODT_Hi_Z, tsel_idle_select_n := PHY_DRV_ODT_240,
      ca_tsel_wr_select_p := PHY_DRV_ODT_40, ca_tsel_wr_select_n := PHY_DRV_ODT_40 }
  else if dramtype = LPDDR3 then
    { tsel_rd_select_p := PHY_DRV_ODT_240, tsel_rd_select_n := PHY_DRV_ODT_Hi_Z,
      tsel_wr_select_p := PHY_DRV_ODT_34_3, tsel_wr_select_n := PHY_DRV_ODT_34_3,
      tsel_idle_select_p := PHY_DRV_ODT_240, tsel_idle_select_n := PHY_DRV_ODT_Hi_Z,
      ca_tsel_wr_select_p := PHY_DRV_ODT_48, ca_tsel_wr_select_n := PHY_DRV_ODT_48 }
  else
    { tsel_rd_select_p := PHY_DRV_ODT_240, tsel_rd_select_n := PHY_DRV_ODT_240,
      tsel_wr_select_p := PHY_DRV_ODT_34_3, tsel_wr_select_n := PHY_DRV_ODT_34_3,
      tsel_idle_select_p := PHY_DRV_ODT_240, tsel_idle_select_n := PHY_DRV_ODT_240,
      ca_tsel_wr_select_p := PHY_DRV_ODT_34_3, ca_tsel_wr_select_n := PHY_DRV_ODT_34_3 }

def set_ds_odt (channel : Nat) (params : rk3399_sdram_params) : M Unit := do
  let sel := set_ds_odt_select params.dramtype
  let tsel_rd_en := if params.odt = 1 then 1 else 0
  let tsel_wr_en := 0
  let tsel_idle_en := 0
  let reg_value := sel.tsel_rd_select_n ||| (sel.tsel_rd_select_p <<< 0x4) |||
    (sel.tsel_wr_select_n <<< 8) ||| (sel.tsel_wr_select_p <<< 12) |||
    (sel.tsel_idle_select_n <<< 16) ||| (sel.tsel_idle_select_p <<< 20)
  clrsetbits32 (Reg.denali_phy channel 6) 0xffffff reg_value
  clrsetbits32 (Reg.denali_phy channel 134) 0xffffff reg_value
  clrsetbits32 (Reg.denali_phy channel 262) 0xffffff reg_value
  clrsetbits32 (Reg.denali_phy channel 390) 0xffffff reg_value
  clrsetbits32 (Reg.denali_phy channel 7) 0xffffff reg_value
  clrsetbits32 (Reg.denali_phy channel 135) 0xffffff reg_value
  clrsetbits32 (Reg.denali_phy channel 263) 0xffffff reg_value
  clrsetbits32 (Reg.denali_phy channel 391) 0xffffff reg_value
  let reg_value := sel.ca_tsel_wr_select_n ||| (sel.ca_tsel_wr_select_p <<< 0x4)
  clrsetbits32 (Reg.denali_phy channel 544) 0xff reg_value
  clrsetbits32 (Reg.denali_phy channel 672) 0xff reg_value
  clrsetbits32 (Reg.denali_phy channel 800) 0xff reg_value
  clrsetbits32 (Reg.denali_phy channel 928) 0xff reg_value
  clrsetbits32 (Reg.denali_phy channel 937) 0xff reg_value
  clrsetbits32 (Reg.denali_phy channel 935) 0xff reg_value
  clrsetbits32 (Reg.denali_phy channel 939) 0xff reg_value
  clrsetbits32 (Reg.denali_phy channel 929) 0xff reg_value
  clrsetbits32 (Reg.denali_phy channel 924) 0xff
    (sel.tsel_wr_select_n ||| (sel.tsel_wr_select_p <<< 4))
  clrsetbits32 (Reg.denali_phy channel 925) 0xff
    (sel.tsel_rd_select_n ||| (sel.tsel_rd_select_p <<< 4))
  let reg_value := (tsel_rd_en ||| (tsel_wr_en <<< 1) ||| (tsel_idle_en <<< 2)) <<< 16
  clrsetbits32 (Reg.denali_phy channel 5) (0x7 <<< 16) reg_value
  clrsetbits32 (Reg.denali_phy channel 133) (0x7 <<< 16) reg_value
  clrsetbits32 (Reg.denali_phy channel 261) (0x7 <<< 16) reg_value
  clrsetbits32 (Reg.denali_phy channel 389) (0x7 <<< 16) reg_value
  let reg_value := (tsel_rd_en ||| (tsel_wr_en <<< 1) ||| (tsel_idle_en <<< 2)) <<< 24
  clrsetbits32 (Reg.denali_phy channel 6) (0x7 <<< 24) reg_value
  clrsetbits32 (Reg.denali_phy channel 134) (0x7 <<< 24) reg_value
  clrsetbits32 (Reg.denali_phy channel 262) (0x7 <<< 24) reg_value
  clrsetbits32 (Reg.denali_phy channel 390) (0x7 <<< 24) reg_value
  let reg_value := tsel_wr_en <<< 8
  clrsetbits32 (Reg.denali_phy channel 518) (0x1 <<< 8) reg_value
  clrsetbits32 (Reg.denali_phy channel 646) (0x1 <<< 8) reg_value
  clrsetbits32 (Reg.denali_phy channel 774) (0x1 <<< 8) reg_value
  let reg_value := tsel_wr_en <<< 17
  clrsetbits32 (Reg.denali_phy channel 933) (0x1 <<< 17) reg_value
  clrsetbits32 (Reg.denali_phy channel 938) (0x1 <<< 17) reg_value
  clrsetbits32 (Reg.denali_phy channel 936) (0x1 <<< 17) reg_value
  clrsetbits32 (Reg.denali_phy channel 940) (0x1 <<< 17) reg_value
  clrsetbits32 (Reg.denali_phy channel 934) (0x1 <<< 17) reg_value
  clrsetbits32 (Reg.denali_phy channel 930) (0x1 <<< 17) reg_value

/-- One of the three `switch (odt_value)` blocks of `phy_io_config`: the
reference voltage for termination 240, 120 or 60 ohm, `die` otherwise. -/
def phy_io_config_odt_switch (odt_value : Nat) (v240 v120 v60 : Nat) : M Nat :=
  if odt_value = PHY_DRV_ODT_240 then pure v240
  else if odt_value = PHY_DRV_ODT_120 then pure v120
  else if odt_value = PHY_DRV_ODT_60 then pure v60
  else die

/-- The vref selection at the head of `phy_io_config`; the result is
`(vref_mode_dq, vref_value_dq, vref_mode_ac, vref_value_ac)`. -/
def phy_io_config_vref (channel : Nat) (params : rk3399_sdram_params) :
    M (Nat × Nat × Nat × Nat) :=
  if params.dramtype = LPDDR4 then
    pure (0x6, 0x1f, 0x6, 0x1f)
  else if params.dramtype = LPDDR3 then
    if params.odt = 1 then do
      let r1 ← read32 (Reg.denali_phy channel 6)
      let drv_value := (r1 >>> 12) &&& 0xf
      let r2 ← read32 (Reg.denali_phy channel 6)
      let odt_value := (r2 >>> 4) &&& 0xf
      let vref_value_dq ←
        (if drv_value = PHY_DRV_ODT_48 then
          phy_io_config_odt_switch odt_value 0x16 0x26 0x36
        else if drv_value = PHY_DRV_ODT_40 then
          phy_io_config_odt_switch odt_value 0x19 0x23 0x31
        else if drv_value = PHY_DRV_ODT_34_3 then
          phy_io_config_odt_switch odt_value 0x17 0x20 0x2e
        else die)
      pure (0x5, vref_value_dq, 0x2, 0x1f)
    else
      pure (0x2, 0x1f, 0x2, 0x1f)
  else if params.dramtype = DDR3 then
    pure (0x1, 0x1f, 0x1, 0x1f)
  else die

/-- The part of `phy_io_config` after the vref selection: the writes of the
pad registers. -/
def phy_io_config_pads (channel : Nat) (params : rk3399_sdram_params)
    (vref_mode_dq vref_value_dq vref_mode_ac vref_value_ac : Nat) : M Unit := do
  let reg_value := (vref_mode_dq <<< 9) ||| (0x1 <<< 8) ||| vref_value_dq
  clrsetbits32 (Reg.denali_phy channel 913) (0xfff <<< 8) (reg_value <<< 8)
  clrsetbits32 (Reg.denali_phy channel 914) 0xfff reg_value
  clrsetbits32 (Reg.denali_phy channel 914) (0xfff <<< 16) (reg_value <<< 16)
  clrsetbits32 (Reg.denali_phy channel 915) 0xfff reg_value
  let reg_value := (vref_mode_ac <<< 9) ||| (0x1 <<< 8) ||| vref_value_ac
  clrsetbits32 (Reg.denali_phy channel 915) (0xfff <<< 16) (reg_value <<< 16)
  let mode_sel :=
    if params.dramtype = LPDDR4 then 0x6
    else if params.dramtype = LPDDR3 then 0x0
    else if params.dramtype = DDR3 then 0x1
    else 0
  clrsetbits32 (Reg.denali_phy channel 924) (0x7 <<< 15) (mode_sel <<< 15)
  clrsetbits32 (Reg.denali_phy channel 926) (0x7 <<< 6) (mode_sel <<< 6)
  clrsetbits32 (Reg.denali_phy channel 927) (0x7 <<< 6) (mode_sel <<< 6)
  clrsetbits32 (Reg.denali_phy channel 928) (0x7 <<< 14) (mode_sel <<< 14)
  clrsetbits32 (Reg.denali_phy channel 929) (0x7 <<< 14) (mode_sel <<< 14)
  clrsetbits32 (Reg.denali_phy channel 935) (0x7 <<< 14) (mode_sel <<< 14)
  clrsetbits32 (Reg.denali_phy channel 937) (0x7 <<< 14) (mode_sel <<< 14)
  clrsetbits32 (Reg.denali_phy channel 939) (0x7 <<< 14) (mode_sel <<< 14)
  let speed :=
    if params.ddr_freq < 400 * MHz then 0x0
    else if params.ddr_freq < 800 * MHz then 0x1
    else if params.ddr_freq < 1200 * MHz then 0x2
    else 0x3
  clrsetbits32 (Reg.denali_phy channel 924) (0x3 <<< 21) (speed <<< 21)
  clrsetbits32 (Reg.denali_phy channel 926) (0x3 <<< 9) (speed <<< 9)
  clrsetbits32 (Reg.denali_phy channel 927) (0x3 <<< 9) (speed <<< 9)
  clrsetbits32 (Reg.denali_phy channel 928) (0x3 <<< 17) (speed <<< 17)
  clrsetbits32 (Reg.denali_phy channel 929) (0x3 <<< 17) (speed <<< 17)
  clrsetbits32 (Reg.denali_phy channel 935) (0x3 <<< 17) (speed <<< 17)
  clrsetbits32 (Reg.denali_phy channel 937) (0x3 <<< 17) (speed <<< 17)
  clrsetbits32 (Reg.denali_phy channel 939) (0x3 <<< 17) (speed <<< 17)

def phy_io_config (channel : Nat) (params : rk3399_sdram_params) : M Unit := do
  let (vref_mode_dq, vref_value_dq, vref_mode_ac, vref_value_ac) ←
    phy_io_config_vref channel params
  phy_io_config_pads channel params vref_mode_dq vref_value_dq vref_mode_ac vref_value_ac

/-- One round of the wait loop of `pctl_cfg` on PHY_920, PHY_921 and
PHY_922. -/
def pctl_cfg_wait (channel : Nat) (_s : Unit) (q : Poll) : M (Unit ⊕ Unit) := do
  let tmp ← pollread q (Reg.denali_phy channel 920)
  let tmp1 ← pollread q (Reg.denali_phy channel 921)
  let tmp2 ← pollread q (Reg.denali_phy channel 922)
  if ((tmp >>> 16) &&& 0x1) = 0x1 ∧ ((tmp1 >>> 16) &&& 0x1) = 0x1 ∧
      ((tmp1 >>> 0) &&& 0x1) = 0x1 ∧ ((tmp2 >>> 0) &&& 0x1) = 0x1 then
    pure (Sum.inr ())
  else
    pure (Sum.inl ())

/-- Assignment to the global `pwrup_srefresh_exit[channel]`. -/
def set_pwrup_srefresh_exit (channel v : Nat) : M Unit := fun m =>
  ⟨Status.ret (),
   { m with pwrup_srefresh_exit := fun c => if c = channel then v else m.pwrup_srefresh_exit c },
   []⟩

/-- One of the eight half-cycle adjustments at the end of `pctl_cfg`:
`tmp = (read32(r) >> off) & 0xff; clrsetbits32(r, 0xff << off, (tmp + 0x10) << off)`. -/
def pctl_cfg_add_half_cycle (r : Reg) (off : Nat) : M Unit := do
  let v ← read32 r
  let tmp := (v >>> off) &&& 0xff
  clrsetbits32 r (0xff <<< off) ((tmp + 0x10) <<< off)

/-- The first part of `pctl_cfg`, up to the call of `set_ds_odt`: the
register images are copied, the state machines are started and the PHY is
awaited. -/
def pctl_cfg_load (channel : Nat) (params : rk3399_sdram_params) : M Unit := do
  copy_to_reg (fun i => Reg.denali_ctl channel (1 + i)) (fun i => params.pctl_regs (1 + i))
    (DENALI_CTL_WORDS * 4 - 4)
  write32 (Reg.denali_ctl channel 0) (params.pctl_regs 0)
  copy_to_reg (fun i => Reg.denali_pi channel i) (fun i => params.pi_regs i)
    (DENALI_PI_WORDS * 4)
  set_memory_map channel params
  write32 (Reg.denali_phy channel 910) (params.phy_regs 910)
  write32 (Reg.denali_phy channel 911) (params.phy_regs 911)
  write32 (Reg.denali_phy channel 912) (params.phy_regs 912)
  let v ← read32 (Reg.denali_ctl channel 68)
  set_pwrup_srefresh_exit channel (v &&& PWRUP_SREFRESH_EXIT)
  clrbits32 (Reg.denali_ctl channel 68) PWRUP_SREFRESH_EXIT
  clrsetbits32 (Reg.denali_phy channel 957) (0x3 <<< 24) (1 <<< 24)
  setbits32 (Reg.denali_pi channel 0) START
  setbits32 (Reg.denali_ctl channel 0) START
  while_poll (pctl_cfg_wait channel) ()
  copy_to_reg (fun i => Reg.denali_phy channel (896 + i)) (fun i => params.phy_regs (896 + i))
    ((958 - 895) * 4)
  copy_to_reg (fun i => Reg.denali_phy channel (0 + i)) (fun i => params.phy_regs (0 + i))
    ((90 - 0 + 1) * 4)
  copy_to_reg (fun i => Reg.denali_phy channel (128 + i)) (fun i => params.phy_regs (128 + i))
    ((218 - 128 + 1) * 4)
  copy_to_reg (fun i => Reg.denali_phy channel (256 + i)) (fun i => params.phy_regs (256 + i))
    ((346 - 256 + 1) * 4)
  copy_to_reg (fun i => Reg.denali_phy channel (384 + i)) (fun i => params.phy_regs (384 + i))
    ((474 - 384 + 1) * 4)
  copy_to_reg (fun i => Reg.denali_phy channel (512 + i)) (fun i => params.phy_regs (512 + i))
    ((549 - 512 + 1) * 4)
  copy_to_reg (fun i => Reg.denali_phy channel (640 + i)) (fun i => params.phy_regs (640 + i))
    ((677 - 640 + 1) * 4)
  copy_to_reg (fun i => Reg.denali_phy channel (768 + i)) (fun i => params.phy_regs (768 + i))
    ((805 - 768 + 1) * 4)
  set_ds_odt channel params

/-- The eight half-cycle adjustments of `pctl_cfg`, between `set_ds_odt`
and `phy_io_config`. -/
def pctl_cfg_half_cycle (channel : Nat) : M Unit := do
  pctl_cfg_add_half_cycle (Reg.denali_phy channel 84) 8
  pctl_cfg_add_half_cycle (Reg.denali_phy channel 212) 8
  pctl_cfg_add_half_cycle (Reg.denali_phy channel 340) 8
  pctl_cfg_add_half_cycle (Reg.denali_phy channel 468) 8
  pctl_cfg_add_half_cycle (Reg.denali_phy channel 83) 16
  pctl_cfg_add_half_cycle (Reg.denali_phy channel 211) 16
  pctl_cfg_add_half_cycle (Reg.denali_phy channel 339) 16
  pctl_cfg_add_half_cycle (Reg.denali_phy channel 467) 16

def pctl_cfg (channel : Nat) (params : rk3399_sdram_params) : M Int := do
  pctl_cfg_load channel params
  pctl_cfg_half_cycle channel
  phy_io_config channel params
  pure 0

/-! ## Training engine -/

def select_per_cs_training_index (channel rank : Nat) : M Unit := do
  let v ← read32 (Reg.denali_phy channel 84)
  if (v >>> 16) &&& 1 ≠ 0 then do
    clrsetbits32 (Reg.denali_phy channel 8) (0x1 <<< 24) (rank <<< 24)
    clrsetbits32 (Reg.denali_phy channel 136) (0x1 <<< 24) (rank <<< 24)
    clrsetbits32 (Reg.denali_phy channel 264) (0x1 <<< 24) (rank <<< 24)
    clrsetbits32 (Reg.denali_phy channel 392) (0x1 <<< 24) (rank <<< 24)
  else
    pure ()

/-- The loop `byte = 0 .. 3` of `override_write_leveling_value`. -/
def override_write_leveling_bytes (channel : Nat) : (todo : Nat) → (byte : Nat) → M Unit
  | 0, _ => pure ()
  | k + 1, byte => do
    clrsetbits32 (Reg.denali_phy channel (63 + (128 * byte))) (0xffff <<< 16) (0x200 <<< 16)
    override_write_leveling_bytes channel k (byte + 1)

def override_write_leveling_value (channel : Nat) : M Unit := do
  setbits32 (Reg.denali_phy channel 896) 1
  clrsetbits32 (Reg.denali_phy channel 8) (0x1 <<< 16) (1 <<< 16)
  clrsetbits32 (Reg.denali_phy channel 136) (0x1 <<< 16) (1 <<< 16)
  clrsetbits32 (Reg.denali_phy channel 264) (0x1 <<< 16) (1 <<< 16)
  clrsetbits32 (Reg.denali_phy channel 392) (0x1 <<< 16) (1 <<< 16)
  override_write_leveling_bytes channel 4 0
  clrbits32 (Reg.denali_phy channel 896) 1
  clrsetbits32 (Reg.denali_ctl channel 200) (0x1 <<< 8) (0x1 <<< 8)

def get_rank_mask (channel : Nat) (params : rk3399_sdram_params) : Nat :=
  let rank := (params.ch channel).rank
  if params.dramtype = LPDDR4 then
    (if rank = 1 then 0x5 else 0xf)
  else
    (if rank = 1 then 0x1 else 0x3)

/-- What one round of a training poll loop decides: poll again, leave the
loop (`break`), or `return -1`. -/
inductive PollStep where
  | again
  | done
  | fail
  deriving DecidableEq, Repr

/-- The common tail of every poll round: the two success bits `s1`, `s2`
and the error bit `e` of `tmp = PI_174 >> 8`. -/
def training_status (tmp s1 s2 e : Nat) : PollStep :=
  if ((tmp >>> s1) &&& 0x1) = 0x1 ∧ ((tmp >>> s2) &&& 0x1) = 0x1 ∧
      ((tmp >>> e) &&& 0x1) = 0x0 then PollStep.done
  else if ((tmp >>> e) &&& 0x1) = 0x1 then PollStep.fail
  else PollStep.again

/-- Turn the decision of a round into the answer `poll_loop` expects. -/
def poll_answer (d : PollStep) : Unit ⊕ PollStep :=
  match d with
  | PollStep.again => Sum.inl ()
  | PollStep.done => Sum.inr PollStep.done
  | PollStep.fail => Sum.inr PollStep.fail

/-- Decision of one round of the loop of `data_training_ca`. -/
def data_training_ca_step (tmp obs_0 obs_1 obs_2 : Nat) : PollStep :=
  if ((obs_0 >>> 30) &&& 0x3) ≠ 0 ∨ ((obs_1 >>> 30) &&& 0x3) ≠ 0 ∨
      ((obs_2 >>> 30) &&& 0x3) ≠ 0 then PollStep.fail
  else training_status tmp 11 13 5

def data_training_ca_poll (channel : Nat) (_s : Unit) (q : Poll) : M (Unit ⊕ PollStep) := do
  let v ← pollread q (Reg.denali_pi channel 174)
  let tmp := v >>> 8
  let obs_0 ← pollread q (Reg.denali_phy channel 532)
  let obs_1 ← pollread q (Reg.denali_phy channel 660)
  let obs_2 ← pollread q (Reg.denali_phy channel 788)
  pure (poll_answer (data_training_ca_step tmp obs_0 obs_1 obs_2))

/-- The `for` loop of `data_training_ca` from index `i` with `todo` indices
left; the result is 0 when the loop ran to its end and -1 when a round
returned -1. -/
def data_training_ca_ranks (channel rank_mask : Nat) : (todo : Nat) → (i : Nat) → M Int
  | 0, _ => pure 0
  | k + 1, i =>
    if rank_mask &&& (1 <<< i) = 0 then
      data_training_ca_ranks channel rank_mask k (i + 1)
    else do
      select_per_cs_training_index channel i
      clrsetbits32 (Reg.denali_pi channel 100) (0x3 <<< 8) (0x2 <<< 8)
      clrsetbits32 (Reg.denali_pi channel 92) ((0x1 <<< 16) ||| (0x3 <<< 24))
        ((0x1 <<< 16) ||| (i <<< 24))
      let w ← while_poll (data_training_ca_poll channel) ()
      if w = PollStep.fail then
        pure (-1)
      else do
        write32 (Reg.denali_pi channel 175) 0x00003f7c
        data_training_ca_ranks channel rank_mask k (i + 1)

def data_training_ca (channel : Nat) (params : rk3399_sdram_params) : M Int := do
  let rank_mask := get_rank_mask channel params
  write32 (Reg.denali_pi channel 175) 0x00003f7c
  let r ← data_training_ca_ranks channel rank_mask MAX_RANKS_PER_CHANNEL 0
  if r ≠ 0 then
    pure r
  else do
    clrbits32 (Reg.denali_pi channel 100) (0x3 <<< 8)
    pure 0

/-- Decision of one round of the loop of `data_training_wl`. -/
def data_training_wl_step (tmp obs_0 obs_1 obs_2 obs_3 : Nat) : PollStep :=
  if ((obs_0 >>> 12) &&& 0x1) ≠ 0 ∨ ((obs_1 >>> 12) &&& 0x1) ≠ 0 ∨
      ((obs_2 >>> 12) &&& 0x1) ≠ 0 ∨ ((obs_3 >>> 12) &&& 0x1) ≠ 0 then PollStep.fail
  else training_status tmp 10 13 4

def data_training_wl_poll (channel : Nat) (_s : Unit) (q : Poll) : M (Unit ⊕ PollStep) := do
  let v ← pollread q (Reg.denali_pi channel 174)
  let tmp := v >>> 8
  let obs_0 ← pollread q (Reg.denali_phy channel 40)
  let obs_1 ← pollread q (Reg.denali_phy channel 168)
  let obs_2 ← pollread q (Reg.denali_phy channel 296)
  let obs_3 ← pollread q (Reg.denali_phy channel 424)
  pure (poll_answer (data_training_wl_step tmp obs_0 obs_1 obs_2 obs_3))

/-- The `for (i = 0; i < rank; i++)` loop of `data_training_wl`. -/
def data_training_wl_ranks (channel : Nat) : (todo : Nat) → (i : Nat) → M Int
  | 0, _ => pure 0
  | k + 1, i => do
    select_per_cs_training_index channel i
    clrsetbits32 (Reg.denali_pi channel 60) (0x3 <<< 8) (0x2 <<< 8)
    clrsetbits32 (Reg.denali_pi channel 59) ((0x1 <<< 8) ||| (0x3 <<< 16))
      ((0x1 <<< 8) ||| (i <<< 16))
    let w ← while_poll (data_training_wl_poll channel) ()
    if w = PollStep.fail then
      pure (-1)
    else do
      write32 (Reg.denali_pi channel 175) 0x00003f7c
      data_training_wl_ranks channel k (i + 1)

def data_training_wl (channel : Nat) (params : rk3399_sdram_params) : M Int := do
  let rank := (params.ch channel).rank
  write32 (Reg.denali_pi channel 175) 0x00003f7c
  let r ← data_training_wl_ranks channel rank 0
  if r ≠ 0 then
    pure r
  else do
    override_write_leveling_value channel
    clrbits32 (Reg.denali_pi channel 60) (0x3 <<< 8)
    pure 0

/-- Decision of one round of the loop of `data_training_rg`. -/
def data_training_rg_step (tmp obs_0 obs_1 obs_2 obs_3 : Nat) : PollStep :=
  if ((obs_0 >>> (16 + 6)) &&& 0x3) ≠ 0 ∨ ((obs_1 >>> (16 + 6)) &&& 0x3) ≠ 0 ∨
      ((obs_2 >>> (16 + 6)) &&& 0x3) ≠ 0 ∨ ((obs_3 >>> (16 + 6)) &&& 0x3) ≠ 0 then
    PollStep.fail
  else training_status tmp 9 13 3

def data_training_rg_poll (channel : Nat) (_s : Unit) (q : Poll) : M (Unit ⊕ PollStep) := do
  let v ← pollread q (Reg.denali_pi channel 174)
  let tmp := v >>> 8
  let obs_0 ← pollread q (Reg.denali_phy channel 43)
  let obs_1 ← pollread q (Reg.denali_phy channel 171)
  let obs_2 ← pollread q (Reg.denali_phy channel 299)
  let obs_3 ← pollread q (Reg.denali_phy channel 427)
  pure (poll_answer (data_training_rg_step tmp obs_0 obs_1 obs_2 obs_3))

/-- The `for (i = 0; i < rank; i++)` loop of `data_training_rg`. -/
def data_training_rg_ranks (channel : Nat) : (todo : Nat) → (i : Nat) → M Int
  | 0, _ => pure 0
  | k + 1, i => do
    select_per_cs_training_index channel i
    clrsetbits32 (Reg.denali_pi channel 80) (0x3 <<< 24) (0x2 <<< 24)
    clrsetbits32 (Reg.denali_pi channel 74) ((0x1 <<< 16) ||| (0x3 <<< 24))
      ((0x1 <<< 16) ||| (i <<< 24))
    let w ← while_poll (data_training_rg_poll channel) ()
    if w = PollStep.fail then
      pure (-1)
    else do
      write32 (Reg.denali_pi channel 175) 0x00003f7c
      data_training_rg_ranks channel k (i + 1)

/-- The first `if (params->dramtype != LPDDR4)` block of
`data_training_rg`: save the DQS termination enables of PHY_6 in `reg_value`
(initialised to 0) and clear them in the four lanes. -/
def data_training_rg_save (channel : Nat) (params : rk3399_sdram_params) : M Nat :=
  if params.dramtype ≠ LPDDR4 then do
    let v ← read32 (Reg.denali_phy channel 6)
    clrbits32 (Reg.denali_phy channel 6) (0x7 <<< 24)
    clrbits32 (Reg.denali_phy channel 134) (0x7 <<< 24)
    clrbits32 (Reg.denali_phy channel 262) (0x7 <<< 24)
    clrbits32 (Reg.denali_phy channel 390) (0x7 <<< 24)
    pure ((v >>> 24) &&& 0x7)
  else
    pure 0

/-- The last `if (params->dramtype != LPDDR4)` block of `data_training_rg`:
write `reg_value` back to the four lanes. -/
def data_training_rg_restore (channel : Nat) (params : rk3399_sdram_params)
    (reg_value : Nat) : M Unit :=
  if params.dramtype ≠ LPDDR4 then do
    let tmp := reg_value <<< 24
    clrsetbits32 (Reg.denali_phy channel 6) (0x7 <<< 24) tmp
    clrsetbits32 (Reg.denali_phy channel 134) (0x7 <<< 24) tmp
    clrsetbits32 (Reg.denali_phy channel 262) (0x7 <<< 24) tmp
    clrsetbits32 (Reg.denali_phy channel 390) (0x7 <<< 24) tmp
  else
    pure ()

def data_training_rg (channel : Nat) (params : rk3399_sdram_params) : M Int := do
  let rank := (params.ch channel).rank
  let reg_value ← data_training_rg_save channel params
  write32 (Reg.denali_pi channel 175) 0x00003f7c
  let r ← data_training_rg_ranks channel rank 0
  if r ≠ 0 then
    pure r
  else do
    clrbits32 (Reg.denali_pi channel 80) (0x3 <<< 24)
    data_training_rg_restore channel params reg_value
    pure 0

def data_training_rl_poll (channel : Nat) (_s : Unit) (q : Poll) : M (Unit ⊕ PollStep) := do
  let v ← pollread q (Reg.denali_pi channel 174)
  let tmp := v >>> 8
  pure (poll_answer (training_status tmp 8 13 2))

/-- The `for (i = 0; i < rank; i++)` loop of `data_training_rl`. -/
def data_training_rl_ranks (channel : Nat) : (todo : Nat) → (i : Nat) → M Int
  | 0, _ => pure 0
  | k + 1, i => do
    select_per_cs_training_index channel i
    clrsetbits32 (Reg.denali_pi channel 80) (0x3 <<< 16) (0x2 <<< 16)
    clrsetbits32 (Reg.denali_pi channel 74) ((0x1 <<< 8) ||| (0x3 <<< 24))
      ((0x1 <<< 8) ||| (i <<< 24))
    let w ← while_poll (data_training_rl_poll channel) ()
    if w = PollStep.fail then
      pure (-1)
    else do
      write32 (Reg.denali_pi channel 175) 0x00003f7c
      data_training_rl_ranks channel k (i + 1)

def data_training_rl (channel : Nat) (params : rk3399_sdram_params) : M Int := do
  let rank := (params.ch channel).rank
  write32 (Reg.denali_pi channel 175) 0x00003f7c
  let r ← data_training_rl_ranks channel rank 0
  if r ≠ 0 then
    pure r
  else do
    clrbits32 (Reg.denali_pi channel 80) (0x3 <<< 16)
    pure 0

def data_training_wdql_poll (channel : Nat) (_s : Unit) (q : Poll) : M (Unit ⊕ PollStep) := do
  let v ← pollread q (Reg.denali_pi channel 174)
  let tmp := v >>> 8
  pure (poll_answer (training_status tmp 12 13 6))

/-- The `for` loop of `data_training_wdql` over the rank mask. -/
def data_training_wdql_ranks (channel rank_mask : Nat) : (todo : Nat) → (i : Nat) → M Int
  | 0, _ => pure 0
  | k + 1, i =>
    if rank_mask &&& (1 <<< i) = 0 then
      data_training_wdql_ranks channel rank_mask k (i + 1)
    else do
      select_per_cs_training_index channel i
      clrbits32 (Reg.denali_pi channel 181) (0x1 <<< 8)
      clrsetbits32 (Reg.denali_pi channel 124) (0x3 <<< 16) (0x2 <<< 16)
      clrsetbits32 (Reg.denali_pi channel 121) ((0x1 <<< 8) ||| (0x3 <<< 16))
        ((0x1 <<< 8) ||| (i <<< 16))
      let w ← while_poll (data_training_wdql_poll channel) ()
      if w = PollStep.fail then
        pure (-1)
      else do
        write32 (Reg.denali_pi channel 175) 0x00003f7c
        data_training_wdql_ranks channel rank_mask k (i + 1)

def data_training_wdql (channel : Nat) (params : rk3399_sdram_params) : M Int := do
  let rank_mask := get_rank_mask channel params
  write32 (Reg.denali_pi channel 175) 0x00003f7c
  let r ← data_training_wdql_ranks channel rank_mask MAX_RANKS_PER_CHANNEL 0
  if r ≠ 0 then
    pure r
  else do
    clrbits32 (Reg.denali_pi channel 124) (0x3 <<< 16)
    pure 0

/-- The expansion of the full-training sentinel at the head of
`data_training`. -/
def data_training_flag (params : rk3399_sdram_params) (training_flag : Nat) : Nat :=
  if training_flag = PI_FULL_TRAINING then
    if params.dramtype = LPDDR4 then
      PI_CA_TRAINING ||| PI_WRITE_LEVELING ||| PI_READ_GATE_TRAINING |||
        PI_READ_LEVELING ||| PI_WDQ_LEVELING
    else if params.dramtype = LPDDR3 then
      PI_CA_TRAINING ||| PI_WRITE_LEVELING ||| PI_READ_GATE_TRAINING
    else if params.dramtype = DDR3 then
      PI_WRITE_LEVELING ||| PI_READ_GATE_TRAINING ||| PI_READ_LEVELING
    else training_flag
  else training_flag

/-- One guarded phase of `data_training`: run `phase` when all bits of
`bit` are in the flag; a non-zero result is returned at once, otherwise
`rest` goes on. -/
def data_training_phase (training_flag bit : Nat) (phase : M Int) (rest : M Int) : M Int :=
  if training_flag &&& bit = bit then do
    let ret ← phase
    if ret ≠ 0 then pure ret else rest
  else rest

def data_training (channel : Nat) (params : rk3399_sdram_params) (training_flag : Nat) :
    M Int := do
  setbits32 (Reg.denali_phy channel 927) (1 <<< 22)
  let training_flag := data_training_flag params training_flag
  data_training_phase training_flag PI_CA_TRAINING (data_training_ca channel params)
    (data_training_phase training_flag PI_WRITE_LEVELING (data_training_wl channel params)
      (data_training_phase training_flag PI_READ_GATE_TRAINING (data_training_rg channel params)
        (data_training_phase training_flag PI_READ_LEVELING (data_training_rl channel params)
          (data_training_phase training_flag PI_WDQ_LEVELING (data_training_wdql channel params)
            (do
              clrbits32 (Reg.denali_phy channel 927) (1 <<< 22)
              pure 0)))))

/-! ## Geometry encoder and orchestrator -/

/-- The capacity expression shared by `set_ddrconfig` and
`calculate_stride`: `(cs0_cap, cs1_cap)` in MiB after the 3/4 adjustment.
The shift counts are computed in `int`; the result is `none` when a count
is negative or not below the width of the shifted operand (undefined in
C).  `cs0_cap` and `cs1_cap` are `unsigned int`. -/
def channel_cs_cap (info : rk3399_sdram_channel) : Option (Nat × Nat) :=
  let e := info.cs0_row + info.col + info.bk + info.bw
  if 20 ≤ e ∧ e - 20 ≤ 30 then
    let cs0_cap := 1 <<< (e - 20)
    let cs1 : Option Nat :=
      if info.rank > 1 then
        if info.cs1_row ≤ info.cs0_row ∧ info.cs0_row - info.cs1_row < 32 then
          some (cs0_cap >>> (info.cs0_row - info.cs1_row))
        else none
      else some 0
    match cs1 with
    | none => none
    | some cs1_cap =>
      if info.row_3_4 ≠ 0 then
        some (u32 (cs0_cap * 3) / 4, u32 (cs1_cap * 3) / 4)
      else
        some (cs0_cap, cs1_cap)
  else none

def set_ddrconfig (params : rk3399_sdram_params) (channel : Nat) (ddrconfig : Nat) : M Unit :=
  match channel_cs_cap (params.ch channel) with
  | none => stop Status.undef []
  | some (cs0_cap, cs1_cap) => do
    write32 (Reg.msch_ddrconf channel) (ddrconfig ||| (ddrconfig <<< 8))
    write32 (Reg.msch_ddrsize channel)
      (((cs0_cap / 32) &&& 0xff) ||| (((cs1_cap / 32) &&& 0xff) <<< 8))

/-- The nine `sys_reg |= ...` statements of the loop body of
`dram_all_config` for one channel. -/
def dram_all_config_enc (info : rk3399_sdram_channel) (channel : Nat) (sys_reg : Nat) : Nat :=
  let sys_reg := sys_reg ||| SYS_REG_ENC_ROW_3_4 info.row_3_4 channel
  let sys_reg := sys_reg ||| SYS_REG_ENC_CHINFO channel
  let sys_reg := sys_reg ||| SYS_REG_ENC_RANK info.rank channel
  let sys_reg := sys_reg ||| SYS_REG_ENC_COL info.col channel
  let sys_reg := sys_reg ||| SYS_REG_ENC_BK info.bk channel
  let sys_reg := sys_reg ||| SYS_REG_ENC_CS0_ROW info.cs0_row channel
  let sys_reg := if info.rank > 1 then sys_reg ||| SYS_REG_ENC_CS1_ROW info.cs1_row channel
    else sys_reg
  let sys_reg := sys_reg ||| SYS_REG_ENC_BW info.bw channel
  let sys_reg := sys_reg ||| SYS_REG_ENC_DBW info.dbw channel
  sys_reg

/-- The loop `for (channel = 0, use = 0; (use < params->num_channels) &&
(channel < 2); channel++)` of `dram_all_config`; the result is the final
`sys_reg`. -/
def dram_all_config_loop (params : rk3399_sdram_params) :
    (todo : Nat) → (channel use sys_reg : Nat) → M Nat
  | 0, _, _, sys_reg => pure sys_reg
  | k + 1, channel, use, sys_reg =>
    if use < params.num_channels ∧ channel < 2 then
      if (params.ch channel).col = 0 then
        dram_all_config_loop params k (channel + 1) use sys_reg
      else do
        let info := params.ch channel
        let sys_reg := dram_all_config_enc info channel sys_reg
        let noc_timing := (params.ch channel).noc_timings
        write32 (Reg.msch_ddrtiminga0 channel) noc_timing.ddrtiminga0
        write32 (Reg.msch_ddrtimingb0 channel) noc_timing.ddrtimingb0
        write32 (Reg.msch_ddrtimingc0 channel) noc_timing.ddrtimingc0
        write32 (Reg.msch_devtodev0 channel) noc_timing.devtodev0
        write32 (Reg.msch_ddrmode channel) noc_timing.ddrmode
        (if (params.ch channel).rank = 1 then
          setbits32 (Reg.denali_ctl channel 276) (1 <<< 17)
        else
          pure ())
        dram_all_config_loop params k (channel + 1) (use + 1) sys_reg
    else pure sys_reg

/-- `DDR_STRIDE(n)`: the write of the stride code to `soc_con4`. -/
def DDR_STRIDE (n : Nat) : M Unit :=
  write32 Reg.pmusgrf_soc_con4 ((0x1F <<< (10 + 16)) ||| (n <<< 10))

def dram_all_config (params : rk3399_sdram_params) : M Unit := do
  let sys_reg := 0
  let sys_reg := sys_reg ||| SYS_REG_ENC_DDRTYPE params.dramtype
  let sys_reg := sys_reg ||| SYS_REG_ENC_NUM_CH params.num_channels
  let sys_reg ← dram_all_config_loop params 2 0 0 sys_reg
  write32 Reg.pmugrf_os_reg2 sys_reg
  DDR_STRIDE params.stride
  write32 Reg.pmucru_rstnhold_con1
    (PRESET_SGRF_HOLD 0 ||| PRESET_GPIO0_HOLD 1 ||| PRESET_GPIO1_HOLD 1)
  clrsetbits32 Reg.cru_glb_rst_con 0x3 0x3

/-- One round of a handshake loop of `switch_to_phy_index1`: wait for
`bit` of `cic_status0`, reset the board when the stopwatch has expired. -/
def switch_to_phy_index1_wait (bit : Nat) (_s : Unit) (q : Poll) : M (Unit ⊕ Unit) := do
  let v ← pollread q Reg.cic_status0
  if v &&& (1 <<< bit) ≠ 0 then
    pure (Sum.inr ())
  else if q.expired then
    board_reset
  else
    pure (Sum.inl ())

/-- The retraining loop `for (channel = 0; channel < ch_count; channel++)`
of `switch_to_phy_index1`. -/
def switch_to_phy_index1_train (params : rk3399_sdram_params) :
    (todo : Nat) → (channel : Nat) → M Unit
  | 0, _ => pure ()
  | k + 1, channel => do
    clrsetbits32 (Reg.denali_phy channel 896) ((0x3 <<< 8) ||| 1) (1 <<< 8)
    let r ← data_training channel params PI_FULL_TRAINING
    (if r ≠ 0 then board_reset else pure ())
    switch_to_phy_index1_train params k (channel + 1)

def switch_to_phy_index1 (params : rk3399_sdram_params) : M Unit := do
  let ch_count := params.num_channels
  emit (Event.stopwatch_init_msecs_expire 100)
  write32 Reg.cic_ctrl0
    (RK_CLRSETBITS ((0x03 <<< 4) ||| (1 <<< 2) ||| 1) ((1 <<< 4) ||| (1 <<< 2) ||| 1))
  while_poll (switch_to_phy_index1_wait 2) ()
  emit (Event.stopwatch_init_msecs_expire 100)
  write32 Reg.cic_ctrl0 (RK_CLRSETBITS (1 <<< 1) (1 <<< 1))
  while_poll (switch_to_phy_index1_wait 0) ()
  switch_to_phy_index1_train params ch_count 0

/-- Capacity `ch_cap[channel]` that the first loop of `calculate_stride`
computes for one channel: 0 for an absent channel (`col == 0`), otherwise
`cs0_cap + cs1_cap`. -/
def calculate_stride_ch_cap (params : rk3399_sdram_params) (channel : Nat) : Option Nat :=
  if (params.ch channel).col = 0 then some 0
  else
    match channel_cs_cap (params.ch channel) with
    | none => none
    | some (cs0_cap, cs1_cap) => some (cs0_cap + cs1_cap)

/-- The bit of `chinfo` that the first loop of `calculate_stride` sets for
one channel. -/
def calculate_stride_chinfo (params : rk3399_sdram_params) (channel : Nat) : Nat :=
  if (params.ch channel).col = 0 then 0 else 1 <<< channel

/-- The `switch (cap)` of `calculate_stride`. -/
def calculate_stride_switch (cap stride : Nat) : Nat :=
  if cap = 512 then 0
  else if cap = 1024 then 0x5
  else if cap = 1536 then 0x9
  else if cap = 2048 then 0x9
  else if cap = 3072 then 0x11
  else if cap = 4096 then 0xD
  else stride

/-- The result is `none` when a capacity shift is undefined; the returned
`unsigned char` is the value modulo 256. -/
def calculate_stride (params : rk3399_sdram_params) : Option Nat :=
  let stride := params.stride
  match calculate_stride_ch_cap params 0, calculate_stride_ch_cap params 1 with
  | some ch_cap0, some ch_cap1 =>
    let chinfo := calculate_stride_chinfo params 0 ||| calculate_stride_chinfo params 1
    if params.num_channels = 1 ∧ chinfo &&& 1 ≠ 0 then
      some 0x17
    else if ch_cap0 = ch_cap1 then
      let cap := u32 (ch_cap0 + ch_cap1)
      some (calculate_stride_switch cap stride % 256)
    else
      some (stride % 256)
  | _, _ => none

/-- The body of the loop `for (channel = 0; channel < 2; channel++)` of
`sdram_init`, with the two calls whose result it tests as parameters: `cfg`
stands for `pctl_cfg(channel, params)` and `train` for
`data_training(channel, params, PI_FULL_TRAINING)`. -/
def sdram_init_channel_with (cfg train : M Int) (params : rk3399_sdram_params)
    (dramtype ddr_freq channel : Nat) : M Unit := do
  phy_pctrl_reset channel
  phy_dll_bypass_set channel ddr_freq
  if channel ≥ params.num_channels then
    pure ()
  else do
    let r ← cfg
    (if r ≠ 0 then board_reset else pure ())
    pctl_start channel
    (if dramtype = LPDDR3 then udelay 10 else pure ())
    let r ← train
    (if r ≠ 0 then board_reset else pure ())
    set_ddrconfig params channel (params.ch channel).ddrconfig

/-- The body of the loop `for (channel = 0; channel < 2; channel++)` of
`sdram_init`. -/
def sdram_init_channel (params : rk3399_sdram_params) (dramtype ddr_freq channel : Nat) :
    M Unit :=
  sdram_init_channel_with (pctl_cfg channel params)
    (data_training channel params PI_FULL_TRAINING) params dramtype ddr_freq channel

/-- The frequency test at the head of `sdram_init`. -/
def sdram_init_freq_too_high (dramtype ddr_freq : Nat) : Prop :=
  (dramtype = DDR3 ∧ ddr_freq > 800 * MHz) ∨
  (dramtype = LPDDR3 ∧ ddr_freq > 933 * MHz) ∨
  (dramtype = LPDDR4 ∧ ddr_freq > 800 * MHz)

instance (dramtype ddr_freq : Nat) : Decidable (sdram_init_freq_too_high dramtype ddr_freq) := by
  unfold sdram_init_freq_too_high
  infer_instance

def sdram_init (params : rk3399_sdram_params) : M Unit := do
  let dramtype := params.dramtype
  let ddr_freq := params.ddr_freq
  (if sdram_init_freq_too_high dramtype ddr_freq then die else pure ())
  rkclk_configure_ddr ddr_freq
  sdram_init_channel params dramtype ddr_freq 0
  sdram_init_channel params dramtype ddr_freq 1
  match calculate_stride params with
  | none => stop Status.undef []
  | some stride =>
    let params := { params with stride := stride }
    dram_all_config params
    switch_to_phy_index1 params

/-- Contribution `chipsize_mb` of one channel in `sdram_size_mb`.  All
operands are unsigned; `cs0_row - cs1_row` wraps modulo `2^32`, and a right
shift by a count of 64 or more (undefined in C) is taken with its
arithmetic value 0. -/
def sdram_size_mb_chip (sys_reg ch : Nat) : Nat :=
  let rank := SYS_REG_DEC_RANK sys_reg ch
  let col := SYS_REG_DEC_COL sys_reg ch
  let bk := SYS_REG_DEC_BK sys_reg ch
  let cs0_row := SYS_REG_DEC_CS0_ROW sys_reg ch
  let cs1_row := SYS_REG_DEC_CS1_ROW sys_reg ch
  let bw := SYS_REG_DEC_BW sys_reg ch
  let row_3_4 := SYS_REG_DEC_ROW_3_4 sys_reg ch
  let chipsize_mb := 1 <<< u32 (cs0_row + col + bk + bw + 4294967296 - 20)
  let chipsize_mb :=
    if rank > 1 then chipsize_mb + (chipsize_mb >>> u32 (cs0_row + 4294967296 - cs1_row))
    else chipsize_mb
  let chipsize_mb := if row_3_4 ≠ 0 then chipsize_mb * 3 / 4 else chipsize_mb
  chipsize_mb

/-- The loop `for (ch = 0; ch < ch_num; ch++)` of `sdram_size_mb`. -/
def sdram_size_mb_loop (sys_reg : Nat) : (todo : Nat) → (ch : Nat) → (size_mb : Nat) → Nat
  | 0, _, size_mb => size_mb
  | k + 1, ch, size_mb =>
    sdram_size_mb_loop sys_reg k (ch + 1) (size_mb + sdram_size_mb_chip sys_reg ch)

/-- Assignment to the static variable `size_mb`. -/
def set_size_mb (v : Nat) : M Unit := fun m => ⟨Status.ret (), { m with size_mb := v }, []⟩

/-- Value of the static variable `size_mb`. -/
def get_size_mb : M Nat := fun m => ⟨Status.ret m.size_mb, m, []⟩

def sdram_size_mb : M Nat := do
  let size_mb ← get_size_mb
  (if size_mb = 0 then do
    let sys_reg ← read32 Reg.pmugrf_os_reg2
    let ch_num := SYS_REG_DEC_NUM_CH sys_reg
    let size_mb := sdram_size_mb_loop sys_reg ch_num 0 size_mb
    set_size_mb (min size_mb (0xf8000000 / MiB))
  else
    pure ())
  get_size_mb

/-! ## Vocabulary of the statements -/

/-- Field `bits[hi:lo]` of a word. -/
def bits (s hi lo : Nat) : Nat := (s >>> lo) % 2 ^ (hi + 1 - lo)

/-- Geometry that the persistent register has room for. -/
def valid_geometry (c : rk3399_sdram_channel) : Prop :=
  (c.rank = 1 ∨ c.rank = 2) ∧ (9 ≤ c.col ∧ c.col ≤ 12) ∧ (c.bk = 2 ∨ c.bk = 3) ∧
  (13 ≤ c.cs0_row ∧ c.cs0_row ≤ 16) ∧ (13 ≤ c.cs1_row ∧ c.cs1_row ≤ 16) ∧
  c.bw ≤ 2 ∧ c.dbw ≤ 2 ∧ c.row_3_4 ≤ 1

instance (c : rk3399_sdram_channel) : Decidable (valid_geometry c) := by
  unfold valid_geometry
  infer_instance

/-- Number of channels below `ch` that are present (`col != 0`): the value
of `use` when the loop of `dram_all_config` reaches channel `ch`. -/
def populated_below (p : rk3399_sdram_params) : Nat → Nat
  | 0 => 0
  | ch + 1 => populated_below p ch + (if (p.ch ch).col = 0 then 0 else 1)

/-- Channel `ch` is active: it is present (`col != 0`) and the loop of
`dram_all_config` reaches it with `use < num_channels`.  When
`num_channels` is the number of present channels this is `col != 0`. -/
def channel_active (p : rk3399_sdram_params) (ch : Nat) : Prop :=
  ch < 2 ∧ (p.ch ch).col ≠ 0 ∧ populated_below p ch < p.num_channels

instance (p : rk3399_sdram_params) (ch : Nat) : Decidable (channel_active p ch) := by
  unfold channel_active
  infer_instance

/-- Valid parameters: a DRAM type that fits three bits, one or two
channels, and valid geometry on every active channel. -/
def valid_params (p : rk3399_sdram_params) : Prop :=
  p.dramtype < 8 ∧ (p.num_channels = 1 ∨ p.num_channels = 2) ∧
  ∀ ch, ch < 2 → channel_active p ch → valid_geometry (p.ch ch)

instance (p : rk3399_sdram_params) : Decidable (valid_params p) := by
  unfold valid_params
  infer_instance

/-- The fields of one channel at their places in the persistent register,
as a sum. -/
def channel_word (c : rk3399_sdram_channel) (ch : Nat) : Nat :=
  c.row_3_4 * 2 ^ (30 + ch) + 2 ^ (28 + ch) + (c.rank - 1) * 2 ^ (11 + 16 * ch) +
  (c.col - 9) * 2 ^ (9 + 16 * ch) + (if c.bk = 3 then 0 else 1) * 2 ^ (8 + 16 * ch) +
  (c.cs0_row - 13) * 2 ^ (6 + 16 * ch) +
  (if c.rank > 1 then c.cs1_row - 13 else 0) * 2 ^ (4 + 16 * ch) +
  (2 >>> c.bw) * 2 ^ (2 + 16 * ch) + (2 >>> c.dbw) * 2 ^ (16 * ch)

/-- The bits of `acc` in the fields of channel `ch` are all zero. -/
def channel_bits_free (acc ch : Nat) : Prop :=
  acc / 2 ^ (16 * ch) % 4096 = 0 ∧ acc / 2 ^ (28 + ch) % 2 = 0 ∧ acc / 2 ^ (30 + ch) % 2 = 0

/-- The value of `sys_reg` that the loop of `dram_all_config` computes: the
same loop without its register writes. -/
def dram_all_config_sys_reg (params : rk3399_sdram_params) :
    (todo : Nat) → (channel use sys_reg : Nat) → Nat
  | 0, _, _, sys_reg => sys_reg
  | k + 1, channel, use, sys_reg =>
    if use < params.num_channels ∧ channel < 2 then
      if (params.ch channel).col = 0 then
        dram_all_config_sys_reg params k (channel + 1) use sys_reg
      else
        dram_all_config_sys_reg params k (channel + 1) (use + 1)
          (dram_all_config_enc (params.ch channel) channel sys_reg)
    else sys_reg

/-- The value of `sys_reg` at the end of `dram_all_config`. -/
def sys_reg_of (p : rk3399_sdram_params) : Nat :=
  dram_all_config_sys_reg p 2 0 0
    ((0 ||| SYS_REG_ENC_DDRTYPE p.dramtype) ||| SYS_REG_ENC_NUM_CH p.num_channels)

/-- The content of `os_reg2` once `dram_all_config` has run from machine
`m`: the value it writes there. -/
def os_reg2_written (p : rk3399_sdram_params) (m : Machine) : Nat :=
  (dram_all_config p m).m.mem Reg.pmugrf_os_reg2

/-! ## Sample inputs -/

def ex_timings : rk3399_msch_timings :=
  { ddrtiminga0 := 1, ddrtimingb0 := 2, ddrtimingc0 := 3, devtodev0 := 4, ddrmode := 5 }

/-- A single-rank channel of 256 MiB whose `cs1_row` is 14. -/
def ex_channel_single : rk3399_sdram_channel :=
  { rank := 1, col := 9, bk := 3, bw := 2, dbw := 1, row_3_4 := 0, cs0_row := 14,
    cs1_row := 14, ddrconfig := 1, noc_timings := ex_timings }

/-- A dual-rank channel with the 3/4 row flag: 768 + 384 MiB. -/
def ex_channel_dual : rk3399_sdram_channel :=
  { rank := 2, col := 10, bk := 3, bw := 2, dbw := 1, row_3_4 := 1, cs0_row := 15,
    cs1_row := 14, ddrconfig := 1, noc_timings := ex_timings }

/-- An absent channel (`col = 0`). -/
def ex_channel_absent : rk3399_sdram_channel :=
  { rank := 0, col := 0, bk := 0, bw := 0, dbw := 0, row_3_4 := 0, cs0_row := 0,
    cs1_row := 0, ddrconfig := 0, noc_timings := ex_timings }

/-- One channel of 256 MiB, DDR3 at 800 MHz. -/
def ex_params_single : rk3399_sdram_params :=
  { ch := fun i => if i = 0 then ex_channel_single else ex_channel_absent,
    ddr_freq := 800 * MHz, dramtype := DDR3, num_channels := 1, stride := 0, odt := 1,
    pctl_regs := fun _ => 0, pi_regs := fun _ => 0, phy_regs := fun _ => 0 }

/-- Two dual-rank channels, LPDDR3 at 800 MHz. -/
def ex_params_dual : rk3399_sdram_params :=
  { ch := fun _ => ex_channel_dual,
    ddr_freq := 800 * MHz, dramtype := LPDDR3, num_channels := 2, stride := 0, odt := 1,
    pctl_regs := fun _ => 0, pi_regs := fun _ => 0, phy_regs := fun _ => 0 }

/-- A machine with all registers zero and no hardware samples. -/
def ex_machine : Machine :=
  { mem := fun _ => 0, polls := [], size_mb := 0, pwrup_srefresh_exit := fun _ => 0 }

/-- Successive calls of `sdram_size_mb`: before each call the register
store is replaced by the next element of the list (the hardware registers,
`os_reg2` included, may have changed in between); the static variable is
carried over from one call to the next. -/
def sdram_size_mb_calls : Machine → List (Reg → Nat) → List (Res Nat)
  | _, [] => []
  | m, mem :: rest =>
    (sdram_size_mb { m with mem := mem }) ::
      sdram_size_mb_calls (sdram_size_mb { m with mem := mem }).m rest

/-- Capacity decoded from a register value: the sum of the channel sizes
over the decoded channel count. -/
def decoded_capacity (sys_reg : Nat) : Nat :=
  ((List.range (SYS_REG_DEC_NUM_CH sys_reg)).map (sdram_size_mb_chip sys_reg)).sum

/-- A machine whose `os_reg2` decodes to one channel of 8192 MiB. -/
def ex_machine_big : Machine :=
  { mem := fun _ => 0x6C0, polls := [], size_mb := 0, pwrup_srefresh_exit := fun _ => 0 }

/-- Two present channels of 256 MiB each, with `num_channels = 1`. -/
def ex_params_one_of_two : rk3399_sdram_params :=
  { ch := fun _ => ex_channel_single,
    ddr_freq := 800 * MHz, dramtype := DDR3, num_channels := 1, stride := 0, odt := 1,
    pctl_regs := fun _ => 0, pi_regs := fun _ => 0, phy_regs := fun _ => 0 }

/-- The capacity sums of the stride table. -/
def stride_table_sum (cap : Nat) : Prop :=
  cap = 512 ∨ cap = 1024 ∨ cap = 1536 ∨ cap = 2048 ∨ cap = 3072 ∨ cap = 4096

instance (cap : Nat) : Decidable (stride_table_sum cap) := by
  unfold stride_table_sum
  infer_instance

/-- The documented stride code of a capacity sum of the table. -/
def stride_table_code (cap : Nat) : Nat :=
  if cap = 512 then 0
  else if cap = 1024 then 0x5
  else if cap = 1536 then 0x9
  else if cap = 2048 then 0x9
  else if cap = 3072 then 0x11
  else 0xD

/-- The machine with its pending hardware samples replaced. -/
def withPolls (m : Machine) (l : List Poll) : Machine := { m with polls := l }

/-- A status that is not a return, seen at another result type. -/
def Status.lift {α β : Type} : Status α → Status β
  | Status.ret _ => Status.undef
  | Status.die => Status.die
  | Status.reset => Status.reset
  | Status.hang => Status.hang
  | Status.undef => Status.undef
  | Status.spin => Status.spin

/-- The run returned a value. -/
def Status.returned {α : Type} : Status α → Prop
  | Status.ret _ => True
  | _ => False

/-- Every event of every run of `x` satisfies `P`. -/
def TrAll {α : Type} (P : Event → Prop) (x : M α) : Prop :=
  ∀ m, ∀ e ∈ (x m).tr, P e

/-- A computation that takes no hardware sample: it never spins, and the
pending samples pass through it untouched. -/
def Steady {α : Type} (x : M α) : Prop :=
  ∀ m l, x (withPolls m l) = ⟨(x m).st, withPolls (x m).m l, (x m).tr⟩ ∧
    (x m).st ≠ Status.spin

/-- A run that did not stop for lack of samples is unchanged when more
samples are appended; the extra samples stay pending. -/
def Mono {α : Type} (x : M α) : Prop :=
  ∀ m pre rest, (x (withPolls m pre)).st ≠ Status.spin →
    x (withPolls m (pre ++ rest)) =
      ⟨(x (withPolls m pre)).st,
        withPolls (x (withPolls m pre)).m ((x (withPolls m pre)).m.polls ++ rest),
        (x (withPolls m pre)).tr⟩

/-- A computation that aborts on a faulty sample: whenever a run stopped
for lack of samples (it was polling), the same run with one more sample `q`
that shows the fault `F` returns -1 at that sample, leaving the samples
after `q` pending. -/
def FaultAborts (F : Poll → Prop) (x : M Int) : Prop :=
  ∀ m pre q post, (x (withPolls m pre)).st = Status.spin → F q →
    (x (withPolls m (pre ++ q :: post))).st = Status.ret (-1) ∧
    (x (withPolls m (pre ++ q :: post))).m.polls = post

/-- Observation fault of CA training: bits 31:30 of PHY_532, PHY_660 or
PHY_788 are not zero in the sample. -/
def ca_obs_fault (channel : Nat) (q : Poll) : Prop :=
  ((u32 (q.reg (Reg.denali_phy channel 532)) >>> 30) &&& 0x3) ≠ 0 ∨
  ((u32 (q.reg (Reg.denali_phy channel 660)) >>> 30) &&& 0x3) ≠ 0 ∨
  ((u32 (q.reg (Reg.denali_phy channel 788)) >>> 30) &&& 0x3) ≠ 0

/-- Observation fault of write leveling: bit 12 of PHY_40, PHY_168, PHY_296
or PHY_424 is set in the sample. -/
def wl_obs_fault (channel : Nat) (q : Poll) : Prop :=
  ((u32 (q.reg (Reg.denali_phy channel 40)) >>> 12) &&& 0x1) ≠ 0 ∨
  ((u32 (q.reg (Reg.denali_phy channel 168)) >>> 12) &&& 0x1) ≠ 0 ∨
  ((u32 (q.reg (Reg.denali_phy channel 296)) >>> 12) &&& 0x1) ≠ 0 ∨
  ((u32 (q.reg (Reg.denali_phy channel 424)) >>> 12) &&& 0x1) ≠ 0

/-- Observation fault of read-gate training: bits 23:22 of PHY_43, PHY_171,
PHY_299 or PHY_427 are not zero in the sample. -/
def rg_obs_fault (channel : Nat) (q : Poll) : Prop :=
  ((u32 (q.reg (Reg.denali_phy channel 43)) >>> 22) &&& 0x3) ≠ 0 ∨
  ((u32 (q.reg (Reg.denali_phy channel 171)) >>> 22) &&& 0x3) ≠ 0 ∨
  ((u32 (q.reg (Reg.denali_phy channel 299)) >>> 22) &&& 0x3) ≠ 0 ∨
  ((u32 (q.reg (Reg.denali_phy channel 427)) >>> 22) &&& 0x3) ≠ 0

/-- A hardware sample in which the interrupt status shows both success bits
of every phase (bits 8..13 of `PI_174 >> 8`) and no error bit, while every
observation register has all bits set. -/
def ex_poll_obs_fault : Poll :=
  { reg := fun r =>
      match r with
      | Reg.denali_pi _ 174 => 0x3f00 <<< 8
      | _ => 0xffffffff,
    expired := false }

/-- Registers of the DDR controller, PI and PHY blocks (and the stack slot
`pctl_start` writes). -/
def ddr_reg : Reg → Bool
  | Reg.denali_ctl _ _ => true
  | Reg.denali_pi _ _ => true
  | Reg.denali_phy _ _ => true
  | Reg.ddrc0_con_slot => true
  | _ => false

/-- Events that touch no register outside the DDR controller, PI and PHY
blocks: reads and writes of those blocks, and every event that is not a
register access (delays, the clock and reset driver, `die`,
`board_reset`). -/
def local_event : Event → Bool
  | Event.read r => ddr_reg r
  | Event.write r _ => ddr_reg r
  | _ => true

/-- An event that publishes the geometry of channel `channel`: a write of
the scheduler registers `ddrconf` or `ddrsize` of that channel (what
`set_ddrconfig` does) or a write of `os_reg2` (what `dram_all_config`
does). -/
def publishes_geometry (channel : Nat) : Event → Bool
  | Event.write (Reg.msch_ddrconf c) _ => c == channel
  | Event.write (Reg.msch_ddrsize c) _ => c == channel
  | Event.write Reg.pmugrf_os_reg2 _ => true
  | _ => false

/-- The run of `sdram_init` up to the entry of iteration `channel` of its
loop: the frequency test, the clock configuration and the iterations
before `channel`. -/
def sdram_init_enter (params : rk3399_sdram_params) : Nat → M Unit
  | 0 => do
    (if sdram_init_freq_too_high params.dramtype params.ddr_freq then die else pure ())
    rkclk_configure_ddr params.ddr_freq
  | channel + 1 => do
    sdram_init_enter params channel
    sdram_init_channel params params.dramtype params.ddr_freq channel

/-- The run of `sdram_init` up to the return of `pctl_cfg` for an active
channel; the result is the value `pctl_cfg` returned. -/
def sdram_init_upto_pctl_cfg (params : rk3399_sdram_params) (channel : Nat) : M Int := do
  sdram_init_enter params channel
  phy_pctrl_reset channel
  phy_dll_bypass_set channel params.ddr_freq
  pctl_cfg channel params

/-- The run of `sdram_init` up to the return of `data_training` for an
active channel; the result is the value `data_training` returned. -/
def sdram_init_upto_training (params : rk3399_sdram_params) (channel : Nat) : M Int := do
  let r ← sdram_init_upto_pctl_cfg params channel
  (if r ≠ 0 then board_reset else pure ())
  pctl_start channel
  (if params.dramtype = LPDDR3 then udelay 10 else pure ())
  data_training channel params PI_FULL_TRAINING

/-- A computation that returns 0 whenever it returns. -/
def ReturnsZero (x : M Int) : Prop := ∀ m r, (x m).st = Status.ret r → r = 0

/-- The end of `sdram_init` after the loop over the channels: the stride is
computed and stored in `params`, then `dram_all_config` and
`switch_to_phy_index1` run. -/
def sdram_init_finish (params : rk3399_sdram_params) : M Unit :=
  match calculate_stride params with
  | none => stop Status.undef []
  | some stride =>
    let params := { params with stride := stride }
    do
      dram_all_config params
      switch_to_phy_index1 params

/-- What `sdram_init` does after iteration `channel` of its loop: the
iterations that remain, then the end of the function. -/
def sdram_init_after (params : rk3399_sdram_params) : Nat → M Unit
  | 0 => do
    sdram_init_channel params params.dramtype params.ddr_freq 1
    sdram_init_finish params
  | _ => sdram_init_finish params

/-- The example machine with three pending hardware samples, each showing
every status bit set and every observation register at all ones: the first
ends the wait of `pctl_cfg`, the second the wait of `pctl_start`, and the
third is what the first training poll sees. -/
def ex_machine_fault : Machine :=
  withPolls ex_machine [ex_poll_obs_fault, ex_poll_obs_fault, ex_poll_obs_fault]

/-- The run returned the value `r`. -/
def Status.isRet (s : Status Int) (r : Int) : Bool :=
  match s with
  | Status.ret a => a == r
  | _ => false

/-- A chain of guarded phases as `data_training` runs them: the phases of
the list in order, each under its flag test, then `fin`. -/
def run_phases (training_flag : Nat) : List (Nat × M Int) → M Int → M Int
  | [], fin => fin
  | (bit, phase) :: l, fin =>
    data_training_phase training_flag bit phase (run_phases training_flag l fin)

/-- The five phases of `data_training` with their flag bits, in the order
of the source: CA, write leveling, read gate, read leveling, WDQ leveling. -/
def training_phases (channel : Nat) (params : rk3399_sdram_params) : List (Nat × M Int) :=
  [(PI_CA_TRAINING, data_training_ca channel params),
   (PI_WRITE_LEVELING, data_training_wl channel params),
   (PI_READ_GATE_TRAINING, data_training_rg channel params),
   (PI_READ_LEVELING, data_training_rl channel params),
   (PI_WDQ_LEVELING, data_training_wdql channel params)]

/-- The epilogue of `data_training`: clear the pull bit of PHY_927 and
return 0. -/
def data_training_epilogue (channel : Nat) : M Int := do
  clrbits32 (Reg.denali_phy channel 927) (1 <<< 22)
  pure 0

/-- Reading of "a phase that is run fails first": started in `m`, the phases
of the list whose flag bit is not requested are not run, the requested ones
are run in list order from the state the previous one left, each returns 0
until one returns `r ≠ 0` and leaves `m1`; `t` is the concatenation of
the traces of the phases that ran, the failing one included. -/
inductive FirstFailure (training_flag : Nat) :
    List (Nat × M Int) → Machine → Int → Machine → List Event → Prop
  | skip {bit : Nat} {phase : M Int} {l : List (Nat × M Int)} {m m1 : Machine} {r : Int}
      {t : List Event} :
      training_flag &&& bit ≠ bit → FirstFailure training_flag l m r m1 t →
      FirstFailure training_flag ((bit, phase) :: l) m r m1 t
  | pass {bit : Nat} {phase : M Int} {l : List (Nat × M Int)} {m m0 m1 : Machine} {r : Int}
      {t0 t : List Event} :
      training_flag &&& bit = bit → phase m = ⟨Status.ret 0, m0, t0⟩ →
      FirstFailure training_flag l m0 r m1 t →
      FirstFailure training_flag ((bit, phase) :: l) m r m1 (t0 ++ t)
  | fail {bit : Nat} {phase : M Int} {l : List (Nat × M Int)} {m m1 : Machine} {r : Int}
      {t : List Event} :
      training_flag &&& bit = bit → phase m = ⟨Status.ret r, m1, t⟩ → r ≠ 0 →
      FirstFailure training_flag ((bit, phase) :: l) m r m1 t

/-- Reading of "every phase that is run succeeds": started in `m`, the
requested phases of the list are run in order, each returns 0, and the last
leaves `m1`; `t` is the concatenation of their traces. -/
inductive AllPass (training_flag : Nat) :
    List (Nat × M Int) → Machine → Machine → List Event → Prop
  | nil {m : Machine} : AllPass training_flag [] m m []
  | skip {bit : Nat} {phase : M Int} {l : List (Nat × M Int)} {m m1 : Machine}
      {t : List Event} :
      training_flag &&& bit ≠ bit → AllPass training_flag l m m1 t →
      AllPass training_flag ((bit, phase) :: l) m m1 t
  | pass {bit : Nat} {phase : M Int} {l : List (Nat × M Int)} {m m0 m1 : Machine}
      {t0 t : List Event} :
      training_flag &&& bit = bit → phase m = ⟨Status.ret 0, m0, t0⟩ →
      AllPass training_flag l m0 m1 t →
      AllPass training_flag ((bit, phase) :: l) m m1 (t0 ++ t)

/-- A phase that is run unconditionally: a non-zero result is returned at
once, otherwise `rest` goes on. -/
def then_phase (phase rest : M Int) : M Int := do
  let ret ← phase
  if ret ≠ 0 then pure ret else rest

/-- The flag bits of the phases `data_training` runs for a training flag,
in the order of the source. -/
def requested_phases (params : rk3399_sdram_params) (training_flag : Nat) : List Nat :=
  [PI_CA_TRAINING, PI_WRITE_LEVELING, PI_READ_GATE_TRAINING, PI_READ_LEVELING,
    PI_WDQ_LEVELING].filter
    (fun bit => data_training_flag params training_flag &&& bit = bit)

/-- What the sample `q` does to a training poll loop when the round on it
decides `d`: on `again` the loop goes on with the next sample, after the
reads of this round; otherwise the loop is left at `q` with the decision
`d`, and the samples after `q` stay pending. -/
def PollOutcome (body : Unit → Poll → M (Unit ⊕ PollStep)) (q : Poll) (d : PollStep) : Prop :=
  ∀ (m : Machine) (qs : List Poll),
    (d = PollStep.again →
      while_poll body () (withPolls m (q :: qs)) =
        ⟨(while_poll body () (withPolls m qs)).st, (while_poll body () (withPolls m qs)).m,
          (body () q (withPolls m qs)).tr ++ (while_poll body () (withPolls m qs)).tr⟩) ∧
    (d ≠ PollStep.again →
      while_poll body () (withPolls m (q :: qs)) =
        ⟨Status.ret d, withPolls m qs, (body () q (withPolls m qs)).tr⟩)

/-- The interrupt status `PI_174 >> 8` of a sample. -/
def poll_status (channel : Nat) (q : Poll) : Nat :=
  u32 (q.reg (Reg.denali_pi channel 174)) >>> 8

/-- A hardware sample in which the interrupt status shows both success bits
of every phase and no error bit, and every observation register is 0. -/
def ex_poll_success : Poll :=
  { reg := fun r =>
      match r with
      | Reg.denali_pi _ 174 => 0x3f00 <<< 8
      | _ => 0,
    expired := false }

/-- The scheduler timing registers of channel `channel`: `ddrtiminga0`,
`ddrtimingb0`, `ddrtimingc0`, `devtodev0` and `ddrmode`. -/
def msch_timing_reg (channel : Nat) : Reg → Bool
  | Reg.msch_ddrtiminga0 c => c == channel
  | Reg.msch_ddrtimingb0 c => c == channel
  | Reg.msch_ddrtimingc0 c => c == channel
  | Reg.msch_devtodev0 c => c == channel
  | Reg.msch_ddrmode c => c == channel
  | _ => false

/-- An event that writes a scheduler timing register of channel `channel`. -/
def writes_msch_timing (channel : Nat) : Event → Bool
  | Event.write r _ => msch_timing_reg channel r
  | _ => false

/-- The single-channel scenario with `col = 8` on channel 0 and `col = 0`
on channel 1. -/
def ex_params_col8 : rk3399_sdram_params :=
  { ch := fun i => if i = 0 then { ex_channel_single with col := 8 } else ex_channel_absent,
    ddr_freq := 800 * MHz, dramtype := DDR3, num_channels := 1, stride := 0, odt := 1,
    pctl_regs := fun _ => 0, pi_regs := fun _ => 0, phy_regs := fun _ => 0 }

/-- The chip-select field of a training request: for a write of the
request register `r`, bits `shift + 1 : shift` of the value written. -/
def request_cs (r : Reg) (shift : Nat) : Event → Option Nat
  | Event.write r1 v => if r1 = r then some ((v >>> shift) &&& 0x3) else none
  | _ => none

/-- The chip selects of the training requests of a trace, in the order the
requests were issued. -/
def requests (r : Reg) (shift : Nat) (tr : List Event) : List Nat :=
  tr.filterMap (request_cs r shift)

/-- A computation that always returns. -/
def Returns {α : Type} (x : M α) : Prop := ∀ m, (x m).st.returned

/-- Run on `n` pending samples that all satisfy `S` (every poll succeeds),
followed by any further samples, `x` returns `a`, has taken exactly the `n`
samples, and the chip selects of the requests it issued on register `r`
are `l`, in this order. -/
def Issues (S : Poll → Prop) (r : Reg) (shift : Nat) {α : Type} (x : M α) (n : Nat)
    (l : List Nat) (a : α) : Prop :=
  ∀ (m : Machine) (pre rest : List Poll), pre.length = n → (∀ q ∈ pre, S q) →
    (x (withPolls m (pre ++ rest))).st = Status.ret a ∧
    (x (withPolls m (pre ++ rest))).m.polls = rest ∧
    requests r shift (x (withPolls m (pre ++ rest))).tr = l

/-- The indices `i .. i + todo - 1` whose bit is set in the rank mask, in
ascending order. -/
def mask_ranks_from (rank_mask : Nat) (i todo : Nat) : List Nat :=
  (List.range' i todo).filter (fun j => rank_mask &&& (1 <<< j) ≠ 0)

/-- The set bits of a rank mask among `0 .. MAX_RANKS_PER_CHANNEL - 1`, in
ascending order. -/
def mask_ranks (rank_mask : Nat) : List Nat :=
  mask_ranks_from rank_mask 0 MAX_RANKS_PER_CHANNEL

/-- A sample on which the poll of CA training succeeds at once. -/
def ca_success (channel : Nat) (q : Poll) : Prop :=
  ¬ ca_obs_fault channel q ∧ training_status (poll_status channel q) 11 13 5 = PollStep.done

/-- A sample on which the poll of write leveling succeeds at once. -/
def wl_success (channel : Nat) (q : Poll) : Prop :=
  ¬ wl_obs_fault channel q ∧ training_status (poll_status channel q) 10 13 4 = PollStep.done

/-- A sample on which the poll of read-gate training succeeds at once. -/
def rg_success (channel : Nat) (q : Poll) : Prop :=
  ¬ rg_obs_fault channel q ∧ training_status (poll_status channel q) 9 13 3 = PollStep.done

/-- A sample on which the poll of read leveling succeeds at once. -/
def rl_success (channel : Nat) (q : Poll) : Prop :=
  training_status (poll_status channel q) 8 13 2 = PollStep.done

/-- A sample on which the poll of WDQ leveling succeeds at once. -/
def wdql_success (channel : Nat) (q : Poll) : Prop :=
  training_status (poll_status channel q) 12 13 6 = PollStep.done

/-- One single-rank channel, LPDDR4 at 800 MHz. -/
def ex_params_lpddr4 : rk3399_sdram_params :=
  { ex_params_single with dramtype := LPDDR4 }

/-- The word `clrsetbits32(r, clear, set)` stores when `r` holds `v`. -/
def clrset_word (clear set v : Nat) : Nat := u32 ((u32 v &&& not32 clear) ||| set)

/-- The computation always returns, and it maps the content `v` of register
`r` to `g v`, whatever the rest of the machine holds. -/
def MemFun {α : Type} (r : Reg) (x : M α) (g : Nat → Nat) : Prop :=
  ∀ m, (x m).st.returned ∧ (x m).m.mem r = g (m.mem r)

/-- The drive value `phy_io_config` reads: bits 15:12 of PHY_6. -/
def phy_io_drv_value (channel : Nat) (m : Machine) : Nat :=
  (u32 (m.mem (Reg.denali_phy channel 6)) >>> 12) &&& 0xf

/-- The ODT value `phy_io_config` reads: bits 7:4 of PHY_6. -/
def phy_io_odt_value (channel : Nat) (m : Machine) : Nat :=
  (u32 (m.mem (Reg.denali_phy channel 6)) >>> 4) &&& 0xf

/-- The DQ reference voltage for LPDDR3 with ODT, by drive value (0xd: 48
ohm, 0xe: 40 ohm, 0xf: 34.3 ohm) and ODT value (0x1: 240 ohm, 0x8: 120 ohm,
0xc: 60 ohm); `none` outside the table. -/
def vref_table (drv_value odt_value : Nat) : Option Nat :=
  if drv_value = 0xd then
    (if odt_value = 0x1 then some 0x16 else if odt_value = 0x8 then some 0x26
      else if odt_value = 0xc then some 0x36 else none)
  else if drv_value = 0xe then
    (if odt_value = 0x1 then some 0x19 else if odt_value = 0x8 then some 0x23
      else if odt_value = 0xc then some 0x31 else none)
  else if drv_value = 0xf then
    (if odt_value = 0x1 then some 0x17 else if odt_value = 0x8 then some 0x20
      else if odt_value = 0xc then some 0x2e else none)
  else none

/-- The configurations on which `phy_io_config` is said to halt: an unknown
DRAM type, or LPDDR3 with ODT whose drive value or ODT value read from PHY_6
is outside the table. -/
def phy_io_config_invalid (channel : Nat) (params : rk3399_sdram_params) (m : Machine) :
    Prop :=
  (params.dramtype ≠ LPDDR4 ∧ params.dramtype ≠ LPDDR3 ∧ params.dramtype ≠ DDR3) ∨
  (params.dramtype = LPDDR3 ∧ params.odt = 1 ∧
    ((phy_io_drv_value channel m ≠ 0xd ∧ phy_io_drv_value channel m ≠ 0xe ∧
        phy_io_drv_value channel m ≠ 0xf) ∨
      (phy_io_odt_value channel m ≠ 0x1 ∧ phy_io_odt_value channel m ≠ 0x8 ∧
        phy_io_odt_value channel m ≠ 0xc)))

/-- The DQ reference voltage value `phy_io_config` is said to program: the
table entry for LPDDR3 with ODT, 0x1f otherwise. -/
def phy_io_vref_value_dq (channel : Nat) (params : rk3399_sdram_params) (m : Machine) : Nat :=
  if params.dramtype = LPDDR3 ∧ params.odt = 1 then
    (vref_table (phy_io_drv_value channel m) (phy_io_odt_value channel m)).getD 0
  else 0x1f

/-- The DQ reference voltage mode of `phy_io_config`. -/
def phy_io_vref_mode_dq (params : rk3399_sdram_params) : Nat :=
  if params.dramtype = LPDDR4 then 0x6
  else if params.dramtype = LPDDR3 then (if params.odt = 1 then 0x5 else 0x2)
  else 0x1

/-- A machine whose PHY_6 (of every channel) has the read termination
enable set in the DQS termination field (bits 26:24 hold 1), as
`set_ds_odt` leaves it for `odt = 1`; every other register is 0. -/
def ex_machine_odt : Machine :=
  { mem := fun r =>
      match r with
      | Reg.denali_phy _ 6 => 1 <<< 24
      | _ => 0,
    polls := [], size_mb := 0, pwrup_srefresh_exit := fun _ => 0 }

/-- A machine whose PHY_84 has the per-CS training enable (bit 16) set;
every other register is 0. -/
def ex_machine_per_cs : Machine :=
  { mem := fun r =>
      match r with
      | Reg.denali_phy _ 84 => 1 <<< 16
      | _ => 0,
    polls := [], size_mb := 0, pwrup_srefresh_exit := fun _ => 0 }

/-- The registers and field offsets of the eight half-cycle adjustments of
`pctl_cfg`, in source order. -/
def half_cycle_fields (channel : Nat) : List (Reg × Nat) :=
  [(Reg.denali_phy channel 84, 8), (Reg.denali_phy channel 212, 8),
   (Reg.denali_phy channel 340, 8), (Reg.denali_phy channel 468, 8),
   (Reg.denali_phy channel 83, 16), (Reg.denali_phy channel 211, 16),
   (Reg.denali_phy channel 339, 16), (Reg.denali_phy channel 467, 16)]

/-- The word one half-cycle adjustment at offset `off` stores when the
register holds `v`. -/
def half_cycle_word (off v : Nat) : Nat :=
  clrset_word (0xff <<< off) ((((u32 v >>> off) &&& 0xff) + 0x10) <<< off) v

/-- A machine whose PHY_84 holds 0xf0 in bits 15:8 and zero elsewhere. -/
def ex_machine_half_cycle_high : Machine :=
  { mem := fun r =>
      match r with
      | Reg.denali_phy _ 84 => 0xf0 <<< 8
      | _ => 0,
    polls := [], size_mb := 0, pwrup_srefresh_exit := fun _ => 0 }

/-- A machine whose PHY_84 holds 0x21 in bits 15:8 and ones elsewhere, the
other registers zero. -/
def ex_machine_half_cycle : Machine :=
  { mem := fun r =>
      match r with
      | Reg.denali_phy _ 84 => 0xffff21ff
      | _ => 0,
    polls := [], size_mb := 0, pwrup_srefresh_exit := fun _ => 0 }

/-- The registers `set_memory_map` writes, in source order. -/
def memory_map_regs (channel : Nat) : List Reg :=
  [Reg.denali_ctl channel 191, Reg.denali_ctl channel 190, Reg.denali_ctl channel 196,
   Reg.denali_pi channel 199, Reg.denali_pi channel 155, Reg.denali_pi channel 41,
   Reg.denali_pi channel 34]

/-- The DQ/DQS selection word as the specification gives it: 0x01EE01 for
LPDDR4, 0x10FF10 for LPDDR3, 0x11FF11 otherwise. -/
def ds_odt_dq_value_spec (dramtype : Nat) : Nat :=
  if dramtype = LPDDR4 then 0x01EE01
  else if dramtype = LPDDR3 then 0x10FF10
  else 0x11FF11

/-- The CA selection byte as the specification gives it: 0xEE for LPDDR4,
0xDD for LPDDR3, 0xFF otherwise. -/
def ds_odt_ca_value_spec (dramtype : Nat) : Nat :=
  if dramtype = LPDDR4 then 0xEE
  else if dramtype = LPDDR3 then 0xDD
  else 0xFF

/-- The data-slice registers whose low 24 bits `set_ds_odt` writes: the DQ
registers, then the DQS registers. -/
def ds_odt_dq_regs (channel : Nat) : List Reg :=
  [Reg.denali_phy channel 6, Reg.denali_phy channel 134, Reg.denali_phy channel 262,
   Reg.denali_phy channel 390, Reg.denali_phy channel 7, Reg.denali_phy channel 135,
   Reg.denali_phy channel 263, Reg.denali_phy channel 391]

/-- The address and control registers whose low 8 bits `set_ds_odt` writes
with the CA selection. -/
def ds_odt_ca_regs (channel : Nat) : List Reg :=
  [Reg.denali_phy channel 544, Reg.denali_phy channel 672, Reg.denali_phy channel 800,
   Reg.denali_phy channel 928, Reg.denali_phy channel 929, Reg.denali_phy channel 935,
   Reg.denali_phy channel 937, Reg.denali_phy channel 939]

/-- The computation leaves register `r` as it was, however it ends. -/
def Keeps {α : Type} (r : Reg) (x : M α) : Prop := ∀ m, (x m).m.mem r = m.mem r

/-- A hardware sample in which every register reads all ones: the PHY
reports its lock bits set. -/
def ex_poll_phy_ready : Poll :=
  { reg := fun _ => 0xffffffff, expired := false }

/-- The zero machine with one sample for the wait loop of `pctl_cfg`. -/
def ex_machine_phy_ready : Machine := withPolls ex_machine [ex_poll_phy_ready]

/-- The single-channel DDR3 block with 0xf0 in bits 15:8 of word 84 of the
PHY image. -/
def ex_params_half_cycle_high : rk3399_sdram_params :=
  { ex_params_single with phy_regs := fun i => if i = 84 then 0xf0 <<< 8 else 0 }

/-- The data model of the parameter block, as far as `calculate_stride`
needs it: `num_channels` is the number of active channels and `col == 0`
marks an absent one, so a block that declares one channel does not populate
both.  Every block whose `num_channels` is the number of populated channels
satisfies this. -/
def one_channel_consistent (p : rk3399_sdram_params) : Prop :=
  p.num_channels = 1 → (p.ch 0).col = 0 ∨ (p.ch 1).col = 0

instance (p : rk3399_sdram_params) : Decidable (one_channel_consistent p) := by
  unfold one_channel_consistent
  infer_instance

/-- Two channels of 512 MiB each, with a supplied stride of 0x21. -/
def ex_params_two_512 : rk3399_sdram_params :=
  { ch := fun _ => { ex_channel_single with col := 10 },
    ddr_freq := 800 * MHz, dramtype := DDR3, num_channels := 2, stride := 0x21, odt := 1,
    pctl_regs := fun _ => 0, pi_regs := fun _ => 0, phy_regs := fun _ => 0 }

/-- No encoder of the DRAM type or of channel 0 leaves the bits of channel 0
in the persistent register: no field is below the base its macro subtracts
(no wrap), none is so large that its shifted value reaches bit 16, and
`row_3_4` is a flag. -/
def enc_within_channel0 (dramtype : Nat) (c : rk3399_sdram_channel) : Prop :=
  dramtype < 8 ∧ c.row_3_4 ≤ 1 ∧ (1 ≤ c.rank ∧ c.rank ≤ 32) ∧ (9 ≤ c.col ∧ c.col ≤ 136) ∧
  (13 ≤ c.cs0_row ∧ c.cs0_row ≤ 1036) ∧ (c.rank > 1 → 13 ≤ c.cs1_row ∧ c.cs1_row ≤ 4108)

instance (dramtype : Nat) (c : rk3399_sdram_channel) :
    Decidable (enc_within_channel0 dramtype c) := by
  unfold enc_within_channel0
  infer_instance

/-- A single-channel block outside the geometry of the data sheet whose
encoders stay within the bits of channel 0: rank 3, 15 columns, 8 banks. -/
def ex_params_wide : rk3399_sdram_params :=
  { ch := fun i =>
      if i = 0 then
        { rank := 3, col := 15, bk := 7, bw := 2, dbw := 2, row_3_4 := 0, cs0_row := 16,
          cs1_row := 14, ddrconfig := 1, noc_timings := ex_timings }
      else ex_channel_absent,
    ddr_freq := 800 * MHz, dramtype := DDR3, num_channels := 1, stride := 0, odt := 1,
    pctl_regs := fun _ => 0, pi_regs := fun _ => 0, phy_regs := fun _ => 0 }

/-- The `col = 8` scenario with other values in the fields of the absent
channel 1 (`col = 0` still). -/
def ex_params_col8_other : rk3399_sdram_params :=
  { ex_params_col8 with
    ch := fun i => if i = 0 then ex_params_col8.ch 0 else { ex_channel_dual with col := 0 } }

/-- The reads of one poll round of a training phase: the interrupt status
PI_174, then the observation registers `obs` of the PHY. -/
def poll_reads (channel : Nat) (obs : List Nat) : List Event :=
  Event.read (Reg.denali_pi channel 174) ::
    obs.map (fun i => Event.read (Reg.denali_phy channel i))

/-- The statement that follows the poll loop of a rank in every training
phase: `write32(&denali_pi[175], 0x00003f7c)`. -/
def rank_ack (channel : Nat) : Event := Event.write (Reg.denali_pi channel 175) 0x00003f7c

/-- The phase polls again: with the sample as the last one it has read the
registers of the round, done nothing else, and waits for the next sample.
`t0` is the trace up to the sample and `run post` the run in which `post`
are the samples after it. -/
def PollsAgain (reads t0 : List Event) (run : List Poll → Res Int) : Prop :=
  (run []).st = Status.spin ∧ (run []).tr = t0 ++ reads

/-- The phase returns -1 at the sample: whatever samples follow, the run
ends with -1 after the reads of the round and leaves those samples
pending. -/
def ReturnsFail (reads t0 : List Event) (run : List Poll → Res Int) : Prop :=
  ∀ post, (run post).st = Status.ret (-1) ∧ (run post).m.polls = post ∧
    (run post).tr = t0 ++ reads

/-- The phase finishes the current rank: after the reads of the round it
leaves the poll loop and executes the statement `ack` that follows the loop,
then goes on (with the sample as the last one it ends polling for a later
rank or returns 0). -/
def FinishesRank (reads : List Event) (ack : Event) (t0 : List Event)
    (run : List Poll → Res Int) : Prop :=
  ((run []).st = Status.spin ∨ (run []).st = Status.ret 0) ∧
  ∃ rest, (run []).tr = t0 ++ reads ++ ack :: rest

/-- The behaviour that goes with the decision `d` of a round. -/
def Outcome (reads : List Event) (ack : Event) (d : PollStep) (t0 : List Event)
    (run : List Poll → Res Int) : Prop :=
  match d with
  | PollStep.again => PollsAgain reads t0 run
  | PollStep.fail => ReturnsFail reads t0 run
  | PollStep.done => FinishesRank reads ack t0 run

/-- A computation that was polling shows, on one more sample `q`, the
behaviour of the decision `d`. -/
def PollReacts (x : M Int) (q : Poll) (reads : List Event) (ack : Event) (d : PollStep) :
    Prop :=
  ∀ m pre, (x (withPolls m pre)).st = Status.spin →
    Outcome reads ack d (x (withPolls m pre)).tr
      (fun post => x (withPolls m (pre ++ q :: post)))

/-- Without pending samples the computation waits for one or returns 0. -/
def Idle (x : M Int) : Prop :=
  ∀ m, m.polls = [] → (x m).st = Status.spin ∨ (x m).st = Status.ret 0

/-- Without pending samples the computation starts with the event `ack` and
then waits for a sample or returns 0. -/
def AckFirst (ack : Event) (x : M Int) : Prop :=
  ∀ m, m.polls = [] →
    ((x m).st = Status.spin ∨ (x m).st = Status.ret 0) ∧ ∃ t, (x m).tr = ack :: t

/-- Both success bits `s1`, `s2` of the status word are set and the error
bit `e` is clear. -/
def status_success (s s1 s2 e : Nat) : Prop :=
  ((s >>> s1) &&& 0x1) = 0x1 ∧ ((s >>> s2) &&& 0x1) = 0x1 ∧ ((s >>> e) &&& 0x1) = 0x0

/-- The error bit `e` of the status word is set. -/
def status_error (s e : Nat) : Prop := ((s >>> e) &&& 0x1) = 0x1

/-- Per-poll outcome of a training phase `x` that is polling after the
samples `pre`, on the next sample `q`, with `s = PI_174 >> 8` of that
sample: the phase finishes the current rank exactly when both success bits
are set and the error bit is clear, returns -1 exactly when the error bit is
set, and polls again exactly when neither holds. -/
def PerPollOutcome (x : M Int) (channel : Nat) (obs : List Nat) (s1 s2 e : Nat)
    (m : Machine) (pre : List Poll) (q : Poll) : Prop :=
  (FinishesRank (poll_reads channel obs) (rank_ack channel) (x (withPolls m pre)).tr
      (fun post => x (withPolls m (pre ++ q :: post))) ↔
    status_success (poll_status channel q) s1 s2 e) ∧
  (ReturnsFail (poll_reads channel obs) (x (withPolls m pre)).tr
      (fun post => x (withPolls m (pre ++ q :: post))) ↔
    status_error (poll_status channel q) e) ∧
  (PollsAgain (poll_reads channel obs) (x (withPolls m pre)).tr
      (fun post => x (withPolls m (pre ++ q :: post))) ↔
    ¬ status_success (poll_status channel q) s1 s2 e ∧ ¬ status_error (poll_status channel q) e)

/-- A hardware sample whose interrupt status has every error bit of the
training phases set (bits 2..6 of `PI_174 >> 8`) and no success bit, and
whose observation registers are 0. -/
def ex_poll_error : Poll :=
  { reg := fun r =>
      match r with
      | Reg.denali_pi _ 174 => 0x7c <<< 8
      | _ => 0,
    expired := false }

/-- A hardware sample in which every register reads 0: no success bit, no
error bit, no observation fault. -/
def ex_poll_idle : Poll :=
  { reg := fun _ => 0, expired := false }

/-- The fields of channel 1 in a value of the persistent register (bits 31,
29 and 27:16) are all 0. -/
def channel1_fields_clear (v : Nat) : Prop :=
  bits v 31 31 = 0 ∧ bits v 29 29 = 0 ∧ bits v 27 16 = 0

instance (v : Nat) : Decidable (channel1_fields_clear v) := by
  unfold channel1_fields_clear
  infer_instance

/-- A single-channel block with DRAM type `dramtype`, channel 0 equal to `c`
and channel 1 absent. -/
def ex_params_channel0 (dramtype : Nat) (c : rk3399_sdram_channel) : rk3399_sdram_params :=
  { ex_params_single with
    dramtype := dramtype, ch := fun i => if i = 0 then c else ex_channel_absent }

/-- A channel with the given rank, column, row and flag fields, 8 banks
and full bus width. -/
def ex_channel_of (rank col cs0_row cs1_row row_3_4 : Nat) : rk3399_sdram_channel :=
  { rank := rank, col := col, bk := 3, bw := 2, dbw := 1, row_3_4 := row_3_4,
    cs0_row := cs0_row, cs1_row := cs1_row, ddrconfig := 1, noc_timings := ex_timings }

/-! ## Running the monad -/

theorem bind_def {α β : Type} (x : M α) (f : α → M β) : (x >>= f) = M.bind x f := rfl

theorem pure_def {α : Type} (a : α) : (pure a : M α) = M.pure a := rfl

@[simp] theorem write32_run (r : Reg) (v : Nat) (m : Machine) :
    write32 r v m =
      ⟨Status.ret (), { m with mem := setReg m.mem r (u32 v) }, [Event.write r (u32 v)]⟩ := rfl

@[simp] theorem read32_run (r : Reg) (m : Machine) :
    read32 r m = ⟨Status.ret (u32 (m.mem r)), m, [Event.read r]⟩ := rfl

@[simp] theorem pure_run {α : Type} (a : α) (m : Machine) :
    M.pure a m = ⟨Status.ret a, m, []⟩ := rfl

/-! ## The persistent register -/

theorem dram_all_config_run (p : rk3399_sdram_params) (m : Machine) :
    (dram_all_config p m).st = Status.ret () ∧
    (dram_all_config p m).m.mem Reg.pmugrf_os_reg2 = u32 (sys_reg_of p) ∧
    Event.write Reg.pmugrf_os_reg2 (u32 (sys_reg_of p)) ∈ (dram_all_config p m).tr := by
  unfold dram_all_config sys_reg_of
  simp only [dram_all_config_loop, dram_all_config_sys_reg, DDR_STRIDE, setbits32, clrsetbits32]
  split_ifs <;>
    simp [bind_def, pure_def, M.bind, setReg]

theorem lor_eq_add (a f p w : Nat) (hf : f < 2 ^ w) (ha : a / 2 ^ p % 2 ^ w = 0) :
    a ||| f * 2 ^ p = a + f * 2 ^ p := by
  have hL : a % 2 ^ p < 2 ^ p := Nat.mod_lt _ (by positivity)
  have hpw : (2:Nat) ^ p ≤ 2 ^ (p + w) := Nat.pow_le_pow_right (by norm_num) (by omega)
  obtain ⟨H, hH⟩ : ∃ H, a / 2 ^ p = 2 ^ w * H := by
    have h := Nat.div_add_mod (a / 2 ^ p) (2 ^ w)
    rw [ha, Nat.add_zero] at h
    exact ⟨_, h.symm⟩
  have hdecomp : a = 2 ^ (p + w) * H + a % 2 ^ p := by
    have h1 := Nat.div_add_mod a (2 ^ p)
    rw [Nat.pow_add, Nat.mul_assoc, ← hH, h1]
  have hlt : 2 ^ p * f + a % 2 ^ p < 2 ^ (p + w) := by
    rw [Nat.pow_add]
    calc 2 ^ p * f + a % 2 ^ p < 2 ^ p * f + 2 ^ p := by omega
      _ = 2 ^ p * (f + 1) := by ring
      _ ≤ 2 ^ p * 2 ^ w := Nat.mul_le_mul_left _ (by omega)
  generalize a % 2 ^ p = L at *
  subst hdecomp
  rw [Nat.mul_comm f]
  rw [Nat.mul_add_lt_is_or (lt_of_lt_of_le hL hpw) H, Nat.lor_assoc, Nat.lor_comm L,
    ← Nat.mul_add_lt_is_or hL f, ← Nat.mul_add_lt_is_or hlt H,
    ← Nat.mul_add_lt_is_or (lt_of_lt_of_le hL hpw) H]
  omega

theorem shr_bw (n : Nat) (h : n ≤ 2) : 2 >>> n < 4 ∧ 2 >>> (2 >>> n) = n := by
  interval_cases n <;> decide

theorem channel_enc_eq (c : rk3399_sdram_channel) (ch acc : Nat) (hch : ch = 0 ∨ ch = 1)
    (hv : valid_geometry c) (hfree : channel_bits_free acc ch) :
    dram_all_config_enc c ch acc = acc + channel_word c ch := by
  obtain ⟨hrank, ⟨hc1, hc2⟩, hbk, ⟨hr1, hr2⟩, ⟨hs1, hs2⟩, hbw, hdbw, h34⟩ := hv
  obtain ⟨h1, h2, h3⟩ := hfree
  obtain ⟨hbw1, -⟩ := shr_bw c.bw hbw
  obtain ⟨hdbw1, -⟩ := shr_bw c.dbw hdbw
  have hbk1 : (if c.bk = 3 then 0 else 1) < 2 := by split_ifs <;> omega
  have e1 : SYS_REG_ENC_ROW_3_4 c.row_3_4 ch = c.row_3_4 * 2 ^ (30 + ch) := by
    rcases hch with rfl | rfl <;>
      (simp only [SYS_REG_ENC_ROW_3_4, u32, Nat.shiftLeft_eq]; norm_num; omega)
  have e2 : SYS_REG_ENC_CHINFO ch = 1 * 2 ^ (28 + ch) := by
    rcases hch with rfl | rfl <;>
      (simp only [SYS_REG_ENC_CHINFO, u32, Nat.shiftLeft_eq]; norm_num)
  have e3 : SYS_REG_ENC_RANK c.rank ch = (c.rank - 1) * 2 ^ (11 + 16 * ch) := by
    rcases hch with rfl | rfl <;>
      (simp only [SYS_REG_ENC_RANK, u32, Nat.shiftLeft_eq]; norm_num; omega)
  have e4 : SYS_REG_ENC_COL c.col ch = (c.col - 9) * 2 ^ (9 + 16 * ch) := by
    rcases hch with rfl | rfl <;>
      (simp only [SYS_REG_ENC_COL, u32, Nat.shiftLeft_eq]; norm_num; omega)
  have e5 : SYS_REG_ENC_BK c.bk ch = (if c.bk = 3 then 0 else 1) * 2 ^ (8 + 16 * ch) := by
    rcases hch with rfl | rfl <;>
      (simp only [SYS_REG_ENC_BK, u32, Nat.shiftLeft_eq]; split_ifs <;> norm_num)
  have e6 : SYS_REG_ENC_CS0_ROW c.cs0_row ch = (c.cs0_row - 13) * 2 ^ (6 + 16 * ch) := by
    rcases hch with rfl | rfl <;>
      (simp only [SYS_REG_ENC_CS0_ROW, u32, Nat.shiftLeft_eq]; norm_num; omega)
  have e7 : SYS_REG_ENC_CS1_ROW c.cs1_row ch = (c.cs1_row - 13) * 2 ^ (4 + 16 * ch) := by
    rcases hch with rfl | rfl <;>
      (simp only [SYS_REG_ENC_CS1_ROW, u32, Nat.shiftLeft_eq]; norm_num; omega)
  have e8 : SYS_REG_ENC_BW c.bw ch = (2 >>> c.bw) * 2 ^ (2 + 16 * ch) := by
    rcases hch with rfl | rfl <;>
      (simp only [SYS_REG_ENC_BW, u32, Nat.shiftLeft_eq]; norm_num; omega)
  have e9 : SYS_REG_ENC_DBW c.dbw ch = (2 >>> c.dbw) * 2 ^ (0 + 16 * ch) := by
    rcases hch with rfl | rfl <;>
      (simp only [SYS_REG_ENC_DBW, u32, Nat.shiftLeft_eq]; norm_num; omega)
  unfold dram_all_config_enc channel_word
  simp only [e1, e2, e3, e4, e5, e6, e7, e8, e9]
  generalize (if c.bk = 3 then 0 else 1) = fbk at *
  generalize 2 >>> c.bw = fbw at *
  generalize 2 >>> c.dbw = fdbw at *
  clear e1 e2 e3 e4 e5 e6 e7 e8 e9
  rcases hrank with hr | hr <;>
    simp only [hr, gt_iff_lt, Nat.lt_irrefl, if_false, Nat.one_lt_ofNat, if_true] <;>
    rcases hch with rfl | rfl <;>
    simp only [Nat.add_zero, Nat.zero_add, Nat.mul_zero, Nat.mul_one, Nat.reduceAdd]
      at h1 h2 h3 ⊢
  · rw [lor_eq_add _ _ 30 1 (by omega) (by omega), lor_eq_add _ _ 28 1 (by omega) (by omega),
      lor_eq_add _ _ 11 1 (by omega) (by omega), lor_eq_add _ _ 9 2 (by omega) (by omega),
      lor_eq_add _ _ 8 1 (by omega) (by omega), lor_eq_add _ _ 6 2 (by omega) (by omega),
      lor_eq_add _ _ 2 2 (by omega) (by omega), lor_eq_add _ _ 0 2 (by omega) (by omega)]
    omega
  · rw [lor_eq_add _ _ 31 1 (by omega) (by omega), lor_eq_add _ _ 29 1 (by omega) (by omega),
      lor_eq_add _ _ 27 1 (by omega) (by omega), lor_eq_add _ _ 25 2 (by omega) (by omega),
      lor_eq_add _ _ 24 1 (by omega) (by omega), lor_eq_add _ _ 22 2 (by omega) (by omega),
      lor_eq_add _ _ 18 2 (by omega) (by omega), lor_eq_add _ _ 16 2 (by omega) (by omega)]
    omega
  · rw [lor_eq_add _ _ 30 1 (by omega) (by omega), lor_eq_add _ _ 28 1 (by omega) (by omega),
      lor_eq_add _ _ 11 1 (by omega) (by omega), lor_eq_add _ _ 9 2 (by omega) (by omega),
      lor_eq_add _ _ 8 1 (by omega) (by omega), lor_eq_add _ _ 6 2 (by omega) (by omega),
      lor_eq_add _ _ 4 2 (by omega) (by omega),
      lor_eq_add _ _ 2 2 (by omega) (by omega), lor_eq_add _ _ 0 2 (by omega) (by omega)]
    omega
  · rw [lor_eq_add _ _ 31 1 (by omega) (by omega), lor_eq_add _ _ 29 1 (by omega) (by omega),
      lor_eq_add _ _ 27 1 (by omega) (by omega), lor_eq_add _ _ 25 2 (by omega) (by omega),
      lor_eq_add _ _ 24 1 (by omega) (by omega), lor_eq_add _ _ 22 2 (by omega) (by omega),
      lor_eq_add _ _ 20 2 (by omega) (by omega),
      lor_eq_add _ _ 18 2 (by omega) (by omega), lor_eq_add _ _ 16 2 (by omega) (by omega)]
    omega

theorem channel_word_form (c : rk3399_sdram_channel) (hv : valid_geometry c) :
    ∃ fbk fcs1 fbw fdbw : Nat, fbk ≤ 1 ∧ fcs1 ≤ 3 ∧ fbw ≤ 2 ∧ fdbw ≤ 2 ∧
      fbk = (if c.bk = 3 then 0 else 1) ∧
      fcs1 = (if c.rank > 1 then c.cs1_row - 13 else 0) ∧
      fbw = 2 >>> c.bw ∧ fdbw = 2 >>> c.dbw ∧
      2 >>> fbw = c.bw ∧ 2 >>> fdbw = c.dbw ∧
      channel_word c 0 = c.row_3_4 * 1073741824 + 268435456 + (c.rank - 1) * 2048 +
        (c.col - 9) * 512 + fbk * 256 + (c.cs0_row - 13) * 64 + fcs1 * 16 + fbw * 4 + fdbw ∧
      channel_word c 1 = c.row_3_4 * 2147483648 + 536870912 + (c.rank - 1) * 134217728 +
        (c.col - 9) * 33554432 + fbk * 16777216 + (c.cs0_row - 13) * 4194304 +
        fcs1 * 1048576 + fbw * 262144 + fdbw * 65536 := by
  obtain ⟨hrank, ⟨hc1, hc2⟩, hbk, ⟨hr1, hr2⟩, ⟨hs1, hs2⟩, hbw, hdbw, h34⟩ := hv
  refine ⟨_, _, _, _, ?_, ?_, ?_, ?_, rfl, rfl, rfl, rfl, ?_, ?_, ?_, ?_⟩
  · split_ifs <;> omega
  · split_ifs <;> omega
  · interval_cases c.bw <;> decide
  · interval_cases c.dbw <;> decide
  · exact (shr_bw _ hbw).2
  · exact (shr_bw _ hdbw).2
  · simp only [channel_word]; norm_num
  · simp only [channel_word]; norm_num

theorem sys_reg_base (p : rk3399_sdram_params) (hd : p.dramtype < 8)
    (hn : p.num_channels = 1 ∨ p.num_channels = 2) :
    (0 ||| SYS_REG_ENC_DDRTYPE p.dramtype) ||| SYS_REG_ENC_NUM_CH p.num_channels
      = p.dramtype * 8192 + (p.num_channels - 1) * 4096 := by
  have e1 : SYS_REG_ENC_DDRTYPE p.dramtype = p.dramtype * 2 ^ 13 := by
    simp only [SYS_REG_ENC_DDRTYPE, u32, Nat.shiftLeft_eq]; norm_num; omega
  have e2 : SYS_REG_ENC_NUM_CH p.num_channels = (p.num_channels - 1) * 2 ^ 12 := by
    simp only [SYS_REG_ENC_NUM_CH, u32, Nat.shiftLeft_eq]; norm_num; omega
  rw [e1, e2, Nat.zero_or, lor_eq_add _ _ 12 1 (by omega) (by omega)]
  omega

theorem sys_reg_steps (p : rk3399_sdram_params) (b : Nat) :
    dram_all_config_sys_reg p 2 0 0 b =
      (if channel_active p 1 then
        dram_all_config_enc (p.ch 1) 1
          (if channel_active p 0 then dram_all_config_enc (p.ch 0) 0 b else b)
      else (if channel_active p 0 then dram_all_config_enc (p.ch 0) 0 b else b)) := by
  simp only [dram_all_config_sys_reg, channel_active, populated_below]
  by_cases h0 : (p.ch 0).col = 0 <;> by_cases h1 : (p.ch 1).col = 0 <;>
    by_cases hn0 : 0 < p.num_channels <;> by_cases hn1 : 1 < p.num_channels <;>
    first | (exfalso; omega) | simp [h0, h1, hn0, hn1]

/-- Layout of the persistent register as a sum of its fields. -/
theorem sys_reg_layout (p : rk3399_sdram_params) (hv : valid_params p) :
    sys_reg_of p = p.dramtype * 8192 + (p.num_channels - 1) * 4096 +
      (if channel_active p 0 then channel_word (p.ch 0) 0 else 0) +
      (if channel_active p 1 then channel_word (p.ch 1) 1 else 0) := by
  obtain ⟨hd, hn, hg⟩ := hv
  have hg0 := hg 0 (by omega)
  have hg1 := hg 1 (by omega)
  unfold sys_reg_of
  rw [sys_reg_base p hd hn, sys_reg_steps]
  have hfree0 : channel_bits_free (p.dramtype * 8192 + (p.num_channels - 1) * 4096) 0 := by
    simp only [channel_bits_free]; norm_num; omega
  have hfree1 : channel_bits_free (p.dramtype * 8192 + (p.num_channels - 1) * 4096) 1 := by
    simp only [channel_bits_free]; norm_num; omega
  by_cases h0 : channel_active p 0 <;> by_cases h1 : channel_active p 1
  · rw [if_pos h0, if_pos h1, if_pos h0, if_pos h1,
      channel_enc_eq _ 0 _ (Or.inl rfl) (hg0 h0) hfree0,
      channel_enc_eq _ 1 _ (Or.inr rfl) (hg1 h1)]
    obtain ⟨fbk, fcs1, fbw, fdbw, b1, b2, b3, b4, -, -, -, -, -, -, w0, -⟩ :=
      channel_word_form _ (hg0 h0)
    obtain ⟨a1, a2, a3, a4, a5, a6, a7, a8⟩ := hg0 h0
    simp only [channel_bits_free]; norm_num
    rw [w0]
    omega
  · rw [if_pos h0, if_neg h1, if_pos h0, if_neg h1,
      channel_enc_eq _ 0 _ (Or.inl rfl) (hg0 h0) hfree0]
    omega
  · rw [if_neg h0, if_pos h1, if_neg h0, if_pos h1,
      channel_enc_eq _ 1 _ (Or.inr rfl) (hg1 h1) hfree1]
    omega
  · rw [if_neg h0, if_neg h1, if_neg h0, if_neg h1]
    omega

/-- The fields of channel `ch` in the persistent register, as bounded
numbers: those of the geometry when the channel is active, zero otherwise. -/
theorem channel_fields (p : rk3399_sdram_params) (hv : valid_params p) (ch : Nat)
    (hch : ch = 0 ∨ ch = 1) :
    ∃ r34 info rk cl bk c0 c1 bw db : Nat,
      r34 ≤ 1 ∧ info ≤ 1 ∧ rk ≤ 1 ∧ cl ≤ 3 ∧ bk ≤ 1 ∧ c0 ≤ 3 ∧ c1 ≤ 3 ∧ bw ≤ 2 ∧ db ≤ 2 ∧
      (if channel_active p ch then channel_word (p.ch ch) ch else 0) =
        r34 * 2 ^ (30 + ch) + info * 2 ^ (28 + ch) +
          (rk * 2048 + cl * 512 + bk * 256 + c0 * 64 + c1 * 16 + bw * 4 + db) * 2 ^ (16 * ch) ∧
      (channel_active p ch →
        r34 = (p.ch ch).row_3_4 ∧ info = 1 ∧ rk = (p.ch ch).rank - 1 ∧
        cl = (p.ch ch).col - 9 ∧ bk = (if (p.ch ch).bk = 3 then 0 else 1) ∧
        c0 = (p.ch ch).cs0_row - 13 ∧
        c1 = (if (p.ch ch).rank > 1 then (p.ch ch).cs1_row - 13 else 0) ∧
        bw = 2 >>> (p.ch ch).bw ∧ db = 2 >>> (p.ch ch).dbw ∧
        2 >>> bw = (p.ch ch).bw ∧ 2 >>> db = (p.ch ch).dbw) ∧
      (¬ channel_active p ch →
        r34 = 0 ∧ info = 0 ∧ rk = 0 ∧ cl = 0 ∧ bk = 0 ∧ c0 = 0 ∧ c1 = 0 ∧ bw = 0 ∧ db = 0) := by
  by_cases h : channel_active p ch
  · have hg := hv.2.2 ch (by omega) h
    obtain ⟨fbk, fcs1, fbw, fdbw, b1, b2, b3, b4, e1, e2, e3, e4, e5, e6, w0, w1⟩ :=
      channel_word_form _ hg
    obtain ⟨a1, a2, a3, a4, a5, a6, a7, a8⟩ := hg
    refine ⟨(p.ch ch).row_3_4, 1, (p.ch ch).rank - 1, (p.ch ch).col - 9, fbk,
      (p.ch ch).cs0_row - 13, fcs1, fbw, fdbw, a8, le_refl _, by omega, by omega, b1, by omega,
      b2, b3, b4, ?_, fun _ => ⟨rfl, rfl, rfl, rfl, e1, rfl, e2, e3, e4, e5, e6⟩,
      fun hn => absurd h hn⟩
    rw [if_pos h]
    rcases hch with rfl | rfl
    · rw [w0]; norm_num; omega
    · rw [w1]; norm_num; omega
  · exact ⟨0, 0, 0, 0, 0, 0, 0, 0, 0, by simp [h]⟩

/-- The content of `os_reg2` after `dram_all_config`: it is the value the
function writes, and it is the sum of the encoded fields. -/
theorem os_reg2_written_eq (p : rk3399_sdram_params) (m : Machine) (hv : valid_params p) :
    Event.write Reg.pmugrf_os_reg2 (os_reg2_written p m) ∈ (dram_all_config p m).tr ∧
    os_reg2_written p m = p.dramtype * 8192 + (p.num_channels - 1) * 4096 +
      (if channel_active p 0 then channel_word (p.ch 0) 0 else 0) +
      (if channel_active p 1 then channel_word (p.ch 1) 1 else 0) := by
  obtain ⟨-, h2, h3⟩ := dram_all_config_run p m
  have hl := sys_reg_layout p hv
  have hlt : sys_reg_of p < 4294967296 := by
    rw [hl]
    obtain ⟨r34, info, rk, cl, bk, c0, c1, bw, db, b1, b2, b3, b4, b5, b6, b7, b8, b9, w, -, -⟩ :=
      channel_fields p hv 0 (Or.inl rfl)
    obtain ⟨r34', info', rk', cl', bk', c0', c1', bw', db', d1, d2, d3, d4, d5, d6, d7, d8, d9,
      w', -, -⟩ := channel_fields p hv 1 (Or.inr rfl)
    obtain ⟨hd, hn, -⟩ := hv
    rw [w, w']
    norm_num
    omega
  have hu : u32 (sys_reg_of p) = sys_reg_of p := by
    unfold u32; omega
  unfold os_reg2_written
  rw [hu] at h2 h3
  exact ⟨by rw [h2]; exact h3, by rw [h2]; exact hl⟩






/-- Extraction of the seven low fields of one channel from their sum. -/
theorem channel_low_fields (A rk cl bk c0 c1 bw db : Nat)
    (hA : A = rk * 2048 + cl * 512 + bk * 256 + c0 * 64 + c1 * 16 + bw * 4 + db)
    (b3 : rk ≤ 1) (b4 : cl ≤ 3) (b5 : bk ≤ 1) (b6 : c0 ≤ 3) (b7 : c1 ≤ 3) (b8 : bw ≤ 2)
    (b9 : db ≤ 2) :
    A < 4096 ∧ A / 2048 % 2 = rk ∧ A / 512 % 4 = cl ∧ A / 256 % 2 = bk ∧ A / 64 % 4 = c0 ∧
    A / 16 % 4 = c1 ∧ A / 4 % 4 = bw ∧ A % 4 = db := by
  refine ⟨?_, ?_, ?_, ?_, ?_, ?_, ?_, ?_⟩ <;> omega

/-- Split of a register value into the two channel words, the type and
channel-count nibble and the top nibble. -/
theorem sys_reg_split (s A T A1 Hi : Nat) (hs : s = A + T * 4096 + A1 * 65536 + Hi * 268435456)
    (hA : A < 4096) (hT : T < 16) (hA1 : A1 < 4096) :
    s % 4096 = A ∧ s / 4096 % 16 = T ∧ s / 65536 % 4096 = A1 ∧ s / 268435456 = Hi := by
  refine ⟨?_, ?_, ?_, ?_⟩ <;> omega





/-- Field extraction from a register value given as the sum of its
fields. -/
theorem sys_reg_decode (s dt n1 r34 info rk cl bk c0 c1 bw db r34' info' rk' cl' bk' c0' c1' bw'
    db' : Nat)
    (hs : s = dt * 8192 + n1 * 4096 +
      (r34 * 1073741824 + info * 268435456 +
        (rk * 2048 + cl * 512 + bk * 256 + c0 * 64 + c1 * 16 + bw * 4 + db)) +
      (r34' * 2147483648 + info' * 536870912 +
        (rk' * 2048 + cl' * 512 + bk' * 256 + c0' * 64 + c1' * 16 + bw' * 4 + db') * 65536))
    (hd : dt < 8) (hn : n1 ≤ 1)
    (b1 : r34 ≤ 1) (b2 : info ≤ 1) (b3 : rk ≤ 1) (b4 : cl ≤ 3) (b5 : bk ≤ 1) (b6 : c0 ≤ 3)
    (b7 : c1 ≤ 3) (b8 : bw ≤ 2) (b9 : db ≤ 2)
    (d1 : r34' ≤ 1) (d2 : info' ≤ 1) (d3 : rk' ≤ 1) (d4 : cl' ≤ 3) (d5 : bk' ≤ 1) (d6 : c0' ≤ 3)
    (d7 : c1' ≤ 3) (d8 : bw' ≤ 2) (d9 : db' ≤ 2) :
    s < 4294967296 ∧ s / 8192 % 8 = dt ∧ s / 4096 % 2 = n1 ∧
    (s / 1073741824 % 2 = r34 ∧ s / 268435456 % 2 = info ∧ s / 2048 % 2 = rk ∧
      s / 512 % 4 = cl ∧ s / 256 % 2 = bk ∧ s / 64 % 4 = c0 ∧ s / 16 % 4 = c1 ∧
      s / 4 % 4 = bw ∧ s % 4 = db) ∧
    (s / 2147483648 % 2 = r34' ∧ s / 536870912 % 2 = info' ∧ s / 134217728 % 2 = rk' ∧
      s / 33554432 % 4 = cl' ∧ s / 16777216 % 2 = bk' ∧ s / 4194304 % 4 = c0' ∧
      s / 1048576 % 4 = c1' ∧ s / 262144 % 4 = bw' ∧ s / 65536 % 4 = db') := by
  obtain ⟨A, hA⟩ : ∃ A, A = rk * 2048 + cl * 512 + bk * 256 + c0 * 64 + c1 * 16 + bw * 4 + db :=
    ⟨_, rfl⟩
  obtain ⟨A1, hA1⟩ :
      ∃ A1, A1 = rk' * 2048 + cl' * 512 + bk' * 256 + c0' * 64 + c1' * 16 + bw' * 4 + db' :=
    ⟨_, rfl⟩
  obtain ⟨T, hT⟩ : ∃ T, T = dt * 2 + n1 := ⟨_, rfl⟩
  obtain ⟨Hi, hHi⟩ : ∃ Hi, Hi = info + info' * 2 + r34 * 4 + r34' * 8 := ⟨_, rfl⟩
  obtain ⟨a0, a1, a2, a3, a4, a5, a6, a7⟩ := channel_low_fields A rk cl bk c0 c1 bw db hA b3 b4 b5
    b6 b7 b8 b9
  obtain ⟨e0, e1, e2, e3, e4, e5, e6, e7⟩ := channel_low_fields A1 rk' cl' bk' c0' c1' bw' db'
    hA1 d3 d4 d5 d6 d7 d8 d9
  have hs2 : s = A + T * 4096 + A1 * 65536 + Hi * 268435456 := by
    rw [hs, hA, hA1, hT, hHi]; ring
  have hT16 : T < 16 := by omega
  have hHi16 : Hi < 16 := by omega
  obtain ⟨s1, s2, s3, s4⟩ := sys_reg_split s A T A1 Hi hs2 a0 hT16 e0
  have hlt : s < 4294967296 := by
    clear hs hA hA1 hT hHi a1 a2 a3 a4 a5 a6 a7 e1 e2 e3 e4 e5 e6 e7 s1 s2 s3 s4
    omega
  clear hs hs2 hA hA1
  refine ⟨hlt, ?_, ?_, ⟨?_, ?_, ?_, ?_, ?_, ?_, ?_, ?_, ?_⟩,
    ⟨?_, ?_, ?_, ?_, ?_, ?_, ?_, ?_, ?_⟩⟩
  · clear a1 a2 a3 a4 a5 a6 a7 e1 e2 e3 e4 e5 e6 e7 s1 s3 s4 hHi; omega
  · clear a1 a2 a3 a4 a5 a6 a7 e1 e2 e3 e4 e5 e6 e7 s1 s3 s4 hHi; omega
  · clear a1 a2 a3 a4 a5 a6 a7 e1 e2 e3 e4 e5 e6 e7 s1 s2 s3 hT; omega
  · clear a1 a2 a3 a4 a5 a6 a7 e1 e2 e3 e4 e5 e6 e7 s1 s2 s3 hT; omega
  · clear a2 a3 a4 a5 a6 a7 e1 e2 e3 e4 e5 e6 e7 s2 s3 s4 hT hHi; omega
  · clear a1 a3 a4 a5 a6 a7 e1 e2 e3 e4 e5 e6 e7 s2 s3 s4 hT hHi; omega
  · clear a1 a2 a4 a5 a6 a7 e1 e2 e3 e4 e5 e6 e7 s2 s3 s4 hT hHi; omega
  · clear a1 a2 a3 a5 a6 a7 e1 e2 e3 e4 e5 e6 e7 s2 s3 s4 hT hHi; omega
  · clear a1 a2 a3 a4 a6 a7 e1 e2 e3 e4 e5 e6 e7 s2 s3 s4 hT hHi; omega
  · clear a1 a2 a3 a4 a5 a7 e1 e2 e3 e4 e5 e6 e7 s2 s3 s4 hT hHi; omega
  · clear a1 a2 a3 a4 a5 a6 e1 e2 e3 e4 e5 e6 e7 s2 s3 s4 hT hHi; omega
  · clear a1 a2 a3 a4 a5 a6 a7 e1 e2 e3 e4 e5 e6 e7 s1 s2 s3 hT; omega
  · clear a1 a2 a3 a4 a5 a6 a7 e1 e2 e3 e4 e5 e6 e7 s1 s2 s3 hT; omega
  · clear a1 a2 a3 a4 a5 a6 a7 e2 e3 e4 e5 e6 e7 s1 s2 s4 hT hHi; omega
  · clear a1 a2 a3 a4 a5 a6 a7 e1 e3 e4 e5 e6 e7 s1 s2 s4 hT hHi; omega
  · clear a1 a2 a3 a4 a5 a6 a7 e1 e2 e4 e5 e6 e7 s1 s2 s4 hT hHi; omega
  · clear a1 a2 a3 a4 a5 a6 a7 e1 e2 e3 e5 e6 e7 s1 s2 s4 hT hHi; omega
  · clear a1 a2 a3 a4 a5 a6 a7 e1 e2 e3 e4 e6 e7 s1 s2 s4 hT hHi; omega
  · clear a1 a2 a3 a4 a5 a6 a7 e1 e2 e3 e4 e5 e7 s1 s2 s4 hT hHi; omega
  · clear a1 a2 a3 a4 a5 a6 a7 e1 e2 e3 e4 e5 e6 s1 s2 s4 hT hHi; omega





/-- The value `dram_all_config` writes to `os_reg2`, field by field: the
bounded numbers `f0`, `f1` are the fields of channels 0 and 1. -/
theorem os_reg2_decode (p : rk3399_sdram_params) (m : Machine) (hv : valid_params p) (s : Nat)
    (hsdef : s = os_reg2_written p m) :
    ∃ r34 info rk cl bk c0 c1 bw db r34' info' rk' cl' bk' c0' c1' bw' db' : Nat,
      (channel_active p 0 →
        r34 = (p.ch 0).row_3_4 ∧ info = 1 ∧ rk = (p.ch 0).rank - 1 ∧
        cl = (p.ch 0).col - 9 ∧ bk = (if (p.ch 0).bk = 3 then 0 else 1) ∧
        c0 = (p.ch 0).cs0_row - 13 ∧
        c1 = (if (p.ch 0).rank > 1 then (p.ch 0).cs1_row - 13 else 0) ∧
        bw = 2 >>> (p.ch 0).bw ∧ db = 2 >>> (p.ch 0).dbw ∧
        2 >>> bw = (p.ch 0).bw ∧ 2 >>> db = (p.ch 0).dbw) ∧
      (¬ channel_active p 0 →
        r34 = 0 ∧ info = 0 ∧ rk = 0 ∧ cl = 0 ∧ bk = 0 ∧ c0 = 0 ∧ c1 = 0 ∧ bw = 0 ∧ db = 0) ∧
      (channel_active p 1 →
        r34' = (p.ch 1).row_3_4 ∧ info' = 1 ∧ rk' = (p.ch 1).rank - 1 ∧
        cl' = (p.ch 1).col - 9 ∧ bk' = (if (p.ch 1).bk = 3 then 0 else 1) ∧
        c0' = (p.ch 1).cs0_row - 13 ∧
        c1' = (if (p.ch 1).rank > 1 then (p.ch 1).cs1_row - 13 else 0) ∧
        bw' = 2 >>> (p.ch 1).bw ∧ db' = 2 >>> (p.ch 1).dbw ∧
        2 >>> bw' = (p.ch 1).bw ∧ 2 >>> db' = (p.ch 1).dbw) ∧
      (¬ channel_active p 1 →
        r34' = 0 ∧ info' = 0 ∧ rk' = 0 ∧ cl' = 0 ∧ bk' = 0 ∧ c0' = 0 ∧ c1' = 0 ∧ bw' = 0 ∧
        db' = 0) ∧
      Event.write Reg.pmugrf_os_reg2 s ∈ (dram_all_config p m).tr ∧
      s < 4294967296 ∧ s / 8192 % 8 = p.dramtype ∧ s / 4096 % 2 = p.num_channels - 1 ∧
      (s / 1073741824 % 2 = r34 ∧ s / 268435456 % 2 = info ∧ s / 2048 % 2 = rk ∧
        s / 512 % 4 = cl ∧ s / 256 % 2 = bk ∧ s / 64 % 4 = c0 ∧ s / 16 % 4 = c1 ∧
        s / 4 % 4 = bw ∧ s % 4 = db) ∧
      (s / 2147483648 % 2 = r34' ∧ s / 536870912 % 2 = info' ∧ s / 134217728 % 2 = rk' ∧
        s / 33554432 % 4 = cl' ∧ s / 16777216 % 2 = bk' ∧ s / 4194304 % 4 = c0' ∧
        s / 1048576 % 4 = c1' ∧ s / 262144 % 4 = bw' ∧ s / 65536 % 4 = db') := by
  obtain ⟨hw, hs⟩ := os_reg2_written_eq p m hv
  obtain ⟨r34, info, rk, cl, bk, c0, c1, bw, db, b1, b2, b3, b4, b5, b6, b7, b8, b9, w, ha, hn⟩ :=
    channel_fields p hv 0 (Or.inl rfl)
  obtain ⟨r34', info', rk', cl', bk', c0', c1', bw', db', d1, d2, d3, d4, d5, d6, d7, d8, d9,
    w', ha', hn'⟩ := channel_fields p hv 1 (Or.inr rfl)
  obtain ⟨hd, hnc, -⟩ := hv
  rw [w, w'] at hs
  norm_num at hs
  rw [← hsdef] at hs hw
  exact ⟨r34, info, rk, cl, bk, c0, c1, bw, db, r34', info', rk', cl', bk', c0', c1', bw', db',
    ha, hn, ha', hn', hw,
    sys_reg_decode s p.dramtype (p.num_channels - 1) r34 info rk cl bk c0 c1 bw db r34' info' rk'
      cl' bk' c0' c1' bw' db' (by rw [hs]) hd (by omega) b1 b2 b3 b4 b5 b6 b7 b8 b9 d1 d2 d3
      d4 d5 d6 d7 d8 d9⟩

theorem and_three (x : Nat) : x &&& 3 = x % 4 := Nat.and_pow_two_sub_one_eq_mod x 2

theorem and_one (x : Nat) : x &&& 1 = x % 2 := Nat.and_pow_two_sub_one_eq_mod x 1

theorem dec_channel0 (s : Nat) :
    SYS_REG_DEC_RANK s 0 = 1 + s / 2048 % 2 ∧ SYS_REG_DEC_COL s 0 = 9 + s / 512 % 4 ∧
    SYS_REG_DEC_BK s 0 = 3 - s / 256 % 2 ∧ SYS_REG_DEC_CS0_ROW s 0 = 13 + s / 64 % 4 ∧
    SYS_REG_DEC_CS1_ROW s 0 = 13 + s / 16 % 4 ∧ SYS_REG_DEC_BW s 0 = 2 >>> (s / 4 % 4) ∧
    SYS_REG_DEC_DBW s 0 = 2 >>> (s % 4) ∧ SYS_REG_DEC_ROW_3_4 s 0 = s / 1073741824 % 2 := by
  simp only [SYS_REG_DEC_RANK, SYS_REG_DEC_COL, SYS_REG_DEC_BK, SYS_REG_DEC_CS0_ROW,
    SYS_REG_DEC_CS1_ROW, SYS_REG_DEC_BW, SYS_REG_DEC_DBW, SYS_REG_DEC_ROW_3_4,
    Nat.shiftRight_eq_div_pow, and_one, and_three, Nat.mul_zero, Nat.add_zero, Nat.pow_zero,
    Nat.div_one, Nat.reducePow, and_self]

theorem dec_channel1 (s : Nat) :
    SYS_REG_DEC_RANK s 1 = 1 + s / 134217728 % 2 ∧ SYS_REG_DEC_COL s 1 = 9 + s / 33554432 % 4 ∧
    SYS_REG_DEC_BK s 1 = 3 - s / 16777216 % 2 ∧ SYS_REG_DEC_CS0_ROW s 1 = 13 + s / 4194304 % 4 ∧
    SYS_REG_DEC_CS1_ROW s 1 = 13 + s / 1048576 % 4 ∧
    SYS_REG_DEC_BW s 1 = 2 >>> (s / 262144 % 4) ∧
    SYS_REG_DEC_DBW s 1 = 2 >>> (s / 65536 % 4) ∧
    SYS_REG_DEC_ROW_3_4 s 1 = s / 2147483648 % 2 := by
  simp only [SYS_REG_DEC_RANK, SYS_REG_DEC_COL, SYS_REG_DEC_BK, SYS_REG_DEC_CS0_ROW,
    SYS_REG_DEC_CS1_ROW, SYS_REG_DEC_BW, SYS_REG_DEC_DBW, SYS_REG_DEC_ROW_3_4,
    Nat.shiftRight_eq_div_pow, and_one, and_three, Nat.mul_one, Nat.reduceAdd, Nat.reducePow,
    and_self]
/-- C1, counterexample: a parameter block that is valid, with a single-rank channel 0 whose
`cs1_row` is 14: the register keeps 0 in the `cs1_row` field and the decoder
answers 13. -/
theorem sys_reg_round_trip_cs1_row_counterexample :
    valid_params ex_params_single ∧ channel_active ex_params_single 0 ∧
    (ex_params_single.ch 0).cs1_row = 14 ∧
    SYS_REG_DEC_CS1_ROW (os_reg2_written ex_params_single ex_machine) 0 = 13 ∧
    SYS_REG_DEC_CS1_ROW (os_reg2_written ex_params_single ex_machine) 0
      ≠ (ex_params_single.ch 0).cs1_row := by
  decide

/-- The decoders applied to the value `dram_all_config` writes to `os_reg2`. -/
theorem os_reg2_decoders (p : rk3399_sdram_params) (m : Machine) (hv : valid_params p) :
    SYS_REG_DEC_NUM_CH (os_reg2_written p m) = p.num_channels ∧
    ∀ ch, channel_active p ch →
      SYS_REG_DEC_RANK (os_reg2_written p m) ch = (p.ch ch).rank ∧
      SYS_REG_DEC_COL (os_reg2_written p m) ch = (p.ch ch).col ∧
      SYS_REG_DEC_BK (os_reg2_written p m) ch = (p.ch ch).bk ∧
      SYS_REG_DEC_CS0_ROW (os_reg2_written p m) ch = (p.ch ch).cs0_row ∧
      SYS_REG_DEC_CS1_ROW (os_reg2_written p m) ch
        = (if (p.ch ch).rank > 1 then (p.ch ch).cs1_row else 13) ∧
      SYS_REG_DEC_BW (os_reg2_written p m) ch = (p.ch ch).bw ∧
      SYS_REG_DEC_DBW (os_reg2_written p m) ch = (p.ch ch).dbw ∧
      SYS_REG_DEC_ROW_3_4 (os_reg2_written p m) ch = (p.ch ch).row_3_4 := by
  obtain ⟨r34, info, rk, cl, bk, c0, c1, bw, db, r34', info', rk', cl', bk', c0', c1', bw', db',
    ha, hn, ha', hn', hw, hlt, hdt, hnc, ⟨x1, x2, x3, x4, x5, x6, x7, x8, x9⟩,
    ⟨y1, y2, y3, y4, y5, y6, y7, y8, y9⟩⟩ := os_reg2_decode p m hv _ rfl
  obtain ⟨hd, hnum, hg⟩ := hv
  constructor
  · simp only [SYS_REG_DEC_NUM_CH, Nat.shiftRight_eq_div_pow, and_one, Nat.reducePow]
    rw [hnc]
    clear x1 x2 x3 x4 x5 x6 x7 x8 x9 y1 y2 y3 y4 y5 y6 y7 y8 y9 hlt hdt hnc hw ha hn ha' hn' hg
    omega
  · intro ch h
    have hch : ch < 2 := h.1
    obtain ⟨a1, a2, a3, a4, a5, a6, a7, a8⟩ := hg ch hch h
    rcases (by omega : ch = 0 ∨ ch = 1) with rfl | rfl
    · obtain ⟨g1, g2, g3, g4, g5, g6, g7, g8, g9, g10, g11⟩ := ha h
      obtain ⟨e1, e2, e3, e4, e5, e6, e7, e8⟩ := dec_channel0 (os_reg2_written p m)
      rw [e1, e2, e3, e4, e5, e6, e7, e8, x1, x3, x4, x5, x6, x7, x8, x9, g10, g11, g1, g3, g4,
        g5, g6, g7]
      clear x1 x2 x3 x4 x5 x6 x7 x8 x9 y1 y2 y3 y4 y5 y6 y7 y8 y9 hlt hdt hnc hw ha hn ha' hn' hg
        e1 e2 e3 e4 e5 e6 e7 e8 g1 g2 g3 g4 g5 g6 g7 g8 g9 g10 g11
      refine ⟨by omega, by omega, by split_ifs <;> omega, by omega, by split_ifs <;> omega,
        rfl, rfl, rfl⟩
    · obtain ⟨g1, g2, g3, g4, g5, g6, g7, g8, g9, g10, g11⟩ := ha' h
      obtain ⟨e1, e2, e3, e4, e5, e6, e7, e8⟩ := dec_channel1 (os_reg2_written p m)
      rw [e1, e2, e3, e4, e5, e6, e7, e8, y1, y3, y4, y5, y6, y7, y8, y9, g10, g11, g1, g3, g4,
        g5, g6, g7]
      clear x1 x2 x3 x4 x5 x6 x7 x8 x9 y1 y2 y3 y4 y5 y6 y7 y8 y9 hlt hdt hnc hw ha hn ha' hn' hg
        e1 e2 e3 e4 e5 e6 e7 e8 g1 g2 g3 g4 g5 g6 g7 g8 g9 g10 g11
      refine ⟨by omega, by omega, by split_ifs <;> omega, by omega, by split_ifs <;> omega,
        rfl, rfl, rfl⟩

/-- C3: bit layout of the persistent register.  For valid parameters the
value `dram_all_config` writes to `os_reg2` has the DRAM type in bits 15:13,
`num_channels - 1` in bit 12, for every active channel the fields of the
documented layout (the `cs1_row` field holds `cs1_row - 13` when `rank > 1`
and 0 otherwise), and zero in every field of a channel that is not active. -/
theorem sys_reg_bit_layout (p : rk3399_sdram_params) (m : Machine) (hv : valid_params p) :
    Event.write Reg.pmugrf_os_reg2 (os_reg2_written p m) ∈ (dram_all_config p m).tr ∧
    os_reg2_written p m < 2 ^ 32 ∧
    bits (os_reg2_written p m) 15 13 = p.dramtype ∧
    bits (os_reg2_written p m) 12 12 = p.num_channels - 1 ∧
    ∀ ch, ch < 2 →
      (channel_active p ch →
        bits (os_reg2_written p m) (30 + ch) (30 + ch) = (p.ch ch).row_3_4 ∧
        bits (os_reg2_written p m) (28 + ch) (28 + ch) = 1 ∧
        bits (os_reg2_written p m) (11 + 16 * ch) (11 + 16 * ch) = (p.ch ch).rank - 1 ∧
        bits (os_reg2_written p m) (10 + 16 * ch) (9 + 16 * ch) = (p.ch ch).col - 9 ∧
        bits (os_reg2_written p m) (8 + 16 * ch) (8 + 16 * ch)
          = (if (p.ch ch).bk = 3 then 0 else 1) ∧
        bits (os_reg2_written p m) (7 + 16 * ch) (6 + 16 * ch) = (p.ch ch).cs0_row - 13 ∧
        bits (os_reg2_written p m) (5 + 16 * ch) (4 + 16 * ch)
          = (if (p.ch ch).rank > 1 then (p.ch ch).cs1_row - 13 else 0) ∧
        bits (os_reg2_written p m) (3 + 16 * ch) (2 + 16 * ch) = 2 >>> (p.ch ch).bw ∧
        bits (os_reg2_written p m) (1 + 16 * ch) (16 * ch) = 2 >>> (p.ch ch).dbw) ∧
      (¬ channel_active p ch →
        bits (os_reg2_written p m) (30 + ch) (30 + ch) = 0 ∧
        bits (os_reg2_written p m) (28 + ch) (28 + ch) = 0 ∧
        bits (os_reg2_written p m) (11 + 16 * ch) (16 * ch) = 0) := by
  obtain ⟨r34, info, rk, cl, bk, c0, c1, bw, db, r34', info', rk', cl', bk', c0', c1', bw', db',
    ha, hn, ha', hn', hw, hlt, hdt, hnc, ⟨x1, x2, x3, x4, x5, x6, x7, x8, x9⟩,
    ⟨y1, y2, y3, y4, y5, y6, y7, y8, y9⟩⟩ := os_reg2_decode p m hv _ rfl
  generalize os_reg2_written p m = s at *
  refine ⟨hw, by norm_num; exact hlt, ?_, ?_, ?_⟩
  · simp only [bits, Nat.shiftRight_eq_div_pow]; norm_num; exact hdt
  · simp only [bits, Nat.shiftRight_eq_div_pow]; norm_num; exact hnc
  · intro ch hch
    interval_cases ch
    · constructor
      · intro h
        obtain ⟨g1, g2, g3, g4, g5, g6, g7, g8, g9, -, -⟩ := ha h
        rw [← g1, ← g3, ← g4, ← g5, ← g6, ← g7, ← g8, ← g9]
        simp only [bits, Nat.shiftRight_eq_div_pow]; norm_num
        exact ⟨x1, by rw [x2, g2], x3, x4, x5, x6, x7, x8, x9⟩
      · intro h
        obtain ⟨g1, g2, g3, g4, g5, g6, g7, g8, g9⟩ := hn h
        simp only [bits, Nat.shiftRight_eq_div_pow]; norm_num
        refine ⟨by rw [x1, g1], by rw [x2, g2], ?_⟩
        clear y1 y2 y3 y4 y5 y6 y7 y8 y9 x1 x2 hdt hnc ha hn ha' hn'
        omega
    · constructor
      · intro h
        obtain ⟨g1, g2, g3, g4, g5, g6, g7, g8, g9, -, -⟩ := ha' h
        rw [← g1, ← g3, ← g4, ← g5, ← g6, ← g7, ← g8, ← g9]
        simp only [bits, Nat.shiftRight_eq_div_pow]; norm_num
        exact ⟨y1, by rw [y2, g2], y3, y4, y5, y6, y7, y8, y9⟩
      · intro h
        obtain ⟨g1, g2, g3, g4, g5, g6, g7, g8, g9⟩ := hn' h
        simp only [bits, Nat.shiftRight_eq_div_pow]; norm_num
        refine ⟨by rw [y1, g1], by rw [y2, g2], ?_⟩
        clear x1 x2 x3 x4 x5 x6 x7 x8 x9 y1 y2 hdt hnc ha hn ha' hn'
        omega

theorem sys_reg_bit_layout_witness :
    valid_params ex_params_dual ∧
    bits (os_reg2_written ex_params_dual ex_machine) 15 13 = LPDDR3 :=
  ⟨by decide, (sys_reg_bit_layout ex_params_dual ex_machine (by decide)).2.2.1⟩

/-- C1 (amended): round trip of the persistent register.  For valid
parameters every decoder applied to the value `dram_all_config` writes to
`os_reg2` returns the encoded field of every active channel, and the channel
count is recovered; the one exception is `cs1_row`, which is only encoded
when `rank > 1`: for a single-rank channel its decoder returns 13. -/
theorem sys_reg_round_trip (p : rk3399_sdram_params) (m : Machine) (hv : valid_params p) :
    Event.write Reg.pmugrf_os_reg2 (os_reg2_written p m) ∈ (dram_all_config p m).tr ∧
    SYS_REG_DEC_NUM_CH (os_reg2_written p m) = p.num_channels ∧
    ∀ ch, channel_active p ch →
      SYS_REG_DEC_RANK (os_reg2_written p m) ch = (p.ch ch).rank ∧
      SYS_REG_DEC_COL (os_reg2_written p m) ch = (p.ch ch).col ∧
      SYS_REG_DEC_BK (os_reg2_written p m) ch = (p.ch ch).bk ∧
      SYS_REG_DEC_CS0_ROW (os_reg2_written p m) ch = (p.ch ch).cs0_row ∧
      SYS_REG_DEC_CS1_ROW (os_reg2_written p m) ch
        = (if (p.ch ch).rank > 1 then (p.ch ch).cs1_row else 13) ∧
      SYS_REG_DEC_BW (os_reg2_written p m) ch = (p.ch ch).bw ∧
      SYS_REG_DEC_DBW (os_reg2_written p m) ch = (p.ch ch).dbw ∧
      SYS_REG_DEC_ROW_3_4 (os_reg2_written p m) ch = (p.ch ch).row_3_4 :=
  ⟨(os_reg2_written_eq p m hv).1, os_reg2_decoders p m hv⟩

theorem sys_reg_round_trip_witness :
    valid_params ex_params_dual ∧ channel_active ex_params_dual 1 ∧
    SYS_REG_DEC_COL (os_reg2_written ex_params_dual ex_machine) 1 = 10 :=
  ⟨by decide, by decide,
    ((sys_reg_round_trip ex_params_dual ex_machine (by decide)).2.2 1 (by decide)).2.1⟩

/-- The first call of `sdram_size_mb` (static `size_mb` still 0): one read of
`os_reg2`, the clamped sum is stored and returned. -/
theorem sdram_size_mb_first (m : Machine) (h : m.size_mb = 0) :
    sdram_size_mb m =
      ⟨Status.ret (min (sdram_size_mb_loop (u32 (m.mem Reg.pmugrf_os_reg2))
          (SYS_REG_DEC_NUM_CH (u32 (m.mem Reg.pmugrf_os_reg2))) 0 0) (0xf8000000 / MiB)),
        { m with size_mb := min (sdram_size_mb_loop (u32 (m.mem Reg.pmugrf_os_reg2))
          (SYS_REG_DEC_NUM_CH (u32 (m.mem Reg.pmugrf_os_reg2))) 0 0) (0xf8000000 / MiB) },
        [Event.read Reg.pmugrf_os_reg2]⟩ := by
  simp [sdram_size_mb, bind_def, pure_def, M.bind, get_size_mb, set_size_mb, h]

/-- A later call of `sdram_size_mb` (static `size_mb` not 0): no register
access, the cached value is returned. -/
theorem sdram_size_mb_cached (m : Machine) (h : m.size_mb ≠ 0) :
    sdram_size_mb m = ⟨Status.ret m.size_mb, m, []⟩ := by
  simp [sdram_size_mb, bind_def, pure_def, M.bind, get_size_mb, set_size_mb, h]

theorem dec_num_ch_cases (s : Nat) : SYS_REG_DEC_NUM_CH s = 1 ∨ SYS_REG_DEC_NUM_CH s = 2 := by
  simp only [SYS_REG_DEC_NUM_CH, and_one]; omega

/-- Ranges of the decoded fields, whatever the register holds. -/
theorem dec_bounds (s ch : Nat) :
    (1 ≤ SYS_REG_DEC_RANK s ch ∧ SYS_REG_DEC_RANK s ch ≤ 2) ∧
    (9 ≤ SYS_REG_DEC_COL s ch ∧ SYS_REG_DEC_COL s ch ≤ 12) ∧
    (2 ≤ SYS_REG_DEC_BK s ch ∧ SYS_REG_DEC_BK s ch ≤ 3) ∧
    (13 ≤ SYS_REG_DEC_CS0_ROW s ch ∧ SYS_REG_DEC_CS0_ROW s ch ≤ 16) ∧
    (13 ≤ SYS_REG_DEC_CS1_ROW s ch ∧ SYS_REG_DEC_CS1_ROW s ch ≤ 16) ∧
    SYS_REG_DEC_BW s ch ≤ 2 ∧ SYS_REG_DEC_ROW_3_4 s ch ≤ 1 := by
  simp only [SYS_REG_DEC_RANK, SYS_REG_DEC_COL, SYS_REG_DEC_BK, SYS_REG_DEC_CS0_ROW,
    SYS_REG_DEC_CS1_ROW, SYS_REG_DEC_BW, SYS_REG_DEC_ROW_3_4, and_one, and_three]
  have hbw : 2 >>> (s >>> (2 + 16 * ch) % 4) ≤ 2 := by
    rw [Nat.shiftRight_eq_div_pow]; exact Nat.div_le_self _ _
  generalize 2 >>> (s >>> (2 + 16 * ch) % 4) = w at hbw ⊢
  generalize s >>> (11 + 16 * ch) = x1
  generalize s >>> (9 + 16 * ch) = x2
  generalize s >>> (8 + 16 * ch) = x3
  generalize s >>> (6 + 16 * ch) = x4
  generalize s >>> (4 + 16 * ch) = x5
  generalize s >>> (30 + ch) = x6
  omega

/-- Every channel contributes at least 12 MiB, whatever the register holds. -/
theorem sdram_size_mb_chip_pos (s ch : Nat) : 12 ≤ sdram_size_mb_chip s ch := by
  obtain ⟨-, ⟨h1, h2⟩, ⟨h3, h4⟩, ⟨h5, h6⟩, -, h7, -⟩ := dec_bounds s ch
  have hE : 4 ≤ u32 (SYS_REG_DEC_CS0_ROW s ch + SYS_REG_DEC_COL s ch + SYS_REG_DEC_BK s ch +
      SYS_REG_DEC_BW s ch + 4294967296 - 20) := by
    unfold u32; omega
  have hX : 16 ≤ 1 <<< u32 (SYS_REG_DEC_CS0_ROW s ch + SYS_REG_DEC_COL s ch +
      SYS_REG_DEC_BK s ch + SYS_REG_DEC_BW s ch + 4294967296 - 20) := by
    rw [Nat.shiftLeft_eq, Nat.one_mul]
    exact Nat.pow_le_pow_right (by norm_num : 0 < 2) hE
  unfold sdram_size_mb_chip
  simp only []
  generalize 1 <<< u32 (SYS_REG_DEC_CS0_ROW s ch + SYS_REG_DEC_COL s ch +
      SYS_REG_DEC_BK s ch + SYS_REG_DEC_BW s ch + 4294967296 - 20) = X at hX ⊢
  generalize X >>> u32 (SYS_REG_DEC_CS0_ROW s ch + 4294967296 - SYS_REG_DEC_CS1_ROW s ch) = Y
  split_ifs <;> omega

theorem sdram_size_mb_loop_pos (s : Nat) :
    0 < sdram_size_mb_loop s (SYS_REG_DEC_NUM_CH s) 0 0 := by
  have h0 := sdram_size_mb_chip_pos s 0
  rcases dec_num_ch_cases s with h | h <;> rw [h] <;>
    simp only [sdram_size_mb_loop] <;> omega

/-- The capacity sum of `sdram_size_mb` and the one of `calculate_stride`
agree on a shift count `k` in 4..13 and a row difference `d` in 0..3. -/
theorem chip_arith (k d : Nat) (hk1 : 4 ≤ k) (hk2 : k ≤ 13) (hd : d ≤ 3) :
    ((1 <<< k + (1 <<< k) >>> d) * 3 / 4 = u32 (1 <<< k * 3) / 4 + u32 ((1 <<< k) >>> d * 3) / 4) ∧
    (1 <<< k * 3 / 4 = u32 (1 <<< k * 3) / 4 + u32 (0 * 3) / 4) := by
  interval_cases k <;> interval_cases d <;> decide

theorem chip_eq_cap (c : rk3399_sdram_channel) (s ch : Nat) (hv : valid_geometry c)
    (hrow : c.cs1_row ≤ c.cs0_row)
    (h1 : SYS_REG_DEC_RANK s ch = c.rank) (h2 : SYS_REG_DEC_COL s ch = c.col)
    (h3 : SYS_REG_DEC_BK s ch = c.bk) (h4 : SYS_REG_DEC_CS0_ROW s ch = c.cs0_row)
    (h5 : SYS_REG_DEC_CS1_ROW s ch = (if c.rank > 1 then c.cs1_row else 13))
    (h6 : SYS_REG_DEC_BW s ch = c.bw) (h7 : SYS_REG_DEC_ROW_3_4 s ch = c.row_3_4) :
    ∃ cs0_cap cs1_cap, channel_cs_cap c = some (cs0_cap, cs1_cap) ∧
      sdram_size_mb_chip s ch = cs0_cap + cs1_cap := by
  obtain ⟨hrank, ⟨hc1, hc2⟩, hbk, ⟨hr1, hr2⟩, ⟨hs1, hs2⟩, hbw, hdbw, h34⟩ := hv
  unfold sdram_size_mb_chip channel_cs_cap
  simp only [h1, h2, h3, h4, h5, h6, h7]
  obtain ⟨k, hk⟩ : ∃ k, k = c.cs0_row + c.col + c.bk + c.bw - 20 := ⟨_, rfl⟩
  obtain ⟨d, hd⟩ : ∃ d, d = c.cs0_row - c.cs1_row := ⟨_, rfl⟩
  have e1 : u32 (c.cs0_row + c.col + c.bk + c.bw + 4294967296 - 20) = k := by
    unfold u32; omega
  have e2 : 20 ≤ c.cs0_row + c.col + c.bk + c.bw ∧ c.cs0_row + c.col + c.bk + c.bw - 20 ≤ 30 := by
    omega
  have e3 : c.cs1_row ≤ c.cs0_row ∧ c.cs0_row - c.cs1_row < 32 := by omega
  have hd32 : d < 32 := by omega
  obtain ⟨q1, q2⟩ := chip_arith k d (by omega) (by omega) (by omega)
  rw [e1, if_pos e2, ← hk]
  rcases hrank with hr | hr
  · have h34' : c.row_3_4 = 0 ∨ c.row_3_4 = 1 := by omega
    rcases h34' with h0 | h0
    · simp [hr, h0]
      exact ⟨_, _, ⟨rfl, rfl⟩, by simp⟩
    · simp [hr, h0]
      exact ⟨_, _, ⟨rfl, rfl⟩, by simpa using q2⟩
  · have e4 : u32 (c.cs0_row + 4294967296 - c.cs1_row) = d := by unfold u32; omega
    have h34' : c.row_3_4 = 0 ∨ c.row_3_4 = 1 := by omega
    rcases h34' with h0 | h0
    · simp [hr, h0, e3, e4, ← hd, hd32]
      exact ⟨_, _, ⟨rfl, rfl⟩, rfl⟩
    · simp [hr, h0, e3, e4, ← hd, hd32]
      exact ⟨_, _, ⟨rfl, rfl⟩, by simpa using q1⟩

theorem sdram_size_mb_loop_eq (s : Nat) :
    sdram_size_mb_loop s (SYS_REG_DEC_NUM_CH s) 0 0 = decoded_capacity s := by
  unfold decoded_capacity
  rcases dec_num_ch_cases s with h | h <;> rw [h] <;>
    simp [sdram_size_mb_loop, List.range_succ]

theorem clamp_value : 0xf8000000 / MiB = 3968 := by decide

theorem sdram_size_mb_calls_cached (v : Nat) (hv : v ≠ 0) :
    ∀ (mems : List (Reg → Nat)) (m : Machine), m.size_mb = v →
      ∀ r ∈ sdram_size_mb_calls m mems, r.st = Status.ret v ∧ r.tr = [] := by
  intro mems
  induction mems with
  | nil => intro m _ r hr; simp [sdram_size_mb_calls] at hr
  | cons mem rest ih =>
    intro m hm r hr
    have hc := sdram_size_mb_cached { m with mem := mem } (by simpa [hm] using hv)
    simp only [sdram_size_mb_calls, List.mem_cons] at hr
    rcases hr with rfl | hr
    · rw [hc]; exact ⟨by simp [hm], rfl⟩
    · rw [hc] at hr
      exact ih _ (by simpa using hm) r hr

/-- C4: `sdram_size_mb` is idempotent and cached.  Whatever `os_reg2` holds,
the first call (static `size_mb` still 0) reads `os_reg2` once and returns a
non-zero value `v`; every later call returns the same `v` and performs no
register access at all, whatever the registers hold by then. -/
theorem sdram_size_mb_idempotent (m : Machine) (mems : List (Reg → Nat))
    (hfirst : m.size_mb = 0) :
    ∃ v, v ≠ 0 ∧ (sdram_size_mb m).st = Status.ret v ∧
      (sdram_size_mb m).tr = [Event.read Reg.pmugrf_os_reg2] ∧
      ∀ r ∈ sdram_size_mb_calls (sdram_size_mb m).m mems, r.st = Status.ret v ∧ r.tr = [] := by
  have hpos := sdram_size_mb_loop_pos (u32 (m.mem Reg.pmugrf_os_reg2))
  have hc := clamp_value
  refine ⟨min (sdram_size_mb_loop (u32 (m.mem Reg.pmugrf_os_reg2))
    (SYS_REG_DEC_NUM_CH (u32 (m.mem Reg.pmugrf_os_reg2))) 0 0) (0xf8000000 / MiB), ?_, ?_, ?_, ?_⟩
  · rw [hc]; omega
  · rw [sdram_size_mb_first m hfirst]
  · rw [sdram_size_mb_first m hfirst]
  · rw [sdram_size_mb_first m hfirst]
    exact sdram_size_mb_calls_cached _ (by rw [hc]; omega) mems _ rfl

theorem sdram_size_mb_idempotent_witness :
    ex_machine.size_mb = 0 ∧
    ∃ v, v ≠ 0 ∧ (sdram_size_mb ex_machine).st = Status.ret v ∧
      (sdram_size_mb ex_machine).tr = [Event.read Reg.pmugrf_os_reg2] ∧
      ∀ r ∈ sdram_size_mb_calls (sdram_size_mb ex_machine).m [fun _ => 0x1fff, fun _ => 7],
        r.st = Status.ret v ∧ r.tr = [] :=
  ⟨rfl, sdram_size_mb_idempotent ex_machine [fun _ => 0x1fff, fun _ => 7] rfl⟩

/-- C5: `sdram_size_mb` clamps.  Whatever `os_reg2` holds, the first call
returns at most 0xf8000000/MiB = 3968; it returns exactly 3968 when the
capacity decoded from `os_reg2` exceeds 3968 and the decoded capacity itself
otherwise. -/
theorem sdram_size_mb_clamps (m : Machine) (hfirst : m.size_mb = 0) :
    ∃ v, (sdram_size_mb m).st = Status.ret v ∧ v ≤ 3968 ∧ 0xf8000000 / MiB = 3968 ∧
      (decoded_capacity (u32 (m.mem Reg.pmugrf_os_reg2)) > 3968 → v = 3968) ∧
      (decoded_capacity (u32 (m.mem Reg.pmugrf_os_reg2)) ≤ 3968 →
        v = decoded_capacity (u32 (m.mem Reg.pmugrf_os_reg2))) := by
  have hc := clamp_value
  refine ⟨min (decoded_capacity (u32 (m.mem Reg.pmugrf_os_reg2))) 3968, ?_, ?_, hc, ?_, ?_⟩
  · rw [sdram_size_mb_first m hfirst, sdram_size_mb_loop_eq, hc]
  · omega
  · intro h; omega
  · intro h; omega

theorem sdram_size_mb_clamps_witness :
    ex_machine_big.size_mb = 0 ∧
    decoded_capacity (u32 (ex_machine_big.mem Reg.pmugrf_os_reg2)) = 8192 ∧
    ∃ v, (sdram_size_mb ex_machine_big).st = Status.ret v ∧ v ≤ 3968 ∧
      0xf8000000 / MiB = 3968 ∧
      (decoded_capacity (u32 (ex_machine_big.mem Reg.pmugrf_os_reg2)) > 3968 → v = 3968) ∧
      (decoded_capacity (u32 (ex_machine_big.mem Reg.pmugrf_os_reg2)) ≤ 3968 →
        v = decoded_capacity (u32 (ex_machine_big.mem Reg.pmugrf_os_reg2))) :=
  ⟨rfl, by decide, sdram_size_mb_clamps ex_machine_big rfl⟩



theorem calculate_stride_ch_cap_of (p : rk3399_sdram_params) (ch cs0 cs1 : Nat)
    (hcol : (p.ch ch).col ≠ 0) (h : channel_cs_cap (p.ch ch) = some (cs0, cs1)) :
    calculate_stride_ch_cap p ch = some (cs0 + cs1) := by
  simp [calculate_stride_ch_cap, hcol, h]

theorem calculate_stride_ch_cap_absent (p : rk3399_sdram_params) (ch : Nat)
    (hcol : (p.ch ch).col = 0) : calculate_stride_ch_cap p ch = some 0 := by
  simp [calculate_stride_ch_cap, hcol]

/-- The size `sdram_size_mb` computes for an active channel from the
written register is the capacity `calculate_stride` computes for it. -/
theorem chip_of_written (p : rk3399_sdram_params) (m : Machine) (hv : valid_params p) (ch : Nat)
    (hact : channel_active p ch) (hrow : (p.ch ch).cs1_row ≤ (p.ch ch).cs0_row) :
    ∃ c, calculate_stride_ch_cap p ch = some c ∧
      sdram_size_mb_chip (os_reg2_written p m) ch = c := by
  obtain ⟨-, hdec⟩ := os_reg2_decoders p m hv
  obtain ⟨h1, h2, h3, h4, h5, h6, -, h7⟩ := hdec ch hact
  obtain ⟨cs0, cs1, hcap, hchip⟩ := chip_eq_cap (p.ch ch) (os_reg2_written p m) ch
    (hv.2.2 ch hact.1 hact) hrow h1 h2 h3 h4 h5 h6 h7
  exact ⟨cs0 + cs1, calculate_stride_ch_cap_of p ch cs0 cs1 hact.2.1 hcap, hchip⟩

/-- C2: capacity recovery after reset.  For valid parameters in which
exactly the channels `0 .. num_channels - 1` are present (`col != 0`) and
`cs1_row <= cs0_row` on each of them, the first call of `sdram_size_mb` on a
machine whose `os_reg2` holds the value written by `dram_all_config` returns
`min (C, 0xf8000000/MiB)`, where `C` is the sum of the channel capacities
that `calculate_stride` computes for the same parameters. -/
theorem sdram_size_mb_recovers_capacity (p : rk3399_sdram_params) (m m1 : Machine)
    (hv : valid_params p)
    (hexact : ∀ ch, ch < 2 → ((p.ch ch).col ≠ 0 ↔ ch < p.num_channels))
    (hrow : ∀ ch, ch < p.num_channels → (p.ch ch).cs1_row ≤ (p.ch ch).cs0_row)
    (hfirst : m1.size_mb = 0)
    (hreg : m1.mem Reg.pmugrf_os_reg2 = os_reg2_written p m) :
    ∃ c0 c1, calculate_stride_ch_cap p 0 = some c0 ∧ calculate_stride_ch_cap p 1 = some c1 ∧
      (sdram_size_mb m1).st = Status.ret (min (c0 + c1) (0xf8000000 / MiB)) := by
  obtain ⟨hnum, -⟩ := os_reg2_decoders p m hv
  have hlt : os_reg2_written p m < 4294967296 := by
    obtain ⟨_, _, _, _, _, _, _, _, _, _, _, _, _, _, _, _, _, _, -, -, -, -, -, h, -⟩ :=
      os_reg2_decode p m hv _ rfl
    exact h
  have hu : u32 (m1.mem Reg.pmugrf_os_reg2) = os_reg2_written p m := by
    rw [hreg]; unfold u32; omega
  rw [sdram_size_mb_first m1 hfirst]
  simp only [hu, hnum]
  have hn := hv.2.1
  have hcol0 : (p.ch 0).col ≠ 0 := (hexact 0 (by omega)).2 (by omega)
  have hact0 : channel_active p 0 := ⟨by omega, hcol0, by simp [populated_below]; omega⟩
  obtain ⟨c0, hc0, hchip0⟩ := chip_of_written p m hv 0 hact0 (hrow 0 (by omega))
  rcases hn with hn | hn
  · have hcol1 : (p.ch 1).col = 0 := by
      by_contra h
      have := (hexact 1 (by omega)).1 h
      omega
    refine ⟨c0, 0, hc0, calculate_stride_ch_cap_absent p 1 hcol1, ?_⟩
    simp [hn, sdram_size_mb_loop, hchip0]
  · have hcol1 : (p.ch 1).col ≠ 0 := (hexact 1 (by omega)).2 (by omega)
    have hact1 : channel_active p 1 :=
      ⟨by omega, hcol1, by simp [populated_below, hcol0]; omega⟩
    obtain ⟨c1, hc1, hchip1⟩ := chip_of_written p m hv 1 hact1 (hrow 1 (by omega))
    refine ⟨c0, c1, hc0, hc1, ?_⟩
    simp [hn, sdram_size_mb_loop, hchip0, hchip1]

theorem sdram_size_mb_recovers_capacity_witness :
    valid_params ex_params_dual ∧
    (sdram_size_mb { ex_machine with mem := fun _ => os_reg2_written ex_params_dual ex_machine }).st
      = Status.ret 2304 := by
  refine ⟨by decide, ?_⟩
  obtain ⟨c0, c1, h0, h1, h⟩ := sdram_size_mb_recovers_capacity ex_params_dual ex_machine
    { ex_machine with mem := fun _ => os_reg2_written ex_params_dual ex_machine }
    (by decide) (by decide) (by decide) rfl rfl
  have e0 : calculate_stride_ch_cap ex_params_dual 0 = some 1152 := by decide
  have e1 : calculate_stride_ch_cap ex_params_dual 1 = some 1152 := by decide
  rw [e0] at h0; rw [e1] at h1
  cases h0; cases h1
  exact h

/-- A channel capacity computed by `calculate_stride` is at most 2 GiB. -/
theorem calculate_stride_ch_cap_le (p : rk3399_sdram_params) (ch c : Nat)
    (h : calculate_stride_ch_cap p ch = some c) : c ≤ 2147483648 := by
  unfold calculate_stride_ch_cap at h
  split_ifs at h with hcol
  · cases h; omega
  · unfold channel_cs_cap at h
    simp only [] at h
    split_ifs at h with he hr hd
    all_goals try (simp at h)
    all_goals
      have hX : 1 <<< ((p.ch ch).cs0_row + (p.ch ch).col + (p.ch ch).bk + (p.ch ch).bw - 20)
          ≤ 1073741824 := by
        rw [Nat.shiftLeft_eq, Nat.one_mul]
        exact Nat.pow_le_pow_right (by norm_num : 0 < 2) he.2
      generalize 1 <<< ((p.ch ch).cs0_row + (p.ch ch).col + (p.ch ch).bk + (p.ch ch).bw - 20)
        = X at hX h
    · have hY : X >>> ((p.ch ch).cs0_row - (p.ch ch).cs1_row) ≤ X := by
        rw [Nat.shiftRight_eq_div_pow]; exact Nat.div_le_self _ _
      generalize X >>> ((p.ch ch).cs0_row - (p.ch ch).cs1_row) = Y at hY h
      unfold u32 at h
      omega
    · have hY : X >>> ((p.ch ch).cs0_row - (p.ch ch).cs1_row) ≤ X := by
        rw [Nat.shiftRight_eq_div_pow]; exact Nat.div_le_self _ _
      generalize X >>> ((p.ch ch).cs0_row - (p.ch ch).cs1_row) = Y at hY h
      omega
    · unfold u32 at h; omega
    · omega

/-- The test `params->num_channels == 1 && chinfo & 1` of `calculate_stride`. -/
theorem calculate_stride_single_test (p : rk3399_sdram_params) :
    (p.num_channels = 1 ∧
      (calculate_stride_chinfo p 0 ||| calculate_stride_chinfo p 1) &&& 1 ≠ 0) ↔
    (p.num_channels = 1 ∧ (p.ch 0).col ≠ 0) := by
  unfold calculate_stride_chinfo
  by_cases h0 : (p.ch 0).col = 0 <;> by_cases h1 : (p.ch 1).col = 0 <;> simp [h0, h1]

/-- A block outside the data model: `num_channels = 1` with both channels
populated (256 MiB each, sum 512).  The test for one channel comes first and
`calculate_stride` returns 0x17. -/
theorem calculate_stride_one_of_two :
    ¬ one_channel_consistent ex_params_one_of_two ∧
    calculate_stride_ch_cap ex_params_one_of_two 0 = some 256 ∧
    calculate_stride_ch_cap ex_params_one_of_two 1 = some 256 ∧
    calculate_stride ex_params_one_of_two = some 0x17 := by
  decide

/-- C6: stride table.  For every parameter block of the data model (a block
with `num_channels = 1` does not populate both channels) whose two channels
have equal capacity and whose capacity sum is one of 512, 1024, 1536, 2048,
3072, 4096 MiB, `calculate_stride` returns the documented code (0, 0x5, 0x9,
0x9, 0x11, 0xD), whatever `params->stride` is. -/
theorem calculate_stride_table (p : rk3399_sdram_params) (c : Nat)
    (hcons : one_channel_consistent p)
    (h0 : calculate_stride_ch_cap p 0 = some c) (h1 : calculate_stride_ch_cap p 1 = some c)
    (hsum : stride_table_sum (c + c)) :
    calculate_stride p = some (stride_table_code (c + c)) ∧
    (c + c = 512 → calculate_stride p = some 0) ∧
    (c + c = 1024 → calculate_stride p = some 0x5) ∧
    (c + c = 1536 → calculate_stride p = some 0x9) ∧
    (c + c = 2048 → calculate_stride p = some 0x9) ∧
    (c + c = 3072 → calculate_stride p = some 0x11) ∧
    (c + c = 4096 → calculate_stride p = some 0xD) := by
  have hc : c ≠ 0 := by
    unfold stride_table_sum at hsum
    omega
  have hmain : calculate_stride p = some (stride_table_code (c + c)) := by
    have hu : u32 (c + c) = c + c := by
      unfold stride_table_sum at hsum
      unfold u32; omega
    have ht : ¬ (p.num_channels = 1 ∧
        (calculate_stride_chinfo p 0 ||| calculate_stride_chinfo p 1) &&& 1 ≠ 0) := by
      rw [calculate_stride_single_test]
      rintro ⟨hn, hcol0⟩
      rcases hcons hn with h | h
      · exact hcol0 h
      · rw [calculate_stride_ch_cap_absent p 1 h] at h1
        exact hc (Option.some.inj h1).symm
    unfold calculate_stride
    simp only [h0, h1, if_neg ht, if_true, hu]
    unfold stride_table_sum at hsum
    unfold calculate_stride_switch stride_table_code
    rcases hsum with h | h | h | h | h | h <;> simp [h]
  refine ⟨hmain, ?_, ?_, ?_, ?_, ?_, ?_⟩ <;> intro h <;> rw [hmain, h] <;> rfl

/-- Witness of C6: two channels of 512 MiB each give the code 0x5 of 1024
MiB, not the supplied stride 0x21. -/
theorem calculate_stride_table_witness :
    one_channel_consistent ex_params_two_512 ∧
    calculate_stride_ch_cap ex_params_two_512 0 = some 512 ∧
    calculate_stride_ch_cap ex_params_two_512 1 = some 512 ∧
    ex_params_two_512.stride = 0x21 ∧
    calculate_stride ex_params_two_512 = some 0x5 :=
  ⟨by decide, by decide, by decide, rfl,
    (calculate_stride_table ex_params_two_512 512 (by decide) (by decide) (by decide)
      (by decide)).2.2.1 (by decide)⟩

/-- C7, counterexample: a single-channel configuration of 256 MiB (a sum
that is not in the table) with `params->stride = 0`: `calculate_stride`
returns 0x17, not the supplied stride. -/
theorem calculate_stride_default_counterexample :
    calculate_stride_ch_cap ex_params_single 0 = some 256 ∧
    calculate_stride_ch_cap ex_params_single 1 = some 0 ∧
    ¬ stride_table_sum (256 + 0) ∧ ex_params_single.stride = 0 ∧
    calculate_stride ex_params_single = some 0x17 := by
  decide

/-- C7 (amended): default stride.  For every parameter block whose
capacities are defined and whose capacity sum is not in the stride table,
`calculate_stride` returns the supplied `params->stride` unchanged, unless
the block is a single-channel configuration with channel 0 present
(`num_channels = 1` and `ch[0].col != 0`): then it returns 0x17 whatever the
capacity and the supplied stride are. -/
theorem calculate_stride_default (p : rk3399_sdram_params) (c0 c1 : Nat)
    (h0 : calculate_stride_ch_cap p 0 = some c0) (h1 : calculate_stride_ch_cap p 1 = some c1)
    (hstride : p.stride < 256) :
    (¬ (p.num_channels = 1 ∧ (p.ch 0).col ≠ 0) → ¬ stride_table_sum (c0 + c1) →
      calculate_stride p = some p.stride) ∧
    ((p.num_channels = 1 ∧ (p.ch 0).col ≠ 0) → calculate_stride p = some 0x17) := by
  constructor
  · intro hs hsum
    have ht : ¬ (p.num_channels = 1 ∧
        (calculate_stride_chinfo p 0 ||| calculate_stride_chinfo p 1) &&& 1 ≠ 0) := by
      rw [calculate_stride_single_test]; exact hs
    have hb0 := calculate_stride_ch_cap_le p 0 c0 h0
    have hb1 := calculate_stride_ch_cap_le p 1 c1 h1
    unfold calculate_stride
    simp only [h0, h1, if_neg ht]
    have hmod : p.stride % 256 = p.stride := Nat.mod_eq_of_lt hstride
    split_ifs with heq
    · have hsw : calculate_stride_switch (u32 (c0 + c1)) p.stride = p.stride := by
        unfold stride_table_sum at hsum
        unfold calculate_stride_switch u32
        split_ifs <;> omega
      rw [hsw, hmod]
    · rw [hmod]
  · intro hs
    have ht : p.num_channels = 1 ∧
        (calculate_stride_chinfo p 0 ||| calculate_stride_chinfo p 1) &&& 1 ≠ 0 := by
      rw [calculate_stride_single_test]; exact hs
    unfold calculate_stride
    simp only [h0, h1, if_pos ht]

theorem calculate_stride_default_witness :
    calculate_stride ex_params_dual = some ex_params_dual.stride ∧
    calculate_stride ex_params_single = some 0x17 :=
  ⟨(calculate_stride_default ex_params_dual 1152 1152 (by decide) (by decide) (by decide)).1
      (by decide) (by decide),
    (calculate_stride_default ex_params_single 256 0 (by decide) (by decide) (by decide)).2
      (by decide)⟩

theorem bind_ret {α β : Type} {x : M α} {f : α → M β} {m : Machine} {a : α} {m1 : Machine}
    {t1 : List Event} (h : x m = ⟨Status.ret a, m1, t1⟩) :
    (x >>= f) m = ⟨(f a m1).st, (f a m1).m, t1 ++ (f a m1).tr⟩ := by
  simp only [bind_def, M.bind, h]

theorem bind_stop {α β : Type} {x : M α} {f : α → M β} {m : Machine}
    (h : ¬ (x m).st.returned) :
    (x >>= f) m = ⟨(x m).st.lift, (x m).m, (x m).tr⟩ := by
  simp only [bind_def, M.bind]
  rcases hx : x m with ⟨st, m1, t1⟩
  rw [hx] at h
  cases st <;> simp [Status.returned, Status.lift] at h ⊢

theorem res_eta {α : Type} (r : Res α) : (⟨r.st, r.m, r.tr⟩ : Res α) = r := rfl

theorem M_ext {α : Type} (x y : M α) (h : ∀ m, x m = y m) : x = y := funext h

theorem bind_assoc_M {α β γ : Type} (x : M α) (f : α → M β) (g : β → M γ) :
    (x >>= f) >>= g = x >>= fun a => f a >>= g := by
  apply M_ext; intro m
  simp only [bind_def, M.bind]
  rcases hx : x m with ⟨st, m1, t1⟩
  cases st <;> simp only []
  rename_i a
  rcases hf : f a m1 with ⟨st2, m2, t2⟩
  cases st2 <;> simp only []
  rename_i b
  rcases hg : g b m2 with ⟨st3, m3, t3⟩
  simp [List.append_assoc]

theorem pure_bind_M {α β : Type} (a : α) (f : α → M β) : (pure a >>= f) = f a := by
  apply M_ext; intro m
  simp [bind_def, pure_def, M.bind]





/-- Trace of a sequence whose first part returned. -/
theorem bind_tr_of_ret {α β : Type} {x : M α} {f : α → M β} {m : Machine} {a : α}
    {m1 : Machine} {t1 : List Event} (h : x m = ⟨Status.ret a, m1, t1⟩) :
    ((x >>= f) m).tr = t1 ++ (f a m1).tr := by
  rw [bind_ret h]

/-- The run of `sdram_init` when the frequency is too high: `die` at once. -/
theorem sdram_init_too_high (p : rk3399_sdram_params) (m : Machine)
    (h : sdram_init_freq_too_high p.dramtype p.ddr_freq) :
    sdram_init p m = ⟨Status.die, m, [Event.die]⟩ := by
  unfold sdram_init
  simp only [if_pos h]
  rw [bind_stop (by simp [die, stop, Status.returned])]
  simp [die, stop, Status.lift]

/-- The run of `sdram_init` when the frequency is allowed starts with the
configuration of the clock tree. -/
theorem sdram_init_allowed (p : rk3399_sdram_params) (m : Machine)
    (h : ¬ sdram_init_freq_too_high p.dramtype p.ddr_freq) :
    (sdram_init p m).tr.head? = some (Event.rkclk_configure_ddr p.ddr_freq) := by
  unfold sdram_init
  simp only [if_neg h]
  rw [pure_bind_M]
  rw [bind_tr_of_ret (show rkclk_configure_ddr p.ddr_freq m
    = ⟨Status.ret (), m, [Event.rkclk_configure_ddr p.ddr_freq]⟩ from rfl)]
  rfl

/-- C8: frequency ceiling.  `sdram_init` halts in `die` with nothing done
before it (the trace of the run is the call of `die` alone: no clock
configuration, no register read or write, the machine unchanged) if and only
if the type is DDR3 and the frequency above 800 MHz, or LPDDR3 and above
933 MHz, or LPDDR4 and above 800 MHz; otherwise the first thing the run does
is to configure the clock tree.  In particular DDR3 at 933 MHz halts with
the hardware state unchanged. -/
theorem sdram_init_frequency_ceiling (p : rk3399_sdram_params) (m : Machine) :
    (((sdram_init p m).st = Status.die ∧ (sdram_init p m).tr = [Event.die] ∧
        (sdram_init p m).m = m) ↔
      ((p.dramtype = DDR3 ∧ p.ddr_freq > 800 * MHz) ∨
       (p.dramtype = LPDDR3 ∧ p.ddr_freq > 933 * MHz) ∨
       (p.dramtype = LPDDR4 ∧ p.ddr_freq > 800 * MHz))) ∧
    (¬ ((p.dramtype = DDR3 ∧ p.ddr_freq > 800 * MHz) ∨
        (p.dramtype = LPDDR3 ∧ p.ddr_freq > 933 * MHz) ∨
        (p.dramtype = LPDDR4 ∧ p.ddr_freq > 800 * MHz)) →
      (sdram_init p m).tr.head? = some (Event.rkclk_configure_ddr p.ddr_freq)) ∧
    (p.dramtype = DDR3 → p.ddr_freq = 933 * MHz →
      sdram_init p m = ⟨Status.die, m, [Event.die]⟩) := by
  refine ⟨⟨?_, ?_⟩, ?_, ?_⟩
  · rintro ⟨-, htr, -⟩
    by_contra hc
    have := sdram_init_allowed p m hc
    rw [htr] at this
    simp at this
  · intro h
    rw [sdram_init_too_high p m h]
    exact ⟨rfl, rfl, rfl⟩
  · exact sdram_init_allowed p m
  · intro hd hf
    exact sdram_init_too_high p m (Or.inl ⟨hd, by rw [hf]; decide⟩)

theorem sdram_init_frequency_ceiling_witness :
    sdram_init { ex_params_single with ddr_freq := 933 * MHz } ex_machine
      = ⟨Status.die, ex_machine, [Event.die]⟩ :=
  (sdram_init_frequency_ceiling { ex_params_single with ddr_freq := 933 * MHz } ex_machine).2.2
    rfl rfl

theorem withPolls_self (m : Machine) : withPolls m m.polls = m := rfl

theorem withPolls_withPolls (m : Machine) (l l1 : List Poll) :
    withPolls (withPolls m l) l1 = withPolls m l1 := rfl

theorem withPolls_polls (m : Machine) (l : List Poll) : (withPolls m l).polls = l := rfl

theorem Steady.polls {α : Type} {x : M α} (h : Steady x) (m : Machine) :
    (x m).m.polls = m.polls := by
  have h1 := (h m m.polls).1
  rw [withPolls_self] at h1
  have h2 := congrArg (fun r => r.m.polls) h1
  simpa [withPolls] using h2

theorem Steady_pure {α : Type} (a : α) : Steady (pure a : M α) := by
  intro m l; exact ⟨rfl, by simp [pure_def, M.pure]⟩

theorem Steady_write32 (r : Reg) (v : Nat) : Steady (write32 r v) := by
  intro m l; exact ⟨rfl, by simp⟩

theorem Steady_read32 (r : Reg) : Steady (read32 r) := by
  intro m l; exact ⟨rfl, by simp⟩

theorem Steady_pollread (q : Poll) (r : Reg) : Steady (pollread q r) := by
  intro m l; exact ⟨rfl, by simp [pollread]⟩

theorem Steady_emit (e : Event) : Steady (emit e) := by
  intro m l; exact ⟨rfl, by simp [emit]⟩

theorem Steady_bind {α β : Type} {x : M α} {f : α → M β} (hx : Steady x)
    (hf : ∀ a, Steady (f a)) : Steady (x >>= f) := by
  intro m l
  obtain ⟨h1, h2⟩ := hx m l
  rcases hxm : x m with ⟨st, m1, t1⟩
  rw [hxm] at h1 h2
  cases st with
  | ret a =>
    obtain ⟨g1, g2⟩ := hf a m1 l
    simp only [] at h1
    rw [bind_ret h1, bind_ret hxm, g1]
    exact ⟨rfl, g2⟩
  | die => rw [bind_stop (by rw [h1]; simp [Status.returned]),
      bind_stop (by rw [hxm]; simp [Status.returned]), h1, hxm]; simp [Status.lift]
  | reset => rw [bind_stop (by rw [h1]; simp [Status.returned]),
      bind_stop (by rw [hxm]; simp [Status.returned]), h1, hxm]; simp [Status.lift]
  | hang => rw [bind_stop (by rw [h1]; simp [Status.returned]),
      bind_stop (by rw [hxm]; simp [Status.returned]), h1, hxm]; simp [Status.lift]
  | undef => rw [bind_stop (by rw [h1]; simp [Status.returned]),
      bind_stop (by rw [hxm]; simp [Status.returned]), h1, hxm]; simp [Status.lift]
  | spin => simp at h2

theorem Steady_ite {α : Type} (c : Prop) [Decidable c] {x y : M α} (hx : Steady x)
    (hy : Steady y) : Steady (if c then x else y) := by
  split_ifs <;> assumption

theorem Steady_clrsetbits32 (r : Reg) (c s : Nat) : Steady (clrsetbits32 r c s) :=
  Steady_bind (Steady_read32 r) (fun _ => Steady_write32 r _)

theorem Steady_setbits32 (r : Reg) (s : Nat) : Steady (setbits32 r s) :=
  Steady_clrsetbits32 r 0 s

theorem Steady_clrbits32 (r : Reg) (c : Nat) : Steady (clrbits32 r c) :=
  Steady_clrsetbits32 r c 0

theorem Steady_select_per_cs_training_index (channel rank : Nat) :
    Steady (select_per_cs_training_index channel rank) := by
  unfold select_per_cs_training_index
  refine Steady_bind (Steady_read32 _) (fun v => Steady_ite _ ?_ (Steady_pure _))
  exact Steady_bind (Steady_clrsetbits32 _ _ _) (fun _ =>
    Steady_bind (Steady_clrsetbits32 _ _ _) (fun _ =>
      Steady_bind (Steady_clrsetbits32 _ _ _) (fun _ => Steady_clrsetbits32 _ _ _)))

theorem Mono_of_Steady {α : Type} {x : M α} (h : Steady x) : Mono x := by
  intro m pre rest _
  have h1 := (h (withPolls m pre) (pre ++ rest)).1
  rw [withPolls_withPolls] at h1
  rw [h1, Steady.polls h, withPolls_polls]

theorem Mono_bind {α β : Type} {x : M α} {f : α → M β} (hx : Mono x) (hf : ∀ a, Mono (f a)) :
    Mono (x >>= f) := by
  intro m pre rest hns
  rcases hxm : x (withPolls m pre) with ⟨st, m1, t1⟩
  have hx1 := hx m pre rest
  rw [hxm] at hx1
  cases st with
  | ret a =>
    have hx2 := hx1 (by simp)
    simp only [] at hx2
    rw [bind_ret hxm] at hns ⊢
    rw [bind_ret hx2]
    have hf1 := hf a m1 m1.polls rest
    rw [withPolls_self] at hf1
    rw [hf1 hns]
  | die =>
    have hx2 := hx1 (by simp)
    rw [bind_stop (by rw [hx2]; simp [Status.returned]),
      bind_stop (by rw [hxm]; simp [Status.returned]), hx2, hxm]
  | reset =>
    have hx2 := hx1 (by simp)
    rw [bind_stop (by rw [hx2]; simp [Status.returned]),
      bind_stop (by rw [hxm]; simp [Status.returned]), hx2, hxm]
  | hang =>
    have hx2 := hx1 (by simp)
    rw [bind_stop (by rw [hx2]; simp [Status.returned]),
      bind_stop (by rw [hxm]; simp [Status.returned]), hx2, hxm]
  | undef =>
    have hx2 := hx1 (by simp)
    rw [bind_stop (by rw [hx2]; simp [Status.returned]),
      bind_stop (by rw [hxm]; simp [Status.returned]), hx2, hxm]
  | spin =>
    rw [bind_stop (by rw [hxm]; simp [Status.returned]), hxm] at hns
    simp [Status.lift] at hns

theorem Mono_ite {α : Type} (c : Prop) [Decidable c] {x y : M α} (hx : Mono x)
    (hy : Mono y) : Mono (if c then x else y) := by
  split_ifs <;> assumption

theorem poll_loop_cons {σ α : Type} (body : σ → Poll → M (σ ⊕ α)) (q : Poll) (qs : List Poll)
    (s : σ) (m : Machine) :
    poll_loop body (q :: qs) s m =
      (body s q >>= fun r => match r with
        | Sum.inl s1 => poll_loop body qs s1
        | Sum.inr a => pure a) (withPolls m qs) := rfl

theorem bind_stop_eq {α β : Type} {x : M α} {f : α → M β} {m : Machine} {st : Status α}
    {m1 : Machine} {t1 : List Event} (h : x m = ⟨st, m1, t1⟩) (hst : ¬ st.returned) :
    (x >>= f) m = ⟨st.lift, m1, t1⟩ := by
  rw [bind_stop (by rw [h]; exact hst), h]

/-- A polling loop whose rounds take no sample themselves is unchanged by
more samples once it has left the loop. -/
theorem poll_loop_mono {σ α : Type} (body : σ → Poll → M (σ ⊕ α))
    (hb : ∀ s q, Steady (body s q)) :
    ∀ (pre : List Poll) (s : σ) (m : Machine) (rest : List Poll),
      (poll_loop body pre s (withPolls m pre)).st ≠ Status.spin →
      poll_loop body (pre ++ rest) s (withPolls m (pre ++ rest)) =
        ⟨(poll_loop body pre s (withPolls m pre)).st,
          withPolls (poll_loop body pre s (withPolls m pre)).m
            ((poll_loop body pre s (withPolls m pre)).m.polls ++ rest),
          (poll_loop body pre s (withPolls m pre)).tr⟩ := by
  intro pre
  induction pre with
  | nil => intro s m rest h; simp [poll_loop] at h
  | cons q qs ih =>
    intro s m rest h
    rw [List.cons_append, poll_loop_cons, withPolls_withPolls]
    rw [poll_loop_cons, withPolls_withPolls] at h ⊢
    obtain ⟨hb1, -⟩ := hb s q m qs
    obtain ⟨hb2, hb3⟩ := hb s q m (qs ++ rest)
    rcases hbm : body s q m with ⟨st0, m0, t0⟩
    rw [hbm] at hb1 hb2 hb3
    cases st0 with
    | ret r =>
      simp only [] at hb1 hb2
      rw [bind_ret hb1] at h ⊢
      rw [bind_ret hb2]
      cases r with
      | inl s1 =>
        simp only [] at h ⊢
        rw [ih s1 m0 rest h]
      | inr a => rfl
    | die =>
      rw [bind_stop_eq hb2 (by simp [Status.returned]),
        bind_stop_eq hb1 (by simp [Status.returned])]
      rfl
    | reset =>
      rw [bind_stop_eq hb2 (by simp [Status.returned]),
        bind_stop_eq hb1 (by simp [Status.returned])]
      rfl
    | hang =>
      rw [bind_stop_eq hb2 (by simp [Status.returned]),
        bind_stop_eq hb1 (by simp [Status.returned])]
      rfl
    | undef =>
      rw [bind_stop_eq hb2 (by simp [Status.returned]),
        bind_stop_eq hb1 (by simp [Status.returned])]
      rfl
    | spin => simp at hb3

theorem Mono_while_poll {σ α : Type} (body : σ → Poll → M (σ ⊕ α))
    (hb : ∀ s q, Steady (body s q)) (s : σ) : Mono (while_poll body s) := by
  intro m pre rest h
  exact poll_loop_mono body hb pre s m rest h

/-- A polling loop that was still polling leaves with `a` at the next
sample when its round answers `a` on that sample whatever the loop state
and the machine are. -/
theorem poll_loop_next {σ α : Type} (body : σ → Poll → M (σ ⊕ α))
    (hb : ∀ s q, Steady (body s q)) (q : Poll) (a : α)
    (hq : ∀ s m, (body s q m).st = Status.ret (Sum.inr a)) :
    ∀ (pre : List Poll) (s : σ) (m : Machine) (post : List Poll),
      (poll_loop body pre s (withPolls m pre)).st = Status.spin →
      (poll_loop body (pre ++ q :: post) s (withPolls m (pre ++ q :: post))).st = Status.ret a ∧
      (poll_loop body (pre ++ q :: post) s (withPolls m (pre ++ q :: post))).m.polls = post := by
  intro pre
  induction pre with
  | nil =>
    intro s m post _
    rw [List.nil_append, poll_loop_cons, withPolls_withPolls]
    obtain ⟨hb1, -⟩ := hb s q m post
    have hq1 := hq s m
    rcases hbm : body s q m with ⟨st0, m0, t0⟩
    rw [hbm] at hb1 hq1
    simp only [] at hq1
    subst hq1
    rw [bind_ret hb1]
    exact ⟨rfl, rfl⟩
  | cons p ps ih =>
    intro s m post h
    rw [List.cons_append, poll_loop_cons, withPolls_withPolls]
    rw [poll_loop_cons, withPolls_withPolls] at h
    obtain ⟨hb1, -⟩ := hb s p m ps
    obtain ⟨hb2, hb3⟩ := hb s p m (ps ++ q :: post)
    rcases hbm : body s p m with ⟨st0, m0, t0⟩
    rw [hbm] at hb1 hb2 hb3
    cases st0 with
    | ret r =>
      simp only [] at hb1 hb2
      rw [bind_ret hb1] at h
      rw [bind_ret hb2]
      cases r with
      | inl s1 =>
        simp only [] at h ⊢
        exact ih s1 m0 post h
      | inr b => simp [pure_def, M.pure] at h
    | die =>
      rw [bind_stop_eq hb1 (by simp [Status.returned])] at h
      simp [Status.lift] at h
    | reset =>
      rw [bind_stop_eq hb1 (by simp [Status.returned])] at h
      simp [Status.lift] at h
    | hang =>
      rw [bind_stop_eq hb1 (by simp [Status.returned])] at h
      simp [Status.lift] at h
    | undef =>
      rw [bind_stop_eq hb1 (by simp [Status.returned])] at h
      simp [Status.lift] at h
    | spin => simp at hb3

theorem FaultAborts_of_Steady {F : Poll → Prop} {x : M Int} (h : Steady x) :
    FaultAborts F x := by
  intro m pre q post hs _
  have h1 := h m pre
  rw [h1.1] at hs
  exact absurd hs h1.2

theorem FaultAborts_bind_steady {α : Type} {F : Poll → Prop} {a : M α} {f : α → M Int}
    (ha : Steady a) (hf : ∀ v, FaultAborts F (f v)) : FaultAborts F (a >>= f) := by
  intro m pre q post hs hF
  obtain ⟨h1, h3⟩ := ha m pre
  obtain ⟨h2, -⟩ := ha m (pre ++ q :: post)
  rcases ham : a m with ⟨st, m1, t1⟩
  rw [ham] at h1 h2 h3
  cases st with
  | ret v =>
    simp only [] at h1 h2
    rw [bind_ret h1] at hs
    rw [bind_ret h2]
    exact hf v m1 pre q post hs hF
  | die => rw [bind_stop_eq h1 (by simp [Status.returned])] at hs; simp [Status.lift] at hs
  | reset => rw [bind_stop_eq h1 (by simp [Status.returned])] at hs; simp [Status.lift] at hs
  | hang => rw [bind_stop_eq h1 (by simp [Status.returned])] at hs; simp [Status.lift] at hs
  | undef => rw [bind_stop_eq h1 (by simp [Status.returned])] at hs; simp [Status.lift] at hs
  | spin => simp at h3

/-- The pattern of every rank loop: wait in a polling loop `W`; on `fail`
return -1, otherwise go on with `rest`. -/
theorem FaultAborts_wait {F : Poll → Prop} {W : M PollStep} {rest : M Int} (hmono : Mono W)
    (hW : ∀ m pre q post, (W (withPolls m pre)).st = Status.spin → F q →
      (W (withPolls m (pre ++ q :: post))).st = Status.ret PollStep.fail ∧
      (W (withPolls m (pre ++ q :: post))).m.polls = post)
    (hrest : FaultAborts F rest) :
    FaultAborts F (W >>= fun w => if w = PollStep.fail then pure (-1) else rest) := by
  intro m pre q post hs hF
  rcases hw : W (withPolls m pre) with ⟨st, m1, t1⟩
  cases st with
  | ret w =>
    rw [bind_ret hw] at hs
    have hm := hmono m pre (q :: post) (by rw [hw]; simp)
    rw [hw] at hm
    simp only [] at hm hs
    rw [bind_ret hm]
    by_cases hwf : w = PollStep.fail
    · rw [if_pos hwf] at hs; simp [pure_def, M.pure] at hs
    · rw [if_neg hwf] at hs ⊢
      have := hrest m1 m1.polls q post (by rw [withPolls_self]; exact hs) hF
      exact this
  | spin =>
    obtain ⟨g1, g2⟩ := hW m pre q post (by rw [hw]) hF
    rcases hw2 : W (withPolls m (pre ++ q :: post)) with ⟨st2, m2, t2⟩
    rw [hw2] at g1 g2
    simp only [] at g1 g2
    subst g1
    rw [bind_ret hw2]
    exact ⟨rfl, g2⟩
  | die => rw [bind_stop_eq hw (by simp [Status.returned])] at hs; simp [Status.lift] at hs
  | reset => rw [bind_stop_eq hw (by simp [Status.returned])] at hs; simp [Status.lift] at hs
  | hang => rw [bind_stop_eq hw (by simp [Status.returned])] at hs; simp [Status.lift] at hs
  | undef => rw [bind_stop_eq hw (by simp [Status.returned])] at hs; simp [Status.lift] at hs

/-- The tail of every training phase: a non-zero result of the rank loop is
returned as it is, otherwise the clean-up runs. -/
theorem FaultAborts_tail {F : Poll → Prop} {x : M Int} {cleanup : M Int} (hx : FaultAborts F x)
    (hc : Steady cleanup) :
    FaultAborts F (x >>= fun r => if r ≠ 0 then pure r else cleanup) := by
  intro m pre q post hs hF
  rcases hxm : x (withPolls m pre) with ⟨st, m1, t1⟩
  cases st with
  | ret r =>
    rw [bind_ret hxm] at hs
    simp only [] at hs
    have hst : Steady (if r ≠ 0 then (pure r : M Int) else cleanup) :=
      Steady_ite _ (Steady_pure r) hc
    have := (hst m1 m1.polls).2
    exact absurd hs this
  | spin =>
    obtain ⟨g1, g2⟩ := hx m pre q post (by rw [hxm]) hF
    rcases hx2 : x (withPolls m (pre ++ q :: post)) with ⟨st2, m2, t2⟩
    rw [hx2] at g1 g2
    simp only [] at g1 g2
    subst g1
    rw [bind_ret hx2]
    exact ⟨rfl, g2⟩
  | die => rw [bind_stop_eq hxm (by simp [Status.returned])] at hs; simp [Status.lift] at hs
  | reset => rw [bind_stop_eq hxm (by simp [Status.returned])] at hs; simp [Status.lift] at hs
  | hang => rw [bind_stop_eq hxm (by simp [Status.returned])] at hs; simp [Status.lift] at hs
  | undef => rw [bind_stop_eq hxm (by simp [Status.returned])] at hs; simp [Status.lift] at hs

end RK3399

namespace RK3399

theorem Steady_data_training_ca_poll (channel : Nat) (s : Unit) (q : Poll) :
    Steady (data_training_ca_poll channel s q) := by
  unfold data_training_ca_poll
  exact Steady_bind (Steady_pollread _ _) (fun _ =>
    Steady_bind (Steady_pollread _ _) (fun _ =>
      Steady_bind (Steady_pollread _ _) (fun _ =>
        Steady_bind (Steady_pollread _ _) (fun _ => Steady_pure _))))

theorem data_training_ca_poll_fault (channel : Nat) (q : Poll) (hq : ca_obs_fault channel q)
    (s : Unit) (m : Machine) :
    (data_training_ca_poll channel s q m).st = Status.ret (Sum.inr PollStep.fail) := by
  unfold ca_obs_fault at hq
  simp [data_training_ca_poll, bind_def, pure_def, M.bind, pollread, data_training_ca_step,
    poll_answer, hq]

theorem data_training_ca_wait_fault (channel : Nat) :
    ∀ m pre q post,
      (while_poll (data_training_ca_poll channel) () (withPolls m pre)).st = Status.spin →
      ca_obs_fault channel q →
      (while_poll (data_training_ca_poll channel) () (withPolls m (pre ++ q :: post))).st
        = Status.ret PollStep.fail ∧
      (while_poll (data_training_ca_poll channel) () (withPolls m (pre ++ q :: post))).m.polls
        = post := by
  intro m pre q post hs hq
  exact poll_loop_next _ (Steady_data_training_ca_poll channel) q PollStep.fail
    (data_training_ca_poll_fault channel q hq) pre () m post hs

theorem data_training_ca_ranks_aborts (channel rank_mask : Nat) :
    ∀ todo i, FaultAborts (ca_obs_fault channel)
      (data_training_ca_ranks channel rank_mask todo i) := by
  intro todo
  induction todo with
  | zero => intro i; exact FaultAborts_of_Steady (Steady_pure _)
  | succ k ih =>
    intro i
    unfold data_training_ca_ranks
    split_ifs
    · exact ih _
    · refine FaultAborts_bind_steady (Steady_select_per_cs_training_index _ _) (fun _ => ?_)
      refine FaultAborts_bind_steady (Steady_clrsetbits32 _ _ _) (fun _ => ?_)
      refine FaultAborts_bind_steady (Steady_clrsetbits32 _ _ _) (fun _ => ?_)
      refine FaultAborts_wait (Mono_while_poll _ (Steady_data_training_ca_poll channel) _)
        (data_training_ca_wait_fault channel) ?_
      exact FaultAborts_bind_steady (Steady_write32 _ _) (fun _ => ih _)

theorem data_training_ca_aborts (channel : Nat) (params : rk3399_sdram_params) :
    FaultAborts (ca_obs_fault channel) (data_training_ca channel params) := by
  unfold data_training_ca
  refine FaultAborts_bind_steady (Steady_write32 _ _) (fun _ => ?_)
  exact FaultAborts_tail (data_training_ca_ranks_aborts _ _ _ _)
    (Steady_bind (Steady_clrbits32 _ _) (fun _ => Steady_pure _))

theorem Steady_override_write_leveling_bytes (channel : Nat) :
    ∀ todo byte, Steady (override_write_leveling_bytes channel todo byte) := by
  intro todo
  induction todo with
  | zero => intro byte; exact Steady_pure _
  | succ k ih =>
    intro byte
    unfold override_write_leveling_bytes
    exact Steady_bind (Steady_clrsetbits32 _ _ _) (fun _ => ih _)

theorem Steady_override_write_leveling_value (channel : Nat) :
    Steady (override_write_leveling_value channel) := by
  unfold override_write_leveling_value
  exact Steady_bind (Steady_setbits32 _ _) (fun _ =>
    Steady_bind (Steady_clrsetbits32 _ _ _) (fun _ =>
    Steady_bind (Steady_clrsetbits32 _ _ _) (fun _ =>
    Steady_bind (Steady_clrsetbits32 _ _ _) (fun _ =>
    Steady_bind (Steady_clrsetbits32 _ _ _) (fun _ =>
    Steady_bind (Steady_override_write_leveling_bytes _ _ _) (fun _ =>
    Steady_bind (Steady_clrbits32 _ _) (fun _ => Steady_clrsetbits32 _ _ _)))))))

theorem Steady_data_training_wl_poll (channel : Nat) (s : Unit) (q : Poll) :
    Steady (data_training_wl_poll channel s q) := by
  unfold data_training_wl_poll
  exact Steady_bind (Steady_pollread _ _) (fun _ =>
    Steady_bind (Steady_pollread _ _) (fun _ =>
      Steady_bind (Steady_pollread _ _) (fun _ =>
        Steady_bind (Steady_pollread _ _) (fun _ =>
          Steady_bind (Steady_pollread _ _) (fun _ => Steady_pure _)))))

theorem data_training_wl_poll_fault (channel : Nat) (q : Poll) (hq : wl_obs_fault channel q)
    (s : Unit) (m : Machine) :
    (data_training_wl_poll channel s q m).st = Status.ret (Sum.inr PollStep.fail) := by
  unfold wl_obs_fault at hq
  simp only [data_training_wl_poll, bind_def, pure_def, M.bind, pollread, pure_run,
    data_training_wl_step, if_pos hq, poll_answer]

theorem data_training_wl_wait_fault (channel : Nat) :
    ∀ m pre q post,
      (while_poll (data_training_wl_poll channel) () (withPolls m pre)).st = Status.spin →
      wl_obs_fault channel q →
      (while_poll (data_training_wl_poll channel) () (withPolls m (pre ++ q :: post))).st
        = Status.ret PollStep.fail ∧
      (while_poll (data_training_wl_poll channel) () (withPolls m (pre ++ q :: post))).m.polls
        = post := by
  intro m pre q post hs hq
  exact poll_loop_next _ (Steady_data_training_wl_poll channel) q PollStep.fail
    (data_training_wl_poll_fault channel q hq) pre () m post hs

theorem data_training_wl_ranks_aborts (channel : Nat) :
    ∀ todo i, FaultAborts (wl_obs_fault channel) (data_training_wl_ranks channel todo i) := by
  intro todo
  induction todo with
  | zero => intro i; exact FaultAborts_of_Steady (Steady_pure _)
  | succ k ih =>
    intro i
    unfold data_training_wl_ranks
    refine FaultAborts_bind_steady (Steady_select_per_cs_training_index _ _) (fun _ => ?_)
    refine FaultAborts_bind_steady (Steady_clrsetbits32 _ _ _) (fun _ => ?_)
    refine FaultAborts_bind_steady (Steady_clrsetbits32 _ _ _) (fun _ => ?_)
    refine FaultAborts_wait (Mono_while_poll _ (Steady_data_training_wl_poll channel) _)
      (data_training_wl_wait_fault channel) ?_
    exact FaultAborts_bind_steady (Steady_write32 _ _) (fun _ => ih _)

theorem data_training_wl_aborts (channel : Nat) (params : rk3399_sdram_params) :
    FaultAborts (wl_obs_fault channel) (data_training_wl channel params) := by
  unfold data_training_wl
  refine FaultAborts_bind_steady (Steady_write32 _ _) (fun _ => ?_)
  exact FaultAborts_tail (data_training_wl_ranks_aborts _ _ _)
    (Steady_bind (Steady_override_write_leveling_value _) (fun _ =>
      Steady_bind (Steady_clrbits32 _ _) (fun _ => Steady_pure _)))

theorem Steady_data_training_rg_poll (channel : Nat) (s : Unit) (q : Poll) :
    Steady (data_training_rg_poll channel s q) := by
  unfold data_training_rg_poll
  exact Steady_bind (Steady_pollread _ _) (fun _ =>
    Steady_bind (Steady_pollread _ _) (fun _ =>
      Steady_bind (Steady_pollread _ _) (fun _ =>
        Steady_bind (Steady_pollread _ _) (fun _ =>
          Steady_bind (Steady_pollread _ _) (fun _ => Steady_pure _)))))

theorem data_training_rg_poll_fault (channel : Nat) (q : Poll) (hq : rg_obs_fault channel q)
    (s : Unit) (m : Machine) :
    (data_training_rg_poll channel s q m).st = Status.ret (Sum.inr PollStep.fail) := by
  unfold rg_obs_fault at hq
  simp only [data_training_rg_poll, bind_def, pure_def, M.bind, pollread, pure_run,
    data_training_rg_step, if_pos hq, poll_answer]

theorem data_training_rg_wait_fault (channel : Nat) :
    ∀ m pre q post,
      (while_poll (data_training_rg_poll channel) () (withPolls m pre)).st = Status.spin →
      rg_obs_fault channel q →
      (while_poll (data_training_rg_poll channel) () (withPolls m (pre ++ q :: post))).st
        = Status.ret PollStep.fail ∧
      (while_poll (data_training_rg_poll channel) () (withPolls m (pre ++ q :: post))).m.polls
        = post := by
  intro m pre q post hs hq
  exact poll_loop_next _ (Steady_data_training_rg_poll channel) q PollStep.fail
    (data_training_rg_poll_fault channel q hq) pre () m post hs

theorem data_training_rg_ranks_aborts (channel : Nat) :
    ∀ todo i, FaultAborts (rg_obs_fault channel) (data_training_rg_ranks channel todo i) := by
  intro todo
  induction todo with
  | zero => intro i; exact FaultAborts_of_Steady (Steady_pure _)
  | succ k ih =>
    intro i
    unfold data_training_rg_ranks
    refine FaultAborts_bind_steady (Steady_select_per_cs_training_index _ _) (fun _ => ?_)
    refine FaultAborts_bind_steady (Steady_clrsetbits32 _ _ _) (fun _ => ?_)
    refine FaultAborts_bind_steady (Steady_clrsetbits32 _ _ _) (fun _ => ?_)
    refine FaultAborts_wait (Mono_while_poll _ (Steady_data_training_rg_poll channel) _)
      (data_training_rg_wait_fault channel) ?_
    exact FaultAborts_bind_steady (Steady_write32 _ _) (fun _ => ih _)

theorem Steady_data_training_rg_save (channel : Nat) (params : rk3399_sdram_params) :
    Steady (data_training_rg_save channel params) := by
  unfold data_training_rg_save
  refine Steady_ite _ ?_ (Steady_pure _)
  exact Steady_bind (Steady_read32 _) (fun _ =>
    Steady_bind (Steady_clrbits32 _ _) (fun _ =>
    Steady_bind (Steady_clrbits32 _ _) (fun _ =>
    Steady_bind (Steady_clrbits32 _ _) (fun _ =>
    Steady_bind (Steady_clrbits32 _ _) (fun _ => Steady_pure _)))))

theorem Steady_data_training_rg_restore (channel : Nat) (params : rk3399_sdram_params)
    (reg_value : Nat) : Steady (data_training_rg_restore channel params reg_value) := by
  unfold data_training_rg_restore
  refine Steady_ite _ ?_ (Steady_pure _)
  exact Steady_bind (Steady_clrsetbits32 _ _ _) (fun _ =>
    Steady_bind (Steady_clrsetbits32 _ _ _) (fun _ =>
    Steady_bind (Steady_clrsetbits32 _ _ _) (fun _ => Steady_clrsetbits32 _ _ _)))

theorem data_training_rg_aborts (channel : Nat) (params : rk3399_sdram_params) :
    FaultAborts (rg_obs_fault channel) (data_training_rg channel params) := by
  unfold data_training_rg
  refine FaultAborts_bind_steady (Steady_data_training_rg_save _ _) (fun _ => ?_)
  refine FaultAborts_bind_steady (Steady_write32 _ _) (fun _ => ?_)
  refine FaultAborts_tail (data_training_rg_ranks_aborts _ _ _) ?_
  exact Steady_bind (Steady_clrbits32 _ _) (fun _ =>
    Steady_bind (Steady_data_training_rg_restore _ _ _) (fun _ => Steady_pure _))

/-- C10: an observation-register fault aborts at once.  In
`data_training_ca`, `data_training_wl` and `data_training_rg` the decision
of a poll round is `fail` (return -1) whenever an observation register
shows its error condition, whatever the interrupt status `tmp` holds (also
with both success bits set and the error bit clear); and a run of the
function that was polling returns -1 at the sample that shows the fault,
leaving the later samples unread. -/
theorem training_obs_fault_aborts (channel : Nat) (params : rk3399_sdram_params) :
    (∀ tmp obs_0 obs_1 obs_2,
      (((obs_0 >>> 30) &&& 0x3) ≠ 0 ∨ ((obs_1 >>> 30) &&& 0x3) ≠ 0 ∨
        ((obs_2 >>> 30) &&& 0x3) ≠ 0) →
      data_training_ca_step tmp obs_0 obs_1 obs_2 = PollStep.fail) ∧
    (∀ tmp obs_0 obs_1 obs_2 obs_3,
      (((obs_0 >>> 12) &&& 0x1) ≠ 0 ∨ ((obs_1 >>> 12) &&& 0x1) ≠ 0 ∨
        ((obs_2 >>> 12) &&& 0x1) ≠ 0 ∨ ((obs_3 >>> 12) &&& 0x1) ≠ 0) →
      data_training_wl_step tmp obs_0 obs_1 obs_2 obs_3 = PollStep.fail) ∧
    (∀ tmp obs_0 obs_1 obs_2 obs_3,
      (((obs_0 >>> 22) &&& 0x3) ≠ 0 ∨ ((obs_1 >>> 22) &&& 0x3) ≠ 0 ∨
        ((obs_2 >>> 22) &&& 0x3) ≠ 0 ∨ ((obs_3 >>> 22) &&& 0x3) ≠ 0) →
      data_training_rg_step tmp obs_0 obs_1 obs_2 obs_3 = PollStep.fail) ∧
    (∀ m pre q post,
      (data_training_ca channel params (withPolls m pre)).st = Status.spin →
      ca_obs_fault channel q →
      (data_training_ca channel params (withPolls m (pre ++ q :: post))).st = Status.ret (-1) ∧
      (data_training_ca channel params (withPolls m (pre ++ q :: post))).m.polls = post) ∧
    (∀ m pre q post,
      (data_training_wl channel params (withPolls m pre)).st = Status.spin →
      wl_obs_fault channel q →
      (data_training_wl channel params (withPolls m (pre ++ q :: post))).st = Status.ret (-1) ∧
      (data_training_wl channel params (withPolls m (pre ++ q :: post))).m.polls = post) ∧
    (∀ m pre q post,
      (data_training_rg channel params (withPolls m pre)).st = Status.spin →
      rg_obs_fault channel q →
      (data_training_rg channel params (withPolls m (pre ++ q :: post))).st = Status.ret (-1) ∧
      (data_training_rg channel params (withPolls m (pre ++ q :: post))).m.polls = post) := by
  refine ⟨?_, ?_, ?_, data_training_ca_aborts channel params,
    data_training_wl_aborts channel params, data_training_rg_aborts channel params⟩
  · intro tmp o0 o1 o2 h
    unfold data_training_ca_step
    rw [if_pos h]
  · intro tmp o0 o1 o2 o3 h
    unfold data_training_wl_step
    rw [if_pos h]
  · intro tmp o0 o1 o2 o3 h
    unfold data_training_rg_step
    rw [if_pos h]

theorem training_obs_fault_aborts_witness :
    (data_training_ca 0 ex_params_dual (withPolls ex_machine [])).st = Status.spin ∧
    ca_obs_fault 0 ex_poll_obs_fault ∧
    training_status (u32 (ex_poll_obs_fault.reg (Reg.denali_pi 0 174)) >>> 8) 11 13 5
      = PollStep.done ∧
    (data_training_ca 0 ex_params_dual (withPolls ex_machine ([] ++ ex_poll_obs_fault :: []))).st
      = Status.ret (-1) :=
  ⟨rfl, by unfold ca_obs_fault; decide, by decide,
    ((training_obs_fault_aborts 0 ex_params_dual).2.2.2.1 ex_machine [] ex_poll_obs_fault []
      rfl (by unfold ca_obs_fault; decide)).1⟩

theorem TrAll_pure {α : Type} (P : Event → Prop) (a : α) : TrAll P (pure a : M α) := by
  intro m e he; simp [pure_def, M.pure] at he

theorem TrAll_bind {α β : Type} {P : Event → Prop} {x : M α} {f : α → M β} (hx : TrAll P x)
    (hf : ∀ a, TrAll P (f a)) : TrAll P (x >>= f) := by
  intro m e he
  rcases hxm : x m with ⟨st, m1, t1⟩
  have h1 := hx m
  rw [hxm] at h1
  cases st with
  | ret a =>
    rw [bind_ret hxm] at he
    simp only [List.mem_append] at he
    rcases he with he | he
    · exact h1 e he
    · exact hf a m1 e he
  | die => rw [bind_stop_eq hxm (by simp [Status.returned])] at he; exact h1 e he
  | reset => rw [bind_stop_eq hxm (by simp [Status.returned])] at he; exact h1 e he
  | hang => rw [bind_stop_eq hxm (by simp [Status.returned])] at he; exact h1 e he
  | undef => rw [bind_stop_eq hxm (by simp [Status.returned])] at he; exact h1 e he
  | spin => rw [bind_stop_eq hxm (by simp [Status.returned])] at he; exact h1 e he

theorem TrAll_ite {α : Type} {P : Event → Prop} (c : Prop) [Decidable c] {x y : M α}
    (hx : TrAll P x) (hy : TrAll P y) : TrAll P (if c then x else y) := by
  split_ifs <;> assumption

theorem TrAll_mono {α : Type} {P Q : Event → Prop} {x : M α} (h : ∀ e, P e → Q e)
    (hx : TrAll P x) : TrAll Q x :=
  fun m e he => h e (hx m e he)

theorem TrAll_emit {P : Event → Prop} (e : Event) (h : P e) : TrAll P (emit e) := by
  intro m e1 he; simp [emit] at he; rw [he]; exact h

theorem TrAll_stop {α : Type} {P : Event → Prop} (s : Status α) (l : List Event)
    (h : ∀ e ∈ l, P e) : TrAll P (stop s l) := by
  intro m e he; exact h e he

theorem TrAll_write32 {P : Event → Prop} (r : Reg) (v : Nat) (h : ∀ w, P (Event.write r w)) :
    TrAll P (write32 r v) := by
  intro m e he; simp at he; rw [he]; exact h _

theorem TrAll_read32 {P : Event → Prop} (r : Reg) (h : P (Event.read r)) :
    TrAll P (read32 r) := by
  intro m e he; simp at he; rw [he]; exact h

theorem TrAll_pollread {P : Event → Prop} (q : Poll) (r : Reg) (h : P (Event.read r)) :
    TrAll P (pollread q r) := by
  intro m e he; simp [pollread] at he; rw [he]; exact h

theorem TrAll_poll_loop {σ α : Type} {P : Event → Prop} (body : σ → Poll → M (σ ⊕ α))
    (hb : ∀ s q, TrAll P (body s q)) :
    ∀ (l : List Poll) (s : σ) (m : Machine), ∀ e ∈ (poll_loop body l s m).tr, P e := by
  intro l
  induction l with
  | nil => intro s m e he; simp [poll_loop] at he
  | cons q qs ih =>
    intro s m e he
    rw [poll_loop_cons] at he
    refine TrAll_bind (hb s q) (fun r => ?_) (withPolls m qs) e he
    cases r with
    | inl s1 => exact fun m1 => ih s1 m1
    | inr a => exact TrAll_pure P a

theorem TrAll_while_poll {σ α : Type} {P : Event → Prop} (body : σ → Poll → M (σ ⊕ α))
    (hb : ∀ s q, TrAll P (body s q)) (s : σ) : TrAll P (while_poll body s) :=
  fun m => TrAll_poll_loop body hb m.polls s m

/-! ### Bring-up and training only touch the DDR blocks -/

theorem TrAll_of_nil {α : Type} {P : Event → Prop} {x : M α} (h : ∀ m, (x m).tr = []) :
    TrAll P x := by
  intro m e he; rw [h m] at he; simp at he

theorem ddr_write32 (r : Reg) (v : Nat) (h : ddr_reg r = true) :
    TrAll (fun e => local_event e = true) (write32 r v) :=
  TrAll_write32 r v (fun _ => h)

theorem ddr_read32 (r : Reg) (h : ddr_reg r = true) :
    TrAll (fun e => local_event e = true) (read32 r) :=
  TrAll_read32 r h

theorem ddr_pollread (q : Poll) (r : Reg) (h : ddr_reg r = true) :
    TrAll (fun e => local_event e = true) (pollread q r) :=
  TrAll_pollread q r h

theorem ddr_clrsetbits32 (r : Reg) (c s : Nat) (h : ddr_reg r = true) :
    TrAll (fun e => local_event e = true) (clrsetbits32 r c s) :=
  TrAll_bind (ddr_read32 r h) (fun _ => ddr_write32 r _ h)

theorem ddr_setbits32 (r : Reg) (s : Nat) (h : ddr_reg r = true) :
    TrAll (fun e => local_event e = true) (setbits32 r s) :=
  ddr_clrsetbits32 r 0 s h

theorem ddr_clrbits32 (r : Reg) (c : Nat) (h : ddr_reg r = true) :
    TrAll (fun e => local_event e = true) (clrbits32 r c) :=
  ddr_clrsetbits32 r c 0 h

theorem ddr_udelay (us : Nat) : TrAll (fun e => local_event e = true) (udelay us) :=
  TrAll_emit _ rfl

theorem ddr_die {α : Type} : TrAll (fun e => local_event e = true) (die : M α) :=
  TrAll_stop _ _ (by intro e he; simp at he; rw [he]; rfl)

theorem ddr_board_reset {α : Type} :
    TrAll (fun e => local_event e = true) (board_reset : M α) :=
  TrAll_stop _ _ (by intro e he; simp at he; rw [he]; rfl)

theorem ddr_set_ds_odt (channel : Nat) (params : rk3399_sdram_params) :
    TrAll (fun e => local_event e = true) (set_ds_odt channel params) := by
  unfold set_ds_odt
  repeat (first
    | exact ddr_clrsetbits32 _ _ _ rfl
    | refine TrAll_bind (ddr_clrsetbits32 _ _ _ rfl) (fun _ => ?_))

theorem ddr_phy_pctrl_reset (channel : Nat) :
    TrAll (fun e => local_event e = true) (phy_pctrl_reset channel) := by
  unfold phy_pctrl_reset rkclk_ddr_reset udelay
  repeat (first
    | exact TrAll_emit _ rfl
    | refine TrAll_bind (TrAll_emit _ rfl) (fun _ => ?_))

theorem ddr_phy_dll_bypass_set (channel freq : Nat) :
    TrAll (fun e => local_event e = true) (phy_dll_bypass_set channel freq) := by
  unfold phy_dll_bypass_set
  refine TrAll_ite _ ?_ ?_
  · repeat (first
      | exact ddr_setbits32 _ _ rfl
      | refine TrAll_bind (ddr_setbits32 _ _ rfl) (fun _ => ?_))
  · repeat (first
      | exact ddr_clrbits32 _ _ rfl
      | refine TrAll_bind (ddr_clrbits32 _ _ rfl) (fun _ => ?_))

theorem ddr_copy_words (dest : Nat → Reg) (src : Nat → Nat) (h : ∀ i, ddr_reg (dest i) = true) :
    ∀ k i, TrAll (fun e => local_event e = true) (copy_words dest src k i) := by
  intro k
  induction k with
  | zero => intro i; exact TrAll_pure _ _
  | succ k ih =>
    intro i
    unfold copy_words
    exact TrAll_bind (ddr_write32 _ _ (h i)) (fun _ => ih _)

theorem ddr_copy_to_reg (dest : Nat → Reg) (src : Nat → Nat) (n : Nat)
    (h : ∀ i, ddr_reg (dest i) = true) :
    TrAll (fun e => local_event e = true) (copy_to_reg dest src n) :=
  ddr_copy_words dest src h _ _

theorem ddr_set_memory_map (channel : Nat) (params : rk3399_sdram_params) :
    TrAll (fun e => local_event e = true) (set_memory_map channel params) := by
  unfold set_memory_map
  repeat (first
    | exact TrAll_ite _ (ddr_write32 _ _ rfl) (TrAll_pure _ _)
    | exact ddr_clrsetbits32 _ _ _ rfl
    | refine TrAll_bind (ddr_clrsetbits32 _ _ _ rfl) (fun _ => ?_))

theorem ddr_phy_io_config_odt_switch (odt_value v240 v120 v60 : Nat) :
    TrAll (fun e => local_event e = true)
      (phy_io_config_odt_switch odt_value v240 v120 v60) := by
  unfold phy_io_config_odt_switch
  exact TrAll_ite _ (TrAll_pure _ _) (TrAll_ite _ (TrAll_pure _ _)
    (TrAll_ite _ (TrAll_pure _ _) ddr_die))

theorem ddr_phy_io_config_vref (channel : Nat) (params : rk3399_sdram_params) :
    TrAll (fun e => local_event e = true) (phy_io_config_vref channel params) := by
  unfold phy_io_config_vref
  refine TrAll_ite _ (TrAll_pure _ _) (TrAll_ite _ (TrAll_ite _ ?_ (TrAll_pure _ _))
    (TrAll_ite _ (TrAll_pure _ _) ddr_die))
  refine TrAll_bind (ddr_read32 _ rfl) (fun _ => TrAll_bind (ddr_read32 _ rfl) (fun _ => ?_))
  refine TrAll_bind ?_ (fun _ => TrAll_pure _ _)
  exact TrAll_ite _ (ddr_phy_io_config_odt_switch _ _ _ _)
    (TrAll_ite _ (ddr_phy_io_config_odt_switch _ _ _ _)
      (TrAll_ite _ (ddr_phy_io_config_odt_switch _ _ _ _) ddr_die))

theorem ddr_phy_io_config (channel : Nat) (params : rk3399_sdram_params) :
    TrAll (fun e => local_event e = true) (phy_io_config channel params) := by
  unfold phy_io_config
  refine TrAll_bind (ddr_phy_io_config_vref _ _) (fun ⟨_, _, _, _⟩ => ?_)
  unfold phy_io_config_pads
  repeat (first
    | exact ddr_clrsetbits32 _ _ _ rfl
    | refine TrAll_bind (ddr_clrsetbits32 _ _ _ rfl) (fun _ => ?_))

theorem ddr_pctl_cfg_wait (channel : Nat) (s : Unit) (q : Poll) :
    TrAll (fun e => local_event e = true) (pctl_cfg_wait channel s q) := by
  unfold pctl_cfg_wait
  exact TrAll_bind (ddr_pollread _ _ rfl) (fun _ => TrAll_bind (ddr_pollread _ _ rfl) (fun _ =>
    TrAll_bind (ddr_pollread _ _ rfl) (fun _ => TrAll_ite _ (TrAll_pure _ _) (TrAll_pure _ _))))

theorem ddr_pctl_cfg_add_half_cycle (r : Reg) (off : Nat) (h : ddr_reg r = true) :
    TrAll (fun e => local_event e = true) (pctl_cfg_add_half_cycle r off) := by
  unfold pctl_cfg_add_half_cycle
  exact TrAll_bind (ddr_read32 _ h) (fun _ => ddr_clrsetbits32 _ _ _ h)

theorem ddr_pctl_start_wait (channel count : Nat) (q : Poll) :
    TrAll (fun e => local_event e = true) (pctl_start_wait channel count q) := by
  unfold pctl_start_wait
  refine TrAll_bind (ddr_pollread _ _ rfl) (fun _ => TrAll_ite _ (TrAll_pure _ _)
    (TrAll_ite _ (TrAll_stop _ _ (by simp)) ?_))
  exact TrAll_bind (ddr_udelay _) (fun _ => TrAll_pure _ _)

theorem ddr_pctl_start_bytes (channel : Nat) :
    ∀ k byte, TrAll (fun e => local_event e = true) (pctl_start_bytes channel k byte) := by
  intro k
  induction k with
  | zero => intro byte; exact TrAll_pure _ _
  | succ k ih =>
    intro byte
    unfold pctl_start_bytes
    repeat (first
      | exact ih _
      | refine TrAll_bind (ddr_write32 _ _ rfl) (fun _ => ?_)
      | refine TrAll_bind (ddr_clrsetbits32 _ _ _ rfl) (fun _ => ?_))

theorem ddr_set_pwrup_srefresh_exit (channel v : Nat) :
    TrAll (fun e => local_event e = true) (set_pwrup_srefresh_exit channel v) :=
  TrAll_of_nil (fun _ => rfl)

theorem ddr_pctl_cfg_load (channel : Nat) (params : rk3399_sdram_params) :
    TrAll (fun e => local_event e = true) (pctl_cfg_load channel params) := by
  unfold pctl_cfg_load
  refine TrAll_bind (ddr_copy_to_reg _ _ _ (fun _ => by rfl)) (fun _ => ?_)
  refine TrAll_bind (ddr_write32 _ _ (by rfl)) (fun _ => ?_)
  refine TrAll_bind (ddr_copy_to_reg _ _ _ (fun _ => by rfl)) (fun _ => ?_)
  refine TrAll_bind (ddr_set_memory_map _ _) (fun _ => ?_)
  refine TrAll_bind (ddr_write32 _ _ (by rfl)) (fun _ => ?_)
  refine TrAll_bind (ddr_write32 _ _ (by rfl)) (fun _ => ?_)
  refine TrAll_bind (ddr_write32 _ _ (by rfl)) (fun _ => ?_)
  refine TrAll_bind (ddr_read32 _ (by rfl)) (fun _ => ?_)
  refine TrAll_bind (ddr_set_pwrup_srefresh_exit _ _) (fun _ => ?_)
  refine TrAll_bind (ddr_clrbits32 _ _ (by rfl)) (fun _ => ?_)
  refine TrAll_bind (ddr_clrsetbits32 _ _ _ (by rfl)) (fun _ => ?_)
  refine TrAll_bind (ddr_setbits32 _ _ (by rfl)) (fun _ => ?_)
  refine TrAll_bind (ddr_setbits32 _ _ (by rfl)) (fun _ => ?_)
  refine TrAll_bind (TrAll_while_poll _ (ddr_pctl_cfg_wait _) _) (fun _ => ?_)
  refine TrAll_bind (ddr_copy_to_reg _ _ _ (fun _ => by rfl)) (fun _ => ?_)
  refine TrAll_bind (ddr_copy_to_reg _ _ _ (fun _ => by rfl)) (fun _ => ?_)
  refine TrAll_bind (ddr_copy_to_reg _ _ _ (fun _ => by rfl)) (fun _ => ?_)
  refine TrAll_bind (ddr_copy_to_reg _ _ _ (fun _ => by rfl)) (fun _ => ?_)
  refine TrAll_bind (ddr_copy_to_reg _ _ _ (fun _ => by rfl)) (fun _ => ?_)
  refine TrAll_bind (ddr_copy_to_reg _ _ _ (fun _ => by rfl)) (fun _ => ?_)
  refine TrAll_bind (ddr_copy_to_reg _ _ _ (fun _ => by rfl)) (fun _ => ?_)
  refine TrAll_bind (ddr_copy_to_reg _ _ _ (fun _ => by rfl)) (fun _ => ?_)
  exact ddr_set_ds_odt _ _

theorem ddr_pctl_cfg_half_cycle (channel : Nat) :
    TrAll (fun e => local_event e = true) (pctl_cfg_half_cycle channel) := by
  unfold pctl_cfg_half_cycle
  refine TrAll_bind (ddr_pctl_cfg_add_half_cycle _ _ (by rfl)) (fun _ => ?_)
  refine TrAll_bind (ddr_pctl_cfg_add_half_cycle _ _ (by rfl)) (fun _ => ?_)
  refine TrAll_bind (ddr_pctl_cfg_add_half_cycle _ _ (by rfl)) (fun _ => ?_)
  refine TrAll_bind (ddr_pctl_cfg_add_half_cycle _ _ (by rfl)) (fun _ => ?_)
  refine TrAll_bind (ddr_pctl_cfg_add_half_cycle _ _ (by rfl)) (fun _ => ?_)
  refine TrAll_bind (ddr_pctl_cfg_add_half_cycle _ _ (by rfl)) (fun _ => ?_)
  refine TrAll_bind (ddr_pctl_cfg_add_half_cycle _ _ (by rfl)) (fun _ => ?_)
  exact ddr_pctl_cfg_add_half_cycle _ _ (by rfl)

theorem ddr_pctl_cfg (channel : Nat) (params : rk3399_sdram_params) :
    TrAll (fun e => local_event e = true) (pctl_cfg channel params) := by
  unfold pctl_cfg
  refine TrAll_bind (ddr_pctl_cfg_load _ _) (fun _ => ?_)
  refine TrAll_bind (ddr_pctl_cfg_half_cycle _) (fun _ => ?_)
  refine TrAll_bind (ddr_phy_io_config _ _) (fun _ => ?_)
  exact TrAll_pure _ _

theorem ddr_pctl_start (channel : Nat) :
    TrAll (fun e => local_event e = true) (pctl_start channel) := by
  unfold pctl_start
  refine TrAll_bind (ddr_write32 _ _ (by rfl)) (fun _ => ?_)
  refine TrAll_bind (ddr_clrsetbits32 _ _ _ (by rfl)) (fun _ => ?_)
  refine TrAll_bind (TrAll_while_poll _ (ddr_pctl_start_wait _) _) (fun _ => ?_)
  refine TrAll_bind (ddr_write32 _ _ (by rfl)) (fun _ => ?_)
  refine TrAll_bind (ddr_pctl_start_bytes _ _ _) (fun _ => ?_)
  refine TrAll_bind (TrAll_of_nil (fun _ => rfl)) (fun _ => ?_)
  exact ddr_clrsetbits32 _ _ _ (by rfl)

theorem ddr_select_per_cs_training_index (channel rank : Nat) :
    TrAll (fun e => local_event e = true) (select_per_cs_training_index channel rank) := by
  unfold select_per_cs_training_index
  refine TrAll_bind (ddr_read32 _ (by rfl)) (fun _ => TrAll_ite _ ?_ (TrAll_pure _ _))
  refine TrAll_bind (ddr_clrsetbits32 _ _ _ (by rfl)) (fun _ => ?_)
  refine TrAll_bind (ddr_clrsetbits32 _ _ _ (by rfl)) (fun _ => ?_)
  refine TrAll_bind (ddr_clrsetbits32 _ _ _ (by rfl)) (fun _ => ?_)
  exact ddr_clrsetbits32 _ _ _ (by rfl)

theorem ddr_override_write_leveling_bytes (channel : Nat) :
    ∀ k byte, TrAll (fun e => local_event e = true)
      (override_write_leveling_bytes channel k byte) := by
  intro k
  induction k with
  | zero => intro byte; exact TrAll_pure _ _
  | succ k ih =>
    intro byte
    unfold override_write_leveling_bytes
    exact TrAll_bind (ddr_clrsetbits32 _ _ _ (by rfl)) (fun _ => ih _)

theorem ddr_override_write_leveling_value (channel : Nat) :
    TrAll (fun e => local_event e = true) (override_write_leveling_value channel) := by
  unfold override_write_leveling_value
  refine TrAll_bind (ddr_setbits32 _ _ (by rfl)) (fun _ => ?_)
  refine TrAll_bind (ddr_clrsetbits32 _ _ _ (by rfl)) (fun _ => ?_)
  refine TrAll_bind (ddr_clrsetbits32 _ _ _ (by rfl)) (fun _ => ?_)
  refine TrAll_bind (ddr_clrsetbits32 _ _ _ (by rfl)) (fun _ => ?_)
  refine TrAll_bind (ddr_clrsetbits32 _ _ _ (by rfl)) (fun _ => ?_)
  refine TrAll_bind (ddr_override_write_leveling_bytes _ _ _) (fun _ => ?_)
  refine TrAll_bind (ddr_clrbits32 _ _ (by rfl)) (fun _ => ?_)
  exact ddr_clrsetbits32 _ _ _ (by rfl)

theorem ddr_data_training_ca_poll (channel : Nat) (s : Unit) (q : Poll) :
    TrAll (fun e => local_event e = true) (data_training_ca_poll channel s q) := by
  unfold data_training_ca_poll
  exact TrAll_bind (ddr_pollread _ _ (by rfl)) (fun _ =>
    TrAll_bind (ddr_pollread _ _ (by rfl)) (fun _ =>
    TrAll_bind (ddr_pollread _ _ (by rfl)) (fun _ =>
    TrAll_bind (ddr_pollread _ _ (by rfl)) (fun _ => TrAll_pure _ _))))

theorem ddr_data_training_wl_poll (channel : Nat) (s : Unit) (q : Poll) :
    TrAll (fun e => local_event e = true) (data_training_wl_poll channel s q) := by
  unfold data_training_wl_poll
  exact TrAll_bind (ddr_pollread _ _ (by rfl)) (fun _ =>
    TrAll_bind (ddr_pollread _ _ (by rfl)) (fun _ =>
    TrAll_bind (ddr_pollread _ _ (by rfl)) (fun _ =>
    TrAll_bind (ddr_pollread _ _ (by rfl)) (fun _ =>
    TrAll_bind (ddr_pollread _ _ (by rfl)) (fun _ => TrAll_pure _ _)))))

theorem ddr_data_training_rg_poll (channel : Nat) (s : Unit) (q : Poll) :
    TrAll (fun e => local_event e = true) (data_training_rg_poll channel s q) := by
  unfold data_training_rg_poll
  exact TrAll_bind (ddr_pollread _ _ (by rfl)) (fun _ =>
    TrAll_bind (ddr_pollread _ _ (by rfl)) (fun _ =>
    TrAll_bind (ddr_pollread _ _ (by rfl)) (fun _ =>
    TrAll_bind (ddr_pollread _ _ (by rfl)) (fun _ =>
    TrAll_bind (ddr_pollread _ _ (by rfl)) (fun _ => TrAll_pure _ _)))))

theorem ddr_data_training_rl_poll (channel : Nat) (s : Unit) (q : Poll) :
    TrAll (fun e => local_event e = true) (data_training_rl_poll channel s q) := by
  unfold data_training_rl_poll
  exact TrAll_bind (ddr_pollread _ _ (by rfl)) (fun _ => TrAll_pure _ _)

theorem ddr_data_training_wdql_poll (channel : Nat) (s : Unit) (q : Poll) :
    TrAll (fun e => local_event e = true) (data_training_wdql_poll channel s q) := by
  unfold data_training_wdql_poll
  exact TrAll_bind (ddr_pollread _ _ (by rfl)) (fun _ => TrAll_pure _ _)

theorem ddr_data_training_ca_ranks (channel rank_mask : Nat) :
    ∀ k i, TrAll (fun e => local_event e = true)
      (data_training_ca_ranks channel rank_mask k i) := by
  intro k
  induction k with
  | zero => intro i; exact TrAll_pure _ _
  | succ k ih =>
    intro i
    unfold data_training_ca_ranks
    refine TrAll_ite _ (ih _) ?_
    refine TrAll_bind (ddr_select_per_cs_training_index _ _) (fun _ => ?_)
    refine TrAll_bind (ddr_clrsetbits32 _ _ _ (by rfl)) (fun _ => ?_)
    refine TrAll_bind (ddr_clrsetbits32 _ _ _ (by rfl)) (fun _ => ?_)
    refine TrAll_bind (TrAll_while_poll _ (ddr_data_training_ca_poll _) _) (fun _ => ?_)
    refine TrAll_ite _ (TrAll_pure _ _) ?_
    exact TrAll_bind (ddr_write32 _ _ (by rfl)) (fun _ => ih _)

theorem ddr_data_training_wl_ranks (channel : Nat) :
    ∀ k i, TrAll (fun e => local_event e = true) (data_training_wl_ranks channel k i) := by
  intro k
  induction k with
  | zero => intro i; exact TrAll_pure _ _
  | succ k ih =>
    intro i
    unfold data_training_wl_ranks
    refine TrAll_bind (ddr_select_per_cs_training_index _ _) (fun _ => ?_)
    refine TrAll_bind (ddr_clrsetbits32 _ _ _ (by rfl)) (fun _ => ?_)
    refine TrAll_bind (ddr_clrsetbits32 _ _ _ (by rfl)) (fun _ => ?_)
    refine TrAll_bind (TrAll_while_poll _ (ddr_data_training_wl_poll _) _) (fun _ => ?_)
    refine TrAll_ite _ (TrAll_pure _ _) ?_
    exact TrAll_bind (ddr_write32 _ _ (by rfl)) (fun _ => ih _)

theorem ddr_data_training_rg_ranks (channel : Nat) :
    ∀ k i, TrAll (fun e => local_event e = true) (data_training_rg_ranks channel k i) := by
  intro k
  induction k with
  | zero => intro i; exact TrAll_pure _ _
  | succ k ih =>
    intro i
    unfold data_training_rg_ranks
    refine TrAll_bind (ddr_select_per_cs_training_index _ _) (fun _ => ?_)
    refine TrAll_bind (ddr_clrsetbits32 _ _ _ (by rfl)) (fun _ => ?_)
    refine TrAll_bind (ddr_clrsetbits32 _ _ _ (by rfl)) (fun _ => ?_)
    refine TrAll_bind (TrAll_while_poll _ (ddr_data_training_rg_poll _) _) (fun _ => ?_)
    refine TrAll_ite _ (TrAll_pure _ _) ?_
    exact TrAll_bind (ddr_write32 _ _ (by rfl)) (fun _ => ih _)

theorem ddr_data_training_rl_ranks (channel : Nat) :
    ∀ k i, TrAll (fun e => local_event e = true) (data_training_rl_ranks channel k i) := by
  intro k
  induction k with
  | zero => intro i; exact TrAll_pure _ _
  | succ k ih =>
    intro i
    unfold data_training_rl_ranks
    refine TrAll_bind (ddr_select_per_cs_training_index _ _) (fun _ => ?_)
    refine TrAll_bind (ddr_clrsetbits32 _ _ _ (by rfl)) (fun _ => ?_)
    refine TrAll_bind (ddr_clrsetbits32 _ _ _ (by rfl)) (fun _ => ?_)
    refine TrAll_bind (TrAll_while_poll _ (ddr_data_training_rl_poll _) _) (fun _ => ?_)
    refine TrAll_ite _ (TrAll_pure _ _) ?_
    exact TrAll_bind (ddr_write32 _ _ (by rfl)) (fun _ => ih _)

theorem ddr_data_training_wdql_ranks (channel rank_mask : Nat) :
    ∀ k i, TrAll (fun e => local_event e = true)
      (data_training_wdql_ranks channel rank_mask k i) := by
  intro k
  induction k with
  | zero => intro i; exact TrAll_pure _ _
  | succ k ih =>
    intro i
    unfold data_training_wdql_ranks
    refine TrAll_ite _ (ih _) ?_
    refine TrAll_bind (ddr_select_per_cs_training_index _ _) (fun _ => ?_)
    refine TrAll_bind (ddr_clrbits32 _ _ (by rfl)) (fun _ => ?_)
    refine TrAll_bind (ddr_clrsetbits32 _ _ _ (by rfl)) (fun _ => ?_)
    refine TrAll_bind (ddr_clrsetbits32 _ _ _ (by rfl)) (fun _ => ?_)
    refine TrAll_bind (TrAll_while_poll _ (ddr_data_training_wdql_poll _) _) (fun _ => ?_)
    refine TrAll_ite _ (TrAll_pure _ _) ?_
    exact TrAll_bind (ddr_write32 _ _ (by rfl)) (fun _ => ih _)

theorem ddr_data_training_ca (channel : Nat) (params : rk3399_sdram_params) :
    TrAll (fun e => local_event e = true) (data_training_ca channel params) := by
  unfold data_training_ca
  refine TrAll_bind (ddr_write32 _ _ (by rfl)) (fun _ => ?_)
  refine TrAll_bind (ddr_data_training_ca_ranks _ _ _ _) (fun _ => ?_)
  refine TrAll_ite _ (TrAll_pure _ _) ?_
  exact TrAll_bind (ddr_clrbits32 _ _ (by rfl)) (fun _ => TrAll_pure _ _)

theorem ddr_data_training_wl (channel : Nat) (params : rk3399_sdram_params) :
    TrAll (fun e => local_event e = true) (data_training_wl channel params) := by
  unfold data_training_wl
  refine TrAll_bind (ddr_write32 _ _ (by rfl)) (fun _ => ?_)
  refine TrAll_bind (ddr_data_training_wl_ranks _ _ _) (fun _ => ?_)
  refine TrAll_ite _ (TrAll_pure _ _) ?_
  refine TrAll_bind (ddr_override_write_leveling_value _) (fun _ => ?_)
  exact TrAll_bind (ddr_clrbits32 _ _ (by rfl)) (fun _ => TrAll_pure _ _)

theorem ddr_data_training_rg_save (channel : Nat) (params : rk3399_sdram_params) :
    TrAll (fun e => local_event e = true) (data_training_rg_save channel params) := by
  unfold data_training_rg_save
  refine TrAll_ite _ ?_ (TrAll_pure _ _)
  refine TrAll_bind (ddr_read32 _ (by rfl)) (fun _ => ?_)
  refine TrAll_bind (ddr_clrbits32 _ _ (by rfl)) (fun _ => ?_)
  refine TrAll_bind (ddr_clrbits32 _ _ (by rfl)) (fun _ => ?_)
  refine TrAll_bind (ddr_clrbits32 _ _ (by rfl)) (fun _ => ?_)
  exact TrAll_bind (ddr_clrbits32 _ _ (by rfl)) (fun _ => TrAll_pure _ _)

theorem ddr_data_training_rg_restore (channel : Nat) (params : rk3399_sdram_params)
    (reg_value : Nat) :
    TrAll (fun e => local_event e = true)
      (data_training_rg_restore channel params reg_value) := by
  unfold data_training_rg_restore
  refine TrAll_ite _ ?_ (TrAll_pure _ _)
  refine TrAll_bind (ddr_clrsetbits32 _ _ _ (by rfl)) (fun _ => ?_)
  refine TrAll_bind (ddr_clrsetbits32 _ _ _ (by rfl)) (fun _ => ?_)
  refine TrAll_bind (ddr_clrsetbits32 _ _ _ (by rfl)) (fun _ => ?_)
  exact ddr_clrsetbits32 _ _ _ (by rfl)

theorem ddr_data_training_rg (channel : Nat) (params : rk3399_sdram_params) :
    TrAll (fun e => local_event e = true) (data_training_rg channel params) := by
  unfold data_training_rg
  refine TrAll_bind (ddr_data_training_rg_save _ _) (fun _ => ?_)
  refine TrAll_bind (ddr_write32 _ _ (by rfl)) (fun _ => ?_)
  refine TrAll_bind (ddr_data_training_rg_ranks _ _ _) (fun _ => ?_)
  refine TrAll_ite _ (TrAll_pure _ _) ?_
  refine TrAll_bind (ddr_clrbits32 _ _ (by rfl)) (fun _ => ?_)
  exact TrAll_bind (ddr_data_training_rg_restore _ _ _) (fun _ => TrAll_pure _ _)

theorem ddr_data_training_rl (channel : Nat) (params : rk3399_sdram_params) :
    TrAll (fun e => local_event e = true) (data_training_rl channel params) := by
  unfold data_training_rl
  refine TrAll_bind (ddr_write32 _ _ (by rfl)) (fun _ => ?_)
  refine TrAll_bind (ddr_data_training_rl_ranks _ _ _) (fun _ => ?_)
  refine TrAll_ite _ (TrAll_pure _ _) ?_
  exact TrAll_bind (ddr_clrbits32 _ _ (by rfl)) (fun _ => TrAll_pure _ _)

theorem ddr_data_training_wdql (channel : Nat) (params : rk3399_sdram_params) :
    TrAll (fun e => local_event e = true) (data_training_wdql channel params) := by
  unfold data_training_wdql
  refine TrAll_bind (ddr_write32 _ _ (by rfl)) (fun _ => ?_)
  refine TrAll_bind (ddr_data_training_wdql_ranks _ _ _ _) (fun _ => ?_)
  refine TrAll_ite _ (TrAll_pure _ _) ?_
  exact TrAll_bind (ddr_clrbits32 _ _ (by rfl)) (fun _ => TrAll_pure _ _)

theorem TrAll_data_training_phase {P : Event → Prop} (training_flag bit : Nat)
    {phase rest : M Int} (hp : TrAll P phase) (hr : TrAll P rest) :
    TrAll P (data_training_phase training_flag bit phase rest) := by
  unfold data_training_phase
  exact TrAll_ite _ (TrAll_bind hp (fun _ => TrAll_ite _ (TrAll_pure _ _) hr)) hr

theorem ddr_data_training (channel : Nat) (params : rk3399_sdram_params) (training_flag : Nat) :
    TrAll (fun e => local_event e = true) (data_training channel params training_flag) := by
  unfold data_training
  refine TrAll_bind (ddr_setbits32 _ _ (by rfl)) (fun _ => ?_)
  refine TrAll_data_training_phase _ _ (ddr_data_training_ca _ _) ?_
  refine TrAll_data_training_phase _ _ (ddr_data_training_wl _ _) ?_
  refine TrAll_data_training_phase _ _ (ddr_data_training_rg _ _) ?_
  refine TrAll_data_training_phase _ _ (ddr_data_training_rl _ _) ?_
  refine TrAll_data_training_phase _ _ (ddr_data_training_wdql _ _) ?_
  exact TrAll_bind (ddr_clrbits32 _ _ (by rfl)) (fun _ => TrAll_pure _ _)

theorem isRet_eq {s : Status Int} {r : Int} (h : Status.isRet s r = true) :
    s = Status.ret r := by
  cases s <;> simp [Status.isRet] at h
  rw [h]

theorem local_not_publishes (ch : Nat) {α : Type} {x : M α}
    (h : TrAll (fun e => local_event e = true) x) :
    TrAll (fun e => publishes_geometry ch e = false) x := by
  refine TrAll_mono (fun e he => ?_) h
  cases e with
  | write r v => cases r <;> simp_all [local_event, ddr_reg, publishes_geometry]
  | _ => rfl

theorem quiet_set_ddrconfig (p : rk3399_sdram_params) (c ch cfg : Nat) (h : c ≠ ch) :
    TrAll (fun e => publishes_geometry ch e = false) (set_ddrconfig p c cfg) := by
  unfold set_ddrconfig
  cases channel_cs_cap (p.ch c) with
  | none => exact TrAll_stop _ _ (by simp)
  | some cc =>
    obtain ⟨a, b⟩ := cc
    exact TrAll_bind (TrAll_write32 _ _ (fun _ => by simp [publishes_geometry, h]))
      (fun _ => TrAll_write32 _ _ (fun _ => by simp [publishes_geometry, h]))

theorem quiet_sdram_init_channel (p : rk3399_sdram_params) (dt f c ch : Nat) (h : c ≠ ch) :
    TrAll (fun e => publishes_geometry ch e = false) (sdram_init_channel p dt f c) := by
  unfold sdram_init_channel sdram_init_channel_with
  refine TrAll_bind (local_not_publishes ch (ddr_phy_pctrl_reset _)) (fun _ => ?_)
  refine TrAll_bind (local_not_publishes ch (ddr_phy_dll_bypass_set _ _)) (fun _ => ?_)
  refine TrAll_ite _ (TrAll_pure _ _) ?_
  refine TrAll_bind (local_not_publishes ch (ddr_pctl_cfg _ _)) (fun _ => ?_)
  refine TrAll_bind (TrAll_ite _ (local_not_publishes ch ddr_board_reset) (TrAll_pure _ _))
    (fun _ => ?_)
  refine TrAll_bind (local_not_publishes ch (ddr_pctl_start _)) (fun _ => ?_)
  refine TrAll_bind (TrAll_ite _ (local_not_publishes ch (ddr_udelay _)) (TrAll_pure _ _))
    (fun _ => ?_)
  refine TrAll_bind (local_not_publishes ch (ddr_data_training _ _ _)) (fun _ => ?_)
  refine TrAll_bind (TrAll_ite _ (local_not_publishes ch ddr_board_reset) (TrAll_pure _ _))
    (fun _ => ?_)
  exact quiet_set_ddrconfig _ _ _ _ h

theorem quiet_sdram_init_enter (p : rk3399_sdram_params) (ch : Nat) :
    ∀ k, k ≤ ch → TrAll (fun e => publishes_geometry ch e = false) (sdram_init_enter p k) := by
  intro k
  induction k with
  | zero =>
    intro _
    unfold sdram_init_enter
    refine TrAll_bind (TrAll_ite _ (local_not_publishes ch ddr_die) (TrAll_pure _ _))
      (fun _ => ?_)
    exact TrAll_emit _ rfl
  | succ k ih =>
    intro hk
    unfold sdram_init_enter
    exact TrAll_bind (ih (by omega)) (fun _ => quiet_sdram_init_channel _ _ _ _ _ (by omega))

theorem quiet_sdram_init_upto_pctl_cfg (p : rk3399_sdram_params) (ch : Nat) :
    TrAll (fun e => publishes_geometry ch e = false) (sdram_init_upto_pctl_cfg p ch) := by
  unfold sdram_init_upto_pctl_cfg
  refine TrAll_bind (quiet_sdram_init_enter p ch ch (le_refl _)) (fun _ => ?_)
  refine TrAll_bind (local_not_publishes ch (ddr_phy_pctrl_reset _)) (fun _ => ?_)
  refine TrAll_bind (local_not_publishes ch (ddr_phy_dll_bypass_set _ _)) (fun _ => ?_)
  exact local_not_publishes ch (ddr_pctl_cfg _ _)

theorem quiet_sdram_init_upto_training (p : rk3399_sdram_params) (ch : Nat) :
    TrAll (fun e => publishes_geometry ch e = false) (sdram_init_upto_training p ch) := by
  unfold sdram_init_upto_training
  refine TrAll_bind (quiet_sdram_init_upto_pctl_cfg p ch) (fun _ => ?_)
  refine TrAll_bind (TrAll_ite _ (local_not_publishes ch ddr_board_reset) (TrAll_pure _ _))
    (fun _ => ?_)
  refine TrAll_bind (local_not_publishes ch (ddr_pctl_start _)) (fun _ => ?_)
  refine TrAll_bind (TrAll_ite _ (local_not_publishes ch (ddr_udelay _)) (TrAll_pure _ _))
    (fun _ => ?_)
  exact local_not_publishes ch (ddr_data_training _ _ _)

/-- The function `sdram_init`, cut at the entry of iteration `ch` of its loop. -/
theorem sdram_init_eq_enter (p : rk3399_sdram_params) (ch : Nat) (hch : ch < 2) :
    sdram_init p = sdram_init_enter p ch >>= fun _ =>
      sdram_init_channel p p.dramtype p.ddr_freq ch >>= fun _ => sdram_init_after p ch := by
  rcases (by omega : ch = 0 ∨ ch = 1) with rfl | rfl
  · unfold sdram_init sdram_init_enter sdram_init_after sdram_init_finish
    simp only [bind_assoc_M]
  · unfold sdram_init sdram_init_enter sdram_init_enter sdram_init_after sdram_init_finish
    simp only [bind_assoc_M]

/-- The loop body for a channel below `num_channels`. -/
theorem sdram_init_channel_active (p : rk3399_sdram_params) (dt f ch : Nat)
    (hact : ch < p.num_channels) :
    sdram_init_channel p dt f ch =
      phy_pctrl_reset ch >>= fun _ => phy_dll_bypass_set ch f >>= fun _ =>
      pctl_cfg ch p >>= fun r => (if r ≠ 0 then board_reset else pure ()) >>= fun _ =>
      pctl_start ch >>= fun _ => (if dt = LPDDR3 then udelay 10 else pure ()) >>= fun _ =>
      data_training ch p PI_FULL_TRAINING >>= fun r =>
      (if r ≠ 0 then board_reset else pure ()) >>= fun _ =>
      set_ddrconfig p ch (p.ch ch).ddrconfig := by
  unfold sdram_init_channel sdram_init_channel_with
  simp only [if_neg (show ¬ ch ≥ p.num_channels by omega)]

theorem sdram_init_eq_upto_pctl_cfg (p : rk3399_sdram_params) (ch : Nat) (hch : ch < 2)
    (hact : ch < p.num_channels) :
    sdram_init p = sdram_init_upto_pctl_cfg p ch >>= fun r =>
      (if r ≠ 0 then board_reset else pure ()) >>= fun _ =>
      pctl_start ch >>= fun _ =>
      (if p.dramtype = LPDDR3 then udelay 10 else pure ()) >>= fun _ =>
      data_training ch p PI_FULL_TRAINING >>= fun r =>
      (if r ≠ 0 then board_reset else pure ()) >>= fun _ =>
      set_ddrconfig p ch (p.ch ch).ddrconfig >>= fun _ => sdram_init_after p ch := by
  rw [sdram_init_eq_enter p ch hch, sdram_init_channel_active p _ _ ch hact]
  unfold sdram_init_upto_pctl_cfg
  simp only [bind_assoc_M]

theorem sdram_init_eq_upto_training (p : rk3399_sdram_params) (ch : Nat) (hch : ch < 2)
    (hact : ch < p.num_channels) :
    sdram_init p = sdram_init_upto_training p ch >>= fun r =>
      (if r ≠ 0 then board_reset else pure ()) >>= fun _ =>
      set_ddrconfig p ch (p.ch ch).ddrconfig >>= fun _ => sdram_init_after p ch := by
  rw [sdram_init_eq_upto_pctl_cfg p ch hch hact]
  unfold sdram_init_upto_training
  simp only [bind_assoc_M]

/-- A run that reaches the test `if (ret != 0) board_reset();` with a
non-zero value ends there, in `board_reset`. -/
theorem reset_on_failure {x : M Int} {k : M Unit} {m m1 : Machine} {r : Int}
    {t1 : List Event} (h : x m = ⟨Status.ret r, m1, t1⟩) (hr : r ≠ 0) :
    (x >>= fun r => (if r ≠ 0 then board_reset else pure ()) >>= fun _ => k) m
      = ⟨Status.reset, m1, t1 ++ [Event.board_reset]⟩ := by
  rw [bind_ret h]
  simp only [if_pos hr]
  rw [bind_stop_eq (show (board_reset : M Unit) m1
    = ⟨Status.reset, m1, [Event.board_reset]⟩ from rfl) (by simp [Status.returned])]
  rfl

theorem ReturnsZero_pure : ReturnsZero (pure 0) := by
  intro m r h
  simp [pure_def, M.pure] at h
  exact h.symm

theorem ReturnsZero_bind {α : Type} (x : M α) (f : α → M Int) (hf : ∀ a, ReturnsZero (f a)) :
    ReturnsZero (x >>= f) := by
  intro m r h
  rcases hxm : x m with ⟨st, m1, t1⟩
  cases st with
  | ret a =>
    rw [bind_ret hxm] at h
    exact hf a m1 r h
  | die => rw [bind_stop_eq hxm (by simp [Status.returned])] at h; simp [Status.lift] at h
  | reset => rw [bind_stop_eq hxm (by simp [Status.returned])] at h; simp [Status.lift] at h
  | hang => rw [bind_stop_eq hxm (by simp [Status.returned])] at h; simp [Status.lift] at h
  | undef => rw [bind_stop_eq hxm (by simp [Status.returned])] at h; simp [Status.lift] at h
  | spin => rw [bind_stop_eq hxm (by simp [Status.returned])] at h; simp [Status.lift] at h

theorem ReturnsZero_pctl_cfg (channel : Nat) (params : rk3399_sdram_params) :
    ReturnsZero (pctl_cfg channel params) := by
  unfold pctl_cfg
  iterate 3 (refine ReturnsZero_bind _ _ (fun _ => ?_))
  exact ReturnsZero_pure


/-- C9: training failure forces a reset before geometry is published.  For
every channel `ch` of the loop of `sdram_init` that is below `num_channels`
(the channels the loop configures): if the run reaches the return of
`pctl_cfg` for that channel with a non-zero value, or the return of
`data_training(ch, params, PI_FULL_TRAINING)` with a non-zero value, then
the whole run of `sdram_init` is that prefix followed by `board_reset` and
nothing else, its status is `reset`, and no event of the prefix writes the
scheduler registers `ddrconf` or `ddrsize` of channel `ch` or `os_reg2`.
The same holds for the loop body with any computation in the place of
`pctl_cfg`; the `pctl_cfg` of this source itself returns 0 whenever it
returns. -/
theorem training_failure_resets (p : rk3399_sdram_params) (m : Machine) (ch : Nat)
    (hch : ch < 2) (hact : ch < p.num_channels) :
    (∀ r m1 t1, sdram_init_upto_pctl_cfg p ch m = ⟨Status.ret r, m1, t1⟩ → r ≠ 0 →
      sdram_init p m = ⟨Status.reset, m1, t1 ++ [Event.board_reset]⟩ ∧
      ∀ e ∈ t1, publishes_geometry ch e = false) ∧
    (∀ r m1 t1, sdram_init_upto_training p ch m = ⟨Status.ret r, m1, t1⟩ → r ≠ 0 →
      sdram_init p m = ⟨Status.reset, m1, t1 ++ [Event.board_reset]⟩ ∧
      ∀ e ∈ t1, publishes_geometry ch e = false) ∧
    (∀ (cfg train : M Int) (dt f : Nat) (m0 : Machine) r m1 t1,
      (phy_pctrl_reset ch >>= fun _ => phy_dll_bypass_set ch f >>= fun _ => cfg) m0
        = ⟨Status.ret r, m1, t1⟩ → r ≠ 0 →
      sdram_init_channel_with cfg train p dt f ch m0
        = ⟨Status.reset, m1, t1 ++ [Event.board_reset]⟩) ∧
    ReturnsZero (pctl_cfg ch p) := by
  refine ⟨?_, ?_, ?_, ReturnsZero_pctl_cfg ch p⟩
  · intro r m1 t1 h hr
    refine ⟨?_, ?_⟩
    · rw [sdram_init_eq_upto_pctl_cfg p ch hch hact]
      exact reset_on_failure h hr
    · have hq := quiet_sdram_init_upto_pctl_cfg p ch m
      rw [h] at hq
      exact hq
  · intro r m1 t1 h hr
    refine ⟨?_, ?_⟩
    · rw [sdram_init_eq_upto_training p ch hch hact]
      exact reset_on_failure h hr
    · have hq := quiet_sdram_init_upto_training p ch m
      rw [h] at hq
      exact hq
  · intro cfg train dt f m0 r m1 t1 h hr
    have hb : sdram_init_channel_with cfg train p dt f ch =
        (phy_pctrl_reset ch >>= fun _ => phy_dll_bypass_set ch f >>= fun _ => cfg) >>= fun r =>
          (if r ≠ 0 then board_reset else pure ()) >>= fun _ =>
          (pctl_start ch >>= fun _ => (if dt = LPDDR3 then udelay 10 else pure ()) >>= fun _ =>
            train >>= fun r => (if r ≠ 0 then board_reset else pure ()) >>= fun _ =>
            set_ddrconfig p ch (p.ch ch).ddrconfig) := by
      unfold sdram_init_channel_with
      simp only [if_neg (show ¬ ch ≥ p.num_channels by omega), bind_assoc_M]
    rw [hb]
    exact reset_on_failure h hr

/-- Witness of C9: single-channel DDR3 bring-up in which the first poll of
write leveling shows an observation fault.  `data_training` returns -1 for
channel 0, and the run of `sdram_init` is the run up to that return followed
by `board_reset`. -/
theorem training_failure_resets_witness :
    (0 < 2 ∧ 0 < ex_params_single.num_channels) ∧
    (sdram_init_upto_training ex_params_single 0 ex_machine_fault).st = Status.ret (-1) ∧
    (sdram_init ex_params_single ex_machine_fault).st = Status.reset ∧
    (sdram_init ex_params_single ex_machine_fault).tr
      = (sdram_init_upto_training ex_params_single 0 ex_machine_fault).tr
        ++ [Event.board_reset] ∧
    ∀ e ∈ (sdram_init_upto_training ex_params_single 0 ex_machine_fault).tr,
      publishes_geometry 0 e = false := by
  have hst : (sdram_init_upto_training ex_params_single 0 ex_machine_fault).st
      = Status.ret (-1) := isRet_eq (by decide!)
  have hrun : sdram_init_upto_training ex_params_single 0 ex_machine_fault
      = ⟨Status.ret (-1), (sdram_init_upto_training ex_params_single 0 ex_machine_fault).m,
          (sdram_init_upto_training ex_params_single 0 ex_machine_fault).tr⟩ := by
    rw [← hst]
  have h := (training_failure_resets ex_params_single ex_machine_fault 0 (by decide)
    (by decide)).2.1 _ _ _ hrun (by decide)
  exact ⟨⟨by decide, by decide⟩, hst, by rw [h.1], by rw [h.1], h.2⟩

theorem res_mk_inj {α : Type} {s s2 : Status α} {m m2 : Machine} {t t2 : List Event}
    (h : (⟨s, m, t⟩ : Res α) = ⟨s2, m2, t2⟩) : s = s2 ∧ m = m2 ∧ t = t2 := by
  cases h; exact ⟨rfl, rfl, rfl⟩

/-- A guarded phase whose flag bit is not requested is skipped. -/
theorem phase_skip {tf bit : Nat} (phase rest : M Int) (h : tf &&& bit ≠ bit) :
    data_training_phase tf bit phase rest = rest := by
  unfold data_training_phase
  rw [if_neg h]

/-- A requested phase that returns 0 is followed by the rest of the chain. -/
theorem phase_pass {tf bit : Nat} {phase rest : M Int} {m m0 : Machine} {t0 : List Event}
    (h : tf &&& bit = bit) (hp : phase m = ⟨Status.ret 0, m0, t0⟩) :
    data_training_phase tf bit phase rest m
      = ⟨(rest m0).st, (rest m0).m, t0 ++ (rest m0).tr⟩ := by
  unfold data_training_phase
  rw [if_pos h, bind_ret hp]
  simp

/-- A requested phase that returns a non-zero value ends the chain with that
value, in the state and with the trace of the phase. -/
theorem phase_fail {tf bit : Nat} {phase rest : M Int} {m m1 : Machine} {t : List Event}
    {r : Int} (h : tf &&& bit = bit) (hp : phase m = ⟨Status.ret r, m1, t⟩) (hr : r ≠ 0) :
    data_training_phase tf bit phase rest m = ⟨Status.ret r, m1, t⟩ := by
  unfold data_training_phase
  rw [if_pos h, bind_ret hp]
  simp [hr, pure_def, M.pure]

/-- A requested phase that does not return ends the chain. -/
theorem phase_stop {tf bit : Nat} {phase rest : M Int} {m m1 : Machine} {t : List Event}
    {st : Status Int} (h : tf &&& bit = bit) (hp : phase m = ⟨st, m1, t⟩)
    (hst : ¬ st.returned) :
    data_training_phase tf bit phase rest m = ⟨st.lift, m1, t⟩ := by
  unfold data_training_phase
  rw [if_pos h, bind_stop_eq hp hst]

theorem lift_ne_ret {α β : Type} {st : Status α} (hst : ¬ st.returned) (b : β) :
    (st.lift : Status β) ≠ Status.ret b := by
  cases st <;> simp [Status.lift, Status.returned] at hst ⊢

/-- What a chain of guarded phases returns: either a requested phase failed
first, or every requested phase passed and the value is that of `fin`. -/
theorem run_phases_ret (tf : Nat) (fin : M Int) :
    ∀ (l : List (Nat × M Int)) (m : Machine) (r : Int) (m1 : Machine) (t : List Event),
      run_phases tf l fin m = ⟨Status.ret r, m1, t⟩ ↔
        (FirstFailure tf l m r m1 t ∨
          ∃ m0 t0 t2, AllPass tf l m m0 t0 ∧ fin m0 = ⟨Status.ret r, m1, t2⟩ ∧
            t = t0 ++ t2) := by
  intro l
  induction l with
  | nil =>
    intro m r m1 t
    simp only [run_phases]
    constructor
    · intro h
      exact Or.inr ⟨m, [], t, AllPass.nil, h, by simp⟩
    · rintro (h | ⟨m0, t0, t2, ha, hf, ht⟩)
      · cases h
      · cases ha
        rw [hf, ht]; simp
  | cons x l ih =>
    obtain ⟨bit, phase⟩ := x
    intro m r m1 t
    simp only [run_phases]
    by_cases hb : tf &&& bit = bit
    · rcases hp : phase m with ⟨st, mp, tp⟩
      cases st with
      | ret a =>
        by_cases ha : a = 0
        · subst ha
          rw [phase_pass hb hp]
          constructor
          · intro h
            obtain ⟨h1, h2, h3⟩ := res_mk_inj h
            have hrest : run_phases tf l fin mp
                = ⟨Status.ret r, m1, (run_phases tf l fin mp).tr⟩ := by
              rw [← h1, ← h2]
            rcases (ih mp r m1 _).mp hrest with hf | ⟨m0, t0, t2, hap, hfin, ht⟩
            · left
              rw [← h3]
              exact FirstFailure.pass hb hp hf
            · right
              refine ⟨m0, tp ++ t0, t2, AllPass.pass hb hp hap, hfin, ?_⟩
              rw [← h3, ht, List.append_assoc]
          · rintro (hf | ⟨m0, t0, t2, hap, hfin, ht⟩)
            · cases hf with
              | skip hnb _ => exact absurd hb hnb
              | pass _ hp2 hrest =>
                rw [hp] at hp2
                obtain ⟨_, h2, h3⟩ := res_mk_inj hp2
                subst h2; subst h3
                have := (ih mp r m1 _).mpr (Or.inl hrest)
                rw [this]
              | fail _ hp2 hr =>
                rw [hp] at hp2
                obtain ⟨h1, _, _⟩ := res_mk_inj hp2
                exact absurd (Status.ret.inj h1).symm hr
            · cases hap with
              | skip hnb _ => exact absurd hb hnb
              | pass _ hp2 hrest =>
                rw [hp] at hp2
                obtain ⟨_, h2, h3⟩ := res_mk_inj hp2
                subst h2; subst h3
                have := (ih mp r m1 _).mpr (Or.inr ⟨m0, _, t2, hrest, hfin, rfl⟩)
                rw [this, ht, List.append_assoc]
        · rw [phase_fail hb hp ha]
          constructor
          · intro h
            obtain ⟨h1, h2, h3⟩ := res_mk_inj h
            have h1 := Status.ret.inj h1
            subst h1; subst h2; subst h3
            exact Or.inl (FirstFailure.fail hb hp ha)
          · rintro (hf | ⟨m0, t0, t2, hap, hfin, ht⟩)
            · cases hf with
              | skip hnb _ => exact absurd hb hnb
              | pass _ hp2 hrest =>
                rw [hp] at hp2
                obtain ⟨h1, _, _⟩ := res_mk_inj hp2
                exact absurd (Status.ret.inj h1) ha
              | fail _ hp2 hr =>
                rw [hp] at hp2
                obtain ⟨h1, h2, h3⟩ := res_mk_inj hp2
                have h1 := Status.ret.inj h1
                subst h1; subst h2; subst h3
                rfl
            · cases hap with
              | skip hnb _ => exact absurd hb hnb
              | pass _ hp2 hrest =>
                rw [hp] at hp2
                obtain ⟨h1, _, _⟩ := res_mk_inj hp2
                exact absurd (Status.ret.inj h1) ha
      | die | reset | hang | undef | spin =>
        rw [phase_stop hb hp (by simp [Status.returned])]
        constructor
        · intro h
          obtain ⟨h1, _, _⟩ := res_mk_inj h
          simp [Status.lift] at h1
        · rintro (hf | ⟨m0, t0, t2, hap, hfin, ht⟩)
          · cases hf with
            | skip hnb _ => exact absurd hb hnb
            | pass _ hp2 hrest =>
              rw [hp] at hp2
              obtain ⟨h1, _, _⟩ := res_mk_inj hp2
              simp at h1
            | fail _ hp2 hr =>
              rw [hp] at hp2
              obtain ⟨h1, _, _⟩ := res_mk_inj hp2
              simp at h1
          · cases hap with
            | skip hnb _ => exact absurd hb hnb
            | pass _ hp2 hrest =>
              rw [hp] at hp2
              obtain ⟨h1, _, _⟩ := res_mk_inj hp2
              simp at h1
    · rw [phase_skip _ _ hb]
      rw [ih m r m1 t]
      constructor
      · rintro (hf | ⟨m0, t0, t2, hap, hfin, ht⟩)
        · exact Or.inl (FirstFailure.skip hb hf)
        · exact Or.inr ⟨m0, t0, t2, AllPass.skip hb hap, hfin, ht⟩
      · rintro (hf | ⟨m0, t0, t2, hap, hfin, ht⟩)
        · cases hf with
          | skip _ hrest => exact Or.inl hrest
          | pass hb2 _ _ => exact absurd hb2 hb
          | fail hb2 _ _ => exact absurd hb2 hb
        · cases hap with
          | skip _ hrest => exact Or.inr ⟨m0, t0, t2, hrest, hfin, ht⟩
          | pass hb2 _ _ => exact absurd hb2 hb


theorem FirstFailure_ne_zero {tf : Nat} {l : List (Nat × M Int)} {m m1 : Machine} {r : Int}
    {t : List Event} (h : FirstFailure tf l m r m1 t) : r ≠ 0 := by
  induction h with
  | skip _ _ ih => exact ih
  | pass _ _ _ ih => exact ih
  | fail _ _ hr => exact hr

theorem data_training_eq_chain (channel : Nat) (params : rk3399_sdram_params)
    (training_flag : Nat) :
    data_training channel params training_flag =
      setbits32 (Reg.denali_phy channel 927) (1 <<< 22) >>= fun _ =>
        run_phases (data_training_flag params training_flag)
          (training_phases channel params) (data_training_epilogue channel) := rfl

theorem data_training_epilogue_run (channel : Nat) (m : Machine) :
    data_training_epilogue channel m
      = ⟨Status.ret 0, (data_training_epilogue channel m).m,
          (data_training_epilogue channel m).tr⟩ := rfl

theorem data_training_ret_iff (channel : Nat) (params : rk3399_sdram_params)
    (training_flag : Nat) (m : Machine) (r : Int) (m1 : Machine) (t : List Event) :
    data_training channel params training_flag m = ⟨Status.ret r, m1, t⟩ ↔
      ∃ t2, t = (setbits32 (Reg.denali_phy channel 927) (1 <<< 22) m).tr ++ t2 ∧
        run_phases (data_training_flag params training_flag)
          (training_phases channel params) (data_training_epilogue channel)
          (setbits32 (Reg.denali_phy channel 927) (1 <<< 22) m).m = ⟨Status.ret r, m1, t2⟩ := by
  have hset : setbits32 (Reg.denali_phy channel 927) (1 <<< 22) m
      = ⟨Status.ret (), (setbits32 (Reg.denali_phy channel 927) (1 <<< 22) m).m,
          (setbits32 (Reg.denali_phy channel 927) (1 <<< 22) m).tr⟩ := rfl
  rw [data_training_eq_chain, bind_ret hset]
  constructor
  · intro h
    obtain ⟨h1, h2, h3⟩ := res_mk_inj h
    refine ⟨_, h3.symm, ?_⟩
    rw [← h1, ← h2]
  · rintro ⟨t2, ht, hrun⟩
    rw [hrun, ht]

/-- C11: phase failure propagates.  For every channel, params, training flag
and machine state, with `m0` the state after the first statement of
`data_training` (the `setbits32` of PHY_927): `data_training` returns a
non-zero value `r` in state `m1` exactly when, running the requested phases
in the order CA, write leveling, read gate, read leveling, WDQ leveling from
`m0`, the phases before the first failing one returned 0 and that phase
returned `r` and left `m1`; the trace of the call is then the trace of the
first statement followed by the traces of the phases up to the failing one,
so nothing is run after it.  It returns 0 exactly when every requested phase
returned 0, and then the epilogue ran after the last phase. -/
theorem data_training_propagates (channel : Nat) (params : rk3399_sdram_params)
    (training_flag : Nat) (m : Machine) (r : Int) (m1 : Machine) (t : List Event) :
    ((data_training channel params training_flag m = ⟨Status.ret r, m1, t⟩ ∧ r ≠ 0) ↔
      ∃ t2, t = (setbits32 (Reg.denali_phy channel 927) (1 <<< 22) m).tr ++ t2 ∧
        FirstFailure (data_training_flag params training_flag)
          (training_phases channel params)
          (setbits32 (Reg.denali_phy channel 927) (1 <<< 22) m).m r m1 t2) ∧
    ((data_training channel params training_flag m = ⟨Status.ret r, m1, t⟩ ∧ r = 0) ↔
      ∃ m2 t2, r = 0 ∧
        AllPass (data_training_flag params training_flag) (training_phases channel params)
          (setbits32 (Reg.denali_phy channel 927) (1 <<< 22) m).m m2 t2 ∧
        m1 = (data_training_epilogue channel m2).m ∧
        t = (setbits32 (Reg.denali_phy channel 927) (1 <<< 22) m).tr ++
          (t2 ++ (data_training_epilogue channel m2).tr)) := by
  constructor
  · constructor
    · rintro ⟨h, hr⟩
      obtain ⟨t2, ht, hrun⟩ := (data_training_ret_iff _ _ _ _ _ _ _).mp h
      refine ⟨t2, ht, ?_⟩
      rcases (run_phases_ret _ _ _ _ _ _ _).mp hrun with hf | ⟨m0, t0, t3, _, hfin, _⟩
      · exact hf
      · rw [data_training_epilogue_run] at hfin
        obtain ⟨h1, _, _⟩ := res_mk_inj hfin
        exact absurd (Status.ret.inj h1).symm hr
    · rintro ⟨t2, ht, hf⟩
      exact ⟨(data_training_ret_iff _ _ _ _ _ _ _).mpr
        ⟨t2, ht, (run_phases_ret _ _ _ _ _ _ _).mpr (Or.inl hf)⟩, FirstFailure_ne_zero hf⟩
  · constructor
    · rintro ⟨h, hr⟩
      obtain ⟨t2, ht, hrun⟩ := (data_training_ret_iff _ _ _ _ _ _ _).mp h
      rcases (run_phases_ret _ _ _ _ _ _ _).mp hrun with hf | ⟨m0, t0, t3, hap, hfin, ht2⟩
      · exact absurd hr (FirstFailure_ne_zero hf)
      · rw [data_training_epilogue_run] at hfin
        obtain ⟨_, h2, h3⟩ := res_mk_inj hfin
        exact ⟨m0, t0, hr, hap, h2.symm, by rw [ht, ht2, h3]⟩
    · rintro ⟨m2, t2, hr, hap, hm, ht⟩
      refine ⟨(data_training_ret_iff _ _ _ _ _ _ _).mpr ⟨_, ht, ?_⟩, hr⟩
      refine (run_phases_ret _ _ _ _ _ _ _).mpr (Or.inr ⟨m2, t2, _, hap, ?_, rfl⟩)
      rw [hr, hm]
      exact data_training_epilogue_run channel m2

theorem phase_requested {tf bit : Nat} (phase rest : M Int) (h : tf &&& bit = bit) :
    data_training_phase tf bit phase rest = then_phase phase rest := by
  unfold data_training_phase then_phase
  rw [if_pos h]

/-- C12: full-training expansion.  Called with `PI_FULL_TRAINING`,
`data_training` requests exactly the phases CA, WL, RG, RL, WDQ for LPDDR4,
exactly CA, WL, RG for LPDDR3 and exactly WL, RG, RL for DDR3; the call is
the `setbits32` of PHY_927 followed by those phases in that order, each run
only when the one before returned 0, and then the epilogue: no other phase
is part of the run. -/
theorem full_training_expansion (channel : Nat) (params : rk3399_sdram_params) :
    (params.dramtype = LPDDR4 →
      requested_phases params PI_FULL_TRAINING =
        [PI_CA_TRAINING, PI_WRITE_LEVELING, PI_READ_GATE_TRAINING, PI_READ_LEVELING,
          PI_WDQ_LEVELING] ∧
      data_training channel params PI_FULL_TRAINING =
        setbits32 (Reg.denali_phy channel 927) (1 <<< 22) >>= fun _ =>
          then_phase (data_training_ca channel params)
            (then_phase (data_training_wl channel params)
              (then_phase (data_training_rg channel params)
                (then_phase (data_training_rl channel params)
                  (then_phase (data_training_wdql channel params)
                    (data_training_epilogue channel)))))) ∧
    (params.dramtype = LPDDR3 →
      requested_phases params PI_FULL_TRAINING =
        [PI_CA_TRAINING, PI_WRITE_LEVELING, PI_READ_GATE_TRAINING] ∧
      data_training channel params PI_FULL_TRAINING =
        setbits32 (Reg.denali_phy channel 927) (1 <<< 22) >>= fun _ =>
          then_phase (data_training_ca channel params)
            (then_phase (data_training_wl channel params)
              (then_phase (data_training_rg channel params)
                (data_training_epilogue channel)))) ∧
    (params.dramtype = DDR3 →
      requested_phases params PI_FULL_TRAINING =
        [PI_WRITE_LEVELING, PI_READ_GATE_TRAINING, PI_READ_LEVELING] ∧
      data_training channel params PI_FULL_TRAINING =
        setbits32 (Reg.denali_phy channel 927) (1 <<< 22) >>= fun _ =>
          then_phase (data_training_wl channel params)
            (then_phase (data_training_rg channel params)
              (then_phase (data_training_rl channel params)
                (data_training_epilogue channel)))) := by
  refine ⟨fun h => ?_, fun h => ?_, fun h => ?_⟩
  · have hf : data_training_flag params PI_FULL_TRAINING = 31 := by
      unfold data_training_flag; rw [if_pos rfl, if_pos h]; decide
    refine ⟨by unfold requested_phases; rw [hf]; decide, ?_⟩
    rw [data_training_eq_chain, hf]
    simp only [training_phases, run_phases]
    rw [phase_requested _ _ (by decide : 31 &&& PI_CA_TRAINING = PI_CA_TRAINING),
      phase_requested _ _ (by decide : 31 &&& PI_WRITE_LEVELING = PI_WRITE_LEVELING),
      phase_requested _ _ (by decide : 31 &&& PI_READ_GATE_TRAINING = PI_READ_GATE_TRAINING),
      phase_requested _ _ (by decide : 31 &&& PI_READ_LEVELING = PI_READ_LEVELING),
      phase_requested _ _ (by decide : 31 &&& PI_WDQ_LEVELING = PI_WDQ_LEVELING)]
  · have h4 : params.dramtype ≠ LPDDR4 := by rw [h]; decide
    have hf : data_training_flag params PI_FULL_TRAINING = 7 := by
      unfold data_training_flag; rw [if_pos rfl, if_neg h4, if_pos h]; decide
    refine ⟨by unfold requested_phases; rw [hf]; decide, ?_⟩
    rw [data_training_eq_chain, hf]
    simp only [training_phases, run_phases]
    rw [phase_requested _ _ (by decide : 7 &&& PI_CA_TRAINING = PI_CA_TRAINING),
      phase_requested _ _ (by decide : 7 &&& PI_WRITE_LEVELING = PI_WRITE_LEVELING),
      phase_requested _ _ (by decide : 7 &&& PI_READ_GATE_TRAINING = PI_READ_GATE_TRAINING),
      phase_skip _ _ (by decide : 7 &&& PI_READ_LEVELING ≠ PI_READ_LEVELING),
      phase_skip _ _ (by decide : 7 &&& PI_WDQ_LEVELING ≠ PI_WDQ_LEVELING)]
  · have h4 : params.dramtype ≠ LPDDR4 := by rw [h]; decide
    have h3 : params.dramtype ≠ LPDDR3 := by rw [h]; decide
    have hf : data_training_flag params PI_FULL_TRAINING = 14 := by
      unfold data_training_flag; rw [if_pos rfl, if_neg h4, if_neg h3, if_pos h]; decide
    refine ⟨by unfold requested_phases; rw [hf]; decide, ?_⟩
    rw [data_training_eq_chain, hf]
    simp only [training_phases, run_phases]
    rw [phase_skip _ _ (by decide : 14 &&& PI_CA_TRAINING ≠ PI_CA_TRAINING),
      phase_requested _ _ (by decide : 14 &&& PI_WRITE_LEVELING = PI_WRITE_LEVELING),
      phase_requested _ _ (by decide : 14 &&& PI_READ_GATE_TRAINING = PI_READ_GATE_TRAINING),
      phase_requested _ _ (by decide : 14 &&& PI_READ_LEVELING = PI_READ_LEVELING),
      phase_skip _ _ (by decide : 14 &&& PI_WDQ_LEVELING ≠ PI_WDQ_LEVELING)]

/-- Witness of C12: the LPDDR3 example requests CA, WL and RG, the DDR3
example WL, RG and RL. -/
theorem full_training_expansion_witness :
    (ex_params_dual.dramtype = LPDDR3 ∧
      requested_phases ex_params_dual PI_FULL_TRAINING =
        [PI_CA_TRAINING, PI_WRITE_LEVELING, PI_READ_GATE_TRAINING]) ∧
    (ex_params_single.dramtype = DDR3 ∧
      requested_phases ex_params_single PI_FULL_TRAINING =
        [PI_WRITE_LEVELING, PI_READ_GATE_TRAINING, PI_READ_LEVELING]) :=
  ⟨⟨rfl, ((full_training_expansion 0 ex_params_dual).2.1 rfl).1⟩,
    ⟨rfl, ((full_training_expansion 0 ex_params_single).2.2 rfl).1⟩⟩

/-- C13: rank-mask derivation.  `get_rank_mask` returns 0b0101 for LPDDR4
with one rank and 0b1111 for LPDDR4 with two ranks; for DDR3 and LPDDR3 it
returns 0b01 with one rank and 0b11 with two. -/
theorem get_rank_mask_values (channel : Nat) (params : rk3399_sdram_params) :
    (params.dramtype = LPDDR4 → (params.ch channel).rank = 1 →
      get_rank_mask channel params = 0b0101) ∧
    (params.dramtype = LPDDR4 → (params.ch channel).rank = 2 →
      get_rank_mask channel params = 0b1111) ∧
    ((params.dramtype = DDR3 ∨ params.dramtype = LPDDR3) → (params.ch channel).rank = 1 →
      get_rank_mask channel params = 0b01) ∧
    ((params.dramtype = DDR3 ∨ params.dramtype = LPDDR3) → (params.ch channel).rank = 2 →
      get_rank_mask channel params = 0b11) := by
  refine ⟨fun h hr => ?_, fun h hr => ?_, fun h hr => ?_, fun h hr => ?_⟩
  · unfold get_rank_mask; simp [h, hr]
  · unfold get_rank_mask; simp [h, hr]
  · have h4 : params.dramtype ≠ LPDDR4 := by
      rcases h with h | h <;> rw [h] <;> decide
    unfold get_rank_mask; simp [h4, hr]
  · have h4 : params.dramtype ≠ LPDDR4 := by
      rcases h with h | h <;> rw [h] <;> decide
    unfold get_rank_mask; simp [h4, hr]

/-- Witness of C13: the dual-rank LPDDR3 example has mask 0b11 on channel 0,
the single-rank DDR3 example mask 0b01. -/
theorem get_rank_mask_values_witness :
    ((ex_params_dual.dramtype = DDR3 ∨ ex_params_dual.dramtype = LPDDR3) ∧
      (ex_params_dual.ch 0).rank = 2 ∧ get_rank_mask 0 ex_params_dual = 0b11) ∧
    ((ex_params_single.dramtype = DDR3 ∨ ex_params_single.dramtype = LPDDR3) ∧
      (ex_params_single.ch 0).rank = 1 ∧ get_rank_mask 0 ex_params_single = 0b01) :=
  ⟨⟨Or.inr rfl, rfl, (get_rank_mask_values 0 ex_params_dual).2.2.2 (Or.inr rfl) rfl⟩,
    ⟨Or.inl rfl, rfl, (get_rank_mask_values 0 ex_params_single).2.2.1 (Or.inl rfl) rfl⟩⟩

theorem training_status_cases (tmp s1 s2 e : Nat) :
    (training_status tmp s1 s2 e = PollStep.done ↔
      ((tmp >>> s1) &&& 0x1) = 0x1 ∧ ((tmp >>> s2) &&& 0x1) = 0x1 ∧
        ((tmp >>> e) &&& 0x1) = 0x0) ∧
    (training_status tmp s1 s2 e = PollStep.fail ↔ ((tmp >>> e) &&& 0x1) = 0x1) ∧
    (training_status tmp s1 s2 e = PollStep.again ↔
      ¬ (((tmp >>> s1) &&& 0x1) = 0x1 ∧ ((tmp >>> s2) &&& 0x1) = 0x1 ∧
        ((tmp >>> e) &&& 0x1) = 0x0) ∧ ((tmp >>> e) &&& 0x1) ≠ 0x1) := by
  unfold training_status
  by_cases h1 : ((tmp >>> s1) &&& 0x1) = 0x1 ∧ ((tmp >>> s2) &&& 0x1) = 0x1 ∧
      ((tmp >>> e) &&& 0x1) = 0x0
  · rw [if_pos h1]
    have he : ((tmp >>> e) &&& 0x1) ≠ 0x1 := by rw [h1.2.2]; decide
    exact ⟨⟨fun _ => h1, fun _ => rfl⟩, ⟨fun h => (by cases h), fun h => absurd h he⟩,
      ⟨fun h => (by cases h), fun h => absurd h1 h.1⟩⟩
  · rw [if_neg h1]
    by_cases h2 : ((tmp >>> e) &&& 0x1) = 0x1
    · rw [if_pos h2]
      exact ⟨⟨fun h => (by cases h), fun h => absurd h h1⟩, ⟨fun _ => h2, fun _ => rfl⟩,
        ⟨fun h => (by cases h), fun h => absurd h2 h.2⟩⟩
    · rw [if_neg h2]
      exact ⟨⟨fun h => (by cases h), fun h => absurd h h1⟩,
        ⟨fun h => (by cases h), fun h => absurd h h2⟩, ⟨fun _ => ⟨h1, h2⟩, fun _ => rfl⟩⟩

theorem PollOutcome_of_round {body : Unit → Poll → M (Unit ⊕ PollStep)} {q : Poll}
    {d : PollStep} (h : ∀ m, body () q m = ⟨Status.ret (poll_answer d), m, (body () q m).tr⟩) :
    PollOutcome body q d := by
  intro m qs
  have hw : while_poll body () (withPolls m (q :: qs))
      = poll_loop body (q :: qs) () (withPolls m (q :: qs)) := rfl
  have hcons := poll_loop_cons body q qs () (withPolls m (q :: qs))
  rw [withPolls_withPolls] at hcons
  rw [hw]
  rw [hcons, bind_ret (h (withPolls m qs))]
  constructor
  · intro hd
    subst hd
    simp only [poll_answer]
    rfl
  · intro hd
    cases d with
    | again => exact absurd rfl hd
    | done => simp [poll_answer, pure_def, M.pure]
    | fail => simp [poll_answer, pure_def, M.pure]

theorem data_training_ca_poll_round (channel : Nat) (q : Poll) (hq : ¬ ca_obs_fault channel q)
    (m : Machine) :
    data_training_ca_poll channel () q m =
      ⟨Status.ret (poll_answer (training_status (poll_status channel q) 11 13 5)), m,
        (data_training_ca_poll channel () q m).tr⟩ := by
  unfold ca_obs_fault at hq
  simp only [data_training_ca_poll, bind_def, pure_def, M.bind, pollread, pure_run,
    data_training_ca_step, if_neg hq, poll_status]

theorem data_training_wl_poll_round (channel : Nat) (q : Poll) (hq : ¬ wl_obs_fault channel q)
    (m : Machine) :
    data_training_wl_poll channel () q m =
      ⟨Status.ret (poll_answer (training_status (poll_status channel q) 10 13 4)), m,
        (data_training_wl_poll channel () q m).tr⟩ := by
  unfold wl_obs_fault at hq
  simp only [data_training_wl_poll, bind_def, pure_def, M.bind, pollread, pure_run,
    data_training_wl_step, if_neg hq, poll_status]

theorem data_training_rg_poll_round (channel : Nat) (q : Poll) (hq : ¬ rg_obs_fault channel q)
    (m : Machine) :
    data_training_rg_poll channel () q m =
      ⟨Status.ret (poll_answer (training_status (poll_status channel q) 9 13 3)), m,
        (data_training_rg_poll channel () q m).tr⟩ := by
  unfold rg_obs_fault at hq
  simp only [data_training_rg_poll, bind_def, pure_def, M.bind, pollread, pure_run,
    data_training_rg_step, if_neg hq, poll_status]

theorem data_training_rl_poll_round (channel : Nat) (q : Poll) (m : Machine) :
    data_training_rl_poll channel () q m =
      ⟨Status.ret (poll_answer (training_status (poll_status channel q) 8 13 2)), m,
        (data_training_rl_poll channel () q m).tr⟩ := rfl

theorem data_training_wdql_poll_round (channel : Nat) (q : Poll) (m : Machine) :
    data_training_wdql_poll channel () q m =
      ⟨Status.ret (poll_answer (training_status (poll_status channel q) 12 13 6)), m,
        (data_training_wdql_poll channel () q m).tr⟩ := rfl

/-- C14 as stated fails at the scenario of the spec: with `num_channels = 1`,
`col = 8` on channel 0 (active, but below the 9 columns the register can
encode) and `col = 0` on channel 1, the encoder of the column count wraps
and the value written to `os_reg2` has all of bits 27:16, bit 29 and bit 31
set. -/
theorem absent_channel_skipped_counterexample :
    ex_params_col8.num_channels = 1 ∧ channel_active ex_params_col8 0 ∧
    (ex_params_col8.ch 1).col = 0 ∧
    bits (os_reg2_written ex_params_col8 ex_machine) 27 16 = 0xfff ∧
    bits (os_reg2_written ex_params_col8 ex_machine) 29 29 = 1 ∧
    bits (os_reg2_written ex_params_col8 ex_machine) 31 31 = 1 := by
  decide!

theorem quiet_dram_all_config_single (p : rk3399_sdram_params) (hn : p.num_channels = 1)
    (h0 : (p.ch 0).col ≠ 0) :
    TrAll (fun e => writes_msch_timing 1 e = false) (dram_all_config p) := by
  unfold dram_all_config
  have hloop : ∀ s, TrAll (fun e => writes_msch_timing 1 e = false)
      (dram_all_config_loop p 2 0 0 s) := by
    intro s
    simp only [dram_all_config_loop, hn, h0, if_false, Nat.lt_irrefl, false_and,
      show (0 < 1 ∧ 0 < 2) by decide, if_true]
    refine TrAll_bind (TrAll_write32 _ _ (fun _ => rfl)) (fun _ => ?_)
    refine TrAll_bind (TrAll_write32 _ _ (fun _ => rfl)) (fun _ => ?_)
    refine TrAll_bind (TrAll_write32 _ _ (fun _ => rfl)) (fun _ => ?_)
    refine TrAll_bind (TrAll_write32 _ _ (fun _ => rfl)) (fun _ => ?_)
    refine TrAll_bind (TrAll_write32 _ _ (fun _ => rfl)) (fun _ => ?_)
    refine TrAll_bind (TrAll_ite _ ?_ (TrAll_pure _ _)) (fun _ => TrAll_pure _ _)
    exact TrAll_bind (TrAll_read32 _ rfl) (fun _ => TrAll_write32 _ _ (fun _ => rfl))
  refine TrAll_bind (hloop _) (fun _ => ?_)
  refine TrAll_bind (TrAll_write32 _ _ (fun _ => rfl)) (fun _ => ?_)
  refine TrAll_bind (TrAll_write32 _ _ (fun _ => rfl)) (fun _ => ?_)
  refine TrAll_bind (TrAll_write32 _ _ (fun _ => rfl)) (fun _ => ?_)
  exact TrAll_bind (TrAll_read32 _ rfl) (fun _ => TrAll_write32 _ _ (fun _ => rfl))

theorem requests_append (r : Reg) (sh : Nat) (t1 t2 : List Event) :
    requests r sh (t1 ++ t2) = requests r sh t1 ++ requests r sh t2 := by
  simp [requests, List.filterMap_append]

theorem requests_nil_of_all (r : Reg) (sh : Nat) (t : List Event)
    (h : ∀ e ∈ t, request_cs r sh e = none) : requests r sh t = [] := by
  induction t with
  | nil => rfl
  | cons e t ih =>
    have he := h e (List.mem_cons_self _ _)
    have ht := ih (fun e1 h1 => h e1 (List.mem_cons_of_mem _ h1))
    simp only [requests] at ht ⊢
    rw [List.filterMap_cons, he]
    exact ht

theorem Returns_pure {α : Type} (a : α) : Returns (pure a : M α) := by
  intro m; simp [pure_def, M.pure, Status.returned]

theorem Returns_read32 (r : Reg) : Returns (read32 r) := by
  intro m; simp [Status.returned]

theorem Returns_write32 (r : Reg) (v : Nat) : Returns (write32 r v) := by
  intro m; simp [Status.returned]

theorem Returns_bind {α β : Type} {x : M α} {f : α → M β} (hx : Returns x)
    (hf : ∀ a, Returns (f a)) : Returns (x >>= f) := by
  intro m
  have h1 := hx m
  rcases hxm : x m with ⟨st, m1, t1⟩
  rw [hxm] at h1
  cases st with
  | ret a =>
    rw [bind_ret hxm]
    exact hf a m1
  | die | reset | hang | undef | spin => simp [Status.returned] at h1

theorem Returns_ite {α : Type} (c : Prop) [Decidable c] {x y : M α} (hx : Returns x)
    (hy : Returns y) : Returns (if c then x else y) := by
  split_ifs <;> assumption

theorem Returns_clrsetbits32 (r : Reg) (c s : Nat) : Returns (clrsetbits32 r c s) :=
  Returns_bind (Returns_read32 r) (fun _ => Returns_write32 r _)

theorem Returns_select_per_cs_training_index (channel rank : Nat) :
    Returns (select_per_cs_training_index channel rank) := by
  unfold select_per_cs_training_index
  refine Returns_bind (Returns_read32 _) (fun _ => Returns_ite _ ?_ (Returns_pure _))
  exact Returns_bind (Returns_clrsetbits32 _ _ _) (fun _ =>
    Returns_bind (Returns_clrsetbits32 _ _ _) (fun _ =>
      Returns_bind (Returns_clrsetbits32 _ _ _) (fun _ => Returns_clrsetbits32 _ _ _)))

/-- A step that takes no sample, always returns and issues no request can be
put in front of a run. -/
theorem Issues_prefix {S : Poll → Prop} {r : Reg} {sh : Nat} {α β : Type} {x : M α}
    {f : α → M β} {n : Nat} {l : List Nat} {b : β} (hs : Steady x) (hr : Returns x)
    (hq : TrAll (fun e => request_cs r sh e = none) x)
    (hf : ∀ a, Issues S r sh (f a) n l b) : Issues S r sh (x >>= f) n l b := by
  intro m pre rest hlen hS
  have h1 := (hs m (pre ++ rest)).1
  have h2 := hr m
  rcases hxm : x m with ⟨st, m1, t1⟩
  rw [hxm] at h1 h2
  cases st with
  | ret a =>
    simp only [] at h1
    rw [bind_ret h1]
    obtain ⟨g1, g2, g3⟩ := hf a m1 pre rest hlen hS
    refine ⟨g1, g2, ?_⟩
    rw [requests_append, g3]
    have := requests_nil_of_all r sh t1 (by
      have hq1 := hq m
      rw [hxm] at hq1
      exact hq1)
    rw [this]; rfl
  | die | reset | hang | undef | spin => simp [Status.returned] at h2

/-- Two runs one after the other. -/
theorem Issues_seq {S : Poll → Prop} {r : Reg} {sh : Nat} {α β : Type} {x : M α}
    {f : α → M β} {n1 n2 : Nat} {l1 l2 : List Nat} {a : α} {b : β}
    (hx : Issues S r sh x n1 l1 a) (hf : Issues S r sh (f a) n2 l2 b) :
    Issues S r sh (x >>= f) (n1 + n2) (l1 ++ l2) b := by
  intro m pre rest hlen hS
  have hsplit : pre = pre.take n1 ++ pre.drop n1 := (List.take_append_drop n1 pre).symm
  have hl1 : (pre.take n1).length = n1 := by rw [List.length_take]; omega
  have hl2 : (pre.drop n1).length = n2 := by rw [List.length_drop]; omega
  have hS1 : ∀ q ∈ pre.take n1, S q := fun q hq => hS q (List.mem_of_mem_take hq)
  have hS2 : ∀ q ∈ pre.drop n1, S q := fun q hq => hS q (List.mem_of_mem_drop hq)
  have hpre : pre ++ rest = pre.take n1 ++ (pre.drop n1 ++ rest) := by
    rw [← List.append_assoc, List.take_append_drop]
  rw [hpre]
  obtain ⟨g1, g2, g3⟩ := hx m (pre.take n1) (pre.drop n1 ++ rest) hl1 hS1
  rcases hxm : x (withPolls m (pre.take n1 ++ (pre.drop n1 ++ rest))) with ⟨st, m1, t1⟩
  rw [hxm] at g1 g2 g3
  simp only [] at g1 g2 g3
  subst g1
  rw [bind_ret hxm]
  have hm1 : m1 = withPolls m1 (pre.drop n1 ++ rest) := by
    rw [← g2]; rfl
  obtain ⟨k1, k2, k3⟩ := hf m1 (pre.drop n1) rest hl2 hS2
  rw [← hm1] at k1 k2 k3
  refine ⟨k1, k2, ?_⟩
  rw [requests_append, g3, k3]

theorem Issues_pure {S : Poll → Prop} {r : Reg} {sh : Nat} {α : Type} (a : α) :
    Issues S r sh (pure a : M α) 0 [] a := by
  intro m pre rest hlen _
  have : pre = [] := List.length_eq_zero.mp hlen
  subst this
  exact ⟨rfl, rfl, rfl⟩

/-- A poll loop whose round succeeds on every sample that satisfies `S`
takes one sample and issues no request. -/
theorem Issues_while_poll {S : Poll → Prop} {r : Reg} {sh : Nat}
    {body : Unit → Poll → M (Unit ⊕ PollStep)}
    (hb : ∀ q, S q → PollOutcome body q PollStep.done)
    (hq : ∀ q, TrAll (fun e => request_cs r sh e = none) (body () q)) :
    Issues S r sh (while_poll body ()) 1 [] PollStep.done := by
  intro m pre rest hlen hS
  obtain ⟨q, rfl⟩ := List.length_eq_one.mp hlen
  have h := ((hb q (hS q (List.mem_singleton_self q))) m rest).2 (by decide)
  rw [List.singleton_append, h]
  exact ⟨rfl, rfl, requests_nil_of_all r sh _ (hq q _)⟩


theorem Issues_congr {S : Poll → Prop} {r : Reg} {sh : Nat} {α : Type} {x : M α}
    {n n1 : Nat} {l l1 : List Nat} {a : α} (h : Issues S r sh x n l a) (hn : n1 = n)
    (hl : l1 = l) : Issues S r sh x n1 l1 a := by
  subst hn; subst hl; exact h

/-- The field `shift + 1 : shift` of the word `clrsetbits32` writes is that
of the `set` argument when the `clear` argument covers the field. -/
theorem cs_field (v clr set sh : Nat) (hsh : sh + 1 < 32)
    (hc0 : (not32 clr).testBit sh = false) (hc1 : (not32 clr).testBit (sh + 1) = false) :
    ((u32 ((u32 v &&& not32 clr) ||| set)) >>> sh) &&& 0x3 = (set >>> sh) &&& 0x3 := by
  apply Nat.eq_of_testBit_eq
  intro j
  have h3 : (3 : Nat) = 2 ^ 2 - 1 := by norm_num
  simp only [Nat.testBit_and, Nat.testBit_shiftRight, h3, Nat.testBit_two_pow_sub_one]
  by_cases hj : j < 2
  · simp only [hj, decide_True, Bool.and_true]
    simp only [u32, show (4294967296 : Nat) = 2 ^ 32 by norm_num, Nat.testBit_mod_two_pow,
      Nat.testBit_or, Nat.testBit_and]
    rcases (by omega : j = 0 ∨ j = 1) with rfl | rfl
    · simp only [Nat.add_zero, hc0, Bool.and_false, Bool.false_or]
      simp [show sh < 32 by omega]
    · simp only [hc1, Bool.and_false, Bool.false_or]
      simp [show sh + 1 < 32 by omega]
  · simp [hj]

theorem Issues_request {S : Poll → Prop} (r : Reg) (sh clr set i : Nat)
    (h : ∀ v, ((u32 ((u32 v &&& not32 clr) ||| set)) >>> sh) &&& 0x3 = i) :
    Issues S r sh (clrsetbits32 r clr set) 0 [i] () := by
  intro m pre rest hlen _
  have : pre = [] := List.length_eq_zero.mp hlen
  subst this
  refine ⟨rfl, rfl, ?_⟩
  simp only [clrsetbits32, bind_def, M.bind, read32_run, write32_run, requests,
    List.nil_append, List.singleton_append]
  simp [request_cs, h]

theorem quiet_clrsetbits32 {r0 : Reg} {sh : Nat} (r : Reg) (c s : Nat) (h : r ≠ r0) :
    TrAll (fun e => request_cs r0 sh e = none) (clrsetbits32 r c s) :=
  TrAll_bind (TrAll_read32 _ rfl) (fun _ => TrAll_write32 _ _ (fun _ => by simp [request_cs, h]))

theorem quiet_write32 {r0 : Reg} {sh : Nat} (r : Reg) (v : Nat) (h : r ≠ r0) :
    TrAll (fun e => request_cs r0 sh e = none) (write32 r v) :=
  TrAll_write32 _ _ (fun _ => by simp [request_cs, h])

theorem quiet_select_per_cs_training_index {r0 : Reg} {sh : Nat} (channel rank : Nat)
    (h : ∀ i, Reg.denali_phy channel i ≠ r0) :
    TrAll (fun e => request_cs r0 sh e = none) (select_per_cs_training_index channel rank) := by
  unfold select_per_cs_training_index
  refine TrAll_bind (TrAll_read32 _ rfl) (fun _ => TrAll_ite _ ?_ (TrAll_pure _ _))
  exact TrAll_bind (quiet_clrsetbits32 _ _ _ (h _)) (fun _ =>
    TrAll_bind (quiet_clrsetbits32 _ _ _ (h _)) (fun _ =>
      TrAll_bind (quiet_clrsetbits32 _ _ _ (h _)) (fun _ => quiet_clrsetbits32 _ _ _ (h _))))

theorem mask_ranks_from_zero (mask i : Nat) : mask_ranks_from mask i 0 = [] := rfl

theorem mask_ranks_from_skip (mask i k : Nat) (h : mask &&& (1 <<< i) = 0) :
    mask_ranks_from mask i (k + 1) = mask_ranks_from mask (i + 1) k := by
  simp [mask_ranks_from, List.range'_succ, List.filter_cons, h]

theorem mask_ranks_from_take (mask i k : Nat) (h : ¬ mask &&& (1 <<< i) = 0) :
    mask_ranks_from mask i (k + 1) = i :: mask_ranks_from mask (i + 1) k := by
  simp [mask_ranks_from, List.range'_succ, List.filter_cons, h]

theorem ca_request_field (i v : Nat) (hi : i < 4) :
    ((u32 ((u32 v &&& not32 ((0x1 <<< 16) ||| (0x3 <<< 24))) ||| ((0x1 <<< 16) ||| (i <<< 24))))
      >>> 24) &&& 0x3 = i := by
  rw [cs_field _ _ _ 24 (by norm_num) (by decide) (by decide)]
  interval_cases i <;> decide

/-- The tail of one iteration of a training loop: poll, leave with -1 on
failure, otherwise acknowledge and go on with `rest`. -/
theorem Issues_poll_ack {S : Poll → Prop} {r : Reg} {sh : Nat}
    {poll : Unit → Poll → M (Unit ⊕ PollStep)} {ack : M Unit} {rest : M Int} {n : Nat}
    {l : List Nat}
    (hpoll : Issues S r sh (while_poll poll ()) 1 [] PollStep.done)
    (hs : Steady ack) (hr : Returns ack) (hq : TrAll (fun e => request_cs r sh e = none) ack)
    (hrest : Issues S r sh rest n l 0) :
    Issues S r sh (while_poll poll () >>= fun w =>
      if w = PollStep.fail then pure (-1) else (ack >>= fun _ => rest)) (1 + n) l 0 := by
  have htail : Issues S r sh ((fun w : PollStep =>
      if w = PollStep.fail then (pure (-1) : M Int) else (ack >>= fun _ => rest))
      PollStep.done) n l 0 := by
    simp only [show ¬ (PollStep.done = PollStep.fail) by decide, if_false]
    exact Issues_prefix hs hr hq (fun _ => hrest)
  exact Issues_congr (Issues_seq hpoll htail) rfl (by simp)

theorem quiet_pollread {r0 : Reg} {sh : Nat} (q : Poll) (r : Reg) :
    TrAll (fun e => request_cs r0 sh e = none) (pollread q r) :=
  TrAll_pollread q r rfl

theorem Issues_ca_poll (channel : Nat) (r : Reg) (sh : Nat) :
    Issues (ca_success channel) r sh (while_poll (data_training_ca_poll channel) ()) 1 []
      PollStep.done := by
  refine Issues_while_poll (fun q hq => ?_) (fun q => ?_)
  · have h := PollOutcome_of_round (data_training_ca_poll_round channel q hq.1)
    rw [hq.2] at h
    exact h
  · unfold data_training_ca_poll
    exact TrAll_bind (quiet_pollread _ _) (fun _ => TrAll_bind (quiet_pollread _ _) (fun _ =>
      TrAll_bind (quiet_pollread _ _) (fun _ => TrAll_bind (quiet_pollread _ _) (fun _ =>
        TrAll_pure _ _))))

theorem Issues_data_training_ca_ranks (channel rank_mask : Nat) :
    ∀ k i, i + k ≤ 4 →
      Issues (ca_success channel) (Reg.denali_pi channel 92) 24
        (data_training_ca_ranks channel rank_mask k i)
        (mask_ranks_from rank_mask i k).length (mask_ranks_from rank_mask i k) 0 := by
  intro k
  induction k with
  | zero => intro i _; exact Issues_pure 0
  | succ k ih =>
    intro i hik
    unfold data_training_ca_ranks
    by_cases hbit : rank_mask &&& (1 <<< i) = 0
    · rw [if_pos hbit, mask_ranks_from_skip _ _ _ hbit]
      exact ih (i + 1) (by omega)
    · rw [if_neg hbit, mask_ranks_from_take _ _ _ hbit]
      refine Issues_prefix (Steady_select_per_cs_training_index _ _)
        (Returns_select_per_cs_training_index _ _)
        (quiet_select_per_cs_training_index _ _ (fun _ => by simp)) (fun _ => ?_)
      refine Issues_prefix (Steady_clrsetbits32 _ _ _) (Returns_clrsetbits32 _ _ _)
        (quiet_clrsetbits32 _ _ _ (by simp)) (fun _ => ?_)
      exact Issues_congr (Issues_seq (Issues_request _ 24 _ _ i
        (fun v => ca_request_field i v (by omega)))
        (Issues_poll_ack (Issues_ca_poll channel _ _) (Steady_write32 _ _)
          (Returns_write32 _ _) (quiet_write32 _ _ (by simp)) (ih (i + 1) (by omega))))
        (by simp [Nat.add_comm]) (by simp)

theorem Issues_wl_poll (channel : Nat) (r : Reg) (sh : Nat) :
    Issues (wl_success channel) r sh (while_poll (data_training_wl_poll channel) ()) 1 []
      PollStep.done := by
  refine Issues_while_poll (fun q hq => ?_) (fun q => ?_)
  · have h := PollOutcome_of_round (data_training_wl_poll_round channel q hq.1)
    rw [hq.2] at h
    exact h
  · unfold data_training_wl_poll
    exact TrAll_bind (quiet_pollread _ _) (fun _ => TrAll_bind (quiet_pollread _ _) (fun _ =>
      TrAll_bind (quiet_pollread _ _) (fun _ => TrAll_bind (quiet_pollread _ _) (fun _ =>
        TrAll_bind (quiet_pollread _ _) (fun _ => TrAll_pure _ _)))))

theorem Issues_rg_poll (channel : Nat) (r : Reg) (sh : Nat) :
    Issues (rg_success channel) r sh (while_poll (data_training_rg_poll channel) ()) 1 []
      PollStep.done := by
  refine Issues_while_poll (fun q hq => ?_) (fun q => ?_)
  · have h := PollOutcome_of_round (data_training_rg_poll_round channel q hq.1)
    rw [hq.2] at h
    exact h
  · unfold data_training_rg_poll
    exact TrAll_bind (quiet_pollread _ _) (fun _ => TrAll_bind (quiet_pollread _ _) (fun _ =>
      TrAll_bind (quiet_pollread _ _) (fun _ => TrAll_bind (quiet_pollread _ _) (fun _ =>
        TrAll_bind (quiet_pollread _ _) (fun _ => TrAll_pure _ _)))))

theorem Issues_rl_poll (channel : Nat) (r : Reg) (sh : Nat) :
    Issues (rl_success channel) r sh (while_poll (data_training_rl_poll channel) ()) 1 []
      PollStep.done := by
  refine Issues_while_poll (fun q hq => ?_) (fun q => ?_)
  · have h := PollOutcome_of_round (data_training_rl_poll_round channel q)
    unfold rl_success at hq
    rw [hq] at h
    exact h
  · unfold data_training_rl_poll
    exact TrAll_bind (quiet_pollread _ _) (fun _ => TrAll_pure _ _)

theorem Issues_wdql_poll (channel : Nat) (r : Reg) (sh : Nat) :
    Issues (wdql_success channel) r sh (while_poll (data_training_wdql_poll channel) ()) 1 []
      PollStep.done := by
  refine Issues_while_poll (fun q hq => ?_) (fun q => ?_)
  · have h := PollOutcome_of_round (data_training_wdql_poll_round channel q)
    unfold wdql_success at hq
    rw [hq] at h
    exact h
  · unfold data_training_wdql_poll
    exact TrAll_bind (quiet_pollread _ _) (fun _ => TrAll_pure _ _)

theorem wl_request_field (i v : Nat) (hi : i < 4) :
    ((u32 ((u32 v &&& not32 ((0x1 <<< 8) ||| (0x3 <<< 16))) ||| ((0x1 <<< 8) ||| (i <<< 16))))
      >>> 16) &&& 0x3 = i := by
  rw [cs_field _ _ _ 16 (by norm_num) (by decide) (by decide)]
  interval_cases i <;> decide

theorem rl_request_field (i v : Nat) (hi : i < 4) :
    ((u32 ((u32 v &&& not32 ((0x1 <<< 8) ||| (0x3 <<< 24))) ||| ((0x1 <<< 8) ||| (i <<< 24))))
      >>> 24) &&& 0x3 = i := by
  rw [cs_field _ _ _ 24 (by norm_num) (by decide) (by decide)]
  interval_cases i <;> decide

theorem Issues_data_training_wdql_ranks (channel rank_mask : Nat) :
    ∀ k i, i + k ≤ 4 →
      Issues (wdql_success channel) (Reg.denali_pi channel 121) 16
        (data_training_wdql_ranks channel rank_mask k i)
        (mask_ranks_from rank_mask i k).length (mask_ranks_from rank_mask i k) 0 := by
  intro k
  induction k with
  | zero => intro i _; exact Issues_pure 0
  | succ k ih =>
    intro i hik
    unfold data_training_wdql_ranks
    by_cases hbit : rank_mask &&& (1 <<< i) = 0
    · rw [if_pos hbit, mask_ranks_from_skip _ _ _ hbit]
      exact ih (i + 1) (by omega)
    · rw [if_neg hbit, mask_ranks_from_take _ _ _ hbit]
      refine Issues_prefix (Steady_select_per_cs_training_index _ _)
        (Returns_select_per_cs_training_index _ _)
        (quiet_select_per_cs_training_index _ _ (fun _ => by simp)) (fun _ => ?_)
      refine Issues_prefix (Steady_clrbits32 _ _) (Returns_clrsetbits32 _ _ _)
        (quiet_clrsetbits32 _ _ _ (by simp)) (fun _ => ?_)
      refine Issues_prefix (Steady_clrsetbits32 _ _ _) (Returns_clrsetbits32 _ _ _)
        (quiet_clrsetbits32 _ _ _ (by simp)) (fun _ => ?_)
      exact Issues_congr (Issues_seq (Issues_request _ 16 _ _ i
        (fun v => wl_request_field i v (by omega)))
        (Issues_poll_ack (Issues_wdql_poll channel _ _) (Steady_write32 _ _)
          (Returns_write32 _ _) (quiet_write32 _ _ (by simp)) (ih (i + 1) (by omega))))
        (by simp [Nat.add_comm]) (by simp)

theorem Issues_data_training_wl_ranks (channel : Nat) :
    ∀ k i, i + k ≤ 4 →
      Issues (wl_success channel) (Reg.denali_pi channel 59) 16
        (data_training_wl_ranks channel k i) k (List.range' i k) 0 := by
  intro k
  induction k with
  | zero => intro i _; exact Issues_pure 0
  | succ k ih =>
    intro i hik
    unfold data_training_wl_ranks
    refine Issues_prefix (Steady_select_per_cs_training_index _ _)
      (Returns_select_per_cs_training_index _ _)
      (quiet_select_per_cs_training_index _ _ (fun _ => by simp)) (fun _ => ?_)
    refine Issues_prefix (Steady_clrsetbits32 _ _ _) (Returns_clrsetbits32 _ _ _)
      (quiet_clrsetbits32 _ _ _ (by simp)) (fun _ => ?_)
    exact Issues_congr (Issues_seq (Issues_request _ 16 _ _ i
      (fun v => wl_request_field i v (by omega)))
      (Issues_poll_ack (Issues_wl_poll channel _ _) (Steady_write32 _ _)
        (Returns_write32 _ _) (quiet_write32 _ _ (by simp)) (ih (i + 1) (by omega))))
      (by omega) (by simp [List.range'_succ])

theorem Issues_data_training_rg_ranks (channel : Nat) :
    ∀ k i, i + k ≤ 4 →
      Issues (rg_success channel) (Reg.denali_pi channel 74) 24
        (data_training_rg_ranks channel k i) k (List.range' i k) 0 := by
  intro k
  induction k with
  | zero => intro i _; exact Issues_pure 0
  | succ k ih =>
    intro i hik
    unfold data_training_rg_ranks
    refine Issues_prefix (Steady_select_per_cs_training_index _ _)
      (Returns_select_per_cs_training_index _ _)
      (quiet_select_per_cs_training_index _ _ (fun _ => by simp)) (fun _ => ?_)
    refine Issues_prefix (Steady_clrsetbits32 _ _ _) (Returns_clrsetbits32 _ _ _)
      (quiet_clrsetbits32 _ _ _ (by simp)) (fun _ => ?_)
    exact Issues_congr (Issues_seq (Issues_request _ 24 _ _ i
      (fun v => ca_request_field i v (by omega)))
      (Issues_poll_ack (Issues_rg_poll channel _ _) (Steady_write32 _ _)
        (Returns_write32 _ _) (quiet_write32 _ _ (by simp)) (ih (i + 1) (by omega))))
      (by omega) (by simp [List.range'_succ])

theorem Issues_data_training_rl_ranks (channel : Nat) :
    ∀ k i, i + k ≤ 4 →
      Issues (rl_success channel) (Reg.denali_pi channel 74) 24
        (data_training_rl_ranks channel k i) k (List.range' i k) 0 := by
  intro k
  induction k with
  | zero => intro i _; exact Issues_pure 0
  | succ k ih =>
    intro i hik
    unfold data_training_rl_ranks
    refine Issues_prefix (Steady_select_per_cs_training_index _ _)
      (Returns_select_per_cs_training_index _ _)
      (quiet_select_per_cs_training_index _ _ (fun _ => by simp)) (fun _ => ?_)
    refine Issues_prefix (Steady_clrsetbits32 _ _ _) (Returns_clrsetbits32 _ _ _)
      (quiet_clrsetbits32 _ _ _ (by simp)) (fun _ => ?_)
    exact Issues_congr (Issues_seq (Issues_request _ 24 _ _ i
      (fun v => rl_request_field i v (by omega)))
      (Issues_poll_ack (Issues_rl_poll channel _ _) (Steady_write32 _ _)
        (Returns_write32 _ _) (quiet_write32 _ _ (by simp)) (ih (i + 1) (by omega))))
      (by omega) (by simp [List.range'_succ])

/-- The end of a phase: the loop over the ranks, then the epilogue `fin`
when the loop returned 0. -/
theorem Issues_phase_tail {S : Poll → Prop} {r : Reg} {sh : Nat} {ranks fin : M Int}
    {n : Nat} {l : List Nat} (h : Issues S r sh ranks n l 0)
    (hfin : Issues S r sh fin 0 [] 0) :
    Issues S r sh (ranks >>= fun ret => if ret ≠ 0 then pure ret else fin) n l 0 := by
  have htail : Issues S r sh ((fun ret : Int => if ret ≠ 0 then (pure ret : M Int) else fin) 0)
      0 [] 0 := by
    simp only [ne_eq, not_true_eq_false, if_false]
    exact hfin
  exact Issues_congr (Issues_seq h htail) rfl (by simp)

theorem Issues_data_training_ca (channel : Nat) (params : rk3399_sdram_params) :
    Issues (ca_success channel) (Reg.denali_pi channel 92) 24
      (data_training_ca channel params)
      (mask_ranks (get_rank_mask channel params)).length
      (mask_ranks (get_rank_mask channel params)) 0 := by
  unfold data_training_ca
  refine Issues_prefix (Steady_write32 _ _) (Returns_write32 _ _)
    (quiet_write32 _ _ (by simp)) (fun _ => ?_)
  refine Issues_phase_tail (Issues_data_training_ca_ranks _ _ _ _ (by decide)) ?_
  exact Issues_prefix (Steady_clrbits32 _ _) (Returns_clrsetbits32 _ _ _)
    (quiet_clrsetbits32 _ _ _ (by simp)) (fun _ => Issues_pure 0)

theorem Issues_data_training_wdql (channel : Nat) (params : rk3399_sdram_params) :
    Issues (wdql_success channel) (Reg.denali_pi channel 121) 16
      (data_training_wdql channel params)
      (mask_ranks (get_rank_mask channel params)).length
      (mask_ranks (get_rank_mask channel params)) 0 := by
  unfold data_training_wdql
  refine Issues_prefix (Steady_write32 _ _) (Returns_write32 _ _)
    (quiet_write32 _ _ (by simp)) (fun _ => ?_)
  refine Issues_phase_tail (Issues_data_training_wdql_ranks _ _ _ _ (by decide)) ?_
  exact Issues_prefix (Steady_clrbits32 _ _) (Returns_clrsetbits32 _ _ _)
    (quiet_clrsetbits32 _ _ _ (by simp)) (fun _ => Issues_pure 0)

theorem Returns_override_write_leveling_bytes (channel : Nat) :
    ∀ k byte, Returns (override_write_leveling_bytes channel k byte) := by
  intro k
  induction k with
  | zero => intro byte; exact Returns_pure _
  | succ k ih =>
    intro byte
    unfold override_write_leveling_bytes
    exact Returns_bind (Returns_clrsetbits32 _ _ _) (fun _ => ih _)

theorem Returns_override_write_leveling_value (channel : Nat) :
    Returns (override_write_leveling_value channel) := by
  unfold override_write_leveling_value
  refine Returns_bind (Returns_clrsetbits32 _ _ _) (fun _ => ?_)
  refine Returns_bind (Returns_clrsetbits32 _ _ _) (fun _ => ?_)
  refine Returns_bind (Returns_clrsetbits32 _ _ _) (fun _ => ?_)
  refine Returns_bind (Returns_clrsetbits32 _ _ _) (fun _ => ?_)
  refine Returns_bind (Returns_clrsetbits32 _ _ _) (fun _ => ?_)
  refine Returns_bind (Returns_override_write_leveling_bytes _ _ _) (fun _ => ?_)
  refine Returns_bind (Returns_clrsetbits32 _ _ _) (fun _ => ?_)
  exact Returns_clrsetbits32 _ _ _

theorem quiet_override_write_leveling_bytes {r0 : Reg} {sh : Nat} (channel : Nat)
    (h : ∀ i, Reg.denali_phy channel i ≠ r0) :
    ∀ k byte, TrAll (fun e => request_cs r0 sh e = none)
      (override_write_leveling_bytes channel k byte) := by
  intro k
  induction k with
  | zero => intro byte; exact TrAll_pure _ _
  | succ k ih =>
    intro byte
    unfold override_write_leveling_bytes
    exact TrAll_bind (quiet_clrsetbits32 _ _ _ (h _)) (fun _ => ih _)

theorem quiet_override_write_leveling_value {r0 : Reg} {sh : Nat} (channel : Nat)
    (h : ∀ i, Reg.denali_phy channel i ≠ r0) (hc : ∀ i, Reg.denali_ctl channel i ≠ r0) :
    TrAll (fun e => request_cs r0 sh e = none) (override_write_leveling_value channel) := by
  unfold override_write_leveling_value
  refine TrAll_bind (quiet_clrsetbits32 _ _ _ (h _)) (fun _ => ?_)
  refine TrAll_bind (quiet_clrsetbits32 _ _ _ (h _)) (fun _ => ?_)
  refine TrAll_bind (quiet_clrsetbits32 _ _ _ (h _)) (fun _ => ?_)
  refine TrAll_bind (quiet_clrsetbits32 _ _ _ (h _)) (fun _ => ?_)
  refine TrAll_bind (quiet_clrsetbits32 _ _ _ (h _)) (fun _ => ?_)
  refine TrAll_bind (quiet_override_write_leveling_bytes _ h _ _) (fun _ => ?_)
  refine TrAll_bind (quiet_clrsetbits32 _ _ _ (h _)) (fun _ => ?_)
  exact quiet_clrsetbits32 _ _ _ (hc _)

theorem Issues_data_training_wl (channel : Nat) (params : rk3399_sdram_params)
    (hrank : (params.ch channel).rank ≤ 4) :
    Issues (wl_success channel) (Reg.denali_pi channel 59) 16
      (data_training_wl channel params) (params.ch channel).rank
      (List.range (params.ch channel).rank) 0 := by
  unfold data_training_wl
  rw [List.range_eq_range']
  refine Issues_prefix (Steady_write32 _ _) (Returns_write32 _ _)
    (quiet_write32 _ _ (by simp)) (fun _ => ?_)
  refine Issues_phase_tail (Issues_data_training_wl_ranks _ _ _ (by omega)) ?_
  have hs := Steady_override_write_leveling_value channel
  have hr := Returns_override_write_leveling_value channel
  have hq : TrAll (fun e => request_cs (Reg.denali_pi channel 59) 16 e = none)
      (override_write_leveling_value channel) :=
    quiet_override_write_leveling_value channel (fun _ => by simp) (fun _ => by simp)
  generalize override_write_leveling_value channel = x at hs hr hq ⊢
  refine Issues_prefix hs hr hq (fun _ => ?_)
  exact Issues_prefix (Steady_clrbits32 _ _) (Returns_clrsetbits32 _ _ _)
    (quiet_clrsetbits32 _ _ _ (by simp)) (fun _ => Issues_pure 0)

theorem Returns_data_training_rg_save (channel : Nat) (params : rk3399_sdram_params) :
    Returns (data_training_rg_save channel params) := by
  unfold data_training_rg_save
  refine Returns_ite _ ?_ (Returns_pure _)
  refine Returns_bind (Returns_read32 _) (fun _ => ?_)
  refine Returns_bind (Returns_clrsetbits32 _ _ _) (fun _ => ?_)
  refine Returns_bind (Returns_clrsetbits32 _ _ _) (fun _ => ?_)
  refine Returns_bind (Returns_clrsetbits32 _ _ _) (fun _ => ?_)
  exact Returns_bind (Returns_clrsetbits32 _ _ _) (fun _ => Returns_pure _)

theorem Returns_data_training_rg_restore (channel : Nat) (params : rk3399_sdram_params)
    (reg_value : Nat) : Returns (data_training_rg_restore channel params reg_value) := by
  unfold data_training_rg_restore
  refine Returns_ite _ ?_ (Returns_pure _)
  refine Returns_bind (Returns_clrsetbits32 _ _ _) (fun _ => ?_)
  refine Returns_bind (Returns_clrsetbits32 _ _ _) (fun _ => ?_)
  refine Returns_bind (Returns_clrsetbits32 _ _ _) (fun _ => ?_)
  exact Returns_clrsetbits32 _ _ _

theorem quiet_data_training_rg_save {r0 : Reg} {sh : Nat} (channel : Nat)
    (params : rk3399_sdram_params) (h : ∀ i, Reg.denali_phy channel i ≠ r0) :
    TrAll (fun e => request_cs r0 sh e = none) (data_training_rg_save channel params) := by
  unfold data_training_rg_save
  refine TrAll_ite _ ?_ (TrAll_pure _ _)
  refine TrAll_bind (TrAll_read32 _ rfl) (fun _ => ?_)
  refine TrAll_bind (quiet_clrsetbits32 _ _ _ (h _)) (fun _ => ?_)
  refine TrAll_bind (quiet_clrsetbits32 _ _ _ (h _)) (fun _ => ?_)
  refine TrAll_bind (quiet_clrsetbits32 _ _ _ (h _)) (fun _ => ?_)
  exact TrAll_bind (quiet_clrsetbits32 _ _ _ (h _)) (fun _ => TrAll_pure _ _)

theorem quiet_data_training_rg_restore {r0 : Reg} {sh : Nat} (channel : Nat)
    (params : rk3399_sdram_params) (reg_value : Nat)
    (h : ∀ i, Reg.denali_phy channel i ≠ r0) :
    TrAll (fun e => request_cs r0 sh e = none)
      (data_training_rg_restore channel params reg_value) := by
  unfold data_training_rg_restore
  refine TrAll_ite _ ?_ (TrAll_pure _ _)
  refine TrAll_bind (quiet_clrsetbits32 _ _ _ (h _)) (fun _ => ?_)
  refine TrAll_bind (quiet_clrsetbits32 _ _ _ (h _)) (fun _ => ?_)
  refine TrAll_bind (quiet_clrsetbits32 _ _ _ (h _)) (fun _ => ?_)
  exact quiet_clrsetbits32 _ _ _ (h _)

theorem Issues_data_training_rg (channel : Nat) (params : rk3399_sdram_params)
    (hrank : (params.ch channel).rank ≤ 4) :
    Issues (rg_success channel) (Reg.denali_pi channel 74) 24
      (data_training_rg channel params) (params.ch channel).rank
      (List.range (params.ch channel).rank) 0 := by
  unfold data_training_rg
  rw [List.range_eq_range']
  have hs := Steady_data_training_rg_save channel params
  have hr := Returns_data_training_rg_save channel params
  have hq : TrAll (fun e => request_cs (Reg.denali_pi channel 74) 24 e = none)
      (data_training_rg_save channel params) :=
    quiet_data_training_rg_save channel params (fun _ => by simp)
  have hs2 := Steady_data_training_rg_restore channel params
  have hr2 := Returns_data_training_rg_restore channel params
  have hq2 : ∀ v, TrAll (fun e => request_cs (Reg.denali_pi channel 74) 24 e = none)
      (data_training_rg_restore channel params v) :=
    fun v => quiet_data_training_rg_restore channel params v (fun _ => by simp)
  generalize data_training_rg_save channel params = save at hs hr hq ⊢
  generalize data_training_rg_restore channel params = restore at hs2 hr2 hq2 ⊢
  refine Issues_prefix hs hr hq (fun v => ?_)
  refine Issues_prefix (Steady_write32 _ _) (Returns_write32 _ _)
    (quiet_write32 _ _ (by simp)) (fun _ => ?_)
  refine Issues_phase_tail (Issues_data_training_rg_ranks _ _ _ (by omega)) ?_
  refine Issues_prefix (Steady_clrbits32 _ _) (Returns_clrsetbits32 _ _ _)
    (quiet_clrsetbits32 _ _ _ (by simp)) (fun _ => ?_)
  exact Issues_prefix (hs2 v) (hr2 v) (hq2 v) (fun _ => Issues_pure 0)

theorem Issues_data_training_rl (channel : Nat) (params : rk3399_sdram_params)
    (hrank : (params.ch channel).rank ≤ 4) :
    Issues (rl_success channel) (Reg.denali_pi channel 74) 24
      (data_training_rl channel params) (params.ch channel).rank
      (List.range (params.ch channel).rank) 0 := by
  unfold data_training_rl
  rw [List.range_eq_range']
  refine Issues_prefix (Steady_write32 _ _) (Returns_write32 _ _)
    (quiet_write32 _ _ (by simp)) (fun _ => ?_)
  refine Issues_phase_tail (Issues_data_training_rl_ranks _ _ _ (by omega)) ?_
  exact Issues_prefix (Steady_clrbits32 _ _) (Returns_clrsetbits32 _ _ _)
    (quiet_clrsetbits32 _ _ _ (by simp)) (fun _ => Issues_pure 0)

/-- C17: iteration asymmetry.  Run on samples on which every poll succeeds
at once, `data_training_ca` and `data_training_wdql` return 0 after one
request per set bit `i` of `get_rank_mask(channel, params)` among bits
0..3, in ascending order of `i`, with `i` in the chip-select field of the
request register (PI_92 bits 25:24, PI_121 bits 17:16), taking one sample
per request: 0 then 2 for mask 0b0101, 0, 1, 2, 3 for mask 0b1111, 0 for mask
0b01 and 0 then 1 for mask 0b11.  `data_training_wl`, `data_training_rg` and
`data_training_rl` (for a rank count up to 4, the width of the chip-select
field) return 0 after the requests `i = 0 .. rank - 1` in this order, with
`i` in the chip-select field (PI_59 bits 17:16, PI_74 bits 25:24), whatever
the DRAM type. -/
theorem training_iteration (channel : Nat) (params : rk3399_sdram_params) :
    Issues (ca_success channel) (Reg.denali_pi channel 92) 24
      (data_training_ca channel params)
      (mask_ranks (get_rank_mask channel params)).length
      (mask_ranks (get_rank_mask channel params)) 0 ∧
    Issues (wdql_success channel) (Reg.denali_pi channel 121) 16
      (data_training_wdql channel params)
      (mask_ranks (get_rank_mask channel params)).length
      (mask_ranks (get_rank_mask channel params)) 0 ∧
    (mask_ranks 0b0101 = [0, 2] ∧ mask_ranks 0b1111 = [0, 1, 2, 3] ∧
      mask_ranks 0b01 = [0] ∧ mask_ranks 0b11 = [0, 1]) ∧
    ((params.ch channel).rank ≤ 4 →
      Issues (wl_success channel) (Reg.denali_pi channel 59) 16
        (data_training_wl channel params) (params.ch channel).rank
        (List.range (params.ch channel).rank) 0 ∧
      Issues (rg_success channel) (Reg.denali_pi channel 74) 24
        (data_training_rg channel params) (params.ch channel).rank
        (List.range (params.ch channel).rank) 0 ∧
      Issues (rl_success channel) (Reg.denali_pi channel 74) 24
        (data_training_rl channel params) (params.ch channel).rank
        (List.range (params.ch channel).rank) 0) :=
  ⟨Issues_data_training_ca channel params, Issues_data_training_wdql channel params,
    ⟨by decide, by decide, by decide, by decide⟩,
    fun h => ⟨Issues_data_training_wl channel params h, Issues_data_training_rg channel params h,
      Issues_data_training_rl channel params h⟩⟩

/-- Witness of C17: with two successful samples pending, CA training of the
single-rank LPDDR4 example issues the requests for chip selects 0 and 2;
with two successful samples, write leveling of the dual-rank LPDDR3 example
issues the requests for 0 and 1. -/
theorem training_iteration_witness :
    (requests (Reg.denali_pi 0 92) 24
      (data_training_ca 0 ex_params_lpddr4
        (withPolls ex_machine ([ex_poll_success, ex_poll_success] ++ []))).tr = [0, 2]) ∧
    ((ex_params_dual.ch 0).rank ≤ 4 ∧
      requests (Reg.denali_pi 0 59) 16
        (data_training_wl 0 ex_params_dual
          (withPolls ex_machine ([ex_poll_success, ex_poll_success] ++ []))).tr = [0, 1]) := by
  have hca : ca_success 0 ex_poll_success := ⟨by unfold ca_obs_fault; decide, by decide⟩
  have hwl : wl_success 0 ex_poll_success := ⟨by unfold wl_obs_fault; decide, by decide⟩
  refine ⟨?_, by decide, ?_⟩
  · exact ((training_iteration 0 ex_params_lpddr4).1 ex_machine
      [ex_poll_success, ex_poll_success] [] rfl
      (fun q hq => by
        simp only [List.mem_cons, List.mem_singleton, List.not_mem_nil, or_false, or_self] at hq
        rw [hq]; exact hca)).2.2
  · exact (((training_iteration 0 ex_params_dual).2.2.2 (by decide)).1 ex_machine
      [ex_poll_success, ex_poll_success] [] rfl
      (fun q hq => by
        simp only [List.mem_cons, List.mem_singleton, List.not_mem_nil, or_false, or_self] at hq
        rw [hq]; exact hwl)).2.2

theorem testBit_u32 (x j : Nat) : (u32 x).testBit j = (decide (j < 32) && x.testBit j) := by
  unfold u32
  rw [show (4294967296 : Nat) = 2 ^ 32 by norm_num, Nat.testBit_mod_two_pow]

theorem testBit_not32 (c j : Nat) (hj : j < 32) :
    (not32 c).testBit j = !(u32 c).testBit j := by
  have hlt : u32 c < 2 ^ 32 := by unfold u32; omega
  have h := Nat.testBit_two_pow_sub_succ hlt j
  have he : not32 c = 2 ^ 32 - (u32 c + 1) := by unfold not32; omega
  rw [he, h]
  simp [hj]

/-- Bit `j` of the word `clrsetbits32` stores. -/
theorem testBit_clrset (v c s j : Nat) (hj : j < 32) :
    (u32 ((u32 v &&& not32 c) ||| s)).testBit j =
      ((v.testBit j && !(u32 c).testBit j) || s.testBit j) := by
  rw [testBit_u32, Nat.testBit_or, Nat.testBit_and, testBit_u32, testBit_not32 _ _ hj]
  simp [hj]

/-- A field that `clear` covers holds the bits of `set`. -/
theorem clrset_field_set (v c s sh w : Nat) (hw0 : 0 < w) (hw : sh + w ≤ 32)
    (hc : ∀ j < w, (u32 c).testBit (sh + j) = true) :
    bits (u32 ((u32 v &&& not32 c) ||| s)) (sh + w - 1) sh = bits s (sh + w - 1) sh := by
  unfold bits
  apply Nat.eq_of_testBit_eq
  intro j
  rw [Nat.testBit_mod_two_pow, Nat.testBit_mod_two_pow, Nat.testBit_shiftRight,
    Nat.testBit_shiftRight]
  by_cases hj : j < sh + w - 1 + 1 - sh
  · have hjw : j < w := by omega
    rw [testBit_clrset _ _ _ _ (by omega), hc j hjw]
    simp
  · simp [hj]

/-- A field that neither `clear` nor `set` touches keeps its bits. -/
theorem clrset_field_keep (v c s sh w : Nat) (hw0 : 0 < w) (hw : sh + w ≤ 32)
    (hc : ∀ j < w, (u32 c).testBit (sh + j) = false ∧ s.testBit (sh + j) = false) :
    bits (u32 ((u32 v &&& not32 c) ||| s)) (sh + w - 1) sh = bits v (sh + w - 1) sh := by
  unfold bits
  apply Nat.eq_of_testBit_eq
  intro j
  rw [Nat.testBit_mod_two_pow, Nat.testBit_mod_two_pow, Nat.testBit_shiftRight,
    Nat.testBit_shiftRight]
  by_cases hj : j < sh + w - 1 + 1 - sh
  · have hjw : j < w := by omega
    rw [testBit_clrset _ _ _ _ (by omega), (hc j hjw).1, (hc j hjw).2]
    simp
  · simp [hj]


theorem MemFun.run {α : Type} {r : Reg} {x : M α} {g : Nat → Nat} (h : MemFun r x g)
    (m : Machine) : (x m).m.mem r = g (m.mem r) := (h m).2

theorem MemFun.returns {α : Type} {r : Reg} {x : M α} {g : Nat → Nat} (h : MemFun r x g) :
    Returns x := fun m => (h m).1

theorem MemFun_pure {α : Type} (r : Reg) (a : α) : MemFun r (pure a : M α) id := by
  intro m; exact ⟨by simp [pure_def, M.pure, Status.returned], rfl⟩

theorem MemFun_clrsetbits32_same (r : Reg) (c s : Nat) :
    MemFun r (clrsetbits32 r c s) (clrset_word c s) := by
  intro m
  refine ⟨Returns_clrsetbits32 r c s m, ?_⟩
  simp [clrsetbits32, bind_def, M.bind, setReg, clrset_word]

theorem MemFun_clrsetbits32_other (r r1 : Reg) (c s : Nat) (h : r ≠ r1) :
    MemFun r (clrsetbits32 r1 c s) id := by
  intro m
  refine ⟨Returns_clrsetbits32 r1 c s m, ?_⟩
  simp [clrsetbits32, bind_def, M.bind, setReg, h]

theorem MemFun_then {α β : Type} {r : Reg} {x : M α} {f : α → M β} {g h : Nat → Nat}
    (hx : MemFun r x g) (hf : ∀ a, MemFun r (f a) h) :
    MemFun r (x >>= f) (fun v => h (g v)) := by
  intro m
  obtain ⟨h1, h2⟩ := hx m
  rcases hxm : x m with ⟨st, m1, t1⟩
  rw [hxm] at h1 h2
  cases st with
  | ret a =>
    rw [bind_ret hxm]
    obtain ⟨k1, k2⟩ := hf a m1
    simp only [] at h2
    exact ⟨k1, by rw [k2, h2]⟩
  | die | reset | hang | undef | spin => simp [Status.returned] at h1

theorem MemFun_skip {α β : Type} {r : Reg} {x : M α} {f : α → M β} {k : Nat → Nat}
    (hx : MemFun r x id) (hf : ∀ a, MemFun r (f a) k) : MemFun r (x >>= f) k :=
  @MemFun_then α β r x f id k hx hf

theorem MemFun_last {α β : Type} {r : Reg} {x : M α} {f : α → M β} {g : Nat → Nat}
    (hx : MemFun r x g) (hf : ∀ a, MemFun r (f a) id) : MemFun r (x >>= f) g :=
  @MemFun_then α β r x f g id hx hf

theorem phy_io_config_odt_switch_run (odt_value v240 v120 v60 : Nat) (m : Machine) :
    phy_io_config_odt_switch odt_value v240 v120 v60 m =
      if odt_value = 0x1 then ⟨Status.ret v240, m, []⟩
      else if odt_value = 0x8 then ⟨Status.ret v120, m, []⟩
      else if odt_value = 0xc then ⟨Status.ret v60, m, []⟩
      else ⟨Status.die, m, [Event.die]⟩ := by
  unfold phy_io_config_odt_switch PHY_DRV_ODT_240 PHY_DRV_ODT_120 PHY_DRV_ODT_60
  split_ifs <;> rfl

theorem vref_table_none_iff (d o : Nat) :
    vref_table d o = none ↔
      ((d ≠ 0xd ∧ d ≠ 0xe ∧ d ≠ 0xf) ∨ (o ≠ 0x1 ∧ o ≠ 0x8 ∧ o ≠ 0xc)) := by
  unfold vref_table
  split_ifs <;> simp <;> omega

/-- The vref selection for LPDDR3 with ODT, by the table. -/
theorem phy_io_config_vref_lpddr3_odt (channel : Nat) (params : rk3399_sdram_params)
    (m : Machine) (h3 : params.dramtype = LPDDR3) (ho : params.odt = 1) :
    phy_io_config_vref channel params m =
      match vref_table (phy_io_drv_value channel m) (phy_io_odt_value channel m) with
      | some v => ⟨Status.ret (0x5, v, 0x2, 0x1f), m,
          [Event.read (Reg.denali_phy channel 6), Event.read (Reg.denali_phy channel 6)]⟩
      | none => ⟨Status.die, m,
          [Event.read (Reg.denali_phy channel 6), Event.read (Reg.denali_phy channel 6),
            Event.die]⟩ := by
  have h4 : params.dramtype ≠ LPDDR4 := by rw [h3]; decide
  have hdrv : (u32 (m.mem (Reg.denali_phy channel 6)) >>> 12) &&& 0xf
      = phy_io_drv_value channel m := rfl
  have hodt : (u32 (m.mem (Reg.denali_phy channel 6)) >>> 4) &&& 0xf
      = phy_io_odt_value channel m := rfl
  unfold phy_io_config_vref vref_table
  rw [if_neg h4, if_pos h3, if_pos ho]
  simp only [bind_def, M.bind, read32_run, phy_io_config_odt_switch_run, PHY_DRV_ODT_48,
    PHY_DRV_ODT_40, PHY_DRV_ODT_34_3, hdrv, hodt]
  split_ifs <;> simp [phy_io_config_odt_switch_run, die, stop, pure_def, M.pure, *]

/-- What the vref selection of `phy_io_config` does: it halts on the invalid
configurations, and otherwise returns the mode and the table value with the
machine unchanged. -/
theorem phy_io_config_vref_run (channel : Nat) (params : rk3399_sdram_params) (m : Machine) :
    (phy_io_config_invalid channel params m →
      (phy_io_config_vref channel params m).st = Status.die) ∧
    (¬ phy_io_config_invalid channel params m →
      ∃ mode_ac t, phy_io_config_vref channel params m =
        ⟨Status.ret (phy_io_vref_mode_dq params, phy_io_vref_value_dq channel params m,
          mode_ac, 0x1f), m, t⟩) := by
  unfold phy_io_config_invalid phy_io_vref_value_dq phy_io_vref_mode_dq
  by_cases h4 : params.dramtype = LPDDR4
  · have h3 : params.dramtype ≠ LPDDR3 := by rw [h4]; decide
    refine ⟨fun h => ?_, fun _ => ⟨0x6, [], ?_⟩⟩
    · rcases h with h | h
      · exact absurd h4 h.1
      · exact absurd h.1 h3
    · unfold phy_io_config_vref
      rw [if_pos h4, if_pos h4, if_neg (fun h => h3 h.1)]
      rfl
  · by_cases h3 : params.dramtype = LPDDR3
    · by_cases ho : params.odt = 1
      · have hrun := phy_io_config_vref_lpddr3_odt channel params m h3 ho
        have hnone := vref_table_none_iff (phy_io_drv_value channel m)
          (phy_io_odt_value channel m)
        rw [hrun, if_neg h4, if_pos h3, if_pos ho, if_pos ⟨h3, ho⟩]
        cases hv : vref_table (phy_io_drv_value channel m) (phy_io_odt_value channel m) with
        | none =>
          refine ⟨fun _ => rfl, fun h => ?_⟩
          exact absurd (Or.inr ⟨h3, ho, hnone.mp hv⟩) h
        | some v =>
          refine ⟨fun h => ?_, fun _ => ⟨_, _, rfl⟩⟩
          rcases h with h | h
          · exact absurd h3 h.2.1
          · have := hnone.mpr h.2.2
            rw [hv] at this
            cases this
      · refine ⟨fun h => ?_, fun _ => ⟨0x2, [], ?_⟩⟩
        · rcases h with h | h
          · exact absurd h3 h.2.1
          · exact absurd h.2.1 ho
        · unfold phy_io_config_vref
          rw [if_neg h4, if_pos h3, if_neg ho, if_neg h4, if_pos h3, if_neg ho,
            if_neg (fun h => ho h.2)]
          rfl
    · by_cases hd : params.dramtype = DDR3
      · refine ⟨fun h => ?_, fun _ => ⟨0x1, [], ?_⟩⟩
        · rcases h with h | h
          · exact absurd hd h.2.2
          · exact absurd h.1 h3
        · unfold phy_io_config_vref
          rw [if_neg h4, if_neg h3, if_pos hd, if_neg h4, if_neg h3, if_neg (fun h => h3 h.1)]
          rfl
      · refine ⟨fun _ => ?_, fun h => absurd (Or.inl ⟨h4, h3, hd⟩) h⟩
        unfold phy_io_config_vref
        rw [if_neg h4, if_neg h3, if_neg hd]
        rfl


theorem Returns_phy_io_config_pads (channel : Nat) (params : rk3399_sdram_params)
    (a b c d : Nat) : Returns (phy_io_config_pads channel params a b c d) := by
  unfold phy_io_config_pads
  repeat (first
    | exact Returns_clrsetbits32 _ _ _
    | refine Returns_bind (Returns_clrsetbits32 _ _ _) (fun _ => ?_))

theorem MemFun_phy_io_config_pads_913 (channel : Nat) (params : rk3399_sdram_params)
    (a b c d : Nat) :
    MemFun (Reg.denali_phy channel 913) (phy_io_config_pads channel params a b c d)
      (clrset_word (0xfff <<< 8) (((a <<< 9) ||| (0x1 <<< 8) ||| b) <<< 8)) := by
  unfold phy_io_config_pads
  refine MemFun_last (MemFun_clrsetbits32_same _ _ _) (fun _ => ?_)
  repeat (first
    | exact MemFun_clrsetbits32_other _ _ _ _ (by simp)
    | refine MemFun_skip (MemFun_clrsetbits32_other _ _ _ _ (by simp)) (fun _ => ?_))

theorem MemFun_phy_io_config_pads_914 (channel : Nat) (params : rk3399_sdram_params)
    (a b c d : Nat) :
    MemFun (Reg.denali_phy channel 914) (phy_io_config_pads channel params a b c d)
      (fun v => clrset_word (0xfff <<< 16) (((a <<< 9) ||| (0x1 <<< 8) ||| b) <<< 16)
        (clrset_word 0xfff ((a <<< 9) ||| (0x1 <<< 8) ||| b) v)) := by
  unfold phy_io_config_pads
  refine MemFun_skip (MemFun_clrsetbits32_other _ _ _ _ (by simp)) (fun _ => ?_)
  refine MemFun_then (MemFun_clrsetbits32_same _ _ _) (fun _ => ?_)
  refine MemFun_last (MemFun_clrsetbits32_same _ _ _) (fun _ => ?_)
  repeat (first
    | exact MemFun_clrsetbits32_other _ _ _ _ (by simp)
    | refine MemFun_skip (MemFun_clrsetbits32_other _ _ _ _ (by simp)) (fun _ => ?_))

theorem MemFun_phy_io_config_pads_915 (channel : Nat) (params : rk3399_sdram_params)
    (a b c d : Nat) :
    MemFun (Reg.denali_phy channel 915) (phy_io_config_pads channel params a b c d)
      (fun v => clrset_word (0xfff <<< 16) (((c <<< 9) ||| (0x1 <<< 8) ||| d) <<< 16)
        (clrset_word 0xfff ((a <<< 9) ||| (0x1 <<< 8) ||| b) v)) := by
  unfold phy_io_config_pads
  refine MemFun_skip (MemFun_clrsetbits32_other _ _ _ _ (by simp)) (fun _ => ?_)
  refine MemFun_skip (MemFun_clrsetbits32_other _ _ _ _ (by simp)) (fun _ => ?_)
  refine MemFun_skip (MemFun_clrsetbits32_other _ _ _ _ (by simp)) (fun _ => ?_)
  refine MemFun_then (MemFun_clrsetbits32_same _ _ _) (fun _ => ?_)
  refine MemFun_last (MemFun_clrsetbits32_same _ _ _) (fun _ => ?_)
  repeat (first
    | exact MemFun_clrsetbits32_other _ _ _ _ (by simp)
    | refine MemFun_skip (MemFun_clrsetbits32_other _ _ _ _ (by simp)) (fun _ => ?_))

/-- The low byte of a vref control field placed at bit `sh` is the vref
value. -/
theorem vref_field_value (a b sh : Nat) (hb : b < 256) :
    bits (((a <<< 9) ||| (0x1 <<< 8) ||| b) <<< sh) (sh + 8 - 1) sh = b := by
  unfold bits
  rw [show sh + 8 - 1 + 1 - sh = 8 by omega, Nat.shiftLeft_shiftRight]
  apply Nat.eq_of_testBit_eq
  intro j
  rw [Nat.testBit_mod_two_pow]
  by_cases hj : j < 8
  · simp only [hj, decide_True, Bool.true_and, Nat.testBit_or, Nat.testBit_shiftLeft]
    have h1 : ¬ j ≥ 9 := by omega
    have h2 : ¬ j ≥ 8 := by omega
    simp [h1, h2]
  · have : b < 2 ^ j := lt_of_lt_of_le hb
      (by
        have : (256 : Nat) = 2 ^ 8 := by norm_num
        rw [this]
        exact Nat.pow_le_pow_right (by norm_num) (by omega))
    simp [hj, Nat.testBit_lt_two_pow this]

theorem vref_table_lt (d o v : Nat) (h : vref_table d o = some v) : v < 256 := by
  unfold vref_table at h
  split_ifs at h <;> simp at h <;> omega

theorem phy_io_vref_value_dq_lt (channel : Nat) (params : rk3399_sdram_params) (m : Machine)
    (h : ¬ phy_io_config_invalid channel params m) :
    phy_io_vref_value_dq channel params m < 256 ∧
    (params.dramtype = LPDDR3 ∧ params.odt = 1 →
      vref_table (phy_io_drv_value channel m) (phy_io_odt_value channel m)
        = some (phy_io_vref_value_dq channel params m)) ∧
    (¬ (params.dramtype = LPDDR3 ∧ params.odt = 1) →
      phy_io_vref_value_dq channel params m = 0x1f) := by
  unfold phy_io_vref_value_dq
  by_cases hc : params.dramtype = LPDDR3 ∧ params.odt = 1
  · rw [if_pos hc]
    have hn : vref_table (phy_io_drv_value channel m) (phy_io_odt_value channel m) ≠ none := by
      intro hnone
      exact h (Or.inr ⟨hc.1, hc.2, (vref_table_none_iff _ _).mp hnone⟩)
    cases hv : vref_table (phy_io_drv_value channel m) (phy_io_odt_value channel m) with
    | none => exact absurd hv hn
    | some v =>
      exact ⟨vref_table_lt _ _ v hv, fun _ => rfl, fun hnc => absurd hc hnc⟩
  · rw [if_neg hc]
    exact ⟨by norm_num, fun h2 => absurd h2 hc, fun _ => rfl⟩


theorem phy_io_config_run_valid (channel : Nat) (params : rk3399_sdram_params) (m : Machine)
    (h : ¬ phy_io_config_invalid channel params m) :
    ∃ mode_ac,
      (phy_io_config channel params m).st = Status.ret () ∧
      ∀ r g, MemFun r (phy_io_config_pads channel params (phy_io_vref_mode_dq params)
          (phy_io_vref_value_dq channel params m) mode_ac 0x1f) g →
        (phy_io_config channel params m).m.mem r = g (m.mem r) := by
  obtain ⟨mode_ac, t, hv⟩ := (phy_io_config_vref_run channel params m).2 h
  refine ⟨mode_ac, ?_, ?_⟩
  · have hr := Returns_phy_io_config_pads channel params (phy_io_vref_mode_dq params)
      (phy_io_vref_value_dq channel params m) mode_ac 0x1f m
    unfold phy_io_config
    rw [bind_ret hv]
    simp only []
    revert hr
    cases (phy_io_config_pads channel params (phy_io_vref_mode_dq params)
      (phy_io_vref_value_dq channel params m) mode_ac 0x1f m).st <;>
      simp [Status.returned]
  · intro r g hg
    unfold phy_io_config
    rw [bind_ret hv]
    exact hg.run m

/-- C19: `phy_io_config` halts exactly on invalid configurations.  The run
ends in `die` if and only if the DRAM type is none of LPDDR4, LPDDR3, DDR3,
or it is LPDDR3 with `odt = 1` and the drive value in bits 15:12 of PHY_6 is
none of 0xd, 0xe, 0xf or the ODT value in bits 7:4 of PHY_6 is none of 0x1,
0x8, 0xc.  In every other case it returns, and afterwards the vref value
fields of the four DQ pads (PHY_913 bits 15:8, PHY_914 bits 7:0 and 23:16,
PHY_915 bits 7:0) hold the entry of the 3x3 table for LPDDR3 with ODT and
0x1f otherwise. -/
theorem phy_io_config_halts_exactly (channel : Nat) (params : rk3399_sdram_params)
    (m : Machine) :
    ((phy_io_config channel params m).st = Status.die ↔
      phy_io_config_invalid channel params m) ∧
    (¬ phy_io_config_invalid channel params m →
      (phy_io_config channel params m).st = Status.ret () ∧
      bits ((phy_io_config channel params m).m.mem (Reg.denali_phy channel 913)) 15 8
        = phy_io_vref_value_dq channel params m ∧
      bits ((phy_io_config channel params m).m.mem (Reg.denali_phy channel 914)) 7 0
        = phy_io_vref_value_dq channel params m ∧
      bits ((phy_io_config channel params m).m.mem (Reg.denali_phy channel 914)) 23 16
        = phy_io_vref_value_dq channel params m ∧
      bits ((phy_io_config channel params m).m.mem (Reg.denali_phy channel 915)) 7 0
        = phy_io_vref_value_dq channel params m ∧
      (params.dramtype = LPDDR3 ∧ params.odt = 1 →
        vref_table (phy_io_drv_value channel m) (phy_io_odt_value channel m)
          = some (phy_io_vref_value_dq channel params m)) ∧
      (¬ (params.dramtype = LPDDR3 ∧ params.odt = 1) →
        phy_io_vref_value_dq channel params m = 0x1f)) := by
  have hvalid : ¬ phy_io_config_invalid channel params m →
      (phy_io_config channel params m).st = Status.ret () ∧
      bits ((phy_io_config channel params m).m.mem (Reg.denali_phy channel 913)) 15 8
        = phy_io_vref_value_dq channel params m ∧
      bits ((phy_io_config channel params m).m.mem (Reg.denali_phy channel 914)) 7 0
        = phy_io_vref_value_dq channel params m ∧
      bits ((phy_io_config channel params m).m.mem (Reg.denali_phy channel 914)) 23 16
        = phy_io_vref_value_dq channel params m ∧
      bits ((phy_io_config channel params m).m.mem (Reg.denali_phy channel 915)) 7 0
        = phy_io_vref_value_dq channel params m ∧
      (params.dramtype = LPDDR3 ∧ params.odt = 1 →
        vref_table (phy_io_drv_value channel m) (phy_io_odt_value channel m)
          = some (phy_io_vref_value_dq channel params m)) ∧
      (¬ (params.dramtype = LPDDR3 ∧ params.odt = 1) →
        phy_io_vref_value_dq channel params m = 0x1f) := by
    intro h
    obtain ⟨mode_ac, hst, hmem⟩ := phy_io_config_run_valid channel params m h
    obtain ⟨hlt, htab, hdef⟩ := phy_io_vref_value_dq_lt channel params m h
    refine ⟨hst, ?_, ?_, ?_, ?_, htab, hdef⟩
    · rw [hmem _ _ (MemFun_phy_io_config_pads_913 channel params _ _ _ _)]
      unfold clrset_word
      rw [clrset_field_set _ _ _ 8 8 (by norm_num) (by norm_num) (by decide)]
      exact vref_field_value _ _ 8 hlt
    · rw [hmem _ _ (MemFun_phy_io_config_pads_914 channel params _ _ _ _)]
      unfold clrset_word
      rw [clrset_field_keep _ _ _ 0 8 (by norm_num) (by norm_num)
        (fun j hj => ⟨by revert j; decide, by
          rw [Nat.testBit_shiftLeft]; simp; omega⟩)]
      rw [clrset_field_set _ _ _ 0 8 (by norm_num) (by norm_num) (by decide)]
      have := vref_field_value (phy_io_vref_mode_dq params) _ 0 hlt
      rwa [Nat.shiftLeft_zero] at this
    · rw [hmem _ _ (MemFun_phy_io_config_pads_914 channel params _ _ _ _)]
      unfold clrset_word
      rw [clrset_field_set _ _ _ 16 8 (by norm_num) (by norm_num) (by decide)]
      exact vref_field_value _ _ 16 hlt
    · rw [hmem _ _ (MemFun_phy_io_config_pads_915 channel params _ _ _ _)]
      unfold clrset_word
      rw [clrset_field_keep _ _ _ 0 8 (by norm_num) (by norm_num)
        (fun j hj => ⟨by revert j; decide, by
          rw [Nat.testBit_shiftLeft]; simp; omega⟩)]
      rw [clrset_field_set _ _ _ 0 8 (by norm_num) (by norm_num) (by decide)]
      have := vref_field_value (phy_io_vref_mode_dq params) _ 0 hlt
      rwa [Nat.shiftLeft_zero] at this
  refine ⟨⟨fun hdie => ?_, fun hinv => ?_⟩, hvalid⟩
  · by_contra hni
    rw [(hvalid hni).1] at hdie
    cases hdie
  · have hv := (phy_io_config_vref_run channel params m).1 hinv
    unfold phy_io_config
    rw [bind_stop (by rw [hv]; simp [Status.returned]), hv]
    rfl

/-- Witness of C19: on the zero machine the LPDDR3 example with ODT reads
drive value 0, which is not in the table, and halts; the DDR3 example
returns with the vref value 0x1f in PHY_913. -/
theorem phy_io_config_halts_exactly_witness :
    (phy_io_config_invalid 0 ex_params_dual ex_machine ∧
      (phy_io_config 0 ex_params_dual ex_machine).st = Status.die) ∧
    (¬ phy_io_config_invalid 0 ex_params_single ex_machine ∧
      (phy_io_config 0 ex_params_single ex_machine).st = Status.ret () ∧
      bits ((phy_io_config 0 ex_params_single ex_machine).m.mem (Reg.denali_phy 0 913)) 15 8
        = 0x1f) := by
  have h1 : phy_io_config_invalid 0 ex_params_dual ex_machine :=
    Or.inr ⟨rfl, rfl, Or.inl ⟨by decide, by decide, by decide⟩⟩
  have h2 : ¬ phy_io_config_invalid 0 ex_params_single ex_machine := by
    rintro (h | h)
    · exact h.2.2 rfl
    · exact absurd h.1 (by decide)
  have hv := (phy_io_config_halts_exactly 0 ex_params_single ex_machine).2 h2
  exact ⟨⟨h1, (phy_io_config_halts_exactly 0 ex_params_dual ex_machine).1.mpr h1⟩, h2, hv.1,
    by rw [hv.2.1]; exact hv.2.2.2.2.2.2 (by decide)⟩

theorem Returns_set_ds_odt (channel : Nat) (params : rk3399_sdram_params) :
    Returns (set_ds_odt channel params) := by
  unfold set_ds_odt
  repeat (first
    | exact Returns_clrsetbits32 _ _ _
    | refine Returns_bind (Returns_clrsetbits32 _ _ _) (fun _ => ?_))

/-- The two writes of `set_ds_odt` to PHY_6: the drive and termination
selection in the low 24 bits, then the termination enables in bits 26:24. -/
theorem MemFun_set_ds_odt_6 (channel : Nat) (params : rk3399_sdram_params) :
    MemFun (Reg.denali_phy channel 6) (set_ds_odt channel params)
      (fun v => clrset_word (0x7 <<< 24)
        (((if params.odt = 1 then 1 else 0) ||| (0 <<< 1) ||| (0 <<< 2)) <<< 24)
        (clrset_word 0xffffff
          ((set_ds_odt_select params.dramtype).tsel_rd_select_n |||
            ((set_ds_odt_select params.dramtype).tsel_rd_select_p <<< 0x4) |||
            ((set_ds_odt_select params.dramtype).tsel_wr_select_n <<< 8) |||
            ((set_ds_odt_select params.dramtype).tsel_wr_select_p <<< 12) |||
            ((set_ds_odt_select params.dramtype).tsel_idle_select_n <<< 16) |||
            ((set_ds_odt_select params.dramtype).tsel_idle_select_p <<< 20)) v)) := by
  unfold set_ds_odt
  refine MemFun_then (MemFun_clrsetbits32_same _ _ _) (fun _ => ?_)
  iterate 21 (refine MemFun_skip (MemFun_clrsetbits32_other _ _ _ _ (by simp)) (fun _ => ?_))
  refine MemFun_last (MemFun_clrsetbits32_same _ _ _) (fun _ => ?_)
  repeat (first
    | exact MemFun_clrsetbits32_other _ _ _ _ (by simp)
    | refine MemFun_skip (MemFun_clrsetbits32_other _ _ _ _ (by simp)) (fun _ => ?_))

theorem u32_clrset_word (c s v : Nat) : u32 (clrset_word c s v) = clrset_word c s v := by
  unfold clrset_word u32
  exact Nat.mod_mod _ _

theorem and_15_eq_bits (x lo : Nat) : (x >>> lo) &&& 0xf = bits x (lo + 3) lo := by
  unfold bits
  rw [show lo + 3 + 1 - lo = 4 by omega]
  exact Nat.and_pow_two_sub_one_eq_mod _ 4

/-- After `set_ds_odt` for LPDDR3, PHY_6 reads back drive value 0xf and ODT
value 0x1. -/
theorem set_ds_odt_lpddr3_readback (channel : Nat) (params : rk3399_sdram_params)
    (m : Machine) (h3 : params.dramtype = LPDDR3) :
    phy_io_drv_value channel (set_ds_odt channel params m).m = 0xf ∧
    phy_io_odt_value channel (set_ds_odt channel params m).m = 0x1 := by
  have hsel : set_ds_odt_select params.dramtype = set_ds_odt_select LPDDR3 := by rw [h3]
  unfold phy_io_drv_value phy_io_odt_value
  rw [(MemFun_set_ds_odt_6 channel params).run m, hsel]
  simp only [u32_clrset_word, and_15_eq_bits]
  unfold clrset_word
  constructor
  · rw [show (12 + 3 : Nat) = 12 + 4 - 1 by norm_num,
      clrset_field_keep _ _ _ 12 4 (by norm_num) (by norm_num)
        (fun j hj => ⟨by revert j; decide, by
          rw [Nat.testBit_shiftLeft]; simp; omega⟩),
      clrset_field_set _ _ _ 12 4 (by norm_num) (by norm_num) (by decide)]
    decide
  · rw [show (4 + 3 : Nat) = 4 + 4 - 1 by norm_num,
      clrset_field_keep _ _ _ 4 4 (by norm_num) (by norm_num)
        (fun j hj => ⟨by revert j; decide, by
          rw [Nat.testBit_shiftLeft]; simp; omega⟩),
      clrset_field_set _ _ _ 4 4 (by norm_num) (by norm_num) (by decide)]
    decide

theorem set_ds_odt_valid (channel : Nat) (params : rk3399_sdram_params) (m : Machine)
    (hsup : params.dramtype = LPDDR4 ∨ params.dramtype = LPDDR3 ∨ params.dramtype = DDR3) :
    ¬ phy_io_config_invalid channel params (set_ds_odt channel params m).m := by
  rintro (h | h)
  · rcases hsup with h4 | h3 | hd
    · exact h.1 h4
    · exact h.2.1 h3
    · exact h.2.2 hd
  · obtain ⟨hdrv, hodt⟩ := set_ds_odt_lpddr3_readback channel params m h.1
    rcases h.2.2 with hbad | hbad
    · exact hbad.2.2 hdrv
    · exact hbad.1 hodt


theorem isDie_eq {s : Status Unit} (h : (match s with | Status.die => true | _ => false) = true) :
    s = Status.die := by
  cases s <;> simp at h
  rfl

/-- C20: `set_ds_odt` followed by `phy_io_config` never halts for a
supported type.  For every params with DRAM type LPDDR4, LPDDR3 or DDR3 and
every prior machine state, `set_ds_odt` returns, the state it leaves is not
one of the configurations on which `phy_io_config` halts, and the two calls
in sequence on the same channel return (the run does not end in `die`).
For LPDDR3 with `odt = 1` the pair read back from PHY_6 is drive value 0xf
and ODT value 0x1, the vref selection returns mode 0x5 and value 0x17, and
after the run the DQ vref field of PHY_913 holds mode 0x5 in bits 19:17,
the enable bit 16 and the value 0x17 in bits 15:8. -/
theorem set_ds_odt_then_phy_io_config (channel : Nat) (params : rk3399_sdram_params)
    (m : Machine)
    (hsup : params.dramtype = LPDDR4 ∨ params.dramtype = LPDDR3 ∨ params.dramtype = DDR3) :
    (set_ds_odt channel params m).st = Status.ret () ∧
    ¬ phy_io_config_invalid channel params (set_ds_odt channel params m).m ∧
    ((set_ds_odt channel params >>= fun _ => phy_io_config channel params) m).st
      = Status.ret () ∧
    (params.dramtype = LPDDR3 → params.odt = 1 →
      phy_io_drv_value channel (set_ds_odt channel params m).m = 0xf ∧
      phy_io_odt_value channel (set_ds_odt channel params m).m = 0x1 ∧
      (phy_io_config_vref channel params (set_ds_odt channel params m).m).st
        = Status.ret (0x5, 0x17, 0x2, 0x1f) ∧
      bits (((set_ds_odt channel params >>= fun _ => phy_io_config channel params) m).m.mem
        (Reg.denali_phy channel 913)) 19 8 = (0x5 <<< 9) ||| (0x1 <<< 8) ||| 0x17) := by
  have hret : (set_ds_odt channel params m).st = Status.ret () := by
    have hr := Returns_set_ds_odt channel params m
    revert hr
    cases (set_ds_odt channel params m).st <;> simp [Status.returned]
  have hrun : set_ds_odt channel params m
      = ⟨Status.ret (), (set_ds_odt channel params m).m, (set_ds_odt channel params m).tr⟩ := by
    rw [← hret]
  have hvalid := set_ds_odt_valid channel params m hsup
  obtain ⟨mode_ac, hst, hmem⟩ := phy_io_config_run_valid channel params _ hvalid
  refine ⟨hret, hvalid, ?_, ?_⟩
  · rw [bind_ret hrun]
    exact hst
  · intro h3 ho
    obtain ⟨hdrv, hodt⟩ := set_ds_odt_lpddr3_readback channel params m h3
    have hvref := phy_io_config_vref_lpddr3_odt channel params (set_ds_odt channel params m).m
      h3 ho
    rw [hdrv, hodt] at hvref
    have hval : phy_io_vref_value_dq channel params (set_ds_odt channel params m).m = 0x17 := by
      unfold phy_io_vref_value_dq
      rw [if_pos ⟨h3, ho⟩, hdrv, hodt]
      rfl
    have hmode : phy_io_vref_mode_dq params = 0x5 := by
      unfold phy_io_vref_mode_dq
      rw [if_neg (by rw [h3]; decide), if_pos h3, if_pos ho]
    refine ⟨hdrv, hodt, by rw [hvref]; rfl, ?_⟩
    rw [bind_ret hrun]
    show bits ((phy_io_config channel params (set_ds_odt channel params m).m).m.mem
      (Reg.denali_phy channel 913)) 19 8 = _
    rw [hmem _ _ (MemFun_phy_io_config_pads_913 channel params _ _ _ _), hval, hmode]
    unfold clrset_word
    rw [clrset_field_set _ _ _ 8 12 (by norm_num) (by norm_num) (by decide)]
    decide

/-- Witness of C20: the LPDDR3 example with ODT, run from the zero machine
(on which `phy_io_config` alone would halt). -/
theorem set_ds_odt_then_phy_io_config_witness :
    (ex_params_dual.dramtype = LPDDR4 ∨ ex_params_dual.dramtype = LPDDR3 ∨
      ex_params_dual.dramtype = DDR3) ∧
    (phy_io_config 0 ex_params_dual ex_machine).st = Status.die ∧
    ((set_ds_odt 0 ex_params_dual >>= fun _ => phy_io_config 0 ex_params_dual) ex_machine).st
      = Status.ret () ∧
    phy_io_drv_value 0 (set_ds_odt 0 ex_params_dual ex_machine).m = 0xf ∧
    phy_io_odt_value 0 (set_ds_odt 0 ex_params_dual ex_machine).m = 0x1 :=
  ⟨Or.inr (Or.inl rfl), isDie_eq (by decide!),
    (set_ds_odt_then_phy_io_config 0 ex_params_dual ex_machine (Or.inr (Or.inl rfl))).2.2.1,
    ((set_ds_odt_then_phy_io_config 0 ex_params_dual ex_machine
      (Or.inr (Or.inl rfl))).2.2.2 rfl rfl).1,
    ((set_ds_odt_then_phy_io_config 0 ex_params_dual ex_machine
      (Or.inr (Or.inl rfl))).2.2.2 rfl rfl).2.1⟩

/-- C15 at a failing input: single-rank DDR3, the DQS termination field of
PHY_6 holding 1 at entry, and a first read-gate poll that shows an
observation fault.  `data_training_rg` returns -1 and leaves the field of
PHY_6 at 0: the early `return -1` skips the restore.  With a successful
poll instead the function returns 0 and the field holds 1 again in PHY_6,
PHY_134, PHY_262 and PHY_390. -/
theorem data_training_rg_failure_skips_restore :
    ex_params_single.dramtype ≠ LPDDR4 ∧
    bits (ex_machine_odt.mem (Reg.denali_phy 0 6)) 26 24 = 1 ∧
    Status.isRet
      (data_training_rg 0 ex_params_single (withPolls ex_machine_odt [ex_poll_obs_fault])).st
      (-1) = true ∧
    bits ((data_training_rg 0 ex_params_single
      (withPolls ex_machine_odt [ex_poll_obs_fault])).m.mem (Reg.denali_phy 0 6)) 26 24 = 0 ∧
    Status.isRet
      (data_training_rg 0 ex_params_single (withPolls ex_machine_odt [ex_poll_success])).st
      0 = true ∧
    bits ((data_training_rg 0 ex_params_single
      (withPolls ex_machine_odt [ex_poll_success])).m.mem (Reg.denali_phy 0 6)) 26 24 = 1 ∧
    bits ((data_training_rg 0 ex_params_single
      (withPolls ex_machine_odt [ex_poll_success])).m.mem (Reg.denali_phy 0 134)) 26 24 = 1 ∧
    bits ((data_training_rg 0 ex_params_single
      (withPolls ex_machine_odt [ex_poll_success])).m.mem (Reg.denali_phy 0 262)) 26 24 = 1 ∧
    bits ((data_training_rg 0 ex_params_single
      (withPolls ex_machine_odt [ex_poll_success])).m.mem (Reg.denali_phy 0 390)) 26 24 = 1 := by
  decide!

/-- C18 at a failing input: with the per-CS training enable set and PHY_8
holding 0, the call for rank index 2 stores `2 << 24` in PHY_8, PHY_136,
PHY_264 and PHY_392: bit 25, outside the 1-bit index field at bit 24, goes
from 0 to 1.  For rank index 1 only bit 24 is set, and with the enable
clear the registers are left as they were. -/
theorem select_per_cs_training_index_writes_bit_25 :
    bits (ex_machine_per_cs.mem (Reg.denali_phy 0 84)) 16 16 = 1 ∧
    ex_machine_per_cs.mem (Reg.denali_phy 0 8) = 0 ∧
    (select_per_cs_training_index 0 2 ex_machine_per_cs).m.mem (Reg.denali_phy 0 8)
      = 1 <<< 25 ∧
    (select_per_cs_training_index 0 2 ex_machine_per_cs).m.mem (Reg.denali_phy 0 136)
      = 1 <<< 25 ∧
    (select_per_cs_training_index 0 2 ex_machine_per_cs).m.mem (Reg.denali_phy 0 264)
      = 1 <<< 25 ∧
    (select_per_cs_training_index 0 2 ex_machine_per_cs).m.mem (Reg.denali_phy 0 392)
      = 1 <<< 25 ∧
    (select_per_cs_training_index 0 3 ex_machine_per_cs).m.mem (Reg.denali_phy 0 8)
      = (1 <<< 25) ||| (1 <<< 24) ∧
    (select_per_cs_training_index 0 1 ex_machine_per_cs).m.mem (Reg.denali_phy 0 8)
      = 1 <<< 24 ∧
    (select_per_cs_training_index 0 2 ex_machine).m.mem (Reg.denali_phy 0 8) = 0 := by
  decide!

/-! ### The half-cycle adjustments of `pctl_cfg` -/

theorem MemFun_add_half_cycle_same (r : Reg) (off : Nat) :
    MemFun r (pctl_cfg_add_half_cycle r off) (half_cycle_word off) := by
  intro m
  unfold pctl_cfg_add_half_cycle
  refine ⟨Returns_bind (Returns_read32 r) (fun _ => Returns_clrsetbits32 r _ _) m, ?_⟩
  simp [clrsetbits32, read32, write32, bind_def, M.bind, setReg, clrset_word, half_cycle_word]

theorem MemFun_add_half_cycle_other (r r1 : Reg) (off : Nat) (h : r ≠ r1) :
    MemFun r (pctl_cfg_add_half_cycle r1 off) id := by
  intro m
  unfold pctl_cfg_add_half_cycle
  refine ⟨Returns_bind (Returns_read32 r1) (fun _ => Returns_clrsetbits32 r1 _ _) m, ?_⟩
  simp [clrsetbits32, read32, write32, bind_def, M.bind, setReg, h]

theorem half_cycle_tmp (v off : Nat) (hoff : off + 8 ≤ 32) :
    (u32 v >>> off) &&& 0xff = bits v (off + 7) off := by
  unfold bits u32
  rw [show off + 7 + 1 - off = 8 by omega, show (0xff : Nat) = 2 ^ 8 - 1 by norm_num,
    Nat.and_pow_two_sub_one_eq_mod]
  apply Nat.eq_of_testBit_eq
  intro j
  rw [Nat.testBit_mod_two_pow, Nat.testBit_mod_two_pow, Nat.testBit_shiftRight,
    Nat.testBit_shiftRight, show (4294967296 : Nat) = 2 ^ 32 by norm_num,
    Nat.testBit_mod_two_pow]
  by_cases hj : j < 8
  · have : off + j < 32 := by omega
    simp [hj, this]
  · simp [hj]

theorem half_cycle_set_bits (t off : Nat) (ht : t ≤ 0xef) :
    bits ((t + 0x10) <<< off) (off + 8 - 1) off = t + 0x10 := by
  unfold bits
  rw [Nat.shiftLeft_shiftRight, show off + 8 - 1 + 1 - off = 8 by omega]
  exact Nat.mod_eq_of_lt (by norm_num; omega)

theorem half_cycle_set_low (t off j : Nat) (hj : j < off) :
    ((t + 0x10) <<< off).testBit j = false := by
  rw [Nat.testBit_shiftLeft]; simp; omega

theorem half_cycle_set_high (t off j : Nat) (ht : t ≤ 0xef) :
    ((t + 0x10) <<< off).testBit (off + 8 + j) = false := by
  rw [Nat.testBit_shiftLeft, show off + 8 + j - off = 8 + j by omega]
  have hlt : t + 0x10 < 2 ^ (8 + j) :=
    lt_of_lt_of_le (show t + 0x10 < 2 ^ 8 by norm_num; omega)
      (Nat.pow_le_pow_right (by norm_num) (by omega))
  rw [Nat.testBit_lt_two_pow hlt]
  simp

/-- One adjustment at offset 8: the field gains 0x10, the other bits stay. -/
theorem half_cycle_word_field_8 (v : Nat) (hf : bits v 15 8 ≤ 0xef) :
    bits (half_cycle_word 8 v) 15 8 = bits v 15 8 + 0x10 ∧
    bits (half_cycle_word 8 v) 7 0 = bits v 7 0 ∧
    bits (half_cycle_word 8 v) 31 16 = bits v 31 16 := by
  unfold half_cycle_word clrset_word
  rw [half_cycle_tmp v 8 (by norm_num)]
  generalize bits v (8 + 7) 8 = t at hf ⊢
  refine ⟨?_, ?_, ?_⟩
  · exact (clrset_field_set v _ _ 8 8 (by norm_num) (by norm_num) (by decide)).trans
      (half_cycle_set_bits t 8 hf)
  · exact clrset_field_keep v _ _ 0 8 (by norm_num) (by norm_num)
      (fun j hj => ⟨by revert j; decide, by
        rw [Nat.zero_add]; exact half_cycle_set_low t 8 j hj⟩)
  · exact clrset_field_keep v _ _ 16 16 (by norm_num) (by norm_num)
      (fun j hj => ⟨by revert j; decide, half_cycle_set_high t 8 j hf⟩)

/-- One adjustment at offset 16: the field gains 0x10, the other bits stay. -/
theorem half_cycle_word_field_16 (v : Nat) (hf : bits v 23 16 ≤ 0xef) :
    bits (half_cycle_word 16 v) 23 16 = bits v 23 16 + 0x10 ∧
    bits (half_cycle_word 16 v) 15 0 = bits v 15 0 ∧
    bits (half_cycle_word 16 v) 31 24 = bits v 31 24 := by
  unfold half_cycle_word clrset_word
  rw [half_cycle_tmp v 16 (by norm_num)]
  generalize bits v (16 + 7) 16 = t at hf ⊢
  refine ⟨?_, ?_, ?_⟩
  · exact (clrset_field_set v _ _ 16 8 (by norm_num) (by norm_num) (by decide)).trans
      (half_cycle_set_bits t 16 hf)
  · exact clrset_field_keep v _ _ 0 16 (by norm_num) (by norm_num)
      (fun j hj => ⟨by revert j; decide, by
        rw [Nat.zero_add]; exact half_cycle_set_low t 16 j hj⟩)
  · exact clrset_field_keep v _ _ 24 8 (by norm_num) (by norm_num)
      (fun j hj => ⟨by revert j; decide, half_cycle_set_high t 16 j hf⟩)

theorem half_cycle_word_field (v off : Nat) (hoff : off = 8 ∨ off = 16)
    (hf : bits v (off + 7) off ≤ 0xef) :
    bits (half_cycle_word off v) (off + 7) off = bits v (off + 7) off + 0x10 ∧
    bits (half_cycle_word off v) (off - 1) 0 = bits v (off - 1) 0 ∧
    bits (half_cycle_word off v) 31 (off + 8) = bits v 31 (off + 8) := by
  rcases hoff with rfl | rfl
  · exact half_cycle_word_field_8 v hf
  · exact half_cycle_word_field_16 v hf

theorem MemFun_half_cycle_84 (channel : Nat) :
    MemFun (Reg.denali_phy channel 84) (pctl_cfg_half_cycle channel) (half_cycle_word 8) := by
  unfold pctl_cfg_half_cycle
  refine MemFun_last (MemFun_add_half_cycle_same _ _) (fun _ => ?_)
  refine MemFun_skip (MemFun_add_half_cycle_other _ _ _ (by simp)) (fun _ => ?_)
  refine MemFun_skip (MemFun_add_half_cycle_other _ _ _ (by simp)) (fun _ => ?_)
  refine MemFun_skip (MemFun_add_half_cycle_other _ _ _ (by simp)) (fun _ => ?_)
  refine MemFun_skip (MemFun_add_half_cycle_other _ _ _ (by simp)) (fun _ => ?_)
  refine MemFun_skip (MemFun_add_half_cycle_other _ _ _ (by simp)) (fun _ => ?_)
  refine MemFun_skip (MemFun_add_half_cycle_other _ _ _ (by simp)) (fun _ => ?_)
  exact MemFun_add_half_cycle_other _ _ _ (by simp)

theorem MemFun_half_cycle_212 (channel : Nat) :
    MemFun (Reg.denali_phy channel 212) (pctl_cfg_half_cycle channel) (half_cycle_word 8) := by
  unfold pctl_cfg_half_cycle
  refine MemFun_skip (MemFun_add_half_cycle_other _ _ _ (by simp)) (fun _ => ?_)
  refine MemFun_last (MemFun_add_half_cycle_same _ _) (fun _ => ?_)
  refine MemFun_skip (MemFun_add_half_cycle_other _ _ _ (by simp)) (fun _ => ?_)
  refine MemFun_skip (MemFun_add_half_cycle_other _ _ _ (by simp)) (fun _ => ?_)
  refine MemFun_skip (MemFun_add_half_cycle_other _ _ _ (by simp)) (fun _ => ?_)
  refine MemFun_skip (MemFun_add_half_cycle_other _ _ _ (by simp)) (fun _ => ?_)
  refine MemFun_skip (MemFun_add_half_cycle_other _ _ _ (by simp)) (fun _ => ?_)
  exact MemFun_add_half_cycle_other _ _ _ (by simp)

theorem MemFun_half_cycle_340 (channel : Nat) :
    MemFun (Reg.denali_phy channel 340) (pctl_cfg_half_cycle channel) (half_cycle_word 8) := by
  unfold pctl_cfg_half_cycle
  refine MemFun_skip (MemFun_add_half_cycle_other _ _ _ (by simp)) (fun _ => ?_)
  refine MemFun_skip (MemFun_add_half_cycle_other _ _ _ (by simp)) (fun _ => ?_)
  refine MemFun_last (MemFun_add_half_cycle_same _ _) (fun _ => ?_)
  refine MemFun_skip (MemFun_add_half_cycle_other _ _ _ (by simp)) (fun _ => ?_)
  refine MemFun_skip (MemFun_add_half_cycle_other _ _ _ (by simp)) (fun _ => ?_)
  refine MemFun_skip (MemFun_add_half_cycle_other _ _ _ (by simp)) (fun _ => ?_)
  refine MemFun_skip (MemFun_add_half_cycle_other _ _ _ (by simp)) (fun _ => ?_)
  exact MemFun_add_half_cycle_other _ _ _ (by simp)

theorem MemFun_half_cycle_468 (channel : Nat) :
    MemFun (Reg.denali_phy channel 468) (pctl_cfg_half_cycle channel) (half_cycle_word 8) := by
  unfold pctl_cfg_half_cycle
  refine MemFun_skip (MemFun_add_half_cycle_other _ _ _ (by simp)) (fun _ => ?_)
  refine MemFun_skip (MemFun_add_half_cycle_other _ _ _ (by simp)) (fun _ => ?_)
  refine MemFun_skip (MemFun_add_half_cycle_other _ _ _ (by simp)) (fun _ => ?_)
  refine MemFun_last (MemFun_add_half_cycle_same _ _) (fun _ => ?_)
  refine MemFun_skip (MemFun_add_half_cycle_other _ _ _ (by simp)) (fun _ => ?_)
  refine MemFun_skip (MemFun_add_half_cycle_other _ _ _ (by simp)) (fun _ => ?_)
  refine MemFun_skip (MemFun_add_half_cycle_other _ _ _ (by simp)) (fun _ => ?_)
  exact MemFun_add_half_cycle_other _ _ _ (by simp)

theorem MemFun_half_cycle_83 (channel : Nat) :
    MemFun (Reg.denali_phy channel 83) (pctl_cfg_half_cycle channel) (half_cycle_word 16) := by
  unfold pctl_cfg_half_cycle
  refine MemFun_skip (MemFun_add_half_cycle_other _ _ _ (by simp)) (fun _ => ?_)
  refine MemFun_skip (MemFun_add_half_cycle_other _ _ _ (by simp)) (fun _ => ?_)
  refine MemFun_skip (MemFun_add_half_cycle_other _ _ _ (by simp)) (fun _ => ?_)
  refine MemFun_skip (MemFun_add_half_cycle_other _ _ _ (by simp)) (fun _ => ?_)
  refine MemFun_last (MemFun_add_half_cycle_same _ _) (fun _ => ?_)
  refine MemFun_skip (MemFun_add_half_cycle_other _ _ _ (by simp)) (fun _ => ?_)
  refine MemFun_skip (MemFun_add_half_cycle_other _ _ _ (by simp)) (fun _ => ?_)
  exact MemFun_add_half_cycle_other _ _ _ (by simp)

theorem MemFun_half_cycle_211 (channel : Nat) :
    MemFun (Reg.denali_phy channel 211) (pctl_cfg_half_cycle channel) (half_cycle_word 16) := by
  unfold pctl_cfg_half_cycle
  refine MemFun_skip (MemFun_add_half_cycle_other _ _ _ (by simp)) (fun _ => ?_)
  refine MemFun_skip (MemFun_add_half_cycle_other _ _ _ (by simp)) (fun _ => ?_)
  refine MemFun_skip (MemFun_add_half_cycle_other _ _ _ (by simp)) (fun _ => ?_)
  refine MemFun_skip (MemFun_add_half_cycle_other _ _ _ (by simp)) (fun _ => ?_)
  refine MemFun_skip (MemFun_add_half_cycle_other _ _ _ (by simp)) (fun _ => ?_)
  refine MemFun_last (MemFun_add_half_cycle_same _ _) (fun _ => ?_)
  refine MemFun_skip (MemFun_add_half_cycle_other _ _ _ (by simp)) (fun _ => ?_)
  exact MemFun_add_half_cycle_other _ _ _ (by simp)

theorem MemFun_half_cycle_339 (channel : Nat) :
    MemFun (Reg.denali_phy channel 339) (pctl_cfg_half_cycle channel) (half_cycle_word 16) := by
  unfold pctl_cfg_half_cycle
  refine MemFun_skip (MemFun_add_half_cycle_other _ _ _ (by simp)) (fun _ => ?_)
  refine MemFun_skip (MemFun_add_half_cycle_other _ _ _ (by simp)) (fun _ => ?_)
  refine MemFun_skip (MemFun_add_half_cycle_other _ _ _ (by simp)) (fun _ => ?_)
  refine MemFun_skip (MemFun_add_half_cycle_other _ _ _ (by simp)) (fun _ => ?_)
  refine MemFun_skip (MemFun_add_half_cycle_other _ _ _ (by simp)) (fun _ => ?_)
  refine MemFun_skip (MemFun_add_half_cycle_other _ _ _ (by simp)) (fun _ => ?_)
  refine MemFun_last (MemFun_add_half_cycle_same _ _) (fun _ => ?_)
  exact MemFun_add_half_cycle_other _ _ _ (by simp)

theorem MemFun_half_cycle_467 (channel : Nat) :
    MemFun (Reg.denali_phy channel 467) (pctl_cfg_half_cycle channel) (half_cycle_word 16) := by
  unfold pctl_cfg_half_cycle
  refine MemFun_skip (MemFun_add_half_cycle_other _ _ _ (by simp)) (fun _ => ?_)
  refine MemFun_skip (MemFun_add_half_cycle_other _ _ _ (by simp)) (fun _ => ?_)
  refine MemFun_skip (MemFun_add_half_cycle_other _ _ _ (by simp)) (fun _ => ?_)
  refine MemFun_skip (MemFun_add_half_cycle_other _ _ _ (by simp)) (fun _ => ?_)
  refine MemFun_skip (MemFun_add_half_cycle_other _ _ _ (by simp)) (fun _ => ?_)
  refine MemFun_skip (MemFun_add_half_cycle_other _ _ _ (by simp)) (fun _ => ?_)
  refine MemFun_skip (MemFun_add_half_cycle_other _ _ _ (by simp)) (fun _ => ?_)
  exact MemFun_add_half_cycle_same _ _

theorem MemFun_half_cycle_fields (channel : Nat) (r : Reg) (off : Nat)
    (hr : (r, off) ∈ half_cycle_fields channel) :
    MemFun r (pctl_cfg_half_cycle channel) (half_cycle_word off) := by
  simp only [half_cycle_fields, List.mem_cons, List.mem_singleton, List.not_mem_nil, or_false,
    Prod.mk.injEq] at hr
  rcases hr with h | h | h | h | h | h | h | h <;> obtain ⟨hreg, hoff⟩ := h <;> subst hreg hoff
  · exact MemFun_half_cycle_84 channel
  · exact MemFun_half_cycle_212 channel
  · exact MemFun_half_cycle_340 channel
  · exact MemFun_half_cycle_468 channel
  · exact MemFun_half_cycle_83 channel
  · exact MemFun_half_cycle_211 channel
  · exact MemFun_half_cycle_339 channel
  · exact MemFun_half_cycle_467 channel

theorem half_cycle_fields_off (channel : Nat) (r : Reg) (off : Nat)
    (hr : (r, off) ∈ half_cycle_fields channel) : off = 8 ∨ off = 16 := by
  simp only [half_cycle_fields, List.mem_cons, List.mem_singleton, List.not_mem_nil, or_false,
    Prod.mk.injEq] at hr
  omega

theorem MemFun_half_cycle_rest (channel : Nat) (r : Reg)
    (hr : ∀ p ∈ half_cycle_fields channel, r ≠ p.1) :
    MemFun r (pctl_cfg_half_cycle channel) id := by
  simp only [half_cycle_fields, List.mem_cons, List.mem_singleton, List.not_mem_nil, or_false,
    forall_eq_or_imp, forall_eq] at hr
  obtain ⟨h1, h2, h3, h4, h5, h6, h7, h8⟩ := hr
  unfold pctl_cfg_half_cycle
  refine MemFun_skip (MemFun_add_half_cycle_other _ _ _ h1) (fun _ => ?_)
  refine MemFun_skip (MemFun_add_half_cycle_other _ _ _ h2) (fun _ => ?_)
  refine MemFun_skip (MemFun_add_half_cycle_other _ _ _ h3) (fun _ => ?_)
  refine MemFun_skip (MemFun_add_half_cycle_other _ _ _ h4) (fun _ => ?_)
  refine MemFun_skip (MemFun_add_half_cycle_other _ _ _ h5) (fun _ => ?_)
  refine MemFun_skip (MemFun_add_half_cycle_other _ _ _ h6) (fun _ => ?_)
  refine MemFun_skip (MemFun_add_half_cycle_other _ _ _ h7) (fun _ => ?_)
  exact MemFun_add_half_cycle_other _ _ _ h8

theorem returned_unit {s : Status Unit} (h : s.returned) : s = Status.ret () := by
  cases s <;> simp [Status.returned] at h ⊢

theorem Keeps_pure {α : Type} (r : Reg) (a : α) : Keeps r (pure a : M α) := fun _ => rfl

theorem Keeps_die {α : Type} (r : Reg) : Keeps r (die : M α) := fun _ => rfl

theorem Keeps_read32 (r r1 : Reg) : Keeps r (read32 r1) := fun _ => rfl

theorem Keeps_bind {α β : Type} {r : Reg} {x : M α} {f : α → M β} (hx : Keeps r x)
    (hf : ∀ a, Keeps r (f a)) : Keeps r (x >>= f) := by
  intro m
  have h1 := hx m
  rcases hxm : x m with ⟨st, m1, t1⟩
  rw [hxm] at h1
  cases st with
  | ret a => rw [bind_ret hxm]; exact (hf a m1).trans h1
  | die => rw [bind_stop_eq hxm (by simp [Status.returned])]; exact h1
  | reset => rw [bind_stop_eq hxm (by simp [Status.returned])]; exact h1
  | hang => rw [bind_stop_eq hxm (by simp [Status.returned])]; exact h1
  | undef => rw [bind_stop_eq hxm (by simp [Status.returned])]; exact h1
  | spin => rw [bind_stop_eq hxm (by simp [Status.returned])]; exact h1

theorem Keeps_ite {α : Type} {r : Reg} (c : Prop) [Decidable c] {x y : M α}
    (hx : Keeps r x) (hy : Keeps r y) : Keeps r (if c then x else y) := by
  split_ifs <;> assumption

theorem Keeps_clrsetbits32 (r r1 : Reg) (c s : Nat) (h : r ≠ r1) :
    Keeps r (clrsetbits32 r1 c s) :=
  fun m => (MemFun_clrsetbits32_other r r1 c s h).run m

theorem Keeps_phy_io_config_odt_switch (r : Reg) (odt_value v240 v120 v60 : Nat) :
    Keeps r (phy_io_config_odt_switch odt_value v240 v120 v60) := by
  unfold phy_io_config_odt_switch
  exact Keeps_ite _ (Keeps_pure _ _) (Keeps_ite _ (Keeps_pure _ _)
    (Keeps_ite _ (Keeps_pure _ _) (Keeps_die _)))

theorem Keeps_phy_io_config_vref (r : Reg) (channel : Nat) (params : rk3399_sdram_params) :
    Keeps r (phy_io_config_vref channel params) := by
  unfold phy_io_config_vref
  refine Keeps_ite _ (Keeps_pure _ _) (Keeps_ite _ (Keeps_ite _ ?_ (Keeps_pure _ _))
    (Keeps_ite _ (Keeps_pure _ _) (Keeps_die _)))
  refine Keeps_bind (Keeps_read32 _ _) (fun _ => ?_)
  refine Keeps_bind (Keeps_read32 _ _) (fun _ => ?_)
  refine Keeps_bind ?_ (fun _ => Keeps_pure _ _)
  exact Keeps_ite _ (Keeps_phy_io_config_odt_switch _ _ _ _ _)
    (Keeps_ite _ (Keeps_phy_io_config_odt_switch _ _ _ _ _)
      (Keeps_ite _ (Keeps_phy_io_config_odt_switch _ _ _ _ _) (Keeps_die _)))

/-- The pad writes of `phy_io_config` touch no register of the data
slices (indices below 512). -/
theorem Keeps_phy_io_config_pads (channel idx : Nat) (hidx : idx < 512)
    (params : rk3399_sdram_params) (a b c d : Nat) :
    Keeps (Reg.denali_phy channel idx) (phy_io_config_pads channel params a b c d) := by
  have hne : ∀ k, 512 ≤ k → Reg.denali_phy channel idx ≠ Reg.denali_phy channel k := by
    intro k hk h
    simp only [Reg.denali_phy.injEq, true_and] at h
    omega
  unfold phy_io_config_pads
  iterate 20 (refine Keeps_bind (Keeps_clrsetbits32 _ _ _ _ (hne _ (by norm_num))) (fun _ => ?_))
  exact Keeps_clrsetbits32 _ _ _ _ (hne _ (by norm_num))

theorem Keeps_phy_io_config (channel idx : Nat) (hidx : idx < 512)
    (params : rk3399_sdram_params) :
    Keeps (Reg.denali_phy channel idx) (phy_io_config channel params) := by
  unfold phy_io_config
  exact Keeps_bind (Keeps_phy_io_config_vref _ _ _)
    (fun _ => Keeps_phy_io_config_pads channel idx hidx params _ _ _ _)

theorem half_cycle_fields_idx (channel : Nat) (r : Reg) (off : Nat)
    (hr : (r, off) ∈ half_cycle_fields channel) :
    ∃ idx, idx < 512 ∧ r = Reg.denali_phy channel idx := by
  simp only [half_cycle_fields, List.mem_cons, List.mem_singleton, List.not_mem_nil, or_false,
    Prod.mk.injEq] at hr
  rcases hr with h | h | h | h | h | h | h | h <;> exact ⟨_, by norm_num, h.1⟩

/-- Once the first part of `pctl_cfg` has returned, the content a
half-cycle register has when `pctl_cfg` ends is the one the block of
adjustments leaves. -/
theorem pctl_cfg_mem_after_load (channel : Nat) (params : rk3399_sdram_params)
    (m0 m : Machine) (t0 : List Event) (r : Reg) (off : Nat)
    (hr : (r, off) ∈ half_cycle_fields channel)
    (hload : pctl_cfg_load channel params m0 = ⟨Status.ret (), m, t0⟩) :
    (pctl_cfg channel params m0).m.mem r = (pctl_cfg_half_cycle channel m).m.mem r := by
  obtain ⟨idx, hidx, rfl⟩ := half_cycle_fields_idx channel r off hr
  have hk : Keeps (Reg.denali_phy channel idx)
      (phy_io_config channel params >>= fun _ => (pure 0 : M Int)) :=
    Keeps_bind (Keeps_phy_io_config channel idx hidx params) (fun _ => Keeps_pure _ _)
  have hret := returned_unit ((MemFun_half_cycle_fields channel _ off hr).returns m)
  rcases h2 : pctl_cfg_half_cycle channel m with ⟨st, m2, t2⟩
  rw [h2] at hret
  simp only [] at hret
  subst hret
  unfold pctl_cfg
  rw [bind_ret hload]
  simp only []
  rw [bind_ret h2]
  exact hk m2

/-- C23, counterexample: with 0xf0 in bits 15:8 of PHY_84 the adjustment
leaves 0 in the field, not the previous value plus 0x10, and it sets bit 16,
which lies outside the field; a run of `pctl_cfg` on a parameter block whose
PHY image has 0xf0 in bits 15:8 of word 84 and zero in bits 31:16 returns 0
with the field 0 and bit 16 set. -/
theorem half_cycle_bias_overflow_counterexample :
    (Reg.denali_phy 0 84, 8) ∈ half_cycle_fields 0 ∧
    bits (ex_machine_half_cycle_high.mem (Reg.denali_phy 0 84)) 15 8 = 0xf0 ∧
    bits (ex_machine_half_cycle_high.mem (Reg.denali_phy 0 84)) 31 16 = 0 ∧
    bits ((pctl_cfg_add_half_cycle (Reg.denali_phy 0 84) 8 ex_machine_half_cycle_high).m.mem
      (Reg.denali_phy 0 84)) 15 8 = 0 ∧
    bits ((pctl_cfg_add_half_cycle (Reg.denali_phy 0 84) 8 ex_machine_half_cycle_high).m.mem
      (Reg.denali_phy 0 84)) 31 16 = 1 ∧
    bits ((pctl_cfg_half_cycle 0 ex_machine_half_cycle_high).m.mem (Reg.denali_phy 0 84)) 15 8
      = 0 ∧
    bits ((pctl_cfg_half_cycle 0 ex_machine_half_cycle_high).m.mem (Reg.denali_phy 0 84)) 31 16
      = 1 ∧
    Status.isRet (pctl_cfg 0 ex_params_half_cycle_high ex_machine_phy_ready).st 0 = true ∧
    bits (ex_params_half_cycle_high.phy_regs 84) 15 8 = 0xf0 ∧
    bits (ex_params_half_cycle_high.phy_regs 84) 31 16 = 0 ∧
    bits ((pctl_cfg 0 ex_params_half_cycle_high ex_machine_phy_ready).m.mem
      (Reg.denali_phy 0 84)) 15 8 = 0 ∧
    bits ((pctl_cfg 0 ex_params_half_cycle_high ex_machine_phy_ready).m.mem
      (Reg.denali_phy 0 84)) 31 16 = 1 := by
  decide!

/-- C23 (amended): for every channel, every prior register state and each
of the eight half-cycle adjustments at the end of `pctl_cfg` (bits 15:8 of
PHY_84, PHY_212, PHY_340, PHY_468 and bits 23:16 of PHY_83, PHY_211, PHY_339,
PHY_467), when the 8-bit field holds at most 0xEF beforehand, the adjustment
returns, leaves the field equal to its previous value plus 0x10, changes no
bit of the register outside the field and no other register; the same holds
for the field across the whole block of eight adjustments, which touches no
register outside the eight; and when the first part of `pctl_cfg` has
returned in this register state, `pctl_cfg` ends with the register as the
block leaves it. -/
theorem half_cycle_bias (channel : Nat) (m : Machine) (r : Reg) (off : Nat)
    (hr : (r, off) ∈ half_cycle_fields channel)
    (hf : bits (m.mem r) (off + 7) off ≤ 0xef) :
    ((pctl_cfg_add_half_cycle r off m).st = Status.ret () ∧
      bits ((pctl_cfg_add_half_cycle r off m).m.mem r) (off + 7) off
        = bits (m.mem r) (off + 7) off + 0x10 ∧
      bits ((pctl_cfg_add_half_cycle r off m).m.mem r) (off - 1) 0
        = bits (m.mem r) (off - 1) 0 ∧
      bits ((pctl_cfg_add_half_cycle r off m).m.mem r) 31 (off + 8)
        = bits (m.mem r) 31 (off + 8) ∧
      ∀ r1, r1 ≠ r → (pctl_cfg_add_half_cycle r off m).m.mem r1 = m.mem r1) ∧
    ((pctl_cfg_half_cycle channel m).st = Status.ret () ∧
      bits ((pctl_cfg_half_cycle channel m).m.mem r) (off + 7) off
        = bits (m.mem r) (off + 7) off + 0x10 ∧
      bits ((pctl_cfg_half_cycle channel m).m.mem r) (off - 1) 0
        = bits (m.mem r) (off - 1) 0 ∧
      bits ((pctl_cfg_half_cycle channel m).m.mem r) 31 (off + 8)
        = bits (m.mem r) 31 (off + 8) ∧
      ∀ r1, (∀ p ∈ half_cycle_fields channel, r1 ≠ p.1) →
        (pctl_cfg_half_cycle channel m).m.mem r1 = m.mem r1) ∧
    (∀ params m0 t0, pctl_cfg_load channel params m0 = ⟨Status.ret (), m, t0⟩ →
      (pctl_cfg channel params m0).m.mem r = (pctl_cfg_half_cycle channel m).m.mem r) := by
  have hoff := half_cycle_fields_off channel r off hr
  have hw := half_cycle_word_field (m.mem r) off hoff hf
  refine ⟨⟨?_, ?_, ?_, ?_, ?_⟩, ⟨?_, ?_, ?_, ?_, ?_⟩, fun params m0 t0 hload =>
    pctl_cfg_mem_after_load channel params m0 m t0 r off hr hload⟩
  · exact returned_unit ((MemFun_add_half_cycle_same r off).returns m)
  · rw [(MemFun_add_half_cycle_same r off).run m]; exact hw.1
  · rw [(MemFun_add_half_cycle_same r off).run m]; exact hw.2.1
  · rw [(MemFun_add_half_cycle_same r off).run m]; exact hw.2.2
  · intro r1 h1
    exact (MemFun_add_half_cycle_other r1 r off h1).run m
  · exact returned_unit ((MemFun_half_cycle_fields channel r off hr).returns m)
  · rw [(MemFun_half_cycle_fields channel r off hr).run m]; exact hw.1
  · rw [(MemFun_half_cycle_fields channel r off hr).run m]; exact hw.2.1
  · rw [(MemFun_half_cycle_fields channel r off hr).run m]; exact hw.2.2
  · intro r1 h1
    exact (MemFun_half_cycle_rest channel r1 h1).run m

theorem half_cycle_bias_witness :
    bits (ex_machine_half_cycle.mem (Reg.denali_phy 0 84)) 15 8 = 0x21 ∧
    bits ((pctl_cfg_half_cycle 0 ex_machine_half_cycle).m.mem (Reg.denali_phy 0 84)) 15 8
      = 0x31 ∧
    bits ((pctl_cfg_half_cycle 0 ex_machine_half_cycle).m.mem (Reg.denali_phy 0 84)) 7 0
      = 0xff ∧
    bits ((pctl_cfg_half_cycle 0 ex_machine_half_cycle).m.mem (Reg.denali_phy 0 84)) 31 16
      = 0xffff := by
  have h := (half_cycle_bias 0 ex_machine_half_cycle (Reg.denali_phy 0 84) 8
    (by simp [half_cycle_fields]) (by decide)).2.1
  exact ⟨by decide, h.2.1.trans (by decide), h.2.2.1.trans (by decide),
    h.2.2.2.1.trans (by decide)⟩

/-! ### The fields written by `set_memory_map` -/

theorem MemFun_write32_same (r : Reg) (v : Nat) : MemFun r (write32 r v) (fun _ => u32 v) := by
  intro m
  exact ⟨Returns_write32 r v m, by simp [setReg]⟩

theorem MemFun_write32_other (r r1 : Reg) (v : Nat) (h : r ≠ r1) :
    MemFun r (write32 r1 v) id := by
  intro m
  exact ⟨Returns_write32 r1 v m, by simp [setReg, h]⟩

theorem MemFun_ite {α : Type} {r : Reg} (c : Prop) [Decidable c] {x y : M α} {g : Nat → Nat}
    (hx : MemFun r x g) (hy : MemFun r y g) : MemFun r (if c then x else y) g := by
  split_ifs <;> assumption

theorem u32_small_sub (a b : Nat) (ha : a < 4294967296) (hb : b ≤ a) :
    u32 (a + 4294967296 - b) = a - b := by
  unfold u32; omega

/-- An event of the second part of a sequence whose first part returns is
an event of the sequence. -/
theorem mem_tr_bind_right {α β : Type} {x : M α} {f : α → M β} {m : Machine} {e : Event}
    (hx : (x m).st.returned) (hf : ∀ a m1, e ∈ (f a m1).tr) : e ∈ ((x >>= f) m).tr := by
  rcases hxm : x m with ⟨st, m1, t1⟩
  rw [hxm] at hx
  cases st with
  | ret a =>
    rw [bind_ret hxm]
    exact List.mem_append_right _ (hf a m1)
  | die | reset | hang | undef | spin => simp [Status.returned] at hx

theorem MemFun_set_memory_map_ctl_191 (channel : Nat) (params : rk3399_sdram_params) :
    MemFun (Reg.denali_ctl channel 191) (set_memory_map channel params)
      (clrset_word 0xF (u32 (12 + 4294967296 - (params.ch channel).col))) := by
  unfold set_memory_map
  refine MemFun_last (MemFun_clrsetbits32_same _ _ _) (fun _ => ?_)
  refine MemFun_skip (MemFun_clrsetbits32_other _ _ _ _ (by simp)) (fun _ => ?_)
  refine MemFun_skip (MemFun_clrsetbits32_other _ _ _ _ (by simp)) (fun _ => ?_)
  refine MemFun_skip (MemFun_clrsetbits32_other _ _ _ _ (by simp)) (fun _ => ?_)
  refine MemFun_skip (MemFun_clrsetbits32_other _ _ _ _ (by simp)) (fun _ => ?_)
  refine MemFun_skip (MemFun_clrsetbits32_other _ _ _ _ (by simp)) (fun _ => ?_)
  exact MemFun_ite _ (MemFun_write32_other _ _ _ (by simp)) (MemFun_pure _ _)

theorem MemFun_set_memory_map_ctl_190 (channel : Nat) (params : rk3399_sdram_params) :
    MemFun (Reg.denali_ctl channel 190) (set_memory_map channel params)
      (clrset_word ((0x3 <<< 16) ||| (0x7 <<< 24))
        (u32 ((u32 (3 + 4294967296 - (params.ch channel).bk) <<< 16) |||
          ((16 - set_memory_map_row (params.ch channel).ddrconfig) <<< 24)))) := by
  unfold set_memory_map
  refine MemFun_skip (MemFun_clrsetbits32_other _ _ _ _ (by simp)) (fun _ => ?_)
  refine MemFun_last (MemFun_clrsetbits32_same _ _ _) (fun _ => ?_)
  refine MemFun_skip (MemFun_clrsetbits32_other _ _ _ _ (by simp)) (fun _ => ?_)
  refine MemFun_skip (MemFun_clrsetbits32_other _ _ _ _ (by simp)) (fun _ => ?_)
  refine MemFun_skip (MemFun_clrsetbits32_other _ _ _ _ (by simp)) (fun _ => ?_)
  refine MemFun_skip (MemFun_clrsetbits32_other _ _ _ _ (by simp)) (fun _ => ?_)
  exact MemFun_ite _ (MemFun_write32_other _ _ _ (by simp)) (MemFun_pure _ _)

theorem MemFun_set_memory_map_ctl_196 (channel : Nat) (params : rk3399_sdram_params) :
    MemFun (Reg.denali_ctl channel 196) (set_memory_map channel params)
      (clrset_word (0x3 ||| (1 <<< 16))
        ((if (params.ch channel).rank > 1 then 3 else 1) |||
          ((if (params.ch channel).bw = 2 then 0 else 1) <<< 16))) := by
  unfold set_memory_map
  refine MemFun_skip (MemFun_clrsetbits32_other _ _ _ _ (by simp)) (fun _ => ?_)
  refine MemFun_skip (MemFun_clrsetbits32_other _ _ _ _ (by simp)) (fun _ => ?_)
  refine MemFun_last (MemFun_clrsetbits32_same _ _ _) (fun _ => ?_)
  refine MemFun_skip (MemFun_clrsetbits32_other _ _ _ _ (by simp)) (fun _ => ?_)
  refine MemFun_skip (MemFun_clrsetbits32_other _ _ _ _ (by simp)) (fun _ => ?_)
  refine MemFun_skip (MemFun_clrsetbits32_other _ _ _ _ (by simp)) (fun _ => ?_)
  exact MemFun_ite _ (MemFun_write32_other _ _ _ (by simp)) (MemFun_pure _ _)

theorem MemFun_set_memory_map_pi_199 (channel : Nat) (params : rk3399_sdram_params) :
    MemFun (Reg.denali_pi channel 199) (set_memory_map channel params)
      (clrset_word 0xF (u32 (12 + 4294967296 - (params.ch channel).col))) := by
  unfold set_memory_map
  refine MemFun_skip (MemFun_clrsetbits32_other _ _ _ _ (by simp)) (fun _ => ?_)
  refine MemFun_skip (MemFun_clrsetbits32_other _ _ _ _ (by simp)) (fun _ => ?_)
  refine MemFun_skip (MemFun_clrsetbits32_other _ _ _ _ (by simp)) (fun _ => ?_)
  refine MemFun_last (MemFun_clrsetbits32_same _ _ _) (fun _ => ?_)
  refine MemFun_skip (MemFun_clrsetbits32_other _ _ _ _ (by simp)) (fun _ => ?_)
  refine MemFun_skip (MemFun_clrsetbits32_other _ _ _ _ (by simp)) (fun _ => ?_)
  exact MemFun_ite _ (MemFun_write32_other _ _ _ (by simp)) (MemFun_pure _ _)

theorem MemFun_set_memory_map_pi_155 (channel : Nat) (params : rk3399_sdram_params) :
    MemFun (Reg.denali_pi channel 155) (set_memory_map channel params)
      (clrset_word ((0x3 <<< 16) ||| (0x7 <<< 24))
        (u32 ((u32 (3 + 4294967296 - (params.ch channel).bk) <<< 16) |||
          ((16 - set_memory_map_row (params.ch channel).ddrconfig) <<< 24)))) := by
  unfold set_memory_map
  refine MemFun_skip (MemFun_clrsetbits32_other _ _ _ _ (by simp)) (fun _ => ?_)
  refine MemFun_skip (MemFun_clrsetbits32_other _ _ _ _ (by simp)) (fun _ => ?_)
  refine MemFun_skip (MemFun_clrsetbits32_other _ _ _ _ (by simp)) (fun _ => ?_)
  refine MemFun_skip (MemFun_clrsetbits32_other _ _ _ _ (by simp)) (fun _ => ?_)
  refine MemFun_last (MemFun_clrsetbits32_same _ _ _) (fun _ => ?_)
  refine MemFun_skip (MemFun_clrsetbits32_other _ _ _ _ (by simp)) (fun _ => ?_)
  exact MemFun_ite _ (MemFun_write32_other _ _ _ (by simp)) (MemFun_pure _ _)

theorem MemFun_set_memory_map_pi_41 (channel : Nat) (params : rk3399_sdram_params) :
    MemFun (Reg.denali_pi channel 41) (set_memory_map channel params)
      (clrset_word (0xf <<< 24) ((if (params.ch channel).rank > 1 then 3 else 1) <<< 24)) := by
  unfold set_memory_map
  refine MemFun_skip (MemFun_clrsetbits32_other _ _ _ _ (by simp)) (fun _ => ?_)
  refine MemFun_skip (MemFun_clrsetbits32_other _ _ _ _ (by simp)) (fun _ => ?_)
  refine MemFun_skip (MemFun_clrsetbits32_other _ _ _ _ (by simp)) (fun _ => ?_)
  refine MemFun_skip (MemFun_clrsetbits32_other _ _ _ _ (by simp)) (fun _ => ?_)
  refine MemFun_skip (MemFun_clrsetbits32_other _ _ _ _ (by simp)) (fun _ => ?_)
  refine MemFun_last (MemFun_clrsetbits32_same _ _ _) (fun _ => ?_)
  exact MemFun_ite _ (MemFun_write32_other _ _ _ (by simp)) (MemFun_pure _ _)

theorem MemFun_set_memory_map_pi_34 (channel : Nat) (params : rk3399_sdram_params) :
    MemFun (Reg.denali_pi channel 34) (set_memory_map channel params)
      (fun v => if (params.ch channel).rank = 1 ∧ params.dramtype = DDR3 then 0x2EC7FFFF
        else v) := by
  unfold set_memory_map
  refine MemFun_skip (MemFun_clrsetbits32_other _ _ _ _ (by simp)) (fun _ => ?_)
  refine MemFun_skip (MemFun_clrsetbits32_other _ _ _ _ (by simp)) (fun _ => ?_)
  refine MemFun_skip (MemFun_clrsetbits32_other _ _ _ _ (by simp)) (fun _ => ?_)
  refine MemFun_skip (MemFun_clrsetbits32_other _ _ _ _ (by simp)) (fun _ => ?_)
  refine MemFun_skip (MemFun_clrsetbits32_other _ _ _ _ (by simp)) (fun _ => ?_)
  refine MemFun_skip (MemFun_clrsetbits32_other _ _ _ _ (by simp)) (fun _ => ?_)
  by_cases hc : (params.ch channel).rank = 1 ∧ params.dramtype = DDR3
  · simp only [if_pos hc]
    exact MemFun_write32_same _ _
  · simp only [if_neg hc]
    exact MemFun_pure _ _

/-- The registers `set_memory_map` writes. -/
theorem MemFun_set_memory_map_rest (channel : Nat) (params : rk3399_sdram_params) (r : Reg)
    (hr : r ∉ memory_map_regs channel) :
    MemFun r (set_memory_map channel params) id := by
  simp only [memory_map_regs, List.mem_cons, List.mem_singleton, List.not_mem_nil, or_false,
    not_or] at hr
  obtain ⟨h1, h2, h3, h4, h5, h6, h7⟩ := hr
  unfold set_memory_map
  refine MemFun_skip (MemFun_clrsetbits32_other _ _ _ _ h1) (fun _ => ?_)
  refine MemFun_skip (MemFun_clrsetbits32_other _ _ _ _ h2) (fun _ => ?_)
  refine MemFun_skip (MemFun_clrsetbits32_other _ _ _ _ h3) (fun _ => ?_)
  refine MemFun_skip (MemFun_clrsetbits32_other _ _ _ _ h4) (fun _ => ?_)
  refine MemFun_skip (MemFun_clrsetbits32_other _ _ _ _ h5) (fun _ => ?_)
  refine MemFun_skip (MemFun_clrsetbits32_other _ _ _ _ h6) (fun _ => ?_)
  exact MemFun_ite _ (MemFun_write32_other _ _ _ h7) (MemFun_pure _ _)

theorem set_memory_map_row_cases (ddrconfig : Nat) :
    set_memory_map_row ddrconfig = 14 ∨ set_memory_map_row ddrconfig = 15 ∨
      set_memory_map_row ddrconfig = 16 := by
  unfold set_memory_map_row
  split_ifs <;> simp

/-- The column-difference word: bits 3:0 hold `12 - col`, the rest stays. -/
theorem memory_map_word_col (v col : Nat) (hcol : col ≤ 12) :
    bits (clrset_word 0xF (u32 (12 + 4294967296 - col)) v) 3 0 = 12 - col ∧
    bits (clrset_word 0xF (u32 (12 + 4294967296 - col)) v) 31 4 = bits v 31 4 := by
  rw [u32_small_sub 12 col (by norm_num) hcol]
  unfold clrset_word
  interval_cases col <;>
    exact ⟨(clrset_field_set v _ _ 0 4 (by norm_num) (by norm_num) (by decide)).trans
        (by decide),
      clrset_field_keep v _ _ 4 28 (by norm_num) (by norm_num) (by decide)⟩

/-- The bank- and row-difference word: bits 17:16 hold `3 - bk`, bits 26:24
hold `16 - row`, the rest stays. -/
theorem memory_map_word_bank_row (v bk row : Nat) (hbk : bk ≤ 3)
    (hrow : row = 14 ∨ row = 15 ∨ row = 16) :
    bits (clrset_word ((0x3 <<< 16) ||| (0x7 <<< 24))
      (u32 ((u32 (3 + 4294967296 - bk) <<< 16) ||| ((16 - row) <<< 24))) v) 17 16 = 3 - bk ∧
    bits (clrset_word ((0x3 <<< 16) ||| (0x7 <<< 24))
      (u32 ((u32 (3 + 4294967296 - bk) <<< 16) ||| ((16 - row) <<< 24))) v) 26 24 = 16 - row ∧
    bits (clrset_word ((0x3 <<< 16) ||| (0x7 <<< 24))
      (u32 ((u32 (3 + 4294967296 - bk) <<< 16) ||| ((16 - row) <<< 24))) v) 15 0
        = bits v 15 0 ∧
    bits (clrset_word ((0x3 <<< 16) ||| (0x7 <<< 24))
      (u32 ((u32 (3 + 4294967296 - bk) <<< 16) ||| ((16 - row) <<< 24))) v) 23 18
        = bits v 23 18 ∧
    bits (clrset_word ((0x3 <<< 16) ||| (0x7 <<< 24))
      (u32 ((u32 (3 + 4294967296 - bk) <<< 16) ||| ((16 - row) <<< 24))) v) 31 27
        = bits v 31 27 := by
  rw [u32_small_sub 3 bk (by norm_num) hbk]
  unfold clrset_word
  interval_cases bk <;> rcases hrow with rfl | rfl | rfl <;>
    exact ⟨(clrset_field_set v _ _ 16 2 (by norm_num) (by norm_num) (by decide)).trans
        (by decide),
      (clrset_field_set v _ _ 24 3 (by norm_num) (by norm_num) (by decide)).trans (by decide),
      clrset_field_keep v _ _ 0 16 (by norm_num) (by norm_num) (by decide),
      clrset_field_keep v _ _ 18 6 (by norm_num) (by norm_num) (by decide),
      clrset_field_keep v _ _ 27 5 (by norm_num) (by norm_num) (by decide)⟩

/-- The chip-select word of CTL_196: bits 1:0 hold the map, bit 16 the
reduced-width flag, the rest stays. -/
theorem memory_map_word_cs_ctl (v cs reduc : Nat) (hcs : cs = 1 ∨ cs = 3)
    (hreduc : reduc = 0 ∨ reduc = 1) :
    bits (clrset_word (0x3 ||| (1 <<< 16)) (cs ||| (reduc <<< 16)) v) 1 0 = cs ∧
    bits (clrset_word (0x3 ||| (1 <<< 16)) (cs ||| (reduc <<< 16)) v) 16 16 = reduc ∧
    bits (clrset_word (0x3 ||| (1 <<< 16)) (cs ||| (reduc <<< 16)) v) 15 2 = bits v 15 2 ∧
    bits (clrset_word (0x3 ||| (1 <<< 16)) (cs ||| (reduc <<< 16)) v) 31 17
      = bits v 31 17 := by
  unfold clrset_word
  rcases hcs with rfl | rfl <;> rcases hreduc with rfl | rfl <;>
    exact ⟨(clrset_field_set v _ _ 0 2 (by norm_num) (by norm_num) (by decide)).trans
        (by decide),
      (clrset_field_set v _ _ 16 1 (by norm_num) (by norm_num) (by decide)).trans (by decide),
      clrset_field_keep v _ _ 2 14 (by norm_num) (by norm_num) (by decide),
      clrset_field_keep v _ _ 17 15 (by norm_num) (by norm_num) (by decide)⟩

/-- The chip-select word of PI_41: bits 27:24 hold the map, the rest
stays. -/
theorem memory_map_word_cs_pi (v cs : Nat) (hcs : cs = 1 ∨ cs = 3) :
    bits (clrset_word (0xf <<< 24) (cs <<< 24) v) 27 24 = cs ∧
    bits (clrset_word (0xf <<< 24) (cs <<< 24) v) 23 0 = bits v 23 0 ∧
    bits (clrset_word (0xf <<< 24) (cs <<< 24) v) 31 28 = bits v 31 28 := by
  unfold clrset_word
  rcases hcs with rfl | rfl <;>
    exact ⟨(clrset_field_set v _ _ 24 4 (by norm_num) (by norm_num) (by decide)).trans
        (by decide),
      clrset_field_keep v _ _ 0 24 (by norm_num) (by norm_num) (by decide),
      clrset_field_keep v _ _ 28 4 (by norm_num) (by norm_num) (by decide)⟩

/-- Writes of `set_memory_map` to PI_34: none unless the channel has one
rank of DDR3, and then only of 0x2EC7FFFF. -/
theorem set_memory_map_pi_34_only (channel : Nat) (params : rk3399_sdram_params) :
    TrAll (fun e => ∀ v, e = Event.write (Reg.denali_pi channel 34) v →
      ((params.ch channel).rank = 1 ∧ params.dramtype = DDR3) ∧ v = 0x2EC7FFFF)
      (set_memory_map channel params) := by
  have hclr : ∀ (r : Reg) (c s : Nat), r ≠ Reg.denali_pi channel 34 →
      TrAll (fun e => ∀ v, e = Event.write (Reg.denali_pi channel 34) v →
        ((params.ch channel).rank = 1 ∧ params.dramtype = DDR3) ∧ v = 0x2EC7FFFF)
        (clrsetbits32 r c s) := by
    intro r c s hr
    unfold clrsetbits32
    refine TrAll_bind (TrAll_read32 _ (by simp)) (fun _ => TrAll_write32 _ _ ?_)
    intro w v hv
    simp only [Event.write.injEq] at hv
    exact absurd hv.1 hr
  unfold set_memory_map
  refine TrAll_bind (hclr _ _ _ (by simp)) (fun _ => ?_)
  refine TrAll_bind (hclr _ _ _ (by simp)) (fun _ => ?_)
  refine TrAll_bind (hclr _ _ _ (by simp)) (fun _ => ?_)
  refine TrAll_bind (hclr _ _ _ (by simp)) (fun _ => ?_)
  refine TrAll_bind (hclr _ _ _ (by simp)) (fun _ => ?_)
  refine TrAll_bind (hclr _ _ _ (by simp)) (fun _ => ?_)
  by_cases hc : (params.ch channel).rank = 1 ∧ params.dramtype = DDR3
  · simp only [if_pos hc]
    intro m e he v hv
    simp only [write32_run, List.mem_singleton] at he
    rw [he] at hv
    simp only [Event.write.injEq] at hv
    exact ⟨hc, by rw [← hv.2]; decide⟩
  · simp only [if_neg hc]
    exact TrAll_pure _ _

/-- With one rank of DDR3 the run of `set_memory_map` writes 0x2EC7FFFF to
PI_34. -/
theorem set_memory_map_pi_34_written (channel : Nat) (params : rk3399_sdram_params)
    (m : Machine) (hc : (params.ch channel).rank = 1 ∧ params.dramtype = DDR3) :
    Event.write (Reg.denali_pi channel 34) 0x2EC7FFFF ∈ (set_memory_map channel params m).tr := by
  unfold set_memory_map
  refine mem_tr_bind_right (Returns_clrsetbits32 _ _ _ _) (fun _ m1 => ?_)
  refine mem_tr_bind_right (Returns_clrsetbits32 _ _ _ _) (fun _ m2 => ?_)
  refine mem_tr_bind_right (Returns_clrsetbits32 _ _ _ _) (fun _ m3 => ?_)
  refine mem_tr_bind_right (Returns_clrsetbits32 _ _ _ _) (fun _ m4 => ?_)
  refine mem_tr_bind_right (Returns_clrsetbits32 _ _ _ _) (fun _ m5 => ?_)
  refine mem_tr_bind_right (Returns_clrsetbits32 _ _ _ _) (fun _ m6 => ?_)
  simp only [if_pos hc, write32_run, List.mem_singleton]
  rfl

/-- C21: for every channel, parameter block with `col <= 12` and `bk <= 3`
and prior register state, `set_memory_map` returns and leaves: in CTL_190
and PI_155 the row difference `16 - row` in bits 26:24 (row 16 for
`ddrconfig < 2` or `ddrconfig = 4`, 14 for `ddrconfig = 3`, 15 otherwise)
and the bank difference `3 - bk` in bits 17:16, their other bits unchanged;
in CTL_191 and PI_199 the column difference `12 - col` in bits 3:0, bits
31:4 unchanged; the chip-select map (1 for one rank, 3 for more) in bits
1:0 of CTL_196 and bits 27:24 of PI_41, with bit 16 of CTL_196 set from the
bus width and all other bits of both unchanged; PI_34 is written exactly
when `rank = 1` and the type is DDR3, and then with 0x2EC7FFFF; no other
register changes. -/
theorem set_memory_map_fields (channel : Nat) (params : rk3399_sdram_params) (m : Machine)
    (hcol : (params.ch channel).col ≤ 12) (hbk : (params.ch channel).bk ≤ 3) :
    (set_memory_map channel params m).st = Status.ret () ∧
    (∀ r ∈ [Reg.denali_ctl channel 190, Reg.denali_pi channel 155],
      bits ((set_memory_map channel params m).m.mem r) 26 24 =
        16 - (if (params.ch channel).ddrconfig < 2 ∨ (params.ch channel).ddrconfig = 4 then 16
          else if (params.ch channel).ddrconfig = 3 then 14 else 15) ∧
      bits ((set_memory_map channel params m).m.mem r) 17 16 = 3 - (params.ch channel).bk ∧
      bits ((set_memory_map channel params m).m.mem r) 15 0 = bits (m.mem r) 15 0 ∧
      bits ((set_memory_map channel params m).m.mem r) 23 18 = bits (m.mem r) 23 18 ∧
      bits ((set_memory_map channel params m).m.mem r) 31 27 = bits (m.mem r) 31 27) ∧
    (∀ r ∈ [Reg.denali_ctl channel 191, Reg.denali_pi channel 199],
      bits ((set_memory_map channel params m).m.mem r) 3 0 = 12 - (params.ch channel).col ∧
      bits ((set_memory_map channel params m).m.mem r) 31 4 = bits (m.mem r) 31 4) ∧
    (bits ((set_memory_map channel params m).m.mem (Reg.denali_ctl channel 196)) 1 0
        = (if (params.ch channel).rank > 1 then 3 else 1) ∧
      bits ((set_memory_map channel params m).m.mem (Reg.denali_ctl channel 196)) 16 16
        = (if (params.ch channel).bw = 2 then 0 else 1) ∧
      bits ((set_memory_map channel params m).m.mem (Reg.denali_ctl channel 196)) 15 2
        = bits (m.mem (Reg.denali_ctl channel 196)) 15 2 ∧
      bits ((set_memory_map channel params m).m.mem (Reg.denali_ctl channel 196)) 31 17
        = bits (m.mem (Reg.denali_ctl channel 196)) 31 17) ∧
    (bits ((set_memory_map channel params m).m.mem (Reg.denali_pi channel 41)) 27 24
        = (if (params.ch channel).rank > 1 then 3 else 1) ∧
      bits ((set_memory_map channel params m).m.mem (Reg.denali_pi channel 41)) 23 0
        = bits (m.mem (Reg.denali_pi channel 41)) 23 0 ∧
      bits ((set_memory_map channel params m).m.mem (Reg.denali_pi channel 41)) 31 28
        = bits (m.mem (Reg.denali_pi channel 41)) 31 28) ∧
    (∀ v, Event.write (Reg.denali_pi channel 34) v ∈ (set_memory_map channel params m).tr ↔
      ((params.ch channel).rank = 1 ∧ params.dramtype = DDR3) ∧ v = 0x2EC7FFFF) ∧
    (set_memory_map channel params m).m.mem (Reg.denali_pi channel 34)
      = (if (params.ch channel).rank = 1 ∧ params.dramtype = DDR3 then 0x2EC7FFFF
        else m.mem (Reg.denali_pi channel 34)) ∧
    (∀ r, r ∉ memory_map_regs channel →
      (set_memory_map channel params m).m.mem r = m.mem r) := by
  have hcs : (if (params.ch channel).rank > 1 then 3 else 1 : Nat) = 1 ∨
      (if (params.ch channel).rank > 1 then 3 else 1 : Nat) = 3 := by
    split_ifs <;> simp
  have hreduc : (if (params.ch channel).bw = 2 then 0 else 1 : Nat) = 0 ∨
      (if (params.ch channel).bw = 2 then 0 else 1 : Nat) = 1 := by
    split_ifs <;> simp
  refine ⟨?_, ?_, ?_, ?_, ?_, ?_, ?_, ?_⟩
  · exact returned_unit ((MemFun_set_memory_map_pi_34 channel params).returns m)
  · intro r hr
    simp only [List.mem_cons, List.mem_singleton, List.not_mem_nil, or_false] at hr
    rcases hr with rfl | rfl
    · rw [(MemFun_set_memory_map_ctl_190 channel params).run m]
      obtain ⟨h1, h2, h3, h4, h5⟩ := memory_map_word_bank_row (m.mem _) (params.ch channel).bk
        (set_memory_map_row (params.ch channel).ddrconfig) hbk (set_memory_map_row_cases _)
      exact ⟨h2, h1, h3, h4, h5⟩
    · rw [(MemFun_set_memory_map_pi_155 channel params).run m]
      obtain ⟨h1, h2, h3, h4, h5⟩ := memory_map_word_bank_row (m.mem _) (params.ch channel).bk
        (set_memory_map_row (params.ch channel).ddrconfig) hbk (set_memory_map_row_cases _)
      exact ⟨h2, h1, h3, h4, h5⟩
  · intro r hr
    simp only [List.mem_cons, List.mem_singleton, List.not_mem_nil, or_false] at hr
    rcases hr with rfl | rfl
    · rw [(MemFun_set_memory_map_ctl_191 channel params).run m]
      exact memory_map_word_col _ _ hcol
    · rw [(MemFun_set_memory_map_pi_199 channel params).run m]
      exact memory_map_word_col _ _ hcol
  · rw [(MemFun_set_memory_map_ctl_196 channel params).run m]
    exact memory_map_word_cs_ctl _ _ _ hcs hreduc
  · rw [(MemFun_set_memory_map_pi_41 channel params).run m]
    exact memory_map_word_cs_pi _ _ hcs
  · intro v
    constructor
    · intro hv
      exact set_memory_map_pi_34_only channel params m _ hv v rfl
    · rintro ⟨hc, rfl⟩
      exact set_memory_map_pi_34_written channel params m hc
  · exact (MemFun_set_memory_map_pi_34 channel params).run m
  · intro r hr
    exact (MemFun_set_memory_map_rest channel params r hr).run m

theorem set_memory_map_fields_witness :
    bits ((set_memory_map 0 ex_params_single ex_machine_big).m.mem (Reg.denali_ctl 0 191)) 3 0
      = 3 ∧
    bits ((set_memory_map 0 ex_params_single ex_machine_big).m.mem (Reg.denali_ctl 0 191)) 31 4
      = 0x6C ∧
    bits ((set_memory_map 0 ex_params_single ex_machine_big).m.mem (Reg.denali_pi 0 155)) 26 24
      = 0 ∧
    bits ((set_memory_map 0 ex_params_single ex_machine_big).m.mem (Reg.denali_pi 0 41)) 27 24
      = 1 ∧
    (set_memory_map 0 ex_params_single ex_machine_big).m.mem (Reg.denali_pi 0 34)
      = 0x2EC7FFFF := by
  have h := set_memory_map_fields 0 ex_params_single ex_machine_big (by decide) (by decide)
  exact ⟨(h.2.2.1 _ (by simp)).1.trans (by decide),
    (h.2.2.1 (Reg.denali_ctl 0 191) (by simp)).2.trans (by decide),
    (h.2.1 (Reg.denali_pi 0 155) (by simp)).1.trans (by decide),
    h.2.2.2.2.1.1.trans (by decide),
    h.2.2.2.2.2.2.1.trans (by decide)⟩

/-! ### The selection words written by `set_ds_odt` -/

theorem MemFun_set_ds_odt_134 (channel : Nat) (params : rk3399_sdram_params) :
    MemFun (Reg.denali_phy channel 134) (set_ds_odt channel params)
      (fun v => clrset_word (0x7 <<< 24)
        (((if params.odt = 1 then 1 else 0) ||| (0 <<< 1) ||| (0 <<< 2)) <<< 24)
        (clrset_word 0xffffff
          ((set_ds_odt_select params.dramtype).tsel_rd_select_n |||
            ((set_ds_odt_select params.dramtype).tsel_rd_select_p <<< 0x4) |||
            ((set_ds_odt_select params.dramtype).tsel_wr_select_n <<< 8) |||
            ((set_ds_odt_select params.dramtype).tsel_wr_select_p <<< 12) |||
            ((set_ds_odt_select params.dramtype).tsel_idle_select_n <<< 16) |||
            ((set_ds_odt_select params.dramtype).tsel_idle_select_p <<< 20)) v)) := by
  unfold set_ds_odt
  refine MemFun_skip (MemFun_clrsetbits32_other _ _ _ _ (by simp)) (fun _ => ?_)
  refine MemFun_then (MemFun_clrsetbits32_same _ _ _) (fun _ => ?_)
  iterate 21 (refine MemFun_skip (MemFun_clrsetbits32_other _ _ _ _ (by simp)) (fun _ => ?_))
  refine MemFun_last (MemFun_clrsetbits32_same _ _ _) (fun _ => ?_)
  iterate 10 (refine MemFun_skip (MemFun_clrsetbits32_other _ _ _ _ (by simp)) (fun _ => ?_))
  exact MemFun_clrsetbits32_other _ _ _ _ (by simp)

theorem MemFun_set_ds_odt_262 (channel : Nat) (params : rk3399_sdram_params) :
    MemFun (Reg.denali_phy channel 262) (set_ds_odt channel params)
      (fun v => clrset_word (0x7 <<< 24)
        (((if params.odt = 1 then 1 else 0) ||| (0 <<< 1) ||| (0 <<< 2)) <<< 24)
        (clrset_word 0xffffff
          ((set_ds_odt_select params.dramtype).tsel_rd_select_n |||
            ((set_ds_odt_select params.dramtype).tsel_rd_select_p <<< 0x4) |||
            ((set_ds_odt_select params.dramtype).tsel_wr_select_n <<< 8) |||
            ((set_ds_odt_select params.dramtype).tsel_wr_select_p <<< 12) |||
            ((set_ds_odt_select params.dramtype).tsel_idle_select_n <<< 16) |||
            ((set_ds_odt_select params.dramtype).tsel_idle_select_p <<< 20)) v)) := by
  unfold set_ds_odt
  iterate 2 (refine MemFun_skip (MemFun_clrsetbits32_other _ _ _ _ (by simp)) (fun _ => ?_))
  refine MemFun_then (MemFun_clrsetbits32_same _ _ _) (fun _ => ?_)
  iterate 21 (refine MemFun_skip (MemFun_clrsetbits32_other _ _ _ _ (by simp)) (fun _ => ?_))
  refine MemFun_last (MemFun_clrsetbits32_same _ _ _) (fun _ => ?_)
  iterate 9 (refine MemFun_skip (MemFun_clrsetbits32_other _ _ _ _ (by simp)) (fun _ => ?_))
  exact MemFun_clrsetbits32_other _ _ _ _ (by simp)

theorem MemFun_set_ds_odt_390 (channel : Nat) (params : rk3399_sdram_params) :
    MemFun (Reg.denali_phy channel 390) (set_ds_odt channel params)
      (fun v => clrset_word (0x7 <<< 24)
        (((if params.odt = 1 then 1 else 0) ||| (0 <<< 1) ||| (0 <<< 2)) <<< 24)
        (clrset_word 0xffffff
          ((set_ds_odt_select params.dramtype).tsel_rd_select_n |||
            ((set_ds_odt_select params.dramtype).tsel_rd_select_p <<< 0x4) |||
            ((set_ds_odt_select params.dramtype).tsel_wr_select_n <<< 8) |||
            ((set_ds_odt_select params.dramtype).tsel_wr_select_p <<< 12) |||
            ((set_ds_odt_select params.dramtype).tsel_idle_select_n <<< 16) |||
            ((set_ds_odt_select params.dramtype).tsel_idle_select_p <<< 20)) v)) := by
  unfold set_ds_odt
  iterate 3 (refine MemFun_skip (MemFun_clrsetbits32_other _ _ _ _ (by simp)) (fun _ => ?_))
  refine MemFun_then (MemFun_clrsetbits32_same _ _ _) (fun _ => ?_)
  iterate 21 (refine MemFun_skip (MemFun_clrsetbits32_other _ _ _ _ (by simp)) (fun _ => ?_))
  refine MemFun_last (MemFun_clrsetbits32_same _ _ _) (fun _ => ?_)
  iterate 8 (refine MemFun_skip (MemFun_clrsetbits32_other _ _ _ _ (by simp)) (fun _ => ?_))
  exact MemFun_clrsetbits32_other _ _ _ _ (by simp)

theorem MemFun_set_ds_odt_7 (channel : Nat) (params : rk3399_sdram_params) :
    MemFun (Reg.denali_phy channel 7) (set_ds_odt channel params)
      (clrset_word 0xffffff
          ((set_ds_odt_select params.dramtype).tsel_rd_select_n |||
            ((set_ds_odt_select params.dramtype).tsel_rd_select_p <<< 0x4) |||
            ((set_ds_odt_select params.dramtype).tsel_wr_select_n <<< 8) |||
            ((set_ds_odt_select params.dramtype).tsel_wr_select_p <<< 12) |||
            ((set_ds_odt_select params.dramtype).tsel_idle_select_n <<< 16) |||
            ((set_ds_odt_select params.dramtype).tsel_idle_select_p <<< 20))) := by
  unfold set_ds_odt
  iterate 4 (refine MemFun_skip (MemFun_clrsetbits32_other _ _ _ _ (by simp)) (fun _ => ?_))
  refine MemFun_last (MemFun_clrsetbits32_same _ _ _) (fun _ => ?_)
  iterate 29 (refine MemFun_skip (MemFun_clrsetbits32_other _ _ _ _ (by simp)) (fun _ => ?_))
  exact MemFun_clrsetbits32_other _ _ _ _ (by simp)

theorem MemFun_set_ds_odt_135 (channel : Nat) (params : rk3399_sdram_params) :
    MemFun (Reg.denali_phy channel 135) (set_ds_odt channel params)
      (clrset_word 0xffffff
          ((set_ds_odt_select params.dramtype).tsel_rd_select_n |||
            ((set_ds_odt_select params.dramtype).tsel_rd_select_p <<< 0x4) |||
            ((set_ds_odt_select params.dramtype).tsel_wr_select_n <<< 8) |||
            ((set_ds_odt_select params.dramtype).tsel_wr_select_p <<< 12) |||
            ((set_ds_odt_select params.dramtype).tsel_idle_select_n <<< 16) |||
            ((set_ds_odt_select params.dramtype).tsel_idle_select_p <<< 20))) := by
  unfold set_ds_odt
  iterate 5 (refine MemFun_skip (MemFun_clrsetbits32_other _ _ _ _ (by simp)) (fun _ => ?_))
  refine MemFun_last (MemFun_clrsetbits32_same _ _ _) (fun _ => ?_)
  iterate 28 (refine MemFun_skip (MemFun_clrsetbits32_other _ _ _ _ (by simp)) (fun _ => ?_))
  exact MemFun_clrsetbits32_other _ _ _ _ (by simp)

theorem MemFun_set_ds_odt_263 (channel : Nat) (params : rk3399_sdram_params) :
    MemFun (Reg.denali_phy channel 263) (set_ds_odt channel params)
      (clrset_word 0xffffff
          ((set_ds_odt_select params.dramtype).tsel_rd_select_n |||
            ((set_ds_odt_select params.dramtype).tsel_rd_select_p <<< 0x4) |||
            ((set_ds_odt_select params.dramtype).tsel_wr_select_n <<< 8) |||
            ((set_ds_odt_select params.dramtype).tsel_wr_select_p <<< 12) |||
            ((set_ds_odt_select params.dramtype).tsel_idle_select_n <<< 16) |||
            ((set_ds_odt_select params.dramtype).tsel_idle_select_p <<< 20))) := by
  unfold set_ds_odt
  iterate 6 (refine MemFun_skip (MemFun_clrsetbits32_other _ _ _ _ (by simp)) (fun _ => ?_))
  refine MemFun_last (MemFun_clrsetbits32_same _ _ _) (fun _ => ?_)
  iterate 27 (refine MemFun_skip (MemFun_clrsetbits32_other _ _ _ _ (by simp)) (fun _ => ?_))
  exact MemFun_clrsetbits32_other _ _ _ _ (by simp)

theorem MemFun_set_ds_odt_391 (channel : Nat) (params : rk3399_sdram_params) :
    MemFun (Reg.denali_phy channel 391) (set_ds_odt channel params)
      (clrset_word 0xffffff
          ((set_ds_odt_select params.dramtype).tsel_rd_select_n |||
            ((set_ds_odt_select params.dramtype).tsel_rd_select_p <<< 0x4) |||
            ((set_ds_odt_select params.dramtype).tsel_wr_select_n <<< 8) |||
            ((set_ds_odt_select params.dramtype).tsel_wr_select_p <<< 12) |||
            ((set_ds_odt_select params.dramtype).tsel_idle_select_n <<< 16) |||
            ((set_ds_odt_select params.dramtype).tsel_idle_select_p <<< 20))) := by
  unfold set_ds_odt
  iterate 7 (refine MemFun_skip (MemFun_clrsetbits32_other _ _ _ _ (by simp)) (fun _ => ?_))
  refine MemFun_last (MemFun_clrsetbits32_same _ _ _) (fun _ => ?_)
  iterate 26 (refine MemFun_skip (MemFun_clrsetbits32_other _ _ _ _ (by simp)) (fun _ => ?_))
  exact MemFun_clrsetbits32_other _ _ _ _ (by simp)

theorem MemFun_set_ds_odt_544 (channel : Nat) (params : rk3399_sdram_params) :
    MemFun (Reg.denali_phy channel 544) (set_ds_odt channel params)
      (clrset_word 0xff
        ((set_ds_odt_select params.dramtype).ca_tsel_wr_select_n |||
          ((set_ds_odt_select params.dramtype).ca_tsel_wr_select_p <<< 0x4))) := by
  unfold set_ds_odt
  iterate 8 (refine MemFun_skip (MemFun_clrsetbits32_other _ _ _ _ (by simp)) (fun _ => ?_))
  refine MemFun_last (MemFun_clrsetbits32_same _ _ _) (fun _ => ?_)
  iterate 25 (refine MemFun_skip (MemFun_clrsetbits32_other _ _ _ _ (by simp)) (fun _ => ?_))
  exact MemFun_clrsetbits32_other _ _ _ _ (by simp)

theorem MemFun_set_ds_odt_672 (channel : Nat) (params : rk3399_sdram_params) :
    MemFun (Reg.denali_phy channel 672) (set_ds_odt channel params)
      (clrset_word 0xff
        ((set_ds_odt_select params.dramtype).ca_tsel_wr_select_n |||
          ((set_ds_odt_select params.dramtype).ca_tsel_wr_select_p <<< 0x4))) := by
  unfold set_ds_odt
  iterate 9 (refine MemFun_skip (MemFun_clrsetbits32_other _ _ _ _ (by simp)) (fun _ => ?_))
  refine MemFun_last (MemFun_clrsetbits32_same _ _ _) (fun _ => ?_)
  iterate 24 (refine MemFun_skip (MemFun_clrsetbits32_other _ _ _ _ (by simp)) (fun _ => ?_))
  exact MemFun_clrsetbits32_other _ _ _ _ (by simp)

theorem MemFun_set_ds_odt_800 (channel : Nat) (params : rk3399_sdram_params) :
    MemFun (Reg.denali_phy channel 800) (set_ds_odt channel params)
      (clrset_word 0xff
        ((set_ds_odt_select params.dramtype).ca_tsel_wr_select_n |||
          ((set_ds_odt_select params.dramtype).ca_tsel_wr_select_p <<< 0x4))) := by
  unfold set_ds_odt
  iterate 10 (refine MemFun_skip (MemFun_clrsetbits32_other _ _ _ _ (by simp)) (fun _ => ?_))
  refine MemFun_last (MemFun_clrsetbits32_same _ _ _) (fun _ => ?_)
  iterate 23 (refine MemFun_skip (MemFun_clrsetbits32_other _ _ _ _ (by simp)) (fun _ => ?_))
  exact MemFun_clrsetbits32_other _ _ _ _ (by simp)

theorem MemFun_set_ds_odt_928 (channel : Nat) (params : rk3399_sdram_params) :
    MemFun (Reg.denali_phy channel 928) (set_ds_odt channel params)
      (clrset_word 0xff
        ((set_ds_odt_select params.dramtype).ca_tsel_wr_select_n |||
          ((set_ds_odt_select params.dramtype).ca_tsel_wr_select_p <<< 0x4))) := by
  unfold set_ds_odt
  iterate 11 (refine MemFun_skip (MemFun_clrsetbits32_other _ _ _ _ (by simp)) (fun _ => ?_))
  refine MemFun_last (MemFun_clrsetbits32_same _ _ _) (fun _ => ?_)
  iterate 22 (refine MemFun_skip (MemFun_clrsetbits32_other _ _ _ _ (by simp)) (fun _ => ?_))
  exact MemFun_clrsetbits32_other _ _ _ _ (by simp)

theorem MemFun_set_ds_odt_937 (channel : Nat) (params : rk3399_sdram_params) :
    MemFun (Reg.denali_phy channel 937) (set_ds_odt channel params)
      (clrset_word 0xff
        ((set_ds_odt_select params.dramtype).ca_tsel_wr_select_n |||
          ((set_ds_odt_select params.dramtype).ca_tsel_wr_select_p <<< 0x4))) := by
  unfold set_ds_odt
  iterate 12 (refine MemFun_skip (MemFun_clrsetbits32_other _ _ _ _ (by simp)) (fun _ => ?_))
  refine MemFun_last (MemFun_clrsetbits32_same _ _ _) (fun _ => ?_)
  iterate 21 (refine MemFun_skip (MemFun_clrsetbits32_other _ _ _ _ (by simp)) (fun _ => ?_))
  exact MemFun_clrsetbits32_other _ _ _ _ (by simp)

theorem MemFun_set_ds_odt_935 (channel : Nat) (params : rk3399_sdram_params) :
    MemFun (Reg.denali_phy channel 935) (set_ds_odt channel params)
      (clrset_word 0xff
        ((set_ds_odt_select params.dramtype).ca_tsel_wr_select_n |||
          ((set_ds_odt_select params.dramtype).ca_tsel_wr_select_p <<< 0x4))) := by
  unfold set_ds_odt
  iterate 13 (refine MemFun_skip (MemFun_clrsetbits32_other _ _ _ _ (by simp)) (fun _ => ?_))
  refine MemFun_last (MemFun_clrsetbits32_same _ _ _) (fun _ => ?_)
  iterate 20 (refine MemFun_skip (MemFun_clrsetbits32_other _ _ _ _ (by simp)) (fun _ => ?_))
  exact MemFun_clrsetbits32_other _ _ _ _ (by simp)

theorem MemFun_set_ds_odt_939 (channel : Nat) (params : rk3399_sdram_params) :
    MemFun (Reg.denali_phy channel 939) (set_ds_odt channel params)
      (clrset_word 0xff
        ((set_ds_odt_select params.dramtype).ca_tsel_wr_select_n |||
          ((set_ds_odt_select params.dramtype).ca_tsel_wr_select_p <<< 0x4))) := by
  unfold set_ds_odt
  iterate 14 (refine MemFun_skip (MemFun_clrsetbits32_other _ _ _ _ (by simp)) (fun _ => ?_))
  refine MemFun_last (MemFun_clrsetbits32_same _ _ _) (fun _ => ?_)
  iterate 19 (refine MemFun_skip (MemFun_clrsetbits32_other _ _ _ _ (by simp)) (fun _ => ?_))
  exact MemFun_clrsetbits32_other _ _ _ _ (by simp)

theorem MemFun_set_ds_odt_929 (channel : Nat) (params : rk3399_sdram_params) :
    MemFun (Reg.denali_phy channel 929) (set_ds_odt channel params)
      (clrset_word 0xff
        ((set_ds_odt_select params.dramtype).ca_tsel_wr_select_n |||
          ((set_ds_odt_select params.dramtype).ca_tsel_wr_select_p <<< 0x4))) := by
  unfold set_ds_odt
  iterate 15 (refine MemFun_skip (MemFun_clrsetbits32_other _ _ _ _ (by simp)) (fun _ => ?_))
  refine MemFun_last (MemFun_clrsetbits32_same _ _ _) (fun _ => ?_)
  iterate 18 (refine MemFun_skip (MemFun_clrsetbits32_other _ _ _ _ (by simp)) (fun _ => ?_))
  exact MemFun_clrsetbits32_other _ _ _ _ (by simp)

theorem MemFun_set_ds_odt_5 (channel : Nat) (params : rk3399_sdram_params) :
    MemFun (Reg.denali_phy channel 5) (set_ds_odt channel params)
      (clrset_word (0x7 <<< 16)
        (((if params.odt = 1 then 1 else 0) ||| (0 <<< 1) ||| (0 <<< 2)) <<< 16)) := by
  unfold set_ds_odt
  iterate 18 (refine MemFun_skip (MemFun_clrsetbits32_other _ _ _ _ (by simp)) (fun _ => ?_))
  refine MemFun_last (MemFun_clrsetbits32_same _ _ _) (fun _ => ?_)
  iterate 15 (refine MemFun_skip (MemFun_clrsetbits32_other _ _ _ _ (by simp)) (fun _ => ?_))
  exact MemFun_clrsetbits32_other _ _ _ _ (by simp)

theorem MemFun_set_ds_odt_133 (channel : Nat) (params : rk3399_sdram_params) :
    MemFun (Reg.denali_phy channel 133) (set_ds_odt channel params)
      (clrset_word (0x7 <<< 16)
        (((if params.odt = 1 then 1 else 0) ||| (0 <<< 1) ||| (0 <<< 2)) <<< 16)) := by
  unfold set_ds_odt
  iterate 19 (refine MemFun_skip (MemFun_clrsetbits32_other _ _ _ _ (by simp)) (fun _ => ?_))
  refine MemFun_last (MemFun_clrsetbits32_same _ _ _) (fun _ => ?_)
  iterate 14 (refine MemFun_skip (MemFun_clrsetbits32_other _ _ _ _ (by simp)) (fun _ => ?_))
  exact MemFun_clrsetbits32_other _ _ _ _ (by simp)

theorem MemFun_set_ds_odt_261 (channel : Nat) (params : rk3399_sdram_params) :
    MemFun (Reg.denali_phy channel 261) (set_ds_odt channel params)
      (clrset_word (0x7 <<< 16)
        (((if params.odt = 1 then 1 else 0) ||| (0 <<< 1) ||| (0 <<< 2)) <<< 16)) := by
  unfold set_ds_odt
  iterate 20 (refine MemFun_skip (MemFun_clrsetbits32_other _ _ _ _ (by simp)) (fun _ => ?_))
  refine MemFun_last (MemFun_clrsetbits32_same _ _ _) (fun _ => ?_)
  iterate 13 (refine MemFun_skip (MemFun_clrsetbits32_other _ _ _ _ (by simp)) (fun _ => ?_))
  exact MemFun_clrsetbits32_other _ _ _ _ (by simp)

theorem MemFun_set_ds_odt_389 (channel : Nat) (params : rk3399_sdram_params) :
    MemFun (Reg.denali_phy channel 389) (set_ds_odt channel params)
      (clrset_word (0x7 <<< 16)
        (((if params.odt = 1 then 1 else 0) ||| (0 <<< 1) ||| (0 <<< 2)) <<< 16)) := by
  unfold set_ds_odt
  iterate 21 (refine MemFun_skip (MemFun_clrsetbits32_other _ _ _ _ (by simp)) (fun _ => ?_))
  refine MemFun_last (MemFun_clrsetbits32_same _ _ _) (fun _ => ?_)
  iterate 12 (refine MemFun_skip (MemFun_clrsetbits32_other _ _ _ _ (by simp)) (fun _ => ?_))
  exact MemFun_clrsetbits32_other _ _ _ _ (by simp)

theorem bits_of_lt (s hi : Nat) (h : s < 2 ^ (hi + 1)) : bits s hi 0 = s := by
  unfold bits
  rw [Nat.shiftRight_zero, Nat.sub_zero]
  exact Nat.mod_eq_of_lt h

/-- The DQ/DQS word `set_ds_odt` assembles is the one of the table. -/
theorem set_ds_odt_dq_word (dramtype : Nat) :
    ((set_ds_odt_select dramtype).tsel_rd_select_n |||
      ((set_ds_odt_select dramtype).tsel_rd_select_p <<< 0x4) |||
      ((set_ds_odt_select dramtype).tsel_wr_select_n <<< 8) |||
      ((set_ds_odt_select dramtype).tsel_wr_select_p <<< 12) |||
      ((set_ds_odt_select dramtype).tsel_idle_select_n <<< 16) |||
      ((set_ds_odt_select dramtype).tsel_idle_select_p <<< 20))
      = ds_odt_dq_value_spec dramtype := by
  unfold set_ds_odt_select ds_odt_dq_value_spec
  split_ifs <;> rfl

/-- The CA byte `set_ds_odt` assembles is the one of the table. -/
theorem set_ds_odt_ca_word (dramtype : Nat) :
    ((set_ds_odt_select dramtype).ca_tsel_wr_select_n |||
      ((set_ds_odt_select dramtype).ca_tsel_wr_select_p <<< 0x4))
      = ds_odt_ca_value_spec dramtype := by
  unfold set_ds_odt_select ds_odt_ca_value_spec
  split_ifs <;> rfl

theorem ds_odt_dq_value_spec_lt (dramtype : Nat) : ds_odt_dq_value_spec dramtype < 2 ^ 24 := by
  unfold ds_odt_dq_value_spec
  split_ifs <;> norm_num

theorem ds_odt_ca_value_spec_lt (dramtype : Nat) : ds_odt_ca_value_spec dramtype < 2 ^ 8 := by
  unfold ds_odt_ca_value_spec
  split_ifs <;> norm_num

/-- A DQS register after `set_ds_odt`: the low 24 bits hold the word
written. -/
theorem ds_odt_word_dqs (v dq : Nat) (hdq : dq < 2 ^ 24) :
    bits (clrset_word 0xffffff dq v) 23 0 = dq := by
  unfold clrset_word
  exact (clrset_field_set v _ _ 0 24 (by norm_num) (by norm_num) (by decide)).trans
    (bits_of_lt dq 23 hdq)

/-- A DQ register after `set_ds_odt`: the low 24 bits hold the word written
first, bit 24 the enable written second. -/
theorem ds_odt_word_dq (v dq en : Nat) (hdq : dq < 2 ^ 24) (hen : en = 0 ∨ en = 1) :
    bits (clrset_word (0x7 <<< 24) ((en ||| (0 <<< 1) ||| (0 <<< 2)) <<< 24)
      (clrset_word 0xffffff dq v)) 23 0 = dq ∧
    bits (clrset_word (0x7 <<< 24) ((en ||| (0 <<< 1) ||| (0 <<< 2)) <<< 24)
      (clrset_word 0xffffff dq v)) 24 24 = en := by
  constructor
  · refine Eq.trans ?_ (ds_odt_word_dqs v dq hdq)
    generalize clrset_word 0xffffff dq v = w
    unfold clrset_word
    rcases hen with rfl | rfl <;>
      exact clrset_field_keep w _ _ 0 24 (by norm_num) (by norm_num) (by decide)
  · generalize clrset_word 0xffffff dq v = w
    unfold clrset_word
    rcases hen with rfl | rfl <;>
      exact (clrset_field_set w _ _ 24 1 (by norm_num) (by norm_num) (by decide)).trans
        (by decide)

/-- A CA register after `set_ds_odt`: the low 8 bits hold the byte
written. -/
theorem ds_odt_word_ca (v ca : Nat) (hca : ca < 2 ^ 8) :
    bits (clrset_word 0xff ca v) 7 0 = ca := by
  unfold clrset_word
  exact (clrset_field_set v _ _ 0 8 (by norm_num) (by norm_num) (by decide)).trans
    (bits_of_lt ca 7 hca)

/-- An enable register after `set_ds_odt`: bit 16 holds the enable. -/
theorem ds_odt_word_en (v en : Nat) (hen : en = 0 ∨ en = 1) :
    bits (clrset_word (0x7 <<< 16) ((en ||| (0 <<< 1) ||| (0 <<< 2)) <<< 16) v) 16 16 = en := by
  unfold clrset_word
  rcases hen with rfl | rfl <;>
    exact (clrset_field_set v _ _ 16 1 (by norm_num) (by norm_num) (by decide)).trans
      (by decide)

/-- C22: for every channel, parameter block and prior register state,
`set_ds_odt` returns and leaves in the low 24 bits of PHY_6, PHY_134,
PHY_262, PHY_390 (DQ) and of PHY_7, PHY_135, PHY_263, PHY_391 (DQS) one
value that depends on the DRAM type only (0x01EE01 for LPDDR4, 0x10FF10 for
LPDDR3, 0x11FF11 otherwise), in the low 8 bits of PHY_544, PHY_672, PHY_800,
PHY_928, PHY_929, PHY_935, PHY_937 and PHY_939 one value that depends on the
DRAM type only (0xEE, 0xDD, 0xFF), and the read-termination enable in bit 16
of PHY_5, PHY_133, PHY_261, PHY_389 and bit 24 of PHY_6, PHY_134, PHY_262,
PHY_390 is 1 when `odt = 1` and 0 otherwise. -/
theorem set_ds_odt_broadcast (channel : Nat) (params : rk3399_sdram_params) (m : Machine) :
    (set_ds_odt channel params m).st = Status.ret () ∧
    (∀ r ∈ ds_odt_dq_regs channel,
      bits ((set_ds_odt channel params m).m.mem r) 23 0
        = ds_odt_dq_value_spec params.dramtype) ∧
    (∀ r ∈ ds_odt_ca_regs channel,
      bits ((set_ds_odt channel params m).m.mem r) 7 0
        = ds_odt_ca_value_spec params.dramtype) ∧
    (∀ r ∈ [Reg.denali_phy channel 5, Reg.denali_phy channel 133, Reg.denali_phy channel 261,
        Reg.denali_phy channel 389],
      bits ((set_ds_odt channel params m).m.mem r) 16 16
        = (if params.odt = 1 then 1 else 0)) ∧
    (∀ r ∈ [Reg.denali_phy channel 6, Reg.denali_phy channel 134, Reg.denali_phy channel 262,
        Reg.denali_phy channel 390],
      bits ((set_ds_odt channel params m).m.mem r) 24 24
        = (if params.odt = 1 then 1 else 0)) := by
  have hen : (if params.odt = 1 then 1 else 0 : Nat) = 0 ∨
      (if params.odt = 1 then 1 else 0 : Nat) = 1 := by
    split_ifs <;> simp
  have hdq := ds_odt_dq_value_spec_lt params.dramtype
  have hca := ds_odt_ca_value_spec_lt params.dramtype
  refine ⟨returned_unit (Returns_set_ds_odt channel params m), ?_, ?_, ?_, ?_⟩
  · intro r hr
    simp only [ds_odt_dq_regs, List.mem_cons, List.mem_singleton, List.not_mem_nil,
      or_false] at hr
    rcases hr with rfl | rfl | rfl | rfl | rfl | rfl | rfl | rfl
    · rw [(MemFun_set_ds_odt_6 channel params).run m]
      simp only [set_ds_odt_dq_word]
      exact (ds_odt_word_dq _ _ _ hdq hen).1
    · rw [(MemFun_set_ds_odt_134 channel params).run m]
      simp only [set_ds_odt_dq_word]
      exact (ds_odt_word_dq _ _ _ hdq hen).1
    · rw [(MemFun_set_ds_odt_262 channel params).run m]
      simp only [set_ds_odt_dq_word]
      exact (ds_odt_word_dq _ _ _ hdq hen).1
    · rw [(MemFun_set_ds_odt_390 channel params).run m]
      simp only [set_ds_odt_dq_word]
      exact (ds_odt_word_dq _ _ _ hdq hen).1
    · rw [(MemFun_set_ds_odt_7 channel params).run m]
      simp only [set_ds_odt_dq_word]
      exact ds_odt_word_dqs _ _ hdq
    · rw [(MemFun_set_ds_odt_135 channel params).run m]
      simp only [set_ds_odt_dq_word]
      exact ds_odt_word_dqs _ _ hdq
    · rw [(MemFun_set_ds_odt_263 channel params).run m]
      simp only [set_ds_odt_dq_word]
      exact ds_odt_word_dqs _ _ hdq
    · rw [(MemFun_set_ds_odt_391 channel params).run m]
      simp only [set_ds_odt_dq_word]
      exact ds_odt_word_dqs _ _ hdq
  · intro r hr
    simp only [ds_odt_ca_regs, List.mem_cons, List.mem_singleton, List.not_mem_nil,
      or_false] at hr
    rcases hr with rfl | rfl | rfl | rfl | rfl | rfl | rfl | rfl
    · rw [(MemFun_set_ds_odt_544 channel params).run m]
      simp only [set_ds_odt_ca_word]
      exact ds_odt_word_ca _ _ hca
    · rw [(MemFun_set_ds_odt_672 channel params).run m]
      simp only [set_ds_odt_ca_word]
      exact ds_odt_word_ca _ _ hca
    · rw [(MemFun_set_ds_odt_800 channel params).run m]
      simp only [set_ds_odt_ca_word]
      exact ds_odt_word_ca _ _ hca
    · rw [(MemFun_set_ds_odt_928 channel params).run m]
      simp only [set_ds_odt_ca_word]
      exact ds_odt_word_ca _ _ hca
    · rw [(MemFun_set_ds_odt_929 channel params).run m]
      simp only [set_ds_odt_ca_word]
      exact ds_odt_word_ca _ _ hca
    · rw [(MemFun_set_ds_odt_935 channel params).run m]
      simp only [set_ds_odt_ca_word]
      exact ds_odt_word_ca _ _ hca
    · rw [(MemFun_set_ds_odt_937 channel params).run m]
      simp only [set_ds_odt_ca_word]
      exact ds_odt_word_ca _ _ hca
    · rw [(MemFun_set_ds_odt_939 channel params).run m]
      simp only [set_ds_odt_ca_word]
      exact ds_odt_word_ca _ _ hca
  · intro r hr
    simp only [List.mem_cons, List.mem_singleton, List.not_mem_nil, or_false] at hr
    rcases hr with rfl | rfl | rfl | rfl
    · rw [(MemFun_set_ds_odt_5 channel params).run m]
      exact ds_odt_word_en _ _ hen
    · rw [(MemFun_set_ds_odt_133 channel params).run m]
      exact ds_odt_word_en _ _ hen
    · rw [(MemFun_set_ds_odt_261 channel params).run m]
      exact ds_odt_word_en _ _ hen
    · rw [(MemFun_set_ds_odt_389 channel params).run m]
      exact ds_odt_word_en _ _ hen
  · intro r hr
    simp only [List.mem_cons, List.mem_singleton, List.not_mem_nil, or_false] at hr
    rcases hr with rfl | rfl | rfl | rfl
    · rw [(MemFun_set_ds_odt_6 channel params).run m]
      simp only [set_ds_odt_dq_word]
      exact (ds_odt_word_dq _ _ _ hdq hen).2
    · rw [(MemFun_set_ds_odt_134 channel params).run m]
      simp only [set_ds_odt_dq_word]
      exact (ds_odt_word_dq _ _ _ hdq hen).2
    · rw [(MemFun_set_ds_odt_262 channel params).run m]
      simp only [set_ds_odt_dq_word]
      exact (ds_odt_word_dq _ _ _ hdq hen).2
    · rw [(MemFun_set_ds_odt_390 channel params).run m]
      simp only [set_ds_odt_dq_word]
      exact (ds_odt_word_dq _ _ _ hdq hen).2

theorem set_ds_odt_broadcast_witness :
    bits ((set_ds_odt 0 ex_params_lpddr4 ex_machine_big).m.mem (Reg.denali_phy 0 6)) 23 0
      = 0x01EE01 ∧
    bits ((set_ds_odt 0 ex_params_lpddr4 ex_machine_big).m.mem (Reg.denali_phy 0 391)) 23 0
      = 0x01EE01 ∧
    bits ((set_ds_odt 0 ex_params_lpddr4 ex_machine_big).m.mem (Reg.denali_phy 0 939)) 7 0
      = 0xEE ∧
    bits ((set_ds_odt 0 ex_params_lpddr4 ex_machine_big).m.mem (Reg.denali_phy 0 389)) 16 16
      = 1 ∧
    bits ((set_ds_odt 0 ex_params_lpddr4 ex_machine_big).m.mem (Reg.denali_phy 0 390)) 24 24
      = 1 := by
  have h := set_ds_odt_broadcast 0 ex_params_lpddr4 ex_machine_big
  exact ⟨(h.2.1 (Reg.denali_phy 0 6) (by simp [ds_odt_dq_regs])).trans (by decide),
    (h.2.1 (Reg.denali_phy 0 391) (by simp [ds_odt_dq_regs])).trans (by decide),
    (h.2.2.1 (Reg.denali_phy 0 939) (by simp [ds_odt_ca_regs])).trans (by decide),
    (h.2.2.2.1 (Reg.denali_phy 0 389) (by simp)).trans (by decide),
    (h.2.2.2.2 (Reg.denali_phy 0 390) (by simp)).trans (by decide)⟩

/-! ### The absent channel in `dram_all_config` -/

theorem sys_reg_of_single (p : rk3399_sdram_params) (hn : p.num_channels = 1)
    (h0 : (p.ch 0).col ≠ 0) :
    sys_reg_of p = dram_all_config_enc (p.ch 0) 0
      ((0 ||| SYS_REG_ENC_DDRTYPE p.dramtype) ||| SYS_REG_ENC_NUM_CH 1) := by
  unfold sys_reg_of
  simp [dram_all_config_sys_reg, hn, h0]

theorem os_reg2_written_run (p : rk3399_sdram_params) (m : Machine) :
    os_reg2_written p m = u32 (sys_reg_of p) ∧
    Event.write Reg.pmugrf_os_reg2 (os_reg2_written p m) ∈ (dram_all_config p m).tr := by
  obtain ⟨-, h2, h3⟩ := dram_all_config_run p m
  unfold os_reg2_written
  exact ⟨h2, by rw [h2]; exact h3⟩

theorem testBit_of_lt_65536 (x j : Nat) (hx : x < 65536) (hj : 16 ≤ j) :
    x.testBit j = false :=
  Nat.testBit_lt_two_pow (lt_of_lt_of_le (show x < 2 ^ 16 by norm_num; exact hx)
    (Nat.pow_le_pow_right (by norm_num) hj))

theorem bits_eq_zero_of_testBit (s hi lo : Nat)
    (h : ∀ j, lo ≤ j → j ≤ hi → s.testBit j = false) : bits s hi lo = 0 := by
  unfold bits
  apply Nat.eq_of_testBit_eq
  intro i
  rw [Nat.testBit_mod_two_pow, Nat.testBit_shiftRight, Nat.zero_testBit]
  by_cases hi1 : i < hi + 1 - lo
  · rw [h (lo + i) (by omega) (by omega)]
    simp
  · simp [hi1]

theorem shr_two_le (n : Nat) : 2 >>> n ≤ 2 := by
  rw [Nat.shiftRight_eq_div_pow]
  exact Nat.div_le_self _ _

/-- With the fields of channel 0 within their encoders no bit of the
register outside the bits of channel 0 (15:0, 28 and 30) is set. -/
theorem sys_reg_single_testBit (p : rk3399_sdram_params) (hn : p.num_channels = 1)
    (h0 : (p.ch 0).col ≠ 0) (he : enc_within_channel0 p.dramtype (p.ch 0)) (j : Nat)
    (h16 : 16 ≤ j) (h28 : j ≠ 28) (h30 : j ≠ 30) :
    (sys_reg_of p).testBit j = false := by
  obtain ⟨hd, h34, ⟨hr1, hr2⟩, ⟨hc1, hc2⟩, ⟨hs1, hs2⟩, hcs1⟩ := he
  have e1 : (SYS_REG_ENC_DDRTYPE p.dramtype).testBit j = false :=
    testBit_of_lt_65536 _ j (by
      simp only [SYS_REG_ENC_DDRTYPE, u32, Nat.shiftLeft_eq]; norm_num; omega) h16
  have e2 : (SYS_REG_ENC_NUM_CH 1).testBit j = false :=
    testBit_of_lt_65536 _ j (by decide) h16
  have e3 : (SYS_REG_ENC_ROW_3_4 (p.ch 0).row_3_4 0).testBit j = false := by
    rcases (by omega : (p.ch 0).row_3_4 = 0 ∨ (p.ch 0).row_3_4 = 1) with h | h
    · rw [h]; exact testBit_of_lt_65536 _ j (by decide) h16
    · rw [h]
      rw [show SYS_REG_ENC_ROW_3_4 1 0 = 2 ^ 30 by decide, Nat.testBit_two_pow]
      simp; omega
  have e4 : (SYS_REG_ENC_CHINFO 0).testBit j = false := by
    rw [show SYS_REG_ENC_CHINFO 0 = 2 ^ 28 by decide, Nat.testBit_two_pow]
    simp; omega
  have e5 : (SYS_REG_ENC_RANK (p.ch 0).rank 0).testBit j = false :=
    testBit_of_lt_65536 _ j (by
      simp only [SYS_REG_ENC_RANK, u32, Nat.shiftLeft_eq]; norm_num; omega) h16
  have e6 : (SYS_REG_ENC_COL (p.ch 0).col 0).testBit j = false :=
    testBit_of_lt_65536 _ j (by
      simp only [SYS_REG_ENC_COL, u32, Nat.shiftLeft_eq]; norm_num; omega) h16
  have e7 : (SYS_REG_ENC_BK (p.ch 0).bk 0).testBit j = false :=
    testBit_of_lt_65536 _ j (by
      simp only [SYS_REG_ENC_BK, u32, Nat.shiftLeft_eq]; split_ifs <;> norm_num) h16
  have e8 : (SYS_REG_ENC_CS0_ROW (p.ch 0).cs0_row 0).testBit j = false :=
    testBit_of_lt_65536 _ j (by
      simp only [SYS_REG_ENC_CS0_ROW, u32, Nat.shiftLeft_eq]; norm_num; omega) h16
  have e9 : (p.ch 0).rank > 1 → (SYS_REG_ENC_CS1_ROW (p.ch 0).cs1_row 0).testBit j = false :=
    fun hrk => testBit_of_lt_65536 _ j (by
      have := hcs1 hrk
      simp only [SYS_REG_ENC_CS1_ROW, u32, Nat.shiftLeft_eq]; norm_num; omega) h16
  have e10 : (SYS_REG_ENC_BW (p.ch 0).bw 0).testBit j = false :=
    testBit_of_lt_65536 _ j (by
      have ht := shr_two_le (p.ch 0).bw
      unfold SYS_REG_ENC_BW u32
      generalize 2 >>> (p.ch 0).bw = t at ht ⊢
      simp only [Nat.shiftLeft_eq]; norm_num; omega) h16
  have e11 : (SYS_REG_ENC_DBW (p.ch 0).dbw 0).testBit j = false :=
    testBit_of_lt_65536 _ j (by
      have ht := shr_two_le (p.ch 0).dbw
      unfold SYS_REG_ENC_DBW u32
      generalize 2 >>> (p.ch 0).dbw = t at ht ⊢
      simp only [Nat.shiftLeft_eq]; norm_num; omega) h16
  rw [sys_reg_of_single p hn h0]
  unfold dram_all_config_enc
  by_cases hrk : (p.ch 0).rank > 1
  · simp only [if_pos hrk, Nat.testBit_or, Nat.zero_testBit, e1, e2, e3, e4, e5, e6, e7, e8,
      e9 hrk, e10, e11, Bool.or_false]
  · simp only [if_neg hrk, Nat.testBit_or, Nat.zero_testBit, e1, e2, e3, e4, e5, e6, e7, e8,
      e10, e11, Bool.or_false]

theorem os_reg2_single_channel1_fields (p : rk3399_sdram_params) (m : Machine)
    (hn : p.num_channels = 1) (h0 : (p.ch 0).col ≠ 0)
    (he : enc_within_channel0 p.dramtype (p.ch 0)) :
    bits (os_reg2_written p m) 31 31 = 0 ∧ bits (os_reg2_written p m) 29 29 = 0 ∧
    bits (os_reg2_written p m) 27 16 = 0 := by
  rw [(os_reg2_written_run p m).1]
  have key : ∀ j, 16 ≤ j → j ≠ 28 → j ≠ 30 → (u32 (sys_reg_of p)).testBit j = false := by
    intro j h16 h28 h30
    rw [testBit_u32, sys_reg_single_testBit p hn h0 he j h16 h28 h30]
    simp
  refine ⟨?_, ?_, ?_⟩ <;> refine bits_eq_zero_of_testBit _ _ _ (fun j h1 h2 => ?_) <;>
    exact key j (by omega) (by omega) (by omega)

/-- The bounds of `enc_within_channel0` are the thresholds of the encoders:
at each bound the fields of channel 1 are still 0, and one step beyond any
of them (DRAM type 8, `row_3_4` 2, rank 0 or 33, 8 or 137 columns, `cs0_row`
12 or 1037, `cs1_row` 12 or 4109) they are not. -/
theorem enc_within_channel0_tight :
    (channel1_fields_clear (os_reg2_written
        (ex_params_channel0 7 (ex_channel_of 32 136 1036 4108 1)) ex_machine) ∧
      channel1_fields_clear (os_reg2_written
        (ex_params_channel0 0 (ex_channel_of 1 9 13 0 0)) ex_machine) ∧
      channel1_fields_clear (os_reg2_written
        (ex_params_channel0 3 (ex_channel_of 2 9 13 13 0)) ex_machine)) ∧
    (¬ channel1_fields_clear (os_reg2_written
        (ex_params_channel0 8 (ex_channel_of 2 10 15 14 1)) ex_machine) ∧
      ¬ channel1_fields_clear (os_reg2_written
        (ex_params_channel0 3 (ex_channel_of 2 10 15 14 2)) ex_machine) ∧
      ¬ channel1_fields_clear (os_reg2_written
        (ex_params_channel0 3 (ex_channel_of 0 10 15 14 1)) ex_machine) ∧
      ¬ channel1_fields_clear (os_reg2_written
        (ex_params_channel0 3 (ex_channel_of 33 10 15 14 1)) ex_machine) ∧
      ¬ channel1_fields_clear (os_reg2_written
        (ex_params_channel0 3 (ex_channel_of 2 8 15 14 1)) ex_machine) ∧
      ¬ channel1_fields_clear (os_reg2_written
        (ex_params_channel0 3 (ex_channel_of 2 137 15 14 1)) ex_machine) ∧
      ¬ channel1_fields_clear (os_reg2_written
        (ex_params_channel0 3 (ex_channel_of 2 10 12 14 1)) ex_machine) ∧
      ¬ channel1_fields_clear (os_reg2_written
        (ex_params_channel0 3 (ex_channel_of 2 10 1037 14 1)) ex_machine) ∧
      ¬ channel1_fields_clear (os_reg2_written
        (ex_params_channel0 3 (ex_channel_of 2 10 15 12 1)) ex_machine) ∧
      ¬ channel1_fields_clear (os_reg2_written
        (ex_params_channel0 3 (ex_channel_of 2 10 15 4109 1)) ex_machine)) := by
  decide!

/-- C14 (amended): absent channel is skipped.  For every params with
`num_channels = 1`, channel 0 present and `ch[1].col = 0` (the scenario of
the spec with `ch[0].col = 8` included): `dram_all_config` writes no
scheduler timing register of channel 1; the value it writes to `os_reg2` is
the same for any other such params that agrees on the DRAM type and on
channel 0, whatever its channel 1 holds besides `col = 0`; and
`calculate_stride` counts 0 for the capacity of channel 1.  The value
written to `os_reg2` has bits 31, 29 and 27:16 equal to 0 when no encoder of
the DRAM type or of channel 0 wraps or reaches bit 16: `dramtype < 8`,
`row_3_4 <= 1`, `1 <= rank <= 32`, `9 <= col <= 136`, `13 <= cs0_row <= 1036`
and, for `rank > 1`, `13 <= cs1_row <= 4108`. -/
theorem absent_channel_skipped (p : rk3399_sdram_params) (m : Machine)
    (hn : p.num_channels = 1) (h0 : (p.ch 0).col ≠ 0) (h1 : (p.ch 1).col = 0) :
    (∀ e ∈ (dram_all_config p m).tr, writes_msch_timing 1 e = false) ∧
    Event.write Reg.pmugrf_os_reg2 (os_reg2_written p m) ∈ (dram_all_config p m).tr ∧
    (∀ (p2 : rk3399_sdram_params) (m2 : Machine), p2.dramtype = p.dramtype →
      p2.num_channels = p.num_channels → p2.ch 0 = p.ch 0 → (p2.ch 1).col = 0 →
      os_reg2_written p2 m2 = os_reg2_written p m) ∧
    calculate_stride_ch_cap p 1 = some 0 ∧
    (enc_within_channel0 p.dramtype (p.ch 0) →
      bits (os_reg2_written p m) 31 31 = 0 ∧ bits (os_reg2_written p m) 29 29 = 0 ∧
      bits (os_reg2_written p m) 27 16 = 0) := by
  refine ⟨quiet_dram_all_config_single p hn h0 m, (os_reg2_written_run p m).2, ?_,
    calculate_stride_ch_cap_absent p 1 h1, os_reg2_single_channel1_fields p m hn h0⟩
  intro p2 m2 hd2 hn2 hc0 _
  rw [(os_reg2_written_run p2 m2).1, (os_reg2_written_run p m).1,
    sys_reg_of_single p2 (by rw [hn2, hn]) (by rw [hc0]; exact h0),
    sys_reg_of_single p hn h0, hd2, hc0]

/-- Witness of C14: the scenario of the spec (`col = 8` on channel 0), and
for the bits of channel 1 a block with rank 3, 15 columns and 8 banks, whose
encoders stay within the bits of channel 0. -/
theorem absent_channel_skipped_witness :
    (ex_params_col8.num_channels = 1 ∧ (ex_params_col8.ch 0).col = 8 ∧
      (ex_params_col8.ch 1).col = 0) ∧
    (∀ e ∈ (dram_all_config ex_params_col8 ex_machine).tr, writes_msch_timing 1 e = false) ∧
    calculate_stride_ch_cap ex_params_col8 1 = some 0 ∧
    (ex_params_col8_other.ch 1 ≠ ex_params_col8.ch 1 ∧
      os_reg2_written ex_params_col8_other ex_machine
        = os_reg2_written ex_params_col8 ex_machine) ∧
    enc_within_channel0 ex_params_wide.dramtype (ex_params_wide.ch 0) ∧
    ¬ valid_params ex_params_wide ∧
    bits (os_reg2_written ex_params_wide ex_machine) 31 31 = 0 ∧
    bits (os_reg2_written ex_params_wide ex_machine) 29 29 = 0 ∧
    bits (os_reg2_written ex_params_wide ex_machine) 27 16 = 0 := by
  have h8 := absent_channel_skipped ex_params_col8 ex_machine rfl (by decide) rfl
  have hw := (absent_channel_skipped ex_params_wide ex_machine rfl (by decide) rfl).2.2.2.2
    (by decide)
  exact ⟨⟨rfl, rfl, rfl⟩, h8.1, h8.2.2.2.1,
    ⟨by simp [ex_params_col8_other, ex_params_col8, ex_channel_dual, ex_channel_absent],
      h8.2.2.1 ex_params_col8_other ex_machine rfl rfl rfl rfl⟩,
    by decide, by decide, hw.1, hw.2.1, hw.2.2⟩

/-! ### Outcome of one poll in a training phase -/

theorem poll_loop_append_spin {σ α : Type} (body : σ → Poll → M (σ ⊕ α))
    (hb : ∀ s q, Steady (body s q)) :
    ∀ (pre : List Poll) (s : σ) (m : Machine),
      (poll_loop body pre s (withPolls m pre)).st = Status.spin →
      ∃ s1 m1, ∀ rest,
        poll_loop body (pre ++ rest) s (withPolls m (pre ++ rest)) =
          ⟨(poll_loop body rest s1 (withPolls m1 rest)).st,
            (poll_loop body rest s1 (withPolls m1 rest)).m,
            (poll_loop body pre s (withPolls m pre)).tr ++
              (poll_loop body rest s1 (withPolls m1 rest)).tr⟩ := by
  intro pre
  induction pre with
  | nil =>
    intro s m _
    refine ⟨s, m, fun rest => ?_⟩
    simp [poll_loop]
  | cons p ps ih =>
    intro s m h
    rw [poll_loop_cons, withPolls_withPolls] at h
    obtain ⟨hb1, hb3⟩ := hb s p m ps
    rcases hbm : body s p m with ⟨st0, m0, t0⟩
    rw [hbm] at hb1 hb3
    cases st0 with
    | ret r =>
      simp only [] at hb1
      rw [bind_ret hb1] at h
      cases r with
      | inl s1 =>
        simp only [] at h
        obtain ⟨s2, m2, hrest⟩ := ih s1 m0 h
        refine ⟨s2, m2, fun rest => ?_⟩
        obtain ⟨hb2, -⟩ := hb s p m (ps ++ rest)
        rw [hbm] at hb2
        simp only [] at hb2
        rw [List.cons_append, poll_loop_cons, withPolls_withPolls, bind_ret hb2]
        simp only []
        rw [hrest rest, poll_loop_cons, withPolls_withPolls, bind_ret hb1]
        simp [List.append_assoc]
      | inr b => simp [pure_def, M.pure] at h
    | die =>
      rw [bind_stop_eq hb1 (by simp [Status.returned])] at h
      simp [Status.lift] at h
    | reset =>
      rw [bind_stop_eq hb1 (by simp [Status.returned])] at h
      simp [Status.lift] at h
    | hang =>
      rw [bind_stop_eq hb1 (by simp [Status.returned])] at h
      simp [Status.lift] at h
    | undef =>
      rw [bind_stop_eq hb1 (by simp [Status.returned])] at h
      simp [Status.lift] at h
    | spin => simp at hb3

/-- A poll loop that was polling, on one more sample on which its round
decides `d` after the events `reads`. -/
theorem while_poll_react (body : Unit → Poll → M (Unit ⊕ PollStep))
    (hb : ∀ s q, Steady (body s q)) (q : Poll) (d : PollStep) (reads : List Event)
    (hq : ∀ m, body () q m = ⟨Status.ret (poll_answer d), m, reads⟩)
    (m : Machine) (pre : List Poll)
    (hs : (while_poll body () (withPolls m pre)).st = Status.spin) :
    ∃ m1 : Machine,
      (d = PollStep.again →
        while_poll body () (withPolls m (pre ++ q :: [])) =
          ⟨Status.spin, withPolls m1 [], (while_poll body () (withPolls m pre)).tr ++ reads⟩) ∧
      (d ≠ PollStep.again → ∀ post,
        while_poll body () (withPolls m (pre ++ q :: post)) =
          ⟨Status.ret d, withPolls m1 post,
            (while_poll body () (withPolls m pre)).tr ++ reads⟩) := by
  obtain ⟨s1, m1, h⟩ := poll_loop_append_spin body hb pre () m hs
  cases s1
  refine ⟨m1, ?_, ?_⟩
  · intro hd
    subst hd
    show poll_loop body (pre ++ q :: []) () (withPolls m (pre ++ q :: [])) = _
    rw [h (q :: []), poll_loop_cons, withPolls_withPolls, bind_ret (hq (withPolls m1 []))]
    simp [poll_answer, poll_loop, while_poll, withPolls]
  · intro hd post
    show poll_loop body (pre ++ q :: post) () (withPolls m (pre ++ q :: post)) = _
    rw [h (q :: post), poll_loop_cons, withPolls_withPolls, bind_ret (hq (withPolls m1 post))]
    cases d with
    | again => exact absurd rfl hd
    | done => simp [poll_answer, pure_def, M.pure, while_poll, withPolls]
    | fail => simp [poll_answer, pure_def, M.pure, while_poll, withPolls]

theorem Outcome_prefix {reads : List Event} {ack : Event} {d : PollStep} {t0 : List Event}
    {run : List Poll → Res Int} (t1 : List Event) (run2 : List Poll → Res Int)
    (h : Outcome reads ack d t0 run)
    (h2 : ∀ post, (run2 post).st = (run post).st ∧ (run2 post).m = (run post).m ∧
      (run2 post).tr = t1 ++ (run post).tr) :
    Outcome reads ack d (t1 ++ t0) run2 := by
  cases d with
  | again =>
    obtain ⟨g1, g2⟩ := h
    obtain ⟨k1, -, k3⟩ := h2 []
    exact ⟨by rw [k1]; exact g1, by rw [k3, g2, List.append_assoc]⟩
  | fail =>
    intro post
    obtain ⟨g1, g2, g3⟩ := h post
    obtain ⟨k1, k2, k3⟩ := h2 post
    exact ⟨by rw [k1]; exact g1, by rw [k2]; exact g2, by rw [k3, g3, List.append_assoc]⟩
  | done =>
    obtain ⟨g1, rest, g2⟩ := h
    obtain ⟨k1, -, k3⟩ := h2 []
    exact ⟨by rw [k1]; exact g1, rest, by rw [k3, g2]; simp [List.append_assoc]⟩

theorem PollReacts_of_Steady {x : M Int} {q : Poll} {reads : List Event} {ack : Event}
    {d : PollStep} (h : Steady x) : PollReacts x q reads ack d := by
  intro m pre hs
  have h1 := h m pre
  rw [h1.1] at hs
  exact absurd hs h1.2

theorem PollReacts_bind_steady {α : Type} {a : M α} {f : α → M Int} {q : Poll}
    {reads : List Event} {ack : Event} {d : PollStep}
    (ha : Steady a) (hf : ∀ v, PollReacts (f v) q reads ack d) :
    PollReacts (a >>= f) q reads ack d := by
  intro m pre hs
  obtain ⟨h1, h3⟩ := ha m pre
  rcases ham : a m with ⟨st, m1, t1⟩
  rw [ham] at h1 h3
  cases st with
  | ret v =>
    simp only [] at h1
    rw [bind_ret h1] at hs ⊢
    simp only [] at hs ⊢
    refine Outcome_prefix t1 _ (hf v m1 pre hs) (fun post => ?_)
    obtain ⟨h2, -⟩ := ha m (pre ++ q :: post)
    rw [ham] at h2
    simp only [] at h2
    rw [bind_ret h2]
    exact ⟨rfl, rfl, rfl⟩
  | die => rw [bind_stop_eq h1 (by simp [Status.returned])] at hs; simp [Status.lift] at hs
  | reset => rw [bind_stop_eq h1 (by simp [Status.returned])] at hs; simp [Status.lift] at hs
  | hang => rw [bind_stop_eq h1 (by simp [Status.returned])] at hs; simp [Status.lift] at hs
  | undef => rw [bind_stop_eq h1 (by simp [Status.returned])] at hs; simp [Status.lift] at hs
  | spin => simp at h3

/-- The pattern of every rank loop: wait in the polling loop; on `fail`
return -1, otherwise go on with `rest`, which starts with the
acknowledgement. -/
theorem PollReacts_wait {body : Unit → Poll → M (Unit ⊕ PollStep)} {rest : M Int} {q : Poll}
    {reads : List Event} {ack : Event} {d : PollStep}
    (hb : ∀ s q, Steady (body s q))
    (hq : ∀ m, body () q m = ⟨Status.ret (poll_answer d), m, reads⟩)
    (hrest : PollReacts rest q reads ack d) (hack : AckFirst ack rest) :
    PollReacts (while_poll body () >>= fun w => if w = PollStep.fail then pure (-1) else rest)
      q reads ack d := by
  intro m pre hs
  rcases hw : while_poll body () (withPolls m pre) with ⟨st, m1, t1⟩
  cases st with
  | ret w =>
    rw [bind_ret hw] at hs ⊢
    simp only [] at hs ⊢
    by_cases hwf : w = PollStep.fail
    · rw [if_pos hwf] at hs; simp [pure_def, M.pure] at hs
    · rw [if_neg hwf] at hs ⊢
      have hr := hrest m1 m1.polls (by rw [withPolls_self]; exact hs)
      rw [withPolls_self] at hr
      refine Outcome_prefix t1 _ hr (fun post => ?_)
      have hm := Mono_while_poll body hb () m pre (q :: post) (by rw [hw]; simp)
      rw [hw] at hm
      simp only [] at hm
      rw [bind_ret hm, if_neg hwf]
      exact ⟨rfl, rfl, rfl⟩
  | spin =>
    obtain ⟨m2, ha, hd⟩ := while_poll_react body hb q d reads hq m pre (by rw [hw])
    rw [hw] at ha hd
    simp only [] at ha hd
    rw [bind_stop_eq hw (by simp [Status.returned])]
    simp only []
    cases d with
    | again =>
      have h1 := ha rfl
      simp only [Outcome, PollsAgain]
      rw [bind_stop_eq h1 (by simp [Status.returned])]
      exact ⟨rfl, rfl⟩
    | fail =>
      intro post
      have h1 := hd (by simp) post
      simp only []
      rw [bind_ret h1]
      simp [pure_def, M.pure, withPolls]
    | done =>
      have h1 := hd (by simp) []
      simp only [Outcome, FinishesRank]
      rw [bind_ret h1]
      simp only [show ¬ (PollStep.done = PollStep.fail) by decide, if_false]
      obtain ⟨k1, t, k2⟩ := hack (withPolls m2 []) rfl
      exact ⟨k1, t, by rw [k2]⟩
  | die => rw [bind_stop_eq hw (by simp [Status.returned])] at hs; simp [Status.lift] at hs
  | reset => rw [bind_stop_eq hw (by simp [Status.returned])] at hs; simp [Status.lift] at hs
  | hang => rw [bind_stop_eq hw (by simp [Status.returned])] at hs; simp [Status.lift] at hs
  | undef => rw [bind_stop_eq hw (by simp [Status.returned])] at hs; simp [Status.lift] at hs

/-- The tail of every training phase: a non-zero result of the rank loop is
returned as it is, otherwise the clean-up runs and 0 is returned. -/
theorem PollReacts_tail {x cleanup : M Int} {q : Poll} {reads : List Event} {ack : Event}
    {d : PollStep} (hx : PollReacts x q reads ack d) (hc : Steady cleanup)
    (hc0 : ∀ m, (cleanup m).st = Status.ret 0) :
    PollReacts (x >>= fun r => if r ≠ 0 then pure r else cleanup) q reads ack d := by
  intro m pre hs
  rcases hxm : x (withPolls m pre) with ⟨st, m1, t1⟩
  cases st with
  | ret r =>
    rw [bind_ret hxm] at hs
    simp only [] at hs
    have hst : Steady (if r ≠ 0 then (pure r : M Int) else cleanup) :=
      Steady_ite _ (Steady_pure r) hc
    exact absurd hs (hst m1 m1.polls).2
  | spin =>
    have ho := hx m pre (by rw [hxm])
    rw [hxm] at ho
    simp only [] at ho
    rw [bind_stop_eq hxm (by simp [Status.returned])]
    simp only []
    cases d with
    | again =>
      obtain ⟨g1, g2⟩ := ho
      simp only [] at g1 g2
      rcases hx2 : x (withPolls m (pre ++ q :: [])) with ⟨st2, m2, t2⟩
      rw [hx2] at g1 g2
      simp only [] at g1 g2
      subst g1
      simp only [Outcome, PollsAgain]
      rw [bind_stop_eq hx2 (by simp [Status.returned])]
      exact ⟨rfl, g2⟩
    | fail =>
      intro post
      obtain ⟨g1, g2, g3⟩ := ho post
      simp only [] at g1 g2 g3 ⊢
      rcases hx2 : x (withPolls m (pre ++ q :: post)) with ⟨st2, m2, t2⟩
      rw [hx2] at g1 g2 g3
      simp only [] at g1 g2 g3
      subst g1
      rw [bind_ret hx2]
      simp [pure_def, M.pure, g2, g3]
    | done =>
      obtain ⟨g1, rest, g2⟩ := ho
      simp only [] at g1 g2
      rcases hx2 : x (withPolls m (pre ++ q :: [])) with ⟨st2, m2, t2⟩
      rw [hx2] at g1 g2
      simp only [] at g1 g2
      simp only [Outcome, FinishesRank]
      rcases g1 with g1 | g1
      · subst g1
        rw [bind_stop_eq hx2 (by simp [Status.returned])]
        exact ⟨Or.inl rfl, rest, g2⟩
      · subst g1
        rw [bind_ret hx2]
        simp only [ne_eq, not_true_eq_false, if_false]
        refine ⟨Or.inr (hc0 m2), rest ++ (cleanup m2).tr, ?_⟩
        rw [g2]
        simp [List.append_assoc]
  | die => rw [bind_stop_eq hxm (by simp [Status.returned])] at hs; simp [Status.lift] at hs
  | reset => rw [bind_stop_eq hxm (by simp [Status.returned])] at hs; simp [Status.lift] at hs
  | hang => rw [bind_stop_eq hxm (by simp [Status.returned])] at hs; simp [Status.lift] at hs
  | undef => rw [bind_stop_eq hxm (by simp [Status.returned])] at hs; simp [Status.lift] at hs

theorem Idle_pure_zero : Idle (pure 0 : M Int) := by
  intro m _; exact Or.inr rfl

theorem Idle_bind_steady {α : Type} {a : M α} {f : α → M Int} (ha : Steady a)
    (hr : Returns a) (hf : ∀ v, Idle (f v)) : Idle (a >>= f) := by
  intro m hm
  have h1 := hr m
  have hp := Steady.polls ha m
  rcases ham : a m with ⟨st, m1, t1⟩
  rw [ham] at h1 hp
  cases st with
  | ret v =>
    rw [bind_ret ham]
    exact hf v m1 (by rw [← hm]; exact hp)
  | die | reset | hang | undef | spin => simp [Status.returned] at h1

theorem Idle_wait {body : Unit → Poll → M (Unit ⊕ PollStep)} {f : PollStep → M Int} :
    Idle (while_poll body () >>= f) := by
  intro m hm
  have hw : while_poll body () m = ⟨Status.spin, m, []⟩ := by
    unfold while_poll
    rw [hm]
    rfl
  rw [bind_stop_eq hw (by simp [Status.returned])]
  exact Or.inl rfl

theorem AckFirst_write32 (r : Reg) (v : Nat) (hv : u32 v = v) {x : M Int} (hx : Idle x) :
    AckFirst (Event.write r v) (write32 r v >>= fun _ => x) := by
  intro m hm
  rw [bind_ret (write32_run r v m)]
  simp only []
  rw [hv]
  exact ⟨hx _ hm, _, rfl⟩

/-- The three behaviours exclude one another, so each goes with one
decision only. -/
theorem Outcome_iff {reads : List Event} {ack : Event} {d : PollStep} {t0 : List Event}
    {run : List Poll → Res Int} (h : Outcome reads ack d t0 run) :
    (FinishesRank reads ack t0 run ↔ d = PollStep.done) ∧
    (ReturnsFail reads t0 run ↔ d = PollStep.fail) ∧
    (PollsAgain reads t0 run ↔ d = PollStep.again) := by
  have hlen : ∀ rest : List Event, t0 ++ reads ≠ t0 ++ reads ++ ack :: rest := by
    intro rest he
    have := congrArg List.length he
    simp at this
  cases d with
  | again =>
    obtain ⟨g1, g2⟩ := h
    refine ⟨⟨?_, by simp⟩, ⟨?_, by simp⟩, ⟨fun _ => rfl, fun _ => ⟨g1, g2⟩⟩⟩
    · rintro ⟨-, rest, k⟩
      rw [g2] at k
      exact absurd k (hlen rest)
    · intro k
      have := (k []).1
      rw [g1] at this
      cases this
  | fail =>
    have g := h []
    refine ⟨⟨?_, by simp⟩, ⟨fun _ => rfl, fun _ => h⟩, ⟨?_, by simp⟩⟩
    · rintro ⟨k | k, -⟩
      · rw [g.1] at k; cases k
      · rw [g.1] at k; simp at k
    · rintro ⟨k, -⟩
      rw [g.1] at k
      cases k
  | done =>
    obtain ⟨g1, rest, g2⟩ := h
    refine ⟨⟨fun _ => rfl, fun _ => ⟨g1, rest, g2⟩⟩, ⟨?_, by simp⟩, ⟨?_, by simp⟩⟩
    · intro k
      have k1 := (k []).1
      rcases g1 with g1 | g1
      · rw [g1] at k1; cases k1
      · rw [g1] at k1; simp at k1
    · rintro ⟨-, k⟩
      rw [g2] at k
      exact absurd k.symm (hlen rest)

theorem Steady_data_training_rl_poll (channel : Nat) (s : Unit) (q : Poll) :
    Steady (data_training_rl_poll channel s q) := by
  unfold data_training_rl_poll
  exact Steady_bind (Steady_pollread _ _) (fun _ => Steady_pure _)

theorem Steady_data_training_wdql_poll (channel : Nat) (s : Unit) (q : Poll) :
    Steady (data_training_wdql_poll channel s q) := by
  unfold data_training_wdql_poll
  exact Steady_bind (Steady_pollread _ _) (fun _ => Steady_pure _)

theorem ret_zero_bind {α : Type} {a : M α} {f : α → M Int} (ha : Returns a)
    (hf : ∀ v m, (f v m).st = Status.ret 0) : ∀ m, ((a >>= f) m).st = Status.ret 0 := by
  intro m
  have h1 := ha m
  rcases ham : a m with ⟨st, m1, t1⟩
  rw [ham] at h1
  cases st with
  | ret v => rw [bind_ret ham]; exact hf v m1
  | die | reset | hang | undef | spin => simp [Status.returned] at h1

theorem ret_zero_pure (m : Machine) : ((pure 0 : M Int) m).st = Status.ret 0 := rfl

/-- One round of the poll loop of `data_training_ca` on a sample without observation fault: the
reads and the decision. -/
theorem data_training_ca_poll_reads (channel : Nat) (q : Poll) (hq : ¬ ca_obs_fault channel q) (m : Machine) :
    data_training_ca_poll channel () q m =
      ⟨Status.ret (poll_answer (training_status (poll_status channel q) 11 13 5)), m,
        poll_reads channel [532, 660, 788]⟩ := by
  have h := data_training_ca_poll_round channel q hq m
  have ht : (data_training_ca_poll channel () q m).tr = poll_reads channel [532, 660, 788] := by
    simp [data_training_ca_poll, bind_def, pure_def, M.bind, pollread, poll_reads]
  rw [ht] at h
  exact h

theorem Idle_data_training_ca_ranks (channel rank_mask : Nat) :
    ∀ todo i, Idle (data_training_ca_ranks channel rank_mask todo i) := by
  intro todo
  induction todo with
  | zero => intro i; exact Idle_pure_zero
  | succ k ih =>
    intro i
    unfold data_training_ca_ranks
    split_ifs
    · exact ih _
    · refine Idle_bind_steady (Steady_select_per_cs_training_index _ _) (Returns_select_per_cs_training_index _ _) (fun _ => ?_)
      refine Idle_bind_steady (Steady_clrsetbits32 _ _ _) (Returns_clrsetbits32 _ _ _) (fun _ => ?_)
      refine Idle_bind_steady (Steady_clrsetbits32 _ _ _) (Returns_clrsetbits32 _ _ _) (fun _ => ?_)
      exact Idle_wait

theorem PollReacts_data_training_ca_ranks (channel rank_mask : Nat) (q : Poll) (d : PollStep)
    (reads : List Event)
    (hq : ∀ m, data_training_ca_poll channel () q m = ⟨Status.ret (poll_answer d), m, reads⟩) :
    ∀ todo i, PollReacts (data_training_ca_ranks channel rank_mask todo i) q reads (rank_ack channel) d := by
  intro todo
  induction todo with
  | zero => intro i; exact PollReacts_of_Steady (Steady_pure _)
  | succ k ih =>
    intro i
    unfold data_training_ca_ranks
    split_ifs
    · exact ih _
    · refine PollReacts_bind_steady (Steady_select_per_cs_training_index _ _) (fun _ => ?_)
      refine PollReacts_bind_steady (Steady_clrsetbits32 _ _ _) (fun _ => ?_)
      refine PollReacts_bind_steady (Steady_clrsetbits32 _ _ _) (fun _ => ?_)
      refine PollReacts_wait (Steady_data_training_ca_poll channel) hq ?_ ?_
      · exact PollReacts_bind_steady (Steady_write32 _ _) (fun _ => ih _)
      · exact AckFirst_write32 _ _ rfl (Idle_data_training_ca_ranks _ _ _ _)

/-- One round of the poll loop of `data_training_wl` on a sample without observation fault: the
reads and the decision. -/
theorem data_training_wl_poll_reads (channel : Nat) (q : Poll) (hq : ¬ wl_obs_fault channel q) (m : Machine) :
    data_training_wl_poll channel () q m =
      ⟨Status.ret (poll_answer (training_status (poll_status channel q) 10 13 4)), m,
        poll_reads channel [40, 168, 296, 424]⟩ := by
  have h := data_training_wl_poll_round channel q hq m
  have ht : (data_training_wl_poll channel () q m).tr = poll_reads channel [40, 168, 296, 424] := by
    simp [data_training_wl_poll, bind_def, pure_def, M.bind, pollread, poll_reads]
  rw [ht] at h
  exact h

theorem Idle_data_training_wl_ranks (channel : Nat) :
    ∀ todo i, Idle (data_training_wl_ranks channel todo i) := by
  intro todo
  induction todo with
  | zero => intro i; exact Idle_pure_zero
  | succ k ih =>
    intro i
    unfold data_training_wl_ranks
    refine Idle_bind_steady (Steady_select_per_cs_training_index _ _) (Returns_select_per_cs_training_index _ _) (fun _ => ?_)
    refine Idle_bind_steady (Steady_clrsetbits32 _ _ _) (Returns_clrsetbits32 _ _ _) (fun _ => ?_)
    refine Idle_bind_steady (Steady_clrsetbits32 _ _ _) (Returns_clrsetbits32 _ _ _) (fun _ => ?_)
    exact Idle_wait

theorem PollReacts_data_training_wl_ranks (channel : Nat) (q : Poll) (d : PollStep)
    (reads : List Event)
    (hq : ∀ m, data_training_wl_poll channel () q m = ⟨Status.ret (poll_answer d), m, reads⟩) :
    ∀ todo i, PollReacts (data_training_wl_ranks channel todo i) q reads (rank_ack channel) d := by
  intro todo
  induction todo with
  | zero => intro i; exact PollReacts_of_Steady (Steady_pure _)
  | succ k ih =>
    intro i
    unfold data_training_wl_ranks
    refine PollReacts_bind_steady (Steady_select_per_cs_training_index _ _) (fun _ => ?_)
    refine PollReacts_bind_steady (Steady_clrsetbits32 _ _ _) (fun _ => ?_)
    refine PollReacts_bind_steady (Steady_clrsetbits32 _ _ _) (fun _ => ?_)
    refine PollReacts_wait (Steady_data_training_wl_poll channel) hq ?_ ?_
    · exact PollReacts_bind_steady (Steady_write32 _ _) (fun _ => ih _)
    · exact AckFirst_write32 _ _ rfl (Idle_data_training_wl_ranks _ _ _)

/-- One round of the poll loop of `data_training_rg` on a sample without observation fault: the
reads and the decision. -/
theorem data_training_rg_poll_reads (channel : Nat) (q : Poll) (hq : ¬ rg_obs_fault channel q) (m : Machine) :
    data_training_rg_poll channel () q m =
      ⟨Status.ret (poll_answer (training_status (poll_status channel q) 9 13 3)), m,
        poll_reads channel [43, 171, 299, 427]⟩ := by
  have h := data_training_rg_poll_round channel q hq m
  have ht : (data_training_rg_poll channel () q m).tr = poll_reads channel [43, 171, 299, 427] := by
    simp [data_training_rg_poll, bind_def, pure_def, M.bind, pollread, poll_reads]
  rw [ht] at h
  exact h

theorem Idle_data_training_rg_ranks (channel : Nat) :
    ∀ todo i, Idle (data_training_rg_ranks channel todo i) := by
  intro todo
  induction todo with
  | zero => intro i; exact Idle_pure_zero
  | succ k ih =>
    intro i
    unfold data_training_rg_ranks
    refine Idle_bind_steady (Steady_select_per_cs_training_index _ _) (Returns_select_per_cs_training_index _ _) (fun _ => ?_)
    refine Idle_bind_steady (Steady_clrsetbits32 _ _ _) (Returns_clrsetbits32 _ _ _) (fun _ => ?_)
    refine Idle_bind_steady (Steady_clrsetbits32 _ _ _) (Returns_clrsetbits32 _ _ _) (fun _ => ?_)
    exact Idle_wait

theorem PollReacts_data_training_rg_ranks (channel : Nat) (q : Poll) (d : PollStep)
    (reads : List Event)
    (hq : ∀ m, data_training_rg_poll channel () q m = ⟨Status.ret (poll_answer d), m, reads⟩) :
    ∀ todo i, PollReacts (data_training_rg_ranks channel todo i) q reads (rank_ack channel) d := by
  intro todo
  induction todo with
  | zero => intro i; exact PollReacts_of_Steady (Steady_pure _)
  | succ k ih =>
    intro i
    unfold data_training_rg_ranks
    refine PollReacts_bind_steady (Steady_select_per_cs_training_index _ _) (fun _ => ?_)
    refine PollReacts_bind_steady (Steady_clrsetbits32 _ _ _) (fun _ => ?_)
    refine PollReacts_bind_steady (Steady_clrsetbits32 _ _ _) (fun _ => ?_)
    refine PollReacts_wait (Steady_data_training_rg_poll channel) hq ?_ ?_
    · exact PollReacts_bind_steady (Steady_write32 _ _) (fun _ => ih _)
    · exact AckFirst_write32 _ _ rfl (Idle_data_training_rg_ranks _ _ _)

/-- One round of the poll loop of `data_training_rl` on a sample: the
reads and the decision. -/
theorem data_training_rl_poll_reads (channel : Nat) (q : Poll) (m : Machine) :
    data_training_rl_poll channel () q m =
      ⟨Status.ret (poll_answer (training_status (poll_status channel q) 8 13 2)), m,
        poll_reads channel []⟩ := by
  have h := data_training_rl_poll_round channel q m
  have ht : (data_training_rl_poll channel () q m).tr = poll_reads channel [] := by
    simp [data_training_rl_poll, bind_def, pure_def, M.bind, pollread, poll_reads]
  rw [ht] at h
  exact h

theorem Idle_data_training_rl_ranks (channel : Nat) :
    ∀ todo i, Idle (data_training_rl_ranks channel todo i) := by
  intro todo
  induction todo with
  | zero => intro i; exact Idle_pure_zero
  | succ k ih =>
    intro i
    unfold data_training_rl_ranks
    refine Idle_bind_steady (Steady_select_per_cs_training_index _ _) (Returns_select_per_cs_training_index _ _) (fun _ => ?_)
    refine Idle_bind_steady (Steady_clrsetbits32 _ _ _) (Returns_clrsetbits32 _ _ _) (fun _ => ?_)
    refine Idle_bind_steady (Steady_clrsetbits32 _ _ _) (Returns_clrsetbits32 _ _ _) (fun _ => ?_)
    exact Idle_wait

theorem PollReacts_data_training_rl_ranks (channel : Nat) (q : Poll) (d : PollStep)
    (reads : List Event)
    (hq : ∀ m, data_training_rl_poll channel () q m = ⟨Status.ret (poll_answer d), m, reads⟩) :
    ∀ todo i, PollReacts (data_training_rl_ranks channel todo i) q reads (rank_ack channel) d := by
  intro todo
  induction todo with
  | zero => intro i; exact PollReacts_of_Steady (Steady_pure _)
  | succ k ih =>
    intro i
    unfold data_training_rl_ranks
    refine PollReacts_bind_steady (Steady_select_per_cs_training_index _ _) (fun _ => ?_)
    refine PollReacts_bind_steady (Steady_clrsetbits32 _ _ _) (fun _ => ?_)
    refine PollReacts_bind_steady (Steady_clrsetbits32 _ _ _) (fun _ => ?_)
    refine PollReacts_wait (Steady_data_training_rl_poll channel) hq ?_ ?_
    · exact PollReacts_bind_steady (Steady_write32 _ _) (fun _ => ih _)
    · exact AckFirst_write32 _ _ rfl (Idle_data_training_rl_ranks _ _ _)

/-- One round of the poll loop of `data_training_wdql` on a sample: the
reads and the decision. -/
theorem data_training_wdql_poll_reads (channel : Nat) (q : Poll) (m : Machine) :
    data_training_wdql_poll channel () q m =
      ⟨Status.ret (poll_answer (training_status (poll_status channel q) 12 13 6)), m,
        poll_reads channel []⟩ := by
  have h := data_training_wdql_poll_round channel q m
  have ht : (data_training_wdql_poll channel () q m).tr = poll_reads channel [] := by
    simp [data_training_wdql_poll, bind_def, pure_def, M.bind, pollread, poll_reads]
  rw [ht] at h
  exact h

theorem Idle_data_training_wdql_ranks (channel rank_mask : Nat) :
    ∀ todo i, Idle (data_training_wdql_ranks channel rank_mask todo i) := by
  intro todo
  induction todo with
  | zero => intro i; exact Idle_pure_zero
  | succ k ih =>
    intro i
    unfold data_training_wdql_ranks
    split_ifs
    · exact ih _
    · refine Idle_bind_steady (Steady_select_per_cs_training_index _ _) (Returns_select_per_cs_training_index _ _) (fun _ => ?_)
      refine Idle_bind_steady (Steady_clrbits32 _ _) (Returns_clrsetbits32 _ _ _) (fun _ => ?_)
      refine Idle_bind_steady (Steady_clrsetbits32 _ _ _) (Returns_clrsetbits32 _ _ _) (fun _ => ?_)
      refine Idle_bind_steady (Steady_clrsetbits32 _ _ _) (Returns_clrsetbits32 _ _ _) (fun _ => ?_)
      exact Idle_wait

theorem PollReacts_data_training_wdql_ranks (channel rank_mask : Nat) (q : Poll) (d : PollStep)
    (reads : List Event)
    (hq : ∀ m, data_training_wdql_poll channel () q m = ⟨Status.ret (poll_answer d), m, reads⟩) :
    ∀ todo i, PollReacts (data_training_wdql_ranks channel rank_mask todo i) q reads (rank_ack channel) d := by
  intro todo
  induction todo with
  | zero => intro i; exact PollReacts_of_Steady (Steady_pure _)
  | succ k ih =>
    intro i
    unfold data_training_wdql_ranks
    split_ifs
    · exact ih _
    · refine PollReacts_bind_steady (Steady_select_per_cs_training_index _ _) (fun _ => ?_)
      refine PollReacts_bind_steady (Steady_clrbits32 _ _) (fun _ => ?_)
      refine PollReacts_bind_steady (Steady_clrsetbits32 _ _ _) (fun _ => ?_)
      refine PollReacts_bind_steady (Steady_clrsetbits32 _ _ _) (fun _ => ?_)
      refine PollReacts_wait (Steady_data_training_wdql_poll channel) hq ?_ ?_
      · exact PollReacts_bind_steady (Steady_write32 _ _) (fun _ => ih _)
      · exact AckFirst_write32 _ _ rfl (Idle_data_training_wdql_ranks _ _ _ _)

theorem PollReacts_data_training_ca (channel : Nat) (params : rk3399_sdram_params) (q : Poll)
    (d : PollStep) (reads : List Event)
    (hq : ∀ m, data_training_ca_poll channel () q m = ⟨Status.ret (poll_answer d), m, reads⟩) :
    PollReacts (data_training_ca channel params) q reads (rank_ack channel) d := by
  unfold data_training_ca
  refine PollReacts_bind_steady (Steady_write32 _ _) (fun _ => ?_)
  exact PollReacts_tail (PollReacts_data_training_ca_ranks _ _ q d reads hq _ _)
    (Steady_bind (Steady_clrbits32 _ _) (fun _ => Steady_pure _))
    (ret_zero_bind (Returns_clrsetbits32 _ _ _) (fun _ => ret_zero_pure))

theorem PollReacts_data_training_wl (channel : Nat) (params : rk3399_sdram_params) (q : Poll)
    (d : PollStep) (reads : List Event)
    (hq : ∀ m, data_training_wl_poll channel () q m = ⟨Status.ret (poll_answer d), m, reads⟩) :
    PollReacts (data_training_wl channel params) q reads (rank_ack channel) d := by
  unfold data_training_wl
  have hs := Steady_override_write_leveling_value channel
  have hr := Returns_override_write_leveling_value channel
  generalize override_write_leveling_value channel = ov at hs hr ⊢
  refine PollReacts_bind_steady (Steady_write32 _ _) (fun _ => ?_)
  have hc : Steady (ov >>= fun _ => clrbits32 (Reg.denali_pi channel 60) (0x3 <<< 8) >>=
      fun _ => (pure 0 : M Int)) :=
    Steady_bind hs (fun _ => Steady_bind (Steady_clrbits32 _ _) (fun _ => Steady_pure _))
  have hc0 : ∀ m, ((ov >>= fun _ => clrbits32 (Reg.denali_pi channel 60) (0x3 <<< 8) >>=
      fun _ => (pure 0 : M Int)) m).st = Status.ret 0 :=
    ret_zero_bind hr (fun _ => ret_zero_bind (Returns_clrsetbits32 _ _ _) (fun _ => ret_zero_pure))
  exact PollReacts_tail (PollReacts_data_training_wl_ranks _ q d reads hq _ _) hc hc0

theorem PollReacts_data_training_rg (channel : Nat) (params : rk3399_sdram_params) (q : Poll)
    (d : PollStep) (reads : List Event)
    (hq : ∀ m, data_training_rg_poll channel () q m = ⟨Status.ret (poll_answer d), m, reads⟩) :
    PollReacts (data_training_rg channel params) q reads (rank_ack channel) d := by
  unfold data_training_rg
  have hs := Steady_data_training_rg_save channel params
  have hs2 := Steady_data_training_rg_restore channel params
  have hr2 := Returns_data_training_rg_restore channel params
  generalize data_training_rg_save channel params = save at hs ⊢
  generalize data_training_rg_restore channel params = restore at hs2 hr2 ⊢
  refine PollReacts_bind_steady hs (fun v => ?_)
  refine PollReacts_bind_steady (Steady_write32 _ _) (fun _ => ?_)
  have hc : Steady (clrbits32 (Reg.denali_pi channel 80) (0x3 <<< 24) >>= fun _ =>
      restore v >>= fun _ => (pure 0 : M Int)) :=
    Steady_bind (Steady_clrbits32 _ _) (fun _ => Steady_bind (hs2 v) (fun _ => Steady_pure _))
  have hc0 : ∀ m, ((clrbits32 (Reg.denali_pi channel 80) (0x3 <<< 24) >>= fun _ =>
      restore v >>= fun _ => (pure 0 : M Int)) m).st = Status.ret 0 :=
    ret_zero_bind (Returns_clrsetbits32 _ _ _) (fun _ =>
      ret_zero_bind (hr2 v) (fun _ => ret_zero_pure))
  exact PollReacts_tail (PollReacts_data_training_rg_ranks _ q d reads hq _ _) hc hc0

theorem PollReacts_data_training_rl (channel : Nat) (params : rk3399_sdram_params) (q : Poll)
    (d : PollStep) (reads : List Event)
    (hq : ∀ m, data_training_rl_poll channel () q m = ⟨Status.ret (poll_answer d), m, reads⟩) :
    PollReacts (data_training_rl channel params) q reads (rank_ack channel) d := by
  unfold data_training_rl
  refine PollReacts_bind_steady (Steady_write32 _ _) (fun _ => ?_)
  exact PollReacts_tail (PollReacts_data_training_rl_ranks _ q d reads hq _ _)
    (Steady_bind (Steady_clrbits32 _ _) (fun _ => Steady_pure _))
    (ret_zero_bind (Returns_clrsetbits32 _ _ _) (fun _ => ret_zero_pure))

theorem PollReacts_data_training_wdql (channel : Nat) (params : rk3399_sdram_params) (q : Poll)
    (d : PollStep) (reads : List Event)
    (hq : ∀ m, data_training_wdql_poll channel () q m = ⟨Status.ret (poll_answer d), m, reads⟩) :
    PollReacts (data_training_wdql channel params) q reads (rank_ack channel) d := by
  unfold data_training_wdql
  refine PollReacts_bind_steady (Steady_write32 _ _) (fun _ => ?_)
  exact PollReacts_tail (PollReacts_data_training_wdql_ranks _ _ q d reads hq _ _)
    (Steady_bind (Steady_clrbits32 _ _) (fun _ => Steady_pure _))
    (ret_zero_bind (Returns_clrsetbits32 _ _ _) (fun _ => ret_zero_pure))

/-- From the behaviour that goes with the decision of the round to the
outcome in terms of the status bits. -/
theorem PerPollOutcome_of_Outcome {x : M Int} {channel : Nat} {obs : List Nat} {s1 s2 e : Nat}
    {m : Machine} {pre : List Poll} {q : Poll}
    (h : Outcome (poll_reads channel obs) (rank_ack channel)
      (training_status (poll_status channel q) s1 s2 e) (x (withPolls m pre)).tr
      (fun post => x (withPolls m (pre ++ q :: post)))) :
    PerPollOutcome x channel obs s1 s2 e m pre q := by
  obtain ⟨h1, h2, h3⟩ := Outcome_iff h
  obtain ⟨c1, c2, c3⟩ := training_status_cases (poll_status channel q) s1 s2 e
  exact ⟨h1.trans c1, h2.trans c2, h3.trans c3⟩

/-- C16: per-poll outcome of each training phase.  Let a run of the phase
function be polling after the samples `pre`, let `q` be the next sample,
`s = PI_174 >> 8` of `q`, and let `q` show no observation fault.  Then the
phase finishes the current rank (it leaves the poll loop after the reads of
the round and executes the acknowledgement that follows the loop) if and
only if both success bits of `s` are set and the error bit is clear; it
returns -1 at that sample if and only if the error bit is set; and it polls
again (nothing but the reads of the round happens and it waits for the next
sample) if and only if neither holds.  The (success, success, error) bits
are (11, 13, 5) for CA, (10, 13, 4) for write leveling, (9, 13, 3) for read
gate, (8, 13, 2) for read leveling and (12, 13, 6) for WDQ leveling. -/
theorem training_poll_outcome (channel : Nat) (params : rk3399_sdram_params) (m : Machine)
    (pre : List Poll) (q : Poll) :
    ((data_training_ca channel params (withPolls m pre)).st = Status.spin →
      ¬ ca_obs_fault channel q →
      PerPollOutcome (data_training_ca channel params) channel [532, 660, 788] 11 13 5
        m pre q) ∧
    ((data_training_wl channel params (withPolls m pre)).st = Status.spin →
      ¬ wl_obs_fault channel q →
      PerPollOutcome (data_training_wl channel params) channel [40, 168, 296, 424] 10 13 4
        m pre q) ∧
    ((data_training_rg channel params (withPolls m pre)).st = Status.spin →
      ¬ rg_obs_fault channel q →
      PerPollOutcome (data_training_rg channel params) channel [43, 171, 299, 427] 9 13 3
        m pre q) ∧
    ((data_training_rl channel params (withPolls m pre)).st = Status.spin →
      PerPollOutcome (data_training_rl channel params) channel [] 8 13 2 m pre q) ∧
    ((data_training_wdql channel params (withPolls m pre)).st = Status.spin →
      PerPollOutcome (data_training_wdql channel params) channel [] 12 13 6 m pre q) := by
  refine ⟨fun hs hq => ?_, fun hs hq => ?_, fun hs hq => ?_, fun hs => ?_, fun hs => ?_⟩
  · exact PerPollOutcome_of_Outcome (PollReacts_data_training_ca channel params q _ _
      (data_training_ca_poll_reads channel q hq) m pre hs)
  · exact PerPollOutcome_of_Outcome (PollReacts_data_training_wl channel params q _ _
      (data_training_wl_poll_reads channel q hq) m pre hs)
  · exact PerPollOutcome_of_Outcome (PollReacts_data_training_rg channel params q _ _
      (data_training_rg_poll_reads channel q hq) m pre hs)
  · exact PerPollOutcome_of_Outcome (PollReacts_data_training_rl channel params q _ _
      (data_training_rl_poll_reads channel q) m pre hs)
  · exact PerPollOutcome_of_Outcome (PollReacts_data_training_wdql channel params q _ _
      (data_training_wdql_poll_reads channel q) m pre hs)

/-- Witness of C16: CA training of the single-rank DDR3 example polls for
rank 0 when it has no sample.  On a sample with the success bits it
acknowledges and returns 0; on a sample with the error bit it returns -1; on
a sample with neither it waits for the next one. -/
theorem training_poll_outcome_witness :
    (data_training_ca 0 ex_params_single (withPolls ex_machine [])).st = Status.spin ∧
    (status_success (poll_status 0 ex_poll_success) 11 13 5 ∧
      FinishesRank (poll_reads 0 [532, 660, 788]) (rank_ack 0)
        (data_training_ca 0 ex_params_single (withPolls ex_machine [])).tr
        (fun post =>
          data_training_ca 0 ex_params_single (withPolls ex_machine ([] ++ ex_poll_success :: post)))) ∧
    (status_error (poll_status 0 ex_poll_error) 5 ∧
      (data_training_ca 0 ex_params_single
        (withPolls ex_machine ([] ++ ex_poll_error :: [ex_poll_success]))).st = Status.ret (-1) ∧
      (data_training_ca 0 ex_params_single
        (withPolls ex_machine ([] ++ ex_poll_error :: [ex_poll_success]))).m.polls
          = [ex_poll_success]) ∧
    ((¬ status_success (poll_status 0 ex_poll_idle) 11 13 5 ∧
        ¬ status_error (poll_status 0 ex_poll_idle) 5) ∧
      (data_training_ca 0 ex_params_single
        (withPolls ex_machine ([] ++ ex_poll_idle :: []))).st = Status.spin) := by
  have hs : (data_training_ca 0 ex_params_single (withPolls ex_machine [])).st = Status.spin :=
    rfl
  have h1 : status_success (poll_status 0 ex_poll_success) 11 13 5 := by
    unfold status_success; decide
  have h2 : status_error (poll_status 0 ex_poll_error) 5 := by
    unfold status_error; decide
  have h3 : ¬ status_success (poll_status 0 ex_poll_idle) 11 13 5 ∧
      ¬ status_error (poll_status 0 ex_poll_idle) 5 := by
    unfold status_success status_error; decide
  have g2 := ((training_poll_outcome 0 ex_params_single ex_machine [] ex_poll_error).1 hs
    (by unfold ca_obs_fault; decide)).2.1.mpr h2 [ex_poll_success]
  exact ⟨hs,
    ⟨h1, ((training_poll_outcome 0 ex_params_single ex_machine [] ex_poll_success).1 hs
      (by unfold ca_obs_fault; decide)).1.mpr h1⟩,
    ⟨h2, g2.1, g2.2.1⟩,
    ⟨h3, (((training_poll_outcome 0 ex_params_single ex_machine [] ex_poll_idle).1 hs
      (by unfold ca_obs_fault; decide)).2.2.mpr h3).1⟩⟩

end RK3399
